import Mathlib

/-!
ART x86-64 intrinsics: code synthesis and the sequences it emits

A shallow embedding of `compiler/optimizing/intrinsics_x86_64.cc` (namespace
`art.x86_64`) and of the member-signature matching and the access decision of
`runtime/hidden_api.cc` (namespace `art.hiddenapi`).

* The code generator functions of the source (`GenReverseBytes`, `SwapBits`,
  `GenAbsInteger`, `GenMinMax`, `GenMinMaxFP`, ...) become Lean functions that
  return the list of assembler requests they issue, in issue order.  The C++
  code pushes the requests into an assembler buffer; here the buffer is the
  returned list.  A debug assertion (`DCHECK`, and the register accessors
  `AsRegister` / `AsFpuRegister`, which assert the location kind) that fails
  makes the function return `none`; every theorem is stated where the
  assertions hold, so it describes debug and release builds alike.
* The meaning of the emitted requests is the x86-64 one (Intel SDM, vol. 2):
  `step` gives the effect of one instruction on the register files and the
  status flags, `run` follows the labels and jumps.  Register values are
  natural numbers; a `w`-bit operation reads its operands modulo `2 ^ w` and
  a 32-bit write to a general register clears bits 32..63, as the hardware does.
-/

namespace art
namespace x86_64

/-! ## Registers, locations, location summaries -/

/-- The sixteen general-purpose registers (`Register` in `constants_x86_64.h`). -/
inductive CpuRegister
  | RAX | RCX | RDX | RBX | RSP | RBP | RSI | RDI
  | R8 | R9 | R10 | R11 | R12 | R13 | R14 | R15
  deriving DecidableEq, Repr

/-- The sixteen SSE registers (`FloatRegister` in `constants_x86_64.h`). -/
inductive XmmRegister
  | XMM0 | XMM1 | XMM2 | XMM3 | XMM4 | XMM5 | XMM6 | XMM7
  | XMM8 | XMM9 | XMM10 | XMM11 | XMM12 | XMM13 | XMM14 | XMM15
  deriving DecidableEq, Repr

/-- Modelled from the spec: the `Location` class (`locations.h` is not part of
the sources at hand).  A location after register allocation is a general
register, a floating register, a stack slot, or invalid; before allocation it
is one of the constraint kinds of the spec's data model. -/
inductive Location
  | Invalid
  | RegisterLocation (reg : CpuRegister)
  | FpuRegisterLocation (reg : XmmRegister)
  | StackSlot (index : Int)
  | DoubleStackSlot (index : Int)
  | RequiresRegister
  | RequiresFpuRegister
  | SameAsFirstInput
  | Any
  | NoLocation
  deriving DecidableEq, Repr

namespace Location

/-- The accessor `Location::AsRegister<CpuRegister>()`; it asserts that the
location is a general register. -/
def AsRegister : Location → Option CpuRegister
  | RegisterLocation r => some r
  | _ => none

/-- The accessor `Location::AsFpuRegister<XmmRegister>()`; it asserts that the
location is a floating register. -/
def AsFpuRegister : Location → Option XmmRegister
  | FpuRegisterLocation r => some r
  | _ => none

/-- The test `Location::IsFpuRegister()`. -/
def IsFpuRegister : Location → Bool
  | FpuRegisterLocation _ => true
  | _ => false

/-- The test `Location::Equals`. -/
def Equals (a b : Location) : Bool := decide (a = b)

end Location

/-- The call-mode tag of a location summary. -/
inductive CallKind
  | kNoCall | kCallOnSlowPath | kCall
  deriving DecidableEq, Repr

/-- Modelled from the spec: the `LocationSummary` record (`locations.h` is not
part of the sources at hand): ordered inputs, an output, scratch temporaries,
a call-mode tag, the intrinsified marker, and the general registers the
register allocator found live across the instruction (`GetLiveRegisters`). -/
structure LocationSummary where
  inputs : List Location
  output : Location
  temps : List Location
  call_kind : CallKind
  intrinsified : Bool
  live_core_registers : List CpuRegister := []
  deriving DecidableEq, Repr

namespace LocationSummary

/-- The accessor `LocationSummary::InAt(i)`. -/
def InAt (l : LocationSummary) (i : Nat) : Location := l.inputs.getD i Location.Invalid

/-- The accessor `LocationSummary::Out()`. -/
def Out (l : LocationSummary) : Location := l.output

/-- The accessor `LocationSummary::GetTemp(i)`. -/
def GetTemp (l : LocationSummary) (i : Nat) : Location := l.temps.getD i Location.Invalid

end LocationSummary

/-! ## The assembler interface -/

/-- The primitive kinds (`Primitive::Type` in `primitive.h`). -/
inductive PrimitiveType
  | kPrimNot | kPrimBoolean | kPrimByte | kPrimChar | kPrimShort | kPrimInt | kPrimLong
  | kPrimFloat | kPrimDouble | kPrimVoid
  deriving DecidableEq, Repr

/-- The x86 condition codes (`Condition` in `constants_x86_64.h`);
`kUnordered` is the source's alias of `kParityEven`. -/
inductive Condition
  | kOverflow | kNoOverflow | kBelow | kAboveEqual | kEqual | kNotEqual
  | kBelowEqual | kAbove | kSign | kNotSign | kParityEven | kParityOdd
  | kLess | kGreaterEqual | kLessEqual | kGreater
  deriving DecidableEq, Repr

/-- The labels the code generators declare and bind. -/
inductive Label
  | nan | done | op2_label
  | slow_path_entry | slow_path_exit
  deriving DecidableEq, Repr

/-- The scale factor of an indexed address (`ScaleFactor` in
`constants_x86_64.h`). -/
inductive ScaleFactor
  | TIMES_1 | TIMES_2 | TIMES_4 | TIMES_8
  deriving DecidableEq, Repr

/-- The multiplier a scale factor stands for. -/
def ScaleFactor.multiplier : ScaleFactor → Nat
  | TIMES_1 => 1
  | TIMES_2 => 2
  | TIMES_4 => 4
  | TIMES_8 => 8

/-- A memory operand: `Address(base, disp)` has no index,
`Address(base, index, scale, disp)` has one. -/
structure Address where
  base : CpuRegister
  index : Option (CpuRegister × ScaleFactor)
  disp : Int
  deriving DecidableEq, Repr

/-- A source operand of an integer instruction: a register, an `Immediate`
or an `Address`. -/
inductive Operand
  | reg (r : CpuRegister)
  | imm (value : Int)
  | mem (address : Address)
  deriving DecidableEq, Repr

/-- A source operand of a scalar SSE move: a register, or the address of a
32-bit or 64-bit literal in the constant area (`LiteralInt32Address`,
`LiteralInt64Address`). -/
inductive XmmOperand
  | reg (r : XmmRegister)
  | LiteralInt32Address (value : Int)
  | LiteralInt64Address (value : Int)
  deriving DecidableEq, Repr

/-- Modelled from the spec: the offsets into the thread-local area the
generators use (`thread.h` and the quick entry point table are not part of the
sources at hand): `Thread::PeerOffset` and
`QUICK_ENTRYPOINT_OFFSET (kX86_64WordSize, pStringCompareTo)`. -/
inductive ThreadOffset
  | PeerOffset
  | pStringCompareTo
  deriving DecidableEq, Repr

/-- Modelled from the spec: the emission requests of the instruction emitter
(`assembler_x86_64.h` is not part of the sources at hand), one constructor per
assembler method the code generators below call.  An overloaded method has
one constructor per operand shape: `movd_to_xmm` / `movd_to_cpu` are the two
`movd`, `movl_store` / `movq_store` the `movl` / `movq` with an `Address`
destination.  The requests the generators make to the code generator rather
than to the assembler (`MarkGCCard`, `MaybeRecordImplicitNullCheck`,
`AddSlowPath`, the parallel move of the move resolver,
`GenerateStaticOrDirectCall`, `RecordPcInfo`, `SaveLiveRegisters`,
`RestoreLiveRegisters`) are kept in the same list, at the place where they are
made.  `gs_call` and `gs_movl` are `gs()->call` and `gs()->movl` with an
`Address::Absolute` operand: a call through, and a 32-bit load from, the
thread-local area. -/
inductive Instr
  | bswapl (dst : CpuRegister)
  | bswapq (dst : CpuRegister)
  | movl (dst : CpuRegister) (src : Operand)
  | movq (dst : CpuRegister) (src : Operand)
  | shrl (reg : CpuRegister) (imm : Int)
  | shrq (reg : CpuRegister) (imm : Int)
  | shll (reg : CpuRegister) (imm : Int)
  | shlq (reg : CpuRegister) (imm : Int)
  | sarl (reg : CpuRegister) (imm : Int)
  | sarq (reg : CpuRegister) (imm : Int)
  | andl (dst : CpuRegister) (src : Operand)
  | andq (dst : CpuRegister) (src : Operand)
  | orl (dst : CpuRegister) (src : Operand)
  | orq (dst : CpuRegister) (src : Operand)
  | addl (dst : CpuRegister) (src : Operand)
  | addq (dst : CpuRegister) (src : Operand)
  | xorl (dst : CpuRegister) (src : Operand)
  | xorq (dst : CpuRegister) (src : Operand)
  | cmpl (reg0 : CpuRegister) (src : Operand)
  | cmpq (reg0 : CpuRegister) (src : Operand)
  | cmov (c : Condition) (dst src : CpuRegister) (is64bit : Bool)
  | ucomiss (a b : XmmRegister)
  | ucomisd (a b : XmmRegister)
  | orps (dst src : XmmRegister)
  | orpd (dst src : XmmRegister)
  | andps (dst src : XmmRegister)
  | andpd (dst src : XmmRegister)
  | movss (dst : XmmRegister) (src : XmmOperand)
  | movsd (dst : XmmRegister) (src : XmmOperand)
  | j (c : Condition) (target : Label)
  | jmp (target : Label)
  | Bind (label : Label)
  | movd_to_xmm (dst : XmmRegister) (src : CpuRegister) (is64bit : Bool)
  | movd_to_cpu (dst : CpuRegister) (src : XmmRegister) (is64bit : Bool)
  | addss (dst src : XmmRegister)
  | addsd (dst src : XmmRegister)
  | roundss (dst src : XmmRegister) (imm : Int)
  | roundsd (dst src : XmmRegister) (imm : Int)
  | cvtsi2ss (dst : XmmRegister) (src : CpuRegister) (is64bit : Bool)
  | cvtsi2sd (dst : XmmRegister) (src : CpuRegister) (is64bit : Bool)
  | comiss (a b : XmmRegister)
  | comisd (a b : XmmRegister)
  | cvttss2si (dst : CpuRegister) (src : XmmRegister) (is64bit : Bool)
  | cvttsd2si (dst : CpuRegister) (src : XmmRegister) (is64bit : Bool)
  | movzxb (dst src : CpuRegister)
  | movzxw (dst : CpuRegister) (src : Address)
  | setcc (c : Condition) (dst : CpuRegister)
  | movl_store (dst : Address) (src : CpuRegister)
  | movq_store (dst : Address) (src : CpuRegister)
  | LockCmpxchgl (address : Address) (reg : CpuRegister)
  | LockCmpxchgq (address : Address) (reg : CpuRegister)
  | mfence
  | MarkGCCard (temp card object value : CpuRegister)
  | MaybeRecordImplicitNullCheck
  | AddSlowPath (entry exit : Label)
  | ParallelMove (moves : List (Location × Location × PrimitiveType))
  | GenerateStaticOrDirectCall (temp : CpuRegister)
  | RecordPcInfo (dex_pc : Nat)
  | sqrtsd (dst src : XmmRegister)
  | testl (reg1 reg2 : CpuRegister)
  | movsxb (dst : CpuRegister) (src : Address)
  | movsxw (dst : CpuRegister) (src : Address)
  | movb_store (dst : Address) (src : CpuRegister)
  | movw_store (dst : Address) (src : CpuRegister)
  | gs_movl (dst : CpuRegister) (offset : ThreadOffset)
  | gs_call (entrypoint : ThreadOffset)
  | SaveLiveRegisters
  | RestoreLiveRegisters
  deriving Repr

/-- The label a `Bind` request binds. -/
def Instr.boundLabel : Instr → Option Label
  | Instr.Bind l => some l
  | _ => none

/-- Whether an instruction is the binding of a given label is decided by
looking at the instruction. -/
instance Instr.decEqBind (i : Instr) (l : Label) : Decidable (i = Instr.Bind l) :=
  decidable_of_iff (i.boundLabel = some l) (by cases i <;> simp [Instr.boundLabel])

/-! ## Machine state and the meaning of the instructions -/

/-- The status flags the emitted code reads. -/
structure Flags where
  cf : Bool
  pf : Bool
  zf : Bool
  sf : Bool
  ov : Bool
  deriving DecidableEq, Repr

/-- What a card-mark call leaves in the machine besides the mark: the
contents of its two scratch registers and the flags. -/
structure BarrierEffect where
  temp : Nat
  card : Nat
  flags : Flags

/-- The register files, the flags, the byte-addressed memory, the card marks
the write barrier has received so far (object, stored value), what a
card-mark call with given arguments leaves in its scratch registers (any
function: the theorems hold for all of them), and the address in the
thread-local area (the `gs` segment) each thread offset stands for. -/
structure State where
  cpu : CpuRegister → Nat
  xmm : XmmRegister → Nat
  flags : Flags
  mem : Nat → Nat
  cards : List (Nat × Nat)
  barrier : Nat → Nat → BarrierEffect
  thread : ThreadOffset → Nat

namespace State

/-- Write a general register. -/
def setCpu (s : State) (r : CpuRegister) (v : Nat) : State :=
  { s with cpu := Function.update s.cpu r v }

/-- Write an SSE register. -/
def setXmm (s : State) (r : XmmRegister) (v : Nat) : State :=
  { s with xmm := Function.update s.xmm r v }

/-- Write the flags. -/
def setFlags (s : State) (f : Flags) : State :=
  { s with flags := f }

/-- Write the memory. -/
def setMem (s : State) (m : Nat → Nat) : State :=
  { s with mem := m }

/-- The state with every register and memory byte zero, every flag clear and
no card marked. -/
def zero : State :=
  { cpu := fun _ => 0, xmm := fun _ => 0,
    flags := { cf := false, pf := false, zf := false, sf := false, ov := false },
    mem := fun _ => 0, cards := [],
    barrier := fun _ _ =>
      { temp := 0, card := 0,
        flags := { cf := false, pf := false, zf := false, sf := false, ov := false } },
    thread := fun _ => 0 }

end State

/-- The value of a `w`-bit two's-complement pattern. -/
def toSigned (w x : Nat) : Int :=
  if x % 2 ^ w < 2 ^ (w - 1) then ((x % 2 ^ w : Nat) : Int) else ((x % 2 ^ w : Nat) : Int) - 2 ^ w

/-- The `n`-bit pattern with the same two's-complement value as the `m`-bit
pattern `v` (sign extension, `m ≤ n`). -/
def signExtend (m n v : Nat) : Nat :=
  if v % 2 ^ m < 2 ^ (m - 1) then v % 2 ^ m else v % 2 ^ m + (2 ^ n - 2 ^ m)

/-- The `w`-bit pattern of an immediate. -/
def immBits (w : Nat) (i : Int) : Nat := (i % 2 ^ w).toNat

/-- Byte `k` of a value, byte 0 being the least significant. -/
def byteAt (x k : Nat) : Nat := (x >>> (8 * k)) % 2 ^ 8

/-- BSWAP on 32 bits: the four bytes in the opposite order. -/
def bswap32 (x : Nat) : Nat :=
  (byteAt x 0) <<< 24 ||| (byteAt x 1) <<< 16 ||| (byteAt x 2) <<< 8 ||| byteAt x 3

/-- BSWAP on 64 bits: the eight bytes in the opposite order. -/
def bswap64 (x : Nat) : Nat :=
  (byteAt x 0) <<< 56 ||| (byteAt x 1) <<< 48 ||| (byteAt x 2) <<< 40 ||| (byteAt x 3) <<< 32
    ||| (byteAt x 4) <<< 24 ||| (byteAt x 5) <<< 16 ||| (byteAt x 6) <<< 8 ||| byteAt x 7

/-- SAR: shift right by `n`, the vacated high bits filled with the sign bit
(a signed division by `2 ^ n` rounding toward minus infinity). -/
def sar (w x n : Nat) : Nat :=
  let v := x % 2 ^ w
  if v < 2 ^ (w - 1) then v / 2 ^ n else v / 2 ^ n + (2 ^ w - 2 ^ (w - min n w))

/-- PF: set when the low byte of the result has an even number of one bits. -/
def parity (r : Nat) : Bool :=
  ((List.range 8).filter (fun i => r.testBit i)).length % 2 == 0

/-- The flags of a logical operation (AND, OR, XOR) with `w`-bit result `r`. -/
def logicFlags (w r : Nat) : Flags :=
  { cf := false, pf := parity r, zf := decide (r = 0), sf := r.testBit (w - 1), ov := false }

/-- The flags of the `w`-bit addition `a + b`. -/
def addFlags (w a b : Nat) : Flags :=
  let r := (a + b) % 2 ^ w
  { cf := decide (2 ^ w ≤ a + b), pf := parity r, zf := decide (r = 0), sf := r.testBit (w - 1),
    ov := (a.testBit (w - 1) == b.testBit (w - 1)) && (r.testBit (w - 1) != a.testBit (w - 1)) }

/-- The flags of the `w`-bit subtraction `a - b`, which is what CMP computes. -/
def subFlags (w a b : Nat) : Flags :=
  let r := (a + 2 ^ w - b) % 2 ^ w
  { cf := decide (a < b), pf := parity r, zf := decide (r = 0), sf := r.testBit (w - 1),
    ov := (a.testBit (w - 1) != b.testBit (w - 1)) && (r.testBit (w - 1) != a.testBit (w - 1)) }

/-- The flags of a shift by a non-zero count with `w`-bit result `r` and last
bit shifted out `c`; the overflow flag, which the hardware defines for a
count of one only, is modelled as clear. -/
def shiftFlags (w r : Nat) (c : Bool) : Flags :=
  { cf := c, pf := parity r, zf := decide (r = 0), sf := r.testBit (w - 1), ov := false }

/-- Whether a condition code holds for the given flags. -/
def Condition.holds : Condition → Flags → Bool
  | kOverflow, f => f.ov
  | kNoOverflow, f => !f.ov
  | kBelow, f => f.cf
  | kAboveEqual, f => !f.cf
  | kEqual, f => f.zf
  | kNotEqual, f => !f.zf
  | kBelowEqual, f => f.cf || f.zf
  | kAbove, f => !f.cf && !f.zf
  | kSign, f => f.sf
  | kNotSign, f => !f.sf
  | kParityEven, f => f.pf
  | kParityOdd, f => !f.pf
  | kLess, f => f.sf != f.ov
  | kGreaterEqual, f => f.sf == f.ov
  | kLessEqual, f => f.zf || (f.sf != f.ov)
  | kGreater, f => !f.zf && (f.sf == f.ov)

/-- An IEEE-754 binary format: the widths of the exponent and fraction fields. -/
structure FPFormat where
  expBits : Nat
  manBits : Nat
  deriving DecidableEq, Repr

/-- The single-precision format. -/
def binary32 : FPFormat := { expBits := 8, manBits := 23 }

/-- The double-precision format. -/
def binary64 : FPFormat := { expBits := 11, manBits := 52 }

namespace FPFormat

/-- The width of a pattern of the format. -/
def width (f : FPFormat) : Nat := 1 + f.expBits + f.manBits

/-- A pattern is a NaN when its exponent field is all ones and its fraction is
not zero. -/
def isNaN (f : FPFormat) (b : Nat) : Bool :=
  decide ((b / 2 ^ f.manBits) % 2 ^ f.expBits = 2 ^ f.expBits - 1)
    && decide (b % 2 ^ f.manBits ≠ 0)

/-- An integer ordered like the value of a non-NaN pattern: the magnitude
bits, negated when the sign bit is set (so that both zeros map to 0). -/
def key (f : FPFormat) (b : Nat) : Int :=
  if (b / 2 ^ (f.expBits + f.manBits)) % 2 = 0 then ((b % 2 ^ (f.expBits + f.manBits) : Nat) : Int)
  else -((b % 2 ^ (f.expBits + f.manBits) : Nat) : Int)

/-- The exponent bias. -/
def bias (f : FPFormat) : Nat := 2 ^ (f.expBits - 1) - 1

/-- The sign bit of a pattern. -/
def signBit (f : FPFormat) (b : Nat) : Bool :=
  decide ((b / 2 ^ (f.expBits + f.manBits)) % 2 = 1)

/-- The exponent field of a pattern. -/
def expField (f : FPFormat) (b : Nat) : Nat := (b / 2 ^ f.manBits) % 2 ^ f.expBits

/-- The fraction field of a pattern. -/
def manField (f : FPFormat) (b : Nat) : Nat := b % 2 ^ f.manBits

/-- A pattern is an infinity when its exponent field is all ones and its
fraction is zero. -/
def isInf (f : FPFormat) (b : Nat) : Bool :=
  decide (f.expField b = 2 ^ f.expBits - 1) && decide (f.manField b = 0)

/-- The pattern of +infinity. -/
def infBits (f : FPFormat) : Nat := (2 ^ f.expBits - 1) * 2 ^ f.manBits

/-- The pattern with only the sign bit set (-0.0). -/
def signMask (f : FPFormat) : Nat := 2 ^ (f.expBits + f.manBits)

/-- The NaN an invalid operation produces on x86 (the "real indefinite"). -/
def defaultNaN (f : FPFormat) : Nat := f.signMask + f.infBits + 2 ^ (f.manBits - 1)

/-- The quiet form of a NaN: its top fraction bit set. -/
def quiet (f : FPFormat) (b : Nat) : Nat :=
  if (b / 2 ^ (f.manBits - 1)) % 2 = 1 then b else b + 2 ^ (f.manBits - 1)

/-- The magnitude of a finite pattern, counted in units of the smallest
subnormal, `2 ^ (1 - bias - manBits)`. -/
def magnitude (f : FPFormat) (b : Nat) : Nat :=
  if f.expField b = 0 then f.manField b
  else (2 ^ f.manBits + f.manField b) * 2 ^ (f.expField b - 1)

/-- The value of a finite pattern, in units of the smallest subnormal. -/
def scaled (f : FPFormat) (b : Nat) : Int :=
  if f.signBit b then -((f.magnitude b : Nat) : Int) else ((f.magnitude b : Nat) : Int)

/-- The number 1, in units of the smallest subnormal. -/
def one (f : FPFormat) : Nat := 2 ^ (f.bias + f.manBits - 1)

/-- The number of binary digits of `n`, for `n ≤ fuel`. -/
def bitLength : Nat → Nat → Nat
  | 0, _ => 0
  | fuel + 1, n => if n = 0 then 0 else bitLength fuel (n / 2) + 1

/-- The exponent and fraction fields of the format's value nearest to the
magnitude `n` (in units of the smallest subnormal), ties to even, overflow to
infinity.  Up to `2 ^ (manBits + 1)` units the pattern is `n` itself; above,
`n` is cut to `manBits + 1` significant bits and rounded. -/
def roundMag (f : FPFormat) (n : Nat) : Nat :=
  let k := if n < 2 ^ (f.manBits + 1) then 0 else bitLength n n - 1 - f.manBits
  let q := n / 2 ^ k
  let r := n % 2 ^ k
  let q' := if 2 ^ k < 2 * r ∨ (2 * r = 2 ^ k ∧ q % 2 = 1) then q + 1 else q
  min (k * 2 ^ f.manBits + q') f.infBits

/-- The pattern of the value `z` (in units of the smallest subnormal) rounded
to the format, ties to even; a zero result takes the sign `negZero`. -/
def encode (f : FPFormat) (z : Int) (negZero : Bool) : Nat :=
  if z = 0 then (if negZero then f.signMask else 0)
  else if z < 0 then f.signMask + f.roundMag z.natAbs
  else f.roundMag z.natAbs

/-- ADDSS / ADDSD with the default rounding (to nearest, ties to even) and
masked exceptions: a NaN operand is returned quieted (the first one if both
are NaNs), opposite infinities give the default NaN, an exact zero sum is +0
unless both operands are negative. -/
def add (f : FPFormat) (a b : Nat) : Nat :=
  if f.isNaN a then f.quiet a
  else if f.isNaN b then f.quiet b
  else if f.isInf a then (if f.isInf b && (f.signBit a != f.signBit b) then f.defaultNaN else a)
  else if f.isInf b then b
  else f.encode (f.scaled a + f.scaled b) (f.signBit a && f.signBit b)

/-- The integer a rounding mode selects for the value `z / d` (`0 < d`):
mode 0 to nearest (ties to even), 1 toward minus infinity, 2 toward plus
infinity, 3 toward zero. -/
def roundInt (mode : Nat) (z : Int) (d : Nat) : Int :=
  let q := z / (d : Int)
  let r := z % (d : Int)
  if mode = 1 then q
  else if mode = 2 then (if r = 0 then q else q + 1)
  else if mode = 3 then (if z < 0 ∧ r ≠ 0 then q + 1 else q)
  else if (d : Int) < 2 * r ∨ (2 * r = (d : Int) ∧ q % 2 = 1) then q + 1 else q

/-- ROUNDSS / ROUNDSD: round to an integral value; bits 0..1 of the immediate
select the mode unless bit 2 asks for the default one (to nearest).  A NaN is
returned quieted, an infinity unchanged, a zero result keeps the sign of the
operand. -/
def roundToIntegral (f : FPFormat) (imm : Nat) (b : Nat) : Nat :=
  if f.isNaN b then f.quiet b
  else if f.isInf b then b
  else f.encode (roundInt (if (imm / 4) % 2 = 1 then 0 else imm % 4) (f.scaled b) f.one * f.one)
         (f.signBit b)

/-- The exponent and fraction fields of the format's value nearest to
`n / 2 ^ d` (in units of the smallest subnormal), ties to even, overflow to
infinity; `roundMag` is the case `d = 0`. -/
def roundMagScaled (f : FPFormat) (n d : Nat) : Nat :=
  let k := if n < 2 ^ (f.manBits + 1 + d) then d else bitLength n n - 1 - f.manBits
  let q := n / 2 ^ k
  let r := n % 2 ^ k
  let q' := if 2 ^ k < 2 * r ∨ (2 * r = 2 ^ k ∧ q % 2 = 1) then q + 1 else q
  min ((k - d) * 2 ^ f.manBits + q') f.infBits

/-- SQRTSS / SQRTSD with the default rounding: a NaN is returned quieted, a
zero unchanged, a negative operand gives the default NaN, +infinity is
unchanged; otherwise the square root is rounded to nearest.  The root of the
magnitude is taken with `manBits + 2` extra binary places, and one more place
records whether it is inexact. -/
def sqrt (f : FPFormat) (b : Nat) : Nat :=
  if f.isNaN b then f.quiet b
  else if f.magnitude b = 0 then b
  else if f.signBit b then f.defaultNaN
  else if f.isInf b then b
  else
    let p := f.manBits + 2
    let n := f.magnitude b * 2 ^ (f.bias + f.manBits - 1 + 2 * p)
    let q := Nat.sqrt n
    f.roundMagScaled (2 * q + (if q * q = n then 0 else 1)) (p + 1)

/-- CVTSI2SS / CVTSI2SD: the format's value nearest to the integer `n`. -/
def ofInt (f : FPFormat) (n : Int) : Nat := f.encode (n * f.one) false

/-- CVTTSS2SI / CVTTSD2SI to a `w`-bit signed integer: the value truncated
toward zero; a NaN, an infinity or a value out of range gives the "integer
indefinite" `2 ^ (w - 1)`. -/
def toIntTrunc (f : FPFormat) (w : Nat) (b : Nat) : Nat :=
  if f.isNaN b || f.isInf b then 2 ^ (w - 1)
  else
    let t := roundInt 3 (f.scaled b) f.one
    if -(2 ^ (w - 1) : Int) ≤ t ∧ t < (2 ^ (w - 1) : Int) then (t % 2 ^ w).toNat
    else 2 ^ (w - 1)

end FPFormat

/-- The flags of UCOMISS / UCOMISD on the patterns `a` and `b`: unordered
sets ZF, PF and CF; `a > b` clears the three; `a < b` sets CF; equality sets ZF. -/
def ucomiFlags (f : FPFormat) (a b : Nat) : Flags :=
  if f.isNaN a || f.isNaN b then
    { cf := true, pf := true, zf := true, sf := false, ov := false }
  else if f.key a < f.key b then
    { cf := true, pf := false, zf := false, sf := false, ov := false }
  else if f.key a = f.key b then
    { cf := false, pf := false, zf := true, sf := false, ov := false }
  else
    { cf := false, pf := false, zf := false, sf := false, ov := false }

/-- The little-endian value of the `n` bytes of memory at `addr`. -/
def readMem (mem : Nat → Nat) : Nat → Nat → Nat
  | _, 0 => 0
  | addr, n + 1 => mem addr % 256 + 256 * readMem mem (addr + 1) n

/-- The memory with the low `n` bytes of `v` stored at `addr`, little-endian. -/
def writeMem : (Nat → Nat) → Nat → Nat → Nat → (Nat → Nat)
  | mem, _, _, 0 => mem
  | mem, addr, v, n + 1 => writeMem (Function.update mem addr (v % 256)) (addr + 1) (v / 256) n

/-- The effective address of a memory operand: base + index * scale +
displacement, modulo `2 ^ 64`. -/
def Address.effective (s : State) (a : Address) : Nat :=
  match a.index with
  | none => (((s.cpu a.base : Nat) : Int) + a.disp) % 2 ^ 64 |>.toNat
  | some (i, sc) =>
      (((s.cpu a.base : Nat) : Int) + ((s.cpu i * sc.multiplier : Nat) : Int) + a.disp) % 2 ^ 64
        |>.toNat

/-- The `w`-bit value of an integer source operand. -/
def Operand.value (s : State) (w : Nat) : Operand → Nat
  | Operand.reg r => s.cpu r % 2 ^ w
  | Operand.imm i => immBits w i
  | Operand.mem a => readMem s.mem (a.effective s) (w / 8)

/-- LOCK CMPXCHG on `w` bits: the accumulator RAX is compared with the memory
operand (flags as for CMP); if they are equal the register operand is stored,
otherwise the memory operand is loaded into the accumulator. -/
def lockCmpxchg (w : Nat) (s : State) (address : Address) (reg : CpuRegister) : State :=
  let a := address.effective s
  let cur := readMem s.mem a (w / 8)
  let acc := s.cpu CpuRegister.RAX % 2 ^ w
  if acc = cur then
    (s.setMem (writeMem s.mem a (s.cpu reg % 2 ^ w) (w / 8))).setFlags (subFlags w acc cur)
  else
    (s.setCpu CpuRegister.RAX cur).setFlags (subFlags w acc cur)

/-- A shift count: the immediate masked to 5 bits (32-bit form) or 6 bits
(64-bit form). -/
def shiftCount (w : Nat) (imm : Int) : Nat := immBits (if w = 64 then 6 else 5) imm

/-- A `w`-bit shift of `reg`; a zero count changes neither register nor flags
(the 32-bit form still clears bits 32..63). -/
def shiftOp (w : Nat) (op : Nat → Nat → Nat) (lastOut : Nat → Nat → Bool)
    (s : State) (reg : CpuRegister) (imm : Int) : State :=
  let n := shiftCount w imm
  let v := s.cpu reg % 2 ^ w
  if n = 0 then s.setCpu reg v
  else (s.setCpu reg (op v n % 2 ^ w)).setFlags (shiftFlags w (op v n % 2 ^ w) (lastOut v n))

/-- A `w`-bit logical operation `dst := op dst src`. -/
def logicOp (w : Nat) (op : Nat → Nat → Nat) (s : State) (dst : CpuRegister) (src : Operand) :
    State :=
  let r := op (s.cpu dst % 2 ^ w) (src.value s w) % 2 ^ w
  (s.setCpu dst r).setFlags (logicFlags w r)

/-- The effect of one instruction that is not a jump or a label. -/
def step (s : State) : Instr → State
  | Instr.bswapl dst => s.setCpu dst (bswap32 (s.cpu dst % 2 ^ 32))
  | Instr.bswapq dst => s.setCpu dst (bswap64 (s.cpu dst % 2 ^ 64))
  | Instr.movl dst src => s.setCpu dst (src.value s 32)
  | Instr.movq dst src => s.setCpu dst (src.value s 64)
  | Instr.shrl reg imm => shiftOp 32 (fun v n => v >>> n) (fun v n => v.testBit (n - 1)) s reg imm
  | Instr.shrq reg imm => shiftOp 64 (fun v n => v >>> n) (fun v n => v.testBit (n - 1)) s reg imm
  | Instr.shll reg imm => shiftOp 32 (fun v n => v <<< n) (fun v n => v.testBit (32 - n)) s reg imm
  | Instr.shlq reg imm => shiftOp 64 (fun v n => v <<< n) (fun v n => v.testBit (64 - n)) s reg imm
  | Instr.sarl reg imm => shiftOp 32 (sar 32) (fun v n => v.testBit (min (n - 1) 31)) s reg imm
  | Instr.sarq reg imm => shiftOp 64 (sar 64) (fun v n => v.testBit (min (n - 1) 63)) s reg imm
  | Instr.andl dst src => logicOp 32 (fun a b => a &&& b) s dst src
  | Instr.andq dst src => logicOp 64 (fun a b => a &&& b) s dst src
  | Instr.orl dst src => logicOp 32 (fun a b => a ||| b) s dst src
  | Instr.orq dst src => logicOp 64 (fun a b => a ||| b) s dst src
  | Instr.xorl dst src => logicOp 32 (fun a b => a ^^^ b) s dst src
  | Instr.xorq dst src => logicOp 64 (fun a b => a ^^^ b) s dst src
  | Instr.addl dst src =>
      (s.setCpu dst ((s.cpu dst % 2 ^ 32 + src.value s 32) % 2 ^ 32)).setFlags
        (addFlags 32 (s.cpu dst % 2 ^ 32) (src.value s 32))
  | Instr.addq dst src =>
      (s.setCpu dst ((s.cpu dst % 2 ^ 64 + src.value s 64) % 2 ^ 64)).setFlags
        (addFlags 64 (s.cpu dst % 2 ^ 64) (src.value s 64))
  | Instr.cmpl reg0 src => s.setFlags (subFlags 32 (s.cpu reg0 % 2 ^ 32) (src.value s 32))
  | Instr.cmpq reg0 src => s.setFlags (subFlags 64 (s.cpu reg0 % 2 ^ 64) (src.value s 64))
  | Instr.cmov c dst src is64bit =>
      if is64bit then
        s.setCpu dst (if c.holds s.flags then s.cpu src % 2 ^ 64 else s.cpu dst % 2 ^ 64)
      else
        s.setCpu dst (if c.holds s.flags then s.cpu src % 2 ^ 32 else s.cpu dst % 2 ^ 32)
  | Instr.ucomiss a b => s.setFlags (ucomiFlags binary32 (s.xmm a % 2 ^ 32) (s.xmm b % 2 ^ 32))
  | Instr.ucomisd a b => s.setFlags (ucomiFlags binary64 (s.xmm a % 2 ^ 64) (s.xmm b % 2 ^ 64))
  | Instr.orps dst src => s.setXmm dst ((s.xmm dst ||| s.xmm src) % 2 ^ 128)
  | Instr.orpd dst src => s.setXmm dst ((s.xmm dst ||| s.xmm src) % 2 ^ 128)
  | Instr.andps dst src => s.setXmm dst ((s.xmm dst &&& s.xmm src) % 2 ^ 128)
  | Instr.andpd dst src => s.setXmm dst ((s.xmm dst &&& s.xmm src) % 2 ^ 128)
  | Instr.movss dst (XmmOperand.reg src) =>
      s.setXmm dst ((s.xmm dst % 2 ^ 128) / 2 ^ 32 * 2 ^ 32 + s.xmm src % 2 ^ 32)
  | Instr.movss dst (XmmOperand.LiteralInt32Address v) => s.setXmm dst (immBits 32 v)
  | Instr.movss dst (XmmOperand.LiteralInt64Address v) => s.setXmm dst (immBits 64 v % 2 ^ 32)
  | Instr.movsd dst (XmmOperand.reg src) =>
      s.setXmm dst ((s.xmm dst % 2 ^ 128) / 2 ^ 64 * 2 ^ 64 + s.xmm src % 2 ^ 64)
  | Instr.movsd dst (XmmOperand.LiteralInt32Address v) => s.setXmm dst (immBits 32 v)
  | Instr.movsd dst (XmmOperand.LiteralInt64Address v) => s.setXmm dst (immBits 64 v)
  | Instr.j _ _ => s
  | Instr.jmp _ => s
  | Instr.Bind _ => s
  | Instr.movd_to_xmm dst src is64bit =>
      s.setXmm dst (s.cpu src % 2 ^ (if is64bit then 64 else 32))
  | Instr.movd_to_cpu dst src is64bit =>
      s.setCpu dst (s.xmm src % 2 ^ (if is64bit then 64 else 32))
  | Instr.addss dst src =>
      s.setXmm dst ((s.xmm dst % 2 ^ 128) / 2 ^ 32 * 2 ^ 32
        + binary32.add (s.xmm dst % 2 ^ 32) (s.xmm src % 2 ^ 32))
  | Instr.addsd dst src =>
      s.setXmm dst ((s.xmm dst % 2 ^ 128) / 2 ^ 64 * 2 ^ 64
        + binary64.add (s.xmm dst % 2 ^ 64) (s.xmm src % 2 ^ 64))
  | Instr.roundss dst src imm =>
      s.setXmm dst ((s.xmm dst % 2 ^ 128) / 2 ^ 32 * 2 ^ 32
        + binary32.roundToIntegral (immBits 8 imm) (s.xmm src % 2 ^ 32))
  | Instr.roundsd dst src imm =>
      s.setXmm dst ((s.xmm dst % 2 ^ 128) / 2 ^ 64 * 2 ^ 64
        + binary64.roundToIntegral (immBits 8 imm) (s.xmm src % 2 ^ 64))
  | Instr.cvtsi2ss dst src is64bit =>
      s.setXmm dst ((s.xmm dst % 2 ^ 128) / 2 ^ 32 * 2 ^ 32
        + binary32.ofInt (toSigned (if is64bit then 64 else 32) (s.cpu src)))
  | Instr.cvtsi2sd dst src is64bit =>
      s.setXmm dst ((s.xmm dst % 2 ^ 128) / 2 ^ 64 * 2 ^ 64
        + binary64.ofInt (toSigned (if is64bit then 64 else 32) (s.cpu src)))
  | Instr.comiss a b => s.setFlags (ucomiFlags binary32 (s.xmm a % 2 ^ 32) (s.xmm b % 2 ^ 32))
  | Instr.comisd a b => s.setFlags (ucomiFlags binary64 (s.xmm a % 2 ^ 64) (s.xmm b % 2 ^ 64))
  | Instr.cvttss2si dst src is64bit =>
      s.setCpu dst (binary32.toIntTrunc (if is64bit then 64 else 32) (s.xmm src % 2 ^ 32))
  | Instr.cvttsd2si dst src is64bit =>
      s.setCpu dst (binary64.toIntTrunc (if is64bit then 64 else 32) (s.xmm src % 2 ^ 64))
  | Instr.movzxb dst src => s.setCpu dst (s.cpu src % 2 ^ 8)
  | Instr.movzxw dst src => s.setCpu dst (readMem s.mem (src.effective s) 2)
  | Instr.setcc c dst =>
      s.setCpu dst ((s.cpu dst % 2 ^ 64) / 2 ^ 8 * 2 ^ 8 + (if c.holds s.flags then 1 else 0))
  | Instr.movl_store dst src =>
      s.setMem (writeMem s.mem (dst.effective s) (s.cpu src % 2 ^ 32) 4)
  | Instr.movq_store dst src =>
      s.setMem (writeMem s.mem (dst.effective s) (s.cpu src % 2 ^ 64) 8)
  | Instr.LockCmpxchgl address reg => lockCmpxchg 32 s address reg
  | Instr.LockCmpxchgq address reg => lockCmpxchg 64 s address reg
  | Instr.mfence => s
  | Instr.MarkGCCard temp card object value =>
      { ((s.setCpu temp (s.barrier (s.cpu object) (s.cpu value)).temp).setCpu card
            (s.barrier (s.cpu object) (s.cpu value)).card).setFlags
          (s.barrier (s.cpu object) (s.cpu value)).flags with
        cards := s.cards ++ [(s.cpu object, s.cpu value)] }
  | Instr.MaybeRecordImplicitNullCheck => s
  | Instr.AddSlowPath _ _ => s
  | Instr.ParallelMove _ => s
  | Instr.GenerateStaticOrDirectCall _ => s
  | Instr.RecordPcInfo _ => s
  | Instr.sqrtsd dst src =>
      s.setXmm dst ((s.xmm dst % 2 ^ 128) / 2 ^ 64 * 2 ^ 64 + binary64.sqrt (s.xmm src % 2 ^ 64))
  | Instr.testl reg1 reg2 =>
      s.setFlags (logicFlags 32 ((s.cpu reg1 % 2 ^ 32) &&& (s.cpu reg2 % 2 ^ 32)))
  | Instr.movsxb dst src => s.setCpu dst (signExtend 8 32 (readMem s.mem (src.effective s) 1))
  | Instr.movsxw dst src => s.setCpu dst (signExtend 16 32 (readMem s.mem (src.effective s) 2))
  | Instr.movb_store dst src =>
      s.setMem (writeMem s.mem (dst.effective s) (s.cpu src % 2 ^ 8) 1)
  | Instr.movw_store dst src =>
      s.setMem (writeMem s.mem (dst.effective s) (s.cpu src % 2 ^ 16) 2)
  | Instr.gs_movl dst offset => s.setCpu dst (readMem s.mem (s.thread offset) 4)
  | Instr.gs_call _ => s
  | Instr.SaveLiveRegisters => s
  | Instr.RestoreLiveRegisters => s

/-- The position at which a label is bound in a program. -/
def findLabel : List Instr → Label → Option Nat
  | [], _ => none
  | i :: rest, l => if i = Instr.Bind l then some 0 else (findLabel rest l).map (fun n => n + 1)

/-- Run `prog` from position `pc`, for at most `fuel` instructions; the run
ends when control falls off the end of the program.  A jump to a label the
program does not bind, a call, a parallel move and the saving and restoring
of the live registers have no result here: the first leaves the program, the
others are outside the machine model. -/
def run (prog : List Instr) : Nat → Nat → State → Option State
  | 0, _, _ => none
  | fuel + 1, pc, s =>
    if pc = prog.length then some s
    else
      match prog.get? pc with
      | none => none
      | some (Instr.j c l) =>
          if c.holds s.flags then
            match findLabel prog l with
            | some t => run prog fuel t s
            | none => none
          else run prog fuel (pc + 1) s
      | some (Instr.jmp l) =>
          match findLabel prog l with
          | some t => run prog fuel t s
          | none => none
      | some (Instr.ParallelMove _) => none
      | some (Instr.GenerateStaticOrDirectCall _) => none
      | some (Instr.gs_call _) => none
      | some Instr.SaveLiveRegisters => none
      | some Instr.RestoreLiveRegisters => none
      | some i => run prog fuel (pc + 1) (step s i)

/-- Execute a program from its first instruction.  Every jump the code
generators emit is forward, so one unit of fuel per instruction, and one for
the end, is enough. -/
def exec (prog : List Instr) (s : State) : Option State :=
  run prog (prog.length + 1) 0 s

/-! ## The code generators -/

/-- `SwapBits` (32-bit): one round of masked swap-and-merge. -/
def SwapBits (reg temp : CpuRegister) (shift : Int) (mask : Int) : List Instr :=
  [ Instr.movl temp (Operand.reg reg),
    Instr.shrl reg shift,
    Instr.andl temp (Operand.imm mask),
    Instr.andl reg (Operand.imm mask),
    Instr.shll temp shift,
    Instr.orl reg (Operand.reg temp) ]

/-- `IntrinsicCodeGeneratorX86_64::VisitIntegerReverse`. -/
def VisitIntegerReverse (locations : LocationSummary) : Option (List Instr) := do
  let reg ← (locations.InAt 0).AsRegister
  let temp ← (locations.GetTemp 0).AsRegister
  pure ([Instr.bswapl reg]
    ++ SwapBits reg temp 1 0x55555555
    ++ SwapBits reg temp 2 0x33333333
    ++ SwapBits reg temp 4 0x0f0f0f0f)

/-- `SwapBits64`: one round of masked swap-and-merge on 64 bits, the mask
held in a second scratch register. -/
def SwapBits64 (reg temp temp_mask : CpuRegister) (shift : Int) (mask : Int) : List Instr :=
  [ Instr.movq temp_mask (Operand.imm mask),
    Instr.movq temp (Operand.reg reg),
    Instr.shrq reg shift,
    Instr.andq temp (Operand.reg temp_mask),
    Instr.andq reg (Operand.reg temp_mask),
    Instr.shlq temp shift,
    Instr.orq reg (Operand.reg temp) ]

/-- `IntrinsicCodeGeneratorX86_64::VisitLongReverse`. -/
def VisitLongReverse (locations : LocationSummary) : Option (List Instr) := do
  let reg ← (locations.InAt 0).AsRegister
  let temp1 ← (locations.GetTemp 0).AsRegister
  let temp2 ← (locations.GetTemp 1).AsRegister
  pure ([Instr.bswapq reg]
    ++ SwapBits64 reg temp1 temp2 1 0x5555555555555555
    ++ SwapBits64 reg temp1 temp2 2 0x3333333333333333
    ++ SwapBits64 reg temp1 temp2 4 0x0f0f0f0f0f0f0f0f)

/-- `GenReverseBytes`; any other size is the fatal "Unexpected size". -/
def GenReverseBytes (locations : LocationSummary) (size : PrimitiveType) : Option (List Instr) := do
  let out ← locations.Out.AsRegister
  match size with
  | PrimitiveType.kPrimShort => pure [Instr.bswapl out, Instr.sarl out 16]
  | PrimitiveType.kPrimInt => pure [Instr.bswapl out]
  | PrimitiveType.kPrimLong => pure [Instr.bswapq out]
  | _ => none

/-- `IntrinsicCodeGeneratorX86_64::VisitIntegerReverseBytes`. -/
def VisitIntegerReverseBytes (locations : LocationSummary) : Option (List Instr) :=
  GenReverseBytes locations PrimitiveType.kPrimInt

/-- `IntrinsicCodeGeneratorX86_64::VisitLongReverseBytes`. -/
def VisitLongReverseBytes (locations : LocationSummary) : Option (List Instr) :=
  GenReverseBytes locations PrimitiveType.kPrimLong

/-- `IntrinsicCodeGeneratorX86_64::VisitShortReverseBytes`. -/
def VisitShortReverseBytes (locations : LocationSummary) : Option (List Instr) :=
  GenReverseBytes locations PrimitiveType.kPrimShort

/-- `GenAbsInteger`: the branchless absolute value. -/
def GenAbsInteger (locations : LocationSummary) (is64bit : Bool) : Option (List Instr) := do
  let out ← locations.Out.AsRegister
  let mask ← (locations.GetTemp 0).AsRegister
  if is64bit then
    pure [ Instr.movq mask (Operand.reg out),
           Instr.sarq mask 63,
           Instr.addq out (Operand.reg mask),
           Instr.xorq out (Operand.reg mask) ]
  else
    pure [ Instr.movl mask (Operand.reg out),
           Instr.sarl mask 31,
           Instr.addl out (Operand.reg mask),
           Instr.xorl out (Operand.reg mask) ]

/-- `GenMinMaxFP`: floating-point min and max. -/
def GenMinMaxFP (locations : LocationSummary) (is_min is_double : Bool) : Option (List Instr) := do
  let op1_loc := locations.InAt 0
  let op2_loc := locations.InAt 1
  let out_loc := locations.Out
  let out ← out_loc.AsFpuRegister
  if op1_loc.Equals op2_loc then
    if out_loc.Equals op1_loc then pure [] else none
  else do
    let op2 ← op2_loc.AsFpuRegister
    pure [ (if is_double then Instr.ucomisd out op2 else Instr.ucomiss out op2),
           Instr.j Condition.kParityEven Label.nan,
           Instr.j (if is_min then Condition.kAbove else Condition.kBelow) Label.op2_label,
           Instr.j (if is_min then Condition.kBelow else Condition.kAbove) Label.done,
           (if is_min then
              (if is_double then Instr.orpd out op2 else Instr.orps out op2)
            else
              (if is_double then Instr.andpd out op2 else Instr.andps out op2)),
           Instr.jmp Label.done,
           Instr.Bind Label.nan,
           (if is_double then Instr.movsd out (XmmOperand.LiteralInt64Address 0x7FF8000000000000)
            else Instr.movss out (XmmOperand.LiteralInt32Address 0x7FC00000)),
           Instr.jmp Label.done,
           Instr.Bind Label.op2_label,
           (if is_double then Instr.movsd out (XmmOperand.reg op2)
            else Instr.movss out (XmmOperand.reg op2)),
           Instr.Bind Label.done ]

/-- `GenMinMax`: integer and long min and max. -/
def GenMinMax (locations : LocationSummary) (is_min is_long : Bool) : Option (List Instr) := do
  let op1_loc := locations.InAt 0
  let op2_loc := locations.InAt 1
  if op1_loc.Equals op2_loc then
    if locations.Out.Equals op1_loc then pure [] else none
  else do
    let out ← locations.Out.AsRegister
    let op2 ← op2_loc.AsRegister
    pure [ (if is_long then Instr.cmpq out (Operand.reg op2) else Instr.cmpl out (Operand.reg op2)),
           Instr.cmov (if is_min then Condition.kGreater else Condition.kLess) out op2 is_long ]

/-! ## Invokes and the locations builder -/

/-- Modelled from the spec: the intrinsic ids (`Intrinsics`, whose list
`intrinsics_list.h` is not part of the sources at hand): `kNone` and one id per
`Visit` method of `intrinsics_x86_64.cc`. -/
inductive Intrinsics
  | kNone
  | kDoubleDoubleToRawLongBits | kDoubleLongBitsToDouble
  | kFloatFloatToRawIntBits | kFloatIntBitsToFloat
  | kIntegerReverseBytes | kLongReverseBytes | kShortReverseBytes
  | kMathAbsDouble | kMathAbsFloat | kMathAbsInt | kMathAbsLong
  | kMathMinDoubleDouble | kMathMinFloatFloat | kMathMaxDoubleDouble | kMathMaxFloatFloat
  | kMathMinIntInt | kMathMinLongLong | kMathMaxIntInt | kMathMaxLongLong
  | kMathSqrt | kMathCeil | kMathFloor | kMathRint | kMathRoundFloat | kMathRoundDouble
  | kStringCharAt | kStringCompareTo
  | kMemoryPeekByte | kMemoryPeekIntNative | kMemoryPeekLongNative | kMemoryPeekShortNative
  | kMemoryPokeByte | kMemoryPokeIntNative | kMemoryPokeLongNative | kMemoryPokeShortNative
  | kThreadCurrentThread
  | kUnsafeGet | kUnsafeGetVolatile | kUnsafeGetLong | kUnsafeGetLongVolatile
  | kUnsafeGetObject | kUnsafeGetObjectVolatile
  | kUnsafePut | kUnsafePutOrdered | kUnsafePutVolatile
  | kUnsafePutObject | kUnsafePutObjectOrdered | kUnsafePutObjectVolatile
  | kUnsafePutLong | kUnsafePutLongOrdered | kUnsafePutLongVolatile
  | kUnsafeCASInt | kUnsafeCASLong | kUnsafeCASObject
  | kIntegerReverse | kLongReverse
  | kStringIndexOf | kStringIndexOfAfter | kSystemArrayCopyChar | kReferenceGetReferent
  deriving DecidableEq, Repr

/-- Modelled from the spec: the call node (`HInvoke`, `nodes.h` is not part
of the sources at hand), reduced to what the intrinsics code reads: its
location summary (absent until a builder creates one), the kinds of its
inputs, the kind of its result, whether it is a static or direct invoke, its
dex pc, the intrinsic id the catalog gave it (`GetIntrinsic`), and the answer
of `CanDoImplicitNullCheckOn (InputAt (0))`. -/
structure HInvoke where
  locations : Option LocationSummary
  input_types : List PrimitiveType
  type : PrimitiveType
  is_static_or_direct : Bool
  dex_pc : Nat
  intrinsic : Intrinsics := Intrinsics.kNone
  can_do_implicit_null_check_on_receiver : Bool := false
  deriving DecidableEq, Repr

namespace HInvoke

/-- The accessor `HInvoke::InputCount()`. -/
def InputCount (invoke : HInvoke) : Nat := invoke.input_types.length

/-- The mutator `SetLocations`, which the `LocationSummary` constructor calls. -/
def SetLocations (invoke : HInvoke) (l : LocationSummary) : HInvoke :=
  { invoke with locations := some l }

end HInvoke

/-- The constant `kIntrinsified`. -/
def kIntrinsified : Bool := true

namespace Location

/-- The test `Location::IsValid()`; `NoLocation()` is the invalid location. -/
def IsValid : Location → Bool
  | Invalid => false
  | NoLocation => false
  | _ => true

/-- The test `Location::IsRegister()`. -/
def IsRegister : Location → Bool
  | RegisterLocation _ => true
  | _ => false

end Location

namespace LocationSummary

/-- The constructor `LocationSummary(instruction, call_kind, intrinsified)`:
one invalid location per input, an invalid output, no temps. -/
def create (invoke : HInvoke) (call_kind : CallKind) (intrinsified : Bool) : LocationSummary :=
  { inputs := List.replicate invoke.InputCount Location.Invalid, output := Location.Invalid,
    temps := [], call_kind := call_kind, intrinsified := intrinsified }

/-- The mutator `SetInAt(at, location)`. -/
def SetInAt (l : LocationSummary) (i : Nat) (loc : Location) : LocationSummary :=
  { l with inputs := l.inputs.set i loc }

/-- The mutator `SetOut(location)`. -/
def SetOut (l : LocationSummary) (loc : Location) : LocationSummary :=
  { l with output := loc }

/-- The mutator `AddTemp(location)`. -/
def AddTemp (l : LocationSummary) (loc : Location) : LocationSummary :=
  { l with temps := l.temps ++ [loc] }

/-- The test `WillCall()`: the summary is in full-call mode. -/
def WillCall (l : LocationSummary) : Bool := decide (l.call_kind = CallKind.kCall)

/-- The accessor `GetTempCount()`. -/
def GetTempCount (l : LocationSummary) : Nat := l.temps.length

end LocationSummary

/-- `CreateFloatToFloatPlusTemps`: the locations of float and double `abs`. -/
def CreateFloatToFloatPlusTemps (invoke : HInvoke) : HInvoke :=
  invoke.SetLocations
    ((((LocationSummary.create invoke CallKind.kNoCall kIntrinsified).SetInAt 0
      Location.RequiresFpuRegister).SetOut Location.SameAsFirstInput).AddTemp
      Location.RequiresFpuRegister)

/-- Modelled from the spec: `InvokeRuntimeCallingConvention` (its declaration
is not part of the sources at hand): the general and the floating-point
argument registers of a runtime call, by position. -/
structure InvokeRuntimeCallingConvention where
  GetRegisterAt : Nat → CpuRegister
  GetFpuRegisterAt : Nat → XmmRegister

/-- The general register with the number of a floating register: what
`Location::RegisterLocation (int reg)` makes of a `FloatRegister` argument. -/
def XmmRegister.asCpuRegister : XmmRegister → CpuRegister
  | XMM0 => CpuRegister.RAX | XMM1 => CpuRegister.RCX
  | XMM2 => CpuRegister.RDX | XMM3 => CpuRegister.RBX
  | XMM4 => CpuRegister.RSP | XMM5 => CpuRegister.RBP
  | XMM6 => CpuRegister.RSI | XMM7 => CpuRegister.RDI
  | XMM8 => CpuRegister.R8 | XMM9 => CpuRegister.R9
  | XMM10 => CpuRegister.R10 | XMM11 => CpuRegister.R11
  | XMM12 => CpuRegister.R12 | XMM13 => CpuRegister.R13
  | XMM14 => CpuRegister.R14 | XMM15 => CpuRegister.R15

/-- `CreateFPToIntLocations`. -/
def CreateFPToIntLocations (invoke : HInvoke) : HInvoke :=
  invoke.SetLocations
    (((LocationSummary.create invoke CallKind.kNoCall kIntrinsified).SetInAt 0
      Location.RequiresFpuRegister).SetOut Location.RequiresRegister)

/-- `CreateIntToFPLocations`. -/
def CreateIntToFPLocations (invoke : HInvoke) : HInvoke :=
  invoke.SetLocations
    (((LocationSummary.create invoke CallKind.kNoCall kIntrinsified).SetInAt 0
      Location.RequiresRegister).SetOut Location.RequiresFpuRegister)

/-- `CreateIntToIntLocations`. -/
def CreateIntToIntLocations (invoke : HInvoke) : HInvoke :=
  invoke.SetLocations
    (((LocationSummary.create invoke CallKind.kNoCall kIntrinsified).SetInAt 0
      Location.RequiresRegister).SetOut Location.SameAsFirstInput)

/-- `CreateIntToIntPlusTemp`. -/
def CreateIntToIntPlusTemp (invoke : HInvoke) : HInvoke :=
  invoke.SetLocations
    ((((LocationSummary.create invoke CallKind.kNoCall kIntrinsified).SetInAt 0
      Location.RequiresRegister).SetOut Location.SameAsFirstInput).AddTemp
      Location.RequiresRegister)

/-- `CreateFPFPToFP`. -/
def CreateFPFPToFP (invoke : HInvoke) : HInvoke :=
  invoke.SetLocations
    ((((LocationSummary.create invoke CallKind.kNoCall kIntrinsified).SetInAt 0
      Location.RequiresFpuRegister).SetInAt 1 Location.RequiresFpuRegister).SetOut
      Location.SameAsFirstInput)

/-- `CreateIntIntToIntLocations`. -/
def CreateIntIntToIntLocations (invoke : HInvoke) : HInvoke :=
  invoke.SetLocations
    ((((LocationSummary.create invoke CallKind.kNoCall kIntrinsified).SetInAt 0
      Location.RequiresRegister).SetInAt 1 Location.RequiresRegister).SetOut
      Location.SameAsFirstInput)

/-- `CreateFPToFPLocations`. -/
def CreateFPToFPLocations (invoke : HInvoke) : HInvoke :=
  invoke.SetLocations
    (((LocationSummary.create invoke CallKind.kNoCall kIntrinsified).SetInAt 0
      Location.RequiresFpuRegister).SetOut Location.RequiresFpuRegister)

/-- `CreateSSE41FPToFPLocations`; `has_sse4_1` is
`codegen->GetInstructionSetFeatures().HasSSE4_1()`.  The fallback summary is
constructed without the `kIntrinsified` argument, whose default is false. -/
def CreateSSE41FPToFPLocations (has_sse4_1 : Bool)
    (calling_convention : InvokeRuntimeCallingConvention) (invoke : HInvoke) : HInvoke :=
  if has_sse4_1 then CreateFPToFPLocations invoke
  else
    invoke.SetLocations
      ((((LocationSummary.create invoke CallKind.kCall false).SetInAt 0
        (Location.RegisterLocation (calling_convention.GetFpuRegisterAt 0).asCpuRegister)).SetOut
        (Location.FpuRegisterLocation XmmRegister.XMM0)).AddTemp
        (Location.RegisterLocation CpuRegister.RDI))

/-- `CreateSSE41FPToIntLocations`. -/
def CreateSSE41FPToIntLocations (has_sse4_1 : Bool)
    (calling_convention : InvokeRuntimeCallingConvention) (invoke : HInvoke) : HInvoke :=
  if has_sse4_1 then
    invoke.SetLocations
      (((((LocationSummary.create invoke CallKind.kNoCall kIntrinsified).SetInAt 0
        Location.RequiresFpuRegister).SetOut Location.RequiresFpuRegister).AddTemp
        Location.RequiresFpuRegister).AddTemp Location.RequiresFpuRegister)
  else
    invoke.SetLocations
      ((((LocationSummary.create invoke CallKind.kCall false).SetInAt 0
        (Location.RegisterLocation (calling_convention.GetFpuRegisterAt 0).asCpuRegister)).SetOut
        (Location.RegisterLocation CpuRegister.RAX)).AddTemp
        (Location.RegisterLocation CpuRegister.RDI))

/-- `CreateIntIntToVoidLocations`. -/
def CreateIntIntToVoidLocations (invoke : HInvoke) : HInvoke :=
  invoke.SetLocations
    (((LocationSummary.create invoke CallKind.kNoCall kIntrinsified).SetInAt 0
      Location.RequiresRegister).SetInAt 1 Location.RequiresRegister)

/-- `CreateIntIntIntToIntLocations`. -/
def CreateIntIntIntToIntLocations (invoke : HInvoke) : HInvoke :=
  invoke.SetLocations
    (((((LocationSummary.create invoke CallKind.kNoCall kIntrinsified).SetInAt 0
      Location.NoLocation).SetInAt 1 Location.RequiresRegister).SetInAt 2
      Location.RequiresRegister).SetOut Location.RequiresRegister)

/-- `CreateIntIntIntIntToVoidPlusTempsLocations`. -/
def CreateIntIntIntIntToVoidPlusTempsLocations (type : PrimitiveType) (invoke : HInvoke) :
    HInvoke :=
  let locations :=
    ((((LocationSummary.create invoke CallKind.kNoCall kIntrinsified).SetInAt 0
      Location.NoLocation).SetInAt 1 Location.RequiresRegister).SetInAt 2
      Location.RequiresRegister).SetInAt 3 Location.RequiresRegister
  invoke.SetLocations
    (if type = PrimitiveType.kPrimNot then
      (locations.AddTemp Location.RequiresRegister).AddTemp Location.RequiresRegister
    else locations)

/-- `CreateIntIntIntIntIntToInt`. -/
def CreateIntIntIntIntIntToInt (type : PrimitiveType) (invoke : HInvoke) : HInvoke :=
  let locations :=
    ((((((LocationSummary.create invoke CallKind.kNoCall kIntrinsified).SetInAt 0
      Location.NoLocation).SetInAt 1 Location.RequiresRegister).SetInAt 2
      Location.RequiresRegister).SetInAt 3 (Location.RegisterLocation CpuRegister.RAX)).SetInAt 4
      Location.RequiresRegister).SetOut Location.RequiresRegister
  invoke.SetLocations
    (if type = PrimitiveType.kPrimNot then
      (locations.AddTemp Location.RequiresRegister).AddTemp Location.RequiresRegister
    else locations)

namespace IntrinsicLocationsBuilderX86_64

/-- The `Visit` methods of the locations builder, by intrinsic id: the arm of
an id is the body of `IntrinsicLocationsBuilderX86_64::Visit<id>`.  The four
ids of `UNIMPLEMENTED_INTRINSIC` have an empty body; `kNone` has no method. -/
def Visit (has_sse4_1 : Bool) (calling_convention : InvokeRuntimeCallingConvention) :
    Intrinsics → HInvoke → HInvoke
  | Intrinsics.kNone, invoke => invoke
  | Intrinsics.kDoubleDoubleToRawLongBits, invoke => CreateFPToIntLocations invoke
  | Intrinsics.kDoubleLongBitsToDouble, invoke => CreateIntToFPLocations invoke
  | Intrinsics.kFloatFloatToRawIntBits, invoke => CreateFPToIntLocations invoke
  | Intrinsics.kFloatIntBitsToFloat, invoke => CreateIntToFPLocations invoke
  | Intrinsics.kIntegerReverseBytes, invoke => CreateIntToIntLocations invoke
  | Intrinsics.kLongReverseBytes, invoke => CreateIntToIntLocations invoke
  | Intrinsics.kShortReverseBytes, invoke => CreateIntToIntLocations invoke
  | Intrinsics.kMathAbsDouble, invoke => CreateFloatToFloatPlusTemps invoke
  | Intrinsics.kMathAbsFloat, invoke => CreateFloatToFloatPlusTemps invoke
  | Intrinsics.kMathAbsInt, invoke => CreateIntToIntPlusTemp invoke
  | Intrinsics.kMathAbsLong, invoke => CreateIntToIntPlusTemp invoke
  | Intrinsics.kMathMinDoubleDouble, invoke => CreateFPFPToFP invoke
  | Intrinsics.kMathMinFloatFloat, invoke => CreateFPFPToFP invoke
  | Intrinsics.kMathMaxDoubleDouble, invoke => CreateFPFPToFP invoke
  | Intrinsics.kMathMaxFloatFloat, invoke => CreateFPFPToFP invoke
  | Intrinsics.kMathMinIntInt, invoke => CreateIntIntToIntLocations invoke
  | Intrinsics.kMathMinLongLong, invoke => CreateIntIntToIntLocations invoke
  | Intrinsics.kMathMaxIntInt, invoke => CreateIntIntToIntLocations invoke
  | Intrinsics.kMathMaxLongLong, invoke => CreateIntIntToIntLocations invoke
  | Intrinsics.kMathSqrt, invoke => CreateFPToFPLocations invoke
  | Intrinsics.kMathCeil, invoke => CreateSSE41FPToFPLocations has_sse4_1 calling_convention invoke
  | Intrinsics.kMathFloor, invoke => CreateSSE41FPToFPLocations has_sse4_1 calling_convention invoke
  | Intrinsics.kMathRint, invoke => CreateSSE41FPToFPLocations has_sse4_1 calling_convention invoke
  | Intrinsics.kMathRoundFloat, invoke =>
      CreateSSE41FPToIntLocations has_sse4_1 calling_convention invoke
  | Intrinsics.kMathRoundDouble, invoke =>
      CreateSSE41FPToIntLocations has_sse4_1 calling_convention invoke
  | Intrinsics.kStringCharAt, invoke =>
      invoke.SetLocations
        (((((LocationSummary.create invoke CallKind.kCallOnSlowPath kIntrinsified).SetInAt 0
          Location.RequiresRegister).SetInAt 1 Location.RequiresRegister).SetOut
          Location.SameAsFirstInput).AddTemp Location.RequiresRegister)
  | Intrinsics.kStringCompareTo, invoke =>
      invoke.SetLocations
        ((((LocationSummary.create invoke CallKind.kCall kIntrinsified).SetInAt 0
          (Location.RegisterLocation (calling_convention.GetRegisterAt 0))).SetInAt 1
          (Location.RegisterLocation (calling_convention.GetRegisterAt 1))).SetOut
          (Location.RegisterLocation CpuRegister.RAX))
  | Intrinsics.kMemoryPeekByte, invoke => CreateIntToIntLocations invoke
  | Intrinsics.kMemoryPeekIntNative, invoke => CreateIntToIntLocations invoke
  | Intrinsics.kMemoryPeekLongNative, invoke => CreateIntToIntLocations invoke
  | Intrinsics.kMemoryPeekShortNative, invoke => CreateIntToIntLocations invoke
  | Intrinsics.kMemoryPokeByte, invoke => CreateIntIntToVoidLocations invoke
  | Intrinsics.kMemoryPokeIntNative, invoke => CreateIntIntToVoidLocations invoke
  | Intrinsics.kMemoryPokeLongNative, invoke => CreateIntIntToVoidLocations invoke
  | Intrinsics.kMemoryPokeShortNative, invoke => CreateIntIntToVoidLocations invoke
  | Intrinsics.kThreadCurrentThread, invoke =>
      invoke.SetLocations
        ((LocationSummary.create invoke CallKind.kNoCall kIntrinsified).SetOut
          Location.RequiresRegister)
  | Intrinsics.kUnsafeGet, invoke => CreateIntIntIntToIntLocations invoke
  | Intrinsics.kUnsafeGetVolatile, invoke => CreateIntIntIntToIntLocations invoke
  | Intrinsics.kUnsafeGetLong, invoke => CreateIntIntIntToIntLocations invoke
  | Intrinsics.kUnsafeGetLongVolatile, invoke => CreateIntIntIntToIntLocations invoke
  | Intrinsics.kUnsafeGetObject, invoke => CreateIntIntIntToIntLocations invoke
  | Intrinsics.kUnsafeGetObjectVolatile, invoke => CreateIntIntIntToIntLocations invoke
  | Intrinsics.kUnsafePut, invoke =>
      CreateIntIntIntIntToVoidPlusTempsLocations PrimitiveType.kPrimInt invoke
  | Intrinsics.kUnsafePutOrdered, invoke =>
      CreateIntIntIntIntToVoidPlusTempsLocations PrimitiveType.kPrimInt invoke
  | Intrinsics.kUnsafePutVolatile, invoke =>
      CreateIntIntIntIntToVoidPlusTempsLocations PrimitiveType.kPrimInt invoke
  | Intrinsics.kUnsafePutObject, invoke =>
      CreateIntIntIntIntToVoidPlusTempsLocations PrimitiveType.kPrimNot invoke
  | Intrinsics.kUnsafePutObjectOrdered, invoke =>
      CreateIntIntIntIntToVoidPlusTempsLocations PrimitiveType.kPrimNot invoke
  | Intrinsics.kUnsafePutObjectVolatile, invoke =>
      CreateIntIntIntIntToVoidPlusTempsLocations PrimitiveType.kPrimNot invoke
  | Intrinsics.kUnsafePutLong, invoke =>
      CreateIntIntIntIntToVoidPlusTempsLocations PrimitiveType.kPrimLong invoke
  | Intrinsics.kUnsafePutLongOrdered, invoke =>
      CreateIntIntIntIntToVoidPlusTempsLocations PrimitiveType.kPrimLong invoke
  | Intrinsics.kUnsafePutLongVolatile, invoke =>
      CreateIntIntIntIntToVoidPlusTempsLocations PrimitiveType.kPrimLong invoke
  | Intrinsics.kUnsafeCASInt, invoke => CreateIntIntIntIntIntToInt PrimitiveType.kPrimInt invoke
  | Intrinsics.kUnsafeCASLong, invoke => CreateIntIntIntIntIntToInt PrimitiveType.kPrimLong invoke
  | Intrinsics.kUnsafeCASObject, invoke => CreateIntIntIntIntIntToInt PrimitiveType.kPrimNot invoke
  | Intrinsics.kIntegerReverse, invoke =>
      invoke.SetLocations
        ((((LocationSummary.create invoke CallKind.kNoCall kIntrinsified).SetInAt 0
          Location.RequiresRegister).SetOut Location.SameAsFirstInput).AddTemp
          Location.RequiresRegister)
  | Intrinsics.kLongReverse, invoke =>
      invoke.SetLocations
        (((((LocationSummary.create invoke CallKind.kNoCall kIntrinsified).SetInAt 0
          Location.RequiresRegister).SetOut Location.SameAsFirstInput).AddTemp
          Location.RequiresRegister).AddTemp Location.RequiresRegister)
  | Intrinsics.kStringIndexOf, invoke => invoke
  | Intrinsics.kStringIndexOfAfter, invoke => invoke
  | Intrinsics.kSystemArrayCopyChar, invoke => invoke
  | Intrinsics.kReferenceGetReferent, invoke => invoke

/-- Modelled from the spec: `IntrinsicVisitor::Dispatch` (`intrinsics.h` is
not part of the sources at hand): the `Visit` method of the invoke's intrinsic
id is called on the invoke. -/
def Dispatch (has_sse4_1 : Bool) (calling_convention : InvokeRuntimeCallingConvention)
    (invoke : HInvoke) : HInvoke :=
  Visit has_sse4_1 calling_convention invoke.intrinsic invoke

/-- `IntrinsicLocationsBuilderX86_64::TryDispatch`: the value returned; the
invoke it leaves behind is `Dispatch invoke`. -/
def TryDispatch (has_sse4_1 : Bool) (calling_convention : InvokeRuntimeCallingConvention)
    (invoke : HInvoke) : Bool :=
  match (Dispatch has_sse4_1 calling_convention invoke).locations with
  | none => false
  | some res => res.intrinsified

end IntrinsicLocationsBuilderX86_64

/-! ## More code generators -/

/-- The alias `kUnordered` of `kParityEven`. -/
@[reducible] def Condition.kUnordered : Condition := Condition.kParityEven

/-- The alias `kZero` of `kEqual`. -/
@[reducible] def Condition.kZero : Condition := Condition.kEqual

/-- Modelled from the spec: the constant `kPrimIntMax`, the maximum `int`
(its declaration is not part of the sources at hand). -/
def kPrimIntMax : Int := 0x7fffffff

/-- Modelled from the spec: the constant `kPrimLongMax`, the maximum `long`
(its declaration is not part of the sources at hand). -/
def kPrimLongMax : Int := 0x7fffffffffffffff

/-- `MoveFPToInt`: one move from the floating to the general register file. -/
def MoveFPToInt (locations : LocationSummary) (is64bit : Bool) : Option (List Instr) := do
  let input := locations.InAt 0
  let output := locations.Out
  let dst ← output.AsRegister
  let src ← input.AsFpuRegister
  pure [Instr.movd_to_cpu dst src is64bit]

/-- `MoveIntToFP`: one move from the general to the floating register file. -/
def MoveIntToFP (locations : LocationSummary) (is64bit : Bool) : Option (List Instr) := do
  let input := locations.InAt 0
  let output := locations.Out
  let dst ← output.AsFpuRegister
  let src ← input.AsRegister
  pure [Instr.movd_to_xmm dst src is64bit]

/-- `IntrinsicCodeGeneratorX86_64::VisitDoubleDoubleToRawLongBits`. -/
def VisitDoubleDoubleToRawLongBits (invoke : HInvoke) : Option (List Instr) := do
  MoveFPToInt (← invoke.locations) true

/-- `IntrinsicCodeGeneratorX86_64::VisitDoubleLongBitsToDouble`. -/
def VisitDoubleLongBitsToDouble (invoke : HInvoke) : Option (List Instr) := do
  MoveIntToFP (← invoke.locations) true

/-- `IntrinsicCodeGeneratorX86_64::VisitFloatFloatToRawIntBits`. -/
def VisitFloatFloatToRawIntBits (invoke : HInvoke) : Option (List Instr) := do
  MoveFPToInt (← invoke.locations) false

/-- `IntrinsicCodeGeneratorX86_64::VisitFloatIntBitsToFloat`. -/
def VisitFloatIntBitsToFloat (invoke : HInvoke) : Option (List Instr) := do
  MoveIntToFP (← invoke.locations) false

/-- `MathAbsFP`: the sign bit is masked off; an output that is not a
floating register is the fatal "Needs assembler support". -/
def MathAbsFP (locations : LocationSummary) (is64bit : Bool) : Option (List Instr) :=
  let output := locations.Out
  if output.IsFpuRegister then do
    let xmm_temp ← (locations.GetTemp 0).AsFpuRegister
    let out ← output.AsFpuRegister
    if is64bit then
      pure [ Instr.movsd xmm_temp (XmmOperand.LiteralInt64Address 0x7FFFFFFFFFFFFFFF),
             Instr.andpd out xmm_temp ]
    else
      pure [ Instr.movss xmm_temp (XmmOperand.LiteralInt32Address 0x7FFFFFFF),
             Instr.andps out xmm_temp ]
  else none

/-- `IntrinsicCodeGeneratorX86_64::VisitMathAbsDouble`. -/
def VisitMathAbsDouble (invoke : HInvoke) : Option (List Instr) := do
  MathAbsFP (← invoke.locations) true

/-- `IntrinsicCodeGeneratorX86_64::VisitMathAbsFloat`. -/
def VisitMathAbsFloat (invoke : HInvoke) : Option (List Instr) := do
  MathAbsFP (← invoke.locations) false

/-- `MoveFromReturnRegister`: the move of a call's result from RAX or XMM0 to
the target; a void type with a valid target is fatal. -/
def MoveFromReturnRegister (trg : Location) (type : PrimitiveType) : Option (List Instr) :=
  if !trg.IsValid then
    (if type = PrimitiveType.kPrimVoid then some [] else none)
  else
    match type with
    | PrimitiveType.kPrimLong => do
        let trg_reg ← trg.AsRegister
        pure (if trg_reg ≠ CpuRegister.RAX then
          [Instr.movq trg_reg (Operand.reg CpuRegister.RAX)] else [])
    | PrimitiveType.kPrimVoid => none
    | PrimitiveType.kPrimDouble => do
        let trg_reg ← trg.AsFpuRegister
        pure (if trg_reg ≠ XmmRegister.XMM0 then
          [Instr.movsd trg_reg (XmmOperand.reg XmmRegister.XMM0)] else [])
    | PrimitiveType.kPrimFloat => do
        let trg_reg ← trg.AsFpuRegister
        pure (if trg_reg ≠ XmmRegister.XMM0 then
          [Instr.movss trg_reg (XmmOperand.reg XmmRegister.XMM0)] else [])
    | _ => do
        let trg_reg ← trg.AsRegister
        pure (if trg_reg ≠ CpuRegister.RAX then
          [Instr.movl trg_reg (Operand.reg CpuRegister.RAX)] else [])

/-- The moves `MoveArguments` adds for the inputs from position `i` on:
input `i` goes from its allocated location to the location the calling
convention visitor hands out next.  The visitor is not part of the sources at
hand; `cc` gives the location it returns for a kind after the kinds it has
already been asked for. -/
def argumentMoves (cc : List PrimitiveType → PrimitiveType → Location)
    (locations : LocationSummary) (seen : List PrimitiveType) :
    List PrimitiveType → List (Location × Location × PrimitiveType)
  | [] => []
  | t :: rest =>
      (locations.InAt seen.length, cc seen t, t) :: argumentMoves cc locations (seen ++ [t]) rest

/-- `MoveArguments`: nothing for an invoke without inputs, otherwise one
parallel move handed to the move resolver. -/
def MoveArguments (cc : List PrimitiveType → PrimitiveType → Location) (invoke : HInvoke) :
    Option (List Instr) :=
  if invoke.InputCount = 0 then some []
  else do
    let locations ← invoke.locations
    pure [Instr.ParallelMove (argumentMoves cc locations [] invoke.input_types)]

/-- `InvokeOutOfLineIntrinsic`: the intrinsic compiled as a real call. -/
def InvokeOutOfLineIntrinsic (cc : List PrimitiveType → PrimitiveType → Location)
    (invoke : HInvoke) : Option (List Instr) := do
  let moves ← MoveArguments cc invoke
  if !invoke.is_static_or_direct then none
  else do
    let locations ← invoke.locations
    let out := locations.Out
    let copy ←
      if out.IsValid then
        (if out.IsRegister then MoveFromReturnRegister out invoke.type else none)
      else some []
    pure (moves ++ [Instr.GenerateStaticOrDirectCall CpuRegister.RDI,
      Instr.RecordPcInfo invoke.dex_pc] ++ copy)

/-- `IntrinsicCodeGeneratorX86_64::VisitMathRoundFloat`; 0x3F000000 is
`bit_cast<int32_t, float>(0.5f)`. -/
def VisitMathRoundFloat (cc : List PrimitiveType → PrimitiveType → Location)
    (invoke : HInvoke) : Option (List Instr) := do
  let locations ← invoke.locations
  if locations.WillCall then InvokeOutOfLineIntrinsic cc invoke
  else do
    let input ← (locations.InAt 0).AsFpuRegister
    let out ← locations.Out.AsRegister
    let maxInt ← (locations.GetTemp 0).AsFpuRegister
    let inPlusPointFive ← (locations.GetTemp 1).AsFpuRegister
    pure [ Instr.movl out (Operand.imm 0x3F000000),
           Instr.movd_to_xmm inPlusPointFive out false,
           Instr.addss inPlusPointFive input,
           Instr.roundss inPlusPointFive inPlusPointFive 1,
           Instr.movl out (Operand.imm kPrimIntMax),
           Instr.cvtsi2ss maxInt out false,
           Instr.comiss inPlusPointFive maxInt,
           Instr.j Condition.kAboveEqual Label.done,
           Instr.j Condition.kUnordered Label.nan,
           Instr.cvttss2si out inPlusPointFive false,
           Instr.jmp Label.done,
           Instr.Bind Label.nan,
           Instr.xorl out (Operand.reg out),
           Instr.Bind Label.done ]

/-- `IntrinsicCodeGeneratorX86_64::VisitMathRoundDouble`; 0x3FE0000000000000
is `bit_cast<int64_t, double>(0.5)`. -/
def VisitMathRoundDouble (cc : List PrimitiveType → PrimitiveType → Location)
    (invoke : HInvoke) : Option (List Instr) := do
  let locations ← invoke.locations
  if locations.WillCall then InvokeOutOfLineIntrinsic cc invoke
  else do
    let input ← (locations.InAt 0).AsFpuRegister
    let out ← locations.Out.AsRegister
    let maxLong ← (locations.GetTemp 0).AsFpuRegister
    let inPlusPointFive ← (locations.GetTemp 1).AsFpuRegister
    pure [ Instr.movq out (Operand.imm 0x3FE0000000000000),
           Instr.movd_to_xmm inPlusPointFive out true,
           Instr.addsd inPlusPointFive input,
           Instr.roundsd inPlusPointFive inPlusPointFive 1,
           Instr.movq out (Operand.imm kPrimLongMax),
           Instr.cvtsi2sd maxLong out true,
           Instr.comisd inPlusPointFive maxLong,
           Instr.j Condition.kAboveEqual Label.done,
           Instr.j Condition.kUnordered Label.nan,
           Instr.cvttsd2si out inPlusPointFive true,
           Instr.jmp Label.done,
           Instr.Bind Label.nan,
           Instr.xorq out (Operand.reg out),
           Instr.Bind Label.done ]

/-- The field offsets of `mirror::String` and the data offset of a `uint16_t`
array (`mirror/string.h` and `mirror/array.h` are not part of the sources at
hand; the offsets are parameters of the generator). -/
structure StringOffsets where
  value_offset : Int
  count_offset : Int
  offset_offset : Int
  data_offset : Int
  deriving DecidableEq, Repr

/-- `IntrinsicCodeGeneratorX86_64::VisitStringCharAt`. -/
def VisitStringCharAt (o : StringOffsets) (invoke : HInvoke) : Option (List Instr) := do
  let locations ← invoke.locations
  let obj ← (locations.InAt 0).AsRegister
  let idx ← (locations.InAt 1).AsRegister
  let out ← locations.Out.AsRegister
  let temp ← (locations.GetTemp 0).AsRegister
  pure [ Instr.AddSlowPath Label.slow_path_entry Label.slow_path_exit,
         Instr.cmpl idx (Operand.mem { base := obj, index := none, disp := o.count_offset }),
         Instr.MaybeRecordImplicitNullCheck,
         Instr.j Condition.kAboveEqual Label.slow_path_entry,
         Instr.movl temp (Operand.reg idx),
         Instr.addl temp (Operand.mem { base := obj, index := none, disp := o.offset_offset }),
         Instr.movl out (Operand.mem { base := obj, index := none, disp := o.value_offset }),
         Instr.movzxw out
           { base := out, index := some (temp, ScaleFactor.TIMES_2), disp := o.data_offset },
         Instr.Bind Label.slow_path_exit ]

/-- `GenUnsafeGet`; the `is_volatile` argument is unused, as in the source. -/
def GenUnsafeGet (locations : LocationSummary) (type : PrimitiveType) (_is_volatile : Bool) :
    Option (List Instr) := do
  let base ← (locations.InAt 1).AsRegister
  let offset ← (locations.InAt 2).AsRegister
  let trg ← locations.Out.AsRegister
  match type with
  | PrimitiveType.kPrimInt =>
      pure [Instr.movl trg (Operand.mem
        { base := base, index := some (offset, ScaleFactor.TIMES_1), disp := 0 })]
  | PrimitiveType.kPrimNot =>
      pure [Instr.movl trg (Operand.mem
        { base := base, index := some (offset, ScaleFactor.TIMES_1), disp := 0 })]
  | PrimitiveType.kPrimLong =>
      pure [Instr.movq trg (Operand.mem
        { base := base, index := some (offset, ScaleFactor.TIMES_1), disp := 0 })]
  | _ => none

/-- `IntrinsicCodeGeneratorX86_64::VisitUnsafeGet`. -/
def VisitUnsafeGet (invoke : HInvoke) : Option (List Instr) := do
  GenUnsafeGet (← invoke.locations) PrimitiveType.kPrimInt false

/-- `IntrinsicCodeGeneratorX86_64::VisitUnsafeGetVolatile`. -/
def VisitUnsafeGetVolatile (invoke : HInvoke) : Option (List Instr) := do
  GenUnsafeGet (← invoke.locations) PrimitiveType.kPrimInt true

/-- `IntrinsicCodeGeneratorX86_64::VisitUnsafeGetLong`. -/
def VisitUnsafeGetLong (invoke : HInvoke) : Option (List Instr) := do
  GenUnsafeGet (← invoke.locations) PrimitiveType.kPrimLong false

/-- `IntrinsicCodeGeneratorX86_64::VisitUnsafeGetLongVolatile`. -/
def VisitUnsafeGetLongVolatile (invoke : HInvoke) : Option (List Instr) := do
  GenUnsafeGet (← invoke.locations) PrimitiveType.kPrimLong true

/-- `IntrinsicCodeGeneratorX86_64::VisitUnsafeGetObject`. -/
def VisitUnsafeGetObject (invoke : HInvoke) : Option (List Instr) := do
  GenUnsafeGet (← invoke.locations) PrimitiveType.kPrimNot false

/-- `IntrinsicCodeGeneratorX86_64::VisitUnsafeGetObjectVolatile`. -/
def VisitUnsafeGetObjectVolatile (invoke : HInvoke) : Option (List Instr) := do
  GenUnsafeGet (← invoke.locations) PrimitiveType.kPrimNot true

/-- `GenUnsafePut`: the store, a fence for a volatile put, a card mark for an
object put. -/
def GenUnsafePut (locations : LocationSummary) (type : PrimitiveType) (is_volatile : Bool) :
    Option (List Instr) := do
  let base ← (locations.InAt 1).AsRegister
  let offset ← (locations.InAt 2).AsRegister
  let value ← (locations.InAt 3).AsRegister
  let store :=
    if type = PrimitiveType.kPrimLong then
      [Instr.movq_store { base := base, index := some (offset, ScaleFactor.TIMES_1), disp := 0 }
        value]
    else
      [Instr.movl_store { base := base, index := some (offset, ScaleFactor.TIMES_1), disp := 0 }
        value]
  let fence := if is_volatile then [Instr.mfence] else []
  let mark ←
    if type = PrimitiveType.kPrimNot then do
      let temp ← (locations.GetTemp 0).AsRegister
      let card ← (locations.GetTemp 1).AsRegister
      pure [Instr.MarkGCCard temp card base value]
    else pure []
  pure (store ++ fence ++ mark)

/-- `IntrinsicCodeGeneratorX86_64::VisitUnsafePut`. -/
def VisitUnsafePut (invoke : HInvoke) : Option (List Instr) := do
  GenUnsafePut (← invoke.locations) PrimitiveType.kPrimInt false

/-- `IntrinsicCodeGeneratorX86_64::VisitUnsafePutOrdered`. -/
def VisitUnsafePutOrdered (invoke : HInvoke) : Option (List Instr) := do
  GenUnsafePut (← invoke.locations) PrimitiveType.kPrimInt false

/-- `IntrinsicCodeGeneratorX86_64::VisitUnsafePutVolatile`. -/
def VisitUnsafePutVolatile (invoke : HInvoke) : Option (List Instr) := do
  GenUnsafePut (← invoke.locations) PrimitiveType.kPrimInt true

/-- `IntrinsicCodeGeneratorX86_64::VisitUnsafePutObject`. -/
def VisitUnsafePutObject (invoke : HInvoke) : Option (List Instr) := do
  GenUnsafePut (← invoke.locations) PrimitiveType.kPrimNot false

/-- `IntrinsicCodeGeneratorX86_64::VisitUnsafePutObjectOrdered`. -/
def VisitUnsafePutObjectOrdered (invoke : HInvoke) : Option (List Instr) := do
  GenUnsafePut (← invoke.locations) PrimitiveType.kPrimNot false

/-- `IntrinsicCodeGeneratorX86_64::VisitUnsafePutObjectVolatile`. -/
def VisitUnsafePutObjectVolatile (invoke : HInvoke) : Option (List Instr) := do
  GenUnsafePut (← invoke.locations) PrimitiveType.kPrimNot true

/-- `IntrinsicCodeGeneratorX86_64::VisitUnsafePutLong`. -/
def VisitUnsafePutLong (invoke : HInvoke) : Option (List Instr) := do
  GenUnsafePut (← invoke.locations) PrimitiveType.kPrimLong false

/-- `IntrinsicCodeGeneratorX86_64::VisitUnsafePutLongOrdered`. -/
def VisitUnsafePutLongOrdered (invoke : HInvoke) : Option (List Instr) := do
  GenUnsafePut (← invoke.locations) PrimitiveType.kPrimLong false

/-- `IntrinsicCodeGeneratorX86_64::VisitUnsafePutLongVolatile`. -/
def VisitUnsafePutLongVolatile (invoke : HInvoke) : Option (List Instr) := do
  GenUnsafePut (← invoke.locations) PrimitiveType.kPrimLong true

/-- `GenCAS`: the locked compare-exchange and the conversion of ZF into the
result; the expected value must be in RAX. -/
def GenCAS (type : PrimitiveType) (invoke : HInvoke) : Option (List Instr) := do
  let locations ← invoke.locations
  let base ← (locations.InAt 1).AsRegister
  let offset ← (locations.InAt 2).AsRegister
  let expected ← (locations.InAt 3).AsRegister
  if expected ≠ CpuRegister.RAX then none
  else do
    let value ← (locations.InAt 4).AsRegister
    let out ← locations.Out.AsRegister
    let exchange ←
      if type = PrimitiveType.kPrimLong then
        pure [Instr.LockCmpxchgq
          { base := base, index := some (offset, ScaleFactor.TIMES_1), disp := 0 } value]
      else do
        let mark ←
          if type = PrimitiveType.kPrimNot then do
            let temp ← (locations.GetTemp 0).AsRegister
            let card ← (locations.GetTemp 1).AsRegister
            pure [Instr.MarkGCCard temp card base value]
          else pure []
        pure (mark ++ [Instr.LockCmpxchgl
          { base := base, index := some (offset, ScaleFactor.TIMES_1), disp := 0 } value])
    pure (exchange ++ [Instr.setcc Condition.kZero out, Instr.movzxb out out])

/-- `IntrinsicCodeGeneratorX86_64::VisitUnsafeCASInt`. -/
def VisitUnsafeCASInt (invoke : HInvoke) : Option (List Instr) :=
  GenCAS PrimitiveType.kPrimInt invoke

/-- `IntrinsicCodeGeneratorX86_64::VisitUnsafeCASLong`. -/
def VisitUnsafeCASLong (invoke : HInvoke) : Option (List Instr) :=
  GenCAS PrimitiveType.kPrimLong invoke

/-- `IntrinsicCodeGeneratorX86_64::VisitUnsafeCASObject`. -/
def VisitUnsafeCASObject (invoke : HInvoke) : Option (List Instr) :=
  GenCAS PrimitiveType.kPrimNot invoke

/-- `IntrinsicCodeGeneratorX86_64::VisitMathAbsInt`. -/
def VisitMathAbsInt (invoke : HInvoke) : Option (List Instr) := do
  GenAbsInteger (← invoke.locations) false

/-- `IntrinsicCodeGeneratorX86_64::VisitMathAbsLong`. -/
def VisitMathAbsLong (invoke : HInvoke) : Option (List Instr) := do
  GenAbsInteger (← invoke.locations) true

/-- `IntrinsicCodeGeneratorX86_64::VisitMathMinDoubleDouble`. -/
def VisitMathMinDoubleDouble (invoke : HInvoke) : Option (List Instr) := do
  GenMinMaxFP (← invoke.locations) true true

/-- `IntrinsicCodeGeneratorX86_64::VisitMathMinFloatFloat`. -/
def VisitMathMinFloatFloat (invoke : HInvoke) : Option (List Instr) := do
  GenMinMaxFP (← invoke.locations) true false

/-- `IntrinsicCodeGeneratorX86_64::VisitMathMaxDoubleDouble`. -/
def VisitMathMaxDoubleDouble (invoke : HInvoke) : Option (List Instr) := do
  GenMinMaxFP (← invoke.locations) false true

/-- `IntrinsicCodeGeneratorX86_64::VisitMathMaxFloatFloat`. -/
def VisitMathMaxFloatFloat (invoke : HInvoke) : Option (List Instr) := do
  GenMinMaxFP (← invoke.locations) false false

/-- `IntrinsicCodeGeneratorX86_64::VisitMathMinIntInt`. -/
def VisitMathMinIntInt (invoke : HInvoke) : Option (List Instr) := do
  GenMinMax (← invoke.locations) true false

/-- `IntrinsicCodeGeneratorX86_64::VisitMathMinLongLong`. -/
def VisitMathMinLongLong (invoke : HInvoke) : Option (List Instr) := do
  GenMinMax (← invoke.locations) true true

/-- `IntrinsicCodeGeneratorX86_64::VisitMathMaxIntInt`. -/
def VisitMathMaxIntInt (invoke : HInvoke) : Option (List Instr) := do
  GenMinMax (← invoke.locations) false false

/-- `IntrinsicCodeGeneratorX86_64::VisitMathMaxLongLong`. -/
def VisitMathMaxLongLong (invoke : HInvoke) : Option (List Instr) := do
  GenMinMax (← invoke.locations) false true

/-- `IntrinsicCodeGeneratorX86_64::VisitMathSqrt`. -/
def VisitMathSqrt (invoke : HInvoke) : Option (List Instr) := do
  let locations ← invoke.locations
  let input ← (locations.InAt 0).AsFpuRegister
  let out ← locations.Out.AsFpuRegister
  pure [Instr.sqrtsd out input]

/-- `GenSSE41FPToFPIntrinsic`: a call in call mode, otherwise one `roundsd`
with the given rounding mode. -/
def GenSSE41FPToFPIntrinsic (cc : List PrimitiveType → PrimitiveType → Location)
    (invoke : HInvoke) (round_mode : Int) : Option (List Instr) := do
  let locations ← invoke.locations
  if locations.WillCall then InvokeOutOfLineIntrinsic cc invoke
  else do
    let input ← (locations.InAt 0).AsFpuRegister
    let out ← locations.Out.AsFpuRegister
    pure [Instr.roundsd out input round_mode]

/-- `IntrinsicCodeGeneratorX86_64::VisitMathCeil`. -/
def VisitMathCeil (cc : List PrimitiveType → PrimitiveType → Location) (invoke : HInvoke) :
    Option (List Instr) :=
  GenSSE41FPToFPIntrinsic cc invoke 2

/-- `IntrinsicCodeGeneratorX86_64::VisitMathFloor`. -/
def VisitMathFloor (cc : List PrimitiveType → PrimitiveType → Location) (invoke : HInvoke) :
    Option (List Instr) :=
  GenSSE41FPToFPIntrinsic cc invoke 1

/-- `IntrinsicCodeGeneratorX86_64::VisitMathRint`. -/
def VisitMathRint (cc : List PrimitiveType → PrimitiveType → Location) (invoke : HInvoke) :
    Option (List Instr) :=
  GenSSE41FPToFPIntrinsic cc invoke 0

/-- `IntrinsicCodeGeneratorX86_64::VisitStringCompareTo`: the null test of the
argument, the registration of the slow path, the branch to it, the call of the
`pStringCompareTo` entry point, and the exit label of the slow path. -/
def VisitStringCompareTo (invoke : HInvoke) : Option (List Instr) := do
  let locations ← invoke.locations
  if invoke.can_do_implicit_null_check_on_receiver then none
  else do
    let argument ← (locations.InAt 1).AsRegister
    pure [ Instr.testl argument argument,
           Instr.AddSlowPath Label.slow_path_entry Label.slow_path_exit,
           Instr.j Condition.kEqual Label.slow_path_entry,
           Instr.gs_call ThreadOffset.pStringCompareTo,
           Instr.Bind Label.slow_path_exit ]

/-- `GenPeek`: one load from the address in input 0. -/
def GenPeek (locations : LocationSummary) (size : PrimitiveType) : Option (List Instr) := do
  let address ← (locations.InAt 0).AsRegister
  let out ← locations.Out.AsRegister
  match size with
  | PrimitiveType.kPrimByte =>
      pure [Instr.movsxb out { base := address, index := none, disp := 0 }]
  | PrimitiveType.kPrimShort =>
      pure [Instr.movsxw out { base := address, index := none, disp := 0 }]
  | PrimitiveType.kPrimInt =>
      pure [Instr.movl out (Operand.mem { base := address, index := none, disp := 0 })]
  | PrimitiveType.kPrimLong =>
      pure [Instr.movq out (Operand.mem { base := address, index := none, disp := 0 })]
  | _ => none

/-- `IntrinsicCodeGeneratorX86_64::VisitMemoryPeekByte`. -/
def VisitMemoryPeekByte (invoke : HInvoke) : Option (List Instr) := do
  GenPeek (← invoke.locations) PrimitiveType.kPrimByte

/-- `IntrinsicCodeGeneratorX86_64::VisitMemoryPeekIntNative`. -/
def VisitMemoryPeekIntNative (invoke : HInvoke) : Option (List Instr) := do
  GenPeek (← invoke.locations) PrimitiveType.kPrimInt

/-- `IntrinsicCodeGeneratorX86_64::VisitMemoryPeekLongNative`. -/
def VisitMemoryPeekLongNative (invoke : HInvoke) : Option (List Instr) := do
  GenPeek (← invoke.locations) PrimitiveType.kPrimLong

/-- `IntrinsicCodeGeneratorX86_64::VisitMemoryPeekShortNative`. -/
def VisitMemoryPeekShortNative (invoke : HInvoke) : Option (List Instr) := do
  GenPeek (← invoke.locations) PrimitiveType.kPrimShort

/-- `GenPoke`: one store to the address in input 0. -/
def GenPoke (locations : LocationSummary) (size : PrimitiveType) : Option (List Instr) := do
  let address ← (locations.InAt 0).AsRegister
  let value ← (locations.InAt 1).AsRegister
  match size with
  | PrimitiveType.kPrimByte =>
      pure [Instr.movb_store { base := address, index := none, disp := 0 } value]
  | PrimitiveType.kPrimShort =>
      pure [Instr.movw_store { base := address, index := none, disp := 0 } value]
  | PrimitiveType.kPrimInt =>
      pure [Instr.movl_store { base := address, index := none, disp := 0 } value]
  | PrimitiveType.kPrimLong =>
      pure [Instr.movq_store { base := address, index := none, disp := 0 } value]
  | _ => none

/-- `IntrinsicCodeGeneratorX86_64::VisitMemoryPokeByte`. -/
def VisitMemoryPokeByte (invoke : HInvoke) : Option (List Instr) := do
  GenPoke (← invoke.locations) PrimitiveType.kPrimByte

/-- `IntrinsicCodeGeneratorX86_64::VisitMemoryPokeIntNative`. -/
def VisitMemoryPokeIntNative (invoke : HInvoke) : Option (List Instr) := do
  GenPoke (← invoke.locations) PrimitiveType.kPrimInt

/-- `IntrinsicCodeGeneratorX86_64::VisitMemoryPokeLongNative`. -/
def VisitMemoryPokeLongNative (invoke : HInvoke) : Option (List Instr) := do
  GenPoke (← invoke.locations) PrimitiveType.kPrimLong

/-- `IntrinsicCodeGeneratorX86_64::VisitMemoryPokeShortNative`. -/
def VisitMemoryPokeShortNative (invoke : HInvoke) : Option (List Instr) := do
  GenPoke (← invoke.locations) PrimitiveType.kPrimShort

/-- `IntrinsicCodeGeneratorX86_64::VisitThreadCurrentThread`. -/
def VisitThreadCurrentThread (invoke : HInvoke) : Option (List Instr) := do
  let locations ← invoke.locations
  let out ← locations.Out.AsRegister
  pure [Instr.gs_movl out ThreadOffset.PeerOffset]

namespace IntrinsicCodeGeneratorX86_64

/-- The `Visit` methods of the code generator, by intrinsic id: the arm of an
id is `IntrinsicCodeGeneratorX86_64::Visit<id>`.  The four ids of
`UNIMPLEMENTED_INTRINSIC` have an empty body and emit nothing; `kNone` has no
method. -/
def Visit (cc : List PrimitiveType → PrimitiveType → Location) (o : StringOffsets) :
    Intrinsics → HInvoke → Option (List Instr)
  | Intrinsics.kNone, _ => some []
  | Intrinsics.kDoubleDoubleToRawLongBits, invoke => VisitDoubleDoubleToRawLongBits invoke
  | Intrinsics.kDoubleLongBitsToDouble, invoke => VisitDoubleLongBitsToDouble invoke
  | Intrinsics.kFloatFloatToRawIntBits, invoke => VisitFloatFloatToRawIntBits invoke
  | Intrinsics.kFloatIntBitsToFloat, invoke => VisitFloatIntBitsToFloat invoke
  | Intrinsics.kIntegerReverseBytes, invoke => do VisitIntegerReverseBytes (← invoke.locations)
  | Intrinsics.kLongReverseBytes, invoke => do VisitLongReverseBytes (← invoke.locations)
  | Intrinsics.kShortReverseBytes, invoke => do VisitShortReverseBytes (← invoke.locations)
  | Intrinsics.kMathAbsDouble, invoke => VisitMathAbsDouble invoke
  | Intrinsics.kMathAbsFloat, invoke => VisitMathAbsFloat invoke
  | Intrinsics.kMathAbsInt, invoke => VisitMathAbsInt invoke
  | Intrinsics.kMathAbsLong, invoke => VisitMathAbsLong invoke
  | Intrinsics.kMathMinDoubleDouble, invoke => VisitMathMinDoubleDouble invoke
  | Intrinsics.kMathMinFloatFloat, invoke => VisitMathMinFloatFloat invoke
  | Intrinsics.kMathMaxDoubleDouble, invoke => VisitMathMaxDoubleDouble invoke
  | Intrinsics.kMathMaxFloatFloat, invoke => VisitMathMaxFloatFloat invoke
  | Intrinsics.kMathMinIntInt, invoke => VisitMathMinIntInt invoke
  | Intrinsics.kMathMinLongLong, invoke => VisitMathMinLongLong invoke
  | Intrinsics.kMathMaxIntInt, invoke => VisitMathMaxIntInt invoke
  | Intrinsics.kMathMaxLongLong, invoke => VisitMathMaxLongLong invoke
  | Intrinsics.kMathSqrt, invoke => VisitMathSqrt invoke
  | Intrinsics.kMathCeil, invoke => VisitMathCeil cc invoke
  | Intrinsics.kMathFloor, invoke => VisitMathFloor cc invoke
  | Intrinsics.kMathRint, invoke => VisitMathRint cc invoke
  | Intrinsics.kMathRoundFloat, invoke => VisitMathRoundFloat cc invoke
  | Intrinsics.kMathRoundDouble, invoke => VisitMathRoundDouble cc invoke
  | Intrinsics.kStringCharAt, invoke => VisitStringCharAt o invoke
  | Intrinsics.kStringCompareTo, invoke => VisitStringCompareTo invoke
  | Intrinsics.kMemoryPeekByte, invoke => VisitMemoryPeekByte invoke
  | Intrinsics.kMemoryPeekIntNative, invoke => VisitMemoryPeekIntNative invoke
  | Intrinsics.kMemoryPeekLongNative, invoke => VisitMemoryPeekLongNative invoke
  | Intrinsics.kMemoryPeekShortNative, invoke => VisitMemoryPeekShortNative invoke
  | Intrinsics.kMemoryPokeByte, invoke => VisitMemoryPokeByte invoke
  | Intrinsics.kMemoryPokeIntNative, invoke => VisitMemoryPokeIntNative invoke
  | Intrinsics.kMemoryPokeLongNative, invoke => VisitMemoryPokeLongNative invoke
  | Intrinsics.kMemoryPokeShortNative, invoke => VisitMemoryPokeShortNative invoke
  | Intrinsics.kThreadCurrentThread, invoke => VisitThreadCurrentThread invoke
  | Intrinsics.kUnsafeGet, invoke => VisitUnsafeGet invoke
  | Intrinsics.kUnsafeGetVolatile, invoke => VisitUnsafeGetVolatile invoke
  | Intrinsics.kUnsafeGetLong, invoke => VisitUnsafeGetLong invoke
  | Intrinsics.kUnsafeGetLongVolatile, invoke => VisitUnsafeGetLongVolatile invoke
  | Intrinsics.kUnsafeGetObject, invoke => VisitUnsafeGetObject invoke
  | Intrinsics.kUnsafeGetObjectVolatile, invoke => VisitUnsafeGetObjectVolatile invoke
  | Intrinsics.kUnsafePut, invoke => VisitUnsafePut invoke
  | Intrinsics.kUnsafePutOrdered, invoke => VisitUnsafePutOrdered invoke
  | Intrinsics.kUnsafePutVolatile, invoke => VisitUnsafePutVolatile invoke
  | Intrinsics.kUnsafePutObject, invoke => VisitUnsafePutObject invoke
  | Intrinsics.kUnsafePutObjectOrdered, invoke => VisitUnsafePutObjectOrdered invoke
  | Intrinsics.kUnsafePutObjectVolatile, invoke => VisitUnsafePutObjectVolatile invoke
  | Intrinsics.kUnsafePutLong, invoke => VisitUnsafePutLong invoke
  | Intrinsics.kUnsafePutLongOrdered, invoke => VisitUnsafePutLongOrdered invoke
  | Intrinsics.kUnsafePutLongVolatile, invoke => VisitUnsafePutLongVolatile invoke
  | Intrinsics.kUnsafeCASInt, invoke => VisitUnsafeCASInt invoke
  | Intrinsics.kUnsafeCASLong, invoke => VisitUnsafeCASLong invoke
  | Intrinsics.kUnsafeCASObject, invoke => VisitUnsafeCASObject invoke
  | Intrinsics.kIntegerReverse, invoke => do VisitIntegerReverse (← invoke.locations)
  | Intrinsics.kLongReverse, invoke => do VisitLongReverse (← invoke.locations)
  | Intrinsics.kStringIndexOf, _ => some []
  | Intrinsics.kStringIndexOfAfter, _ => some []
  | Intrinsics.kSystemArrayCopyChar, _ => some []
  | Intrinsics.kReferenceGetReferent, _ => some []

end IntrinsicCodeGeneratorX86_64

namespace IntrinsicSlowPathX86_64

/-- `IntrinsicSlowPathX86_64::EmitNativeCode` for the slow path of `invoke`.
`Except.ok` carries the emitted requests; a fatal error or a failed assertion
ends the emission, and `Except.error` carries what had been emitted by then.
The entry and exit labels of the slow path are `Label.slow_path_entry` and
`Label.slow_path_exit`. -/
def EmitNativeCode (cc : List PrimitiveType → PrimitiveType → Location) (invoke : HInvoke) :
    Except (List Instr) (List Instr) :=
  match invoke.locations with
  | none => Except.error [Instr.Bind Label.slow_path_entry]
  | some locations =>
    let saved := [Instr.Bind Label.slow_path_entry, Instr.SaveLiveRegisters]
    match MoveArguments cc invoke with
    | none => Except.error saved
    | some moves =>
      if invoke.is_static_or_direct then
        let called := saved ++ moves ++
          [Instr.GenerateStaticOrDirectCall CpuRegister.RDI, Instr.RecordPcInfo invoke.dex_pc]
        let out := locations.Out
        if out.IsValid then
          match out.AsRegister with
          | none => Except.error called
          | some reg =>
            if reg ∈ locations.live_core_registers then Except.error called
            else
              match MoveFromReturnRegister out invoke.type with
              | none => Except.error called
              | some copy =>
                Except.ok (called ++ copy ++
                  [Instr.RestoreLiveRegisters, Instr.jmp Label.slow_path_exit])
        else
          Except.ok (called ++ [Instr.RestoreLiveRegisters, Instr.jmp Label.slow_path_exit])
      else Except.error (saved ++ moves)

end IntrinsicSlowPathX86_64

/-! ## Runs that may leave the emitted code -/

/-- How a run ends: control falls off the end of the emitted code, or it
jumps to a label the code does not bind (a slow-path entry). -/
inductive Outcome
  | finished (s : State)
  | exit (target : Label) (s : State)

/-- Run `prog` like `run`, and report a jump to a label the program does
not bind as an exit to that label. -/
def runTo (prog : List Instr) : Nat → Nat → State → Option Outcome
  | 0, _, _ => none
  | fuel + 1, pc, s =>
    if pc = prog.length then some (Outcome.finished s)
    else
      match prog.get? pc with
      | none => none
      | some (Instr.j c l) =>
          if c.holds s.flags then
            match findLabel prog l with
            | some t => runTo prog fuel t s
            | none => some (Outcome.exit l s)
          else runTo prog fuel (pc + 1) s
      | some (Instr.jmp l) =>
          match findLabel prog l with
          | some t => runTo prog fuel t s
          | none => some (Outcome.exit l s)
      | some (Instr.ParallelMove _) => none
      | some (Instr.GenerateStaticOrDirectCall _) => none
      | some (Instr.gs_call _) => none
      | some Instr.SaveLiveRegisters => none
      | some Instr.RestoreLiveRegisters => none
      | some i => runTo prog fuel (pc + 1) (step s i)

/-- Execute a program from its first instruction, reporting how it ends. -/
def execTo (prog : List Instr) (s : State) : Option Outcome :=
  runTo prog (prog.length + 1) 0 s

/-! ## Values used to state what the sequences compute -/

/-- The requests `run` does not execute by `step`: the jumps, which transfer
control, and the call, parallel-move and register save and restore requests,
which are outside the machine model. -/
def Instr.isJump : Instr → Bool
  | Instr.j _ _ => true
  | Instr.jmp _ => true
  | Instr.ParallelMove _ => true
  | Instr.GenerateStaticOrDirectCall _ => true
  | Instr.gs_call _ => true
  | Instr.SaveLiveRegisters => true
  | Instr.RestoreLiveRegisters => true
  | _ => false

/-- The value one masked swap-and-merge round leaves in `reg`, read off the
six (seven) instructions of `SwapBits` (`SwapBits64`). -/
def swapRound (w v sh m : Nat) : Nat :=
  ((((v % 2 ^ w) >>> sh) % 2 ^ w &&& m) % 2 ^ w
    ||| (((v % 2 ^ w &&& m) % 2 ^ w) <<< sh) % 2 ^ w) % 2 ^ w

/-- The value the `VisitIntegerReverse` sequence leaves in `reg`. -/
def reverse32 (x : Nat) : Nat :=
  swapRound 32 (swapRound 32 (swapRound 32 (bswap32 (x % 2 ^ 32)) 1 0x55555555) 2 0x33333333)
    4 0x0f0f0f0f

/-- The value the `VisitLongReverse` sequence leaves in `reg`. -/
def reverse64 (x : Nat) : Nat :=
  swapRound 64 (swapRound 64 (swapRound 64 (bswap64 (x % 2 ^ 64)) 1 0x5555555555555555)
    2 0x3333333333333333) 4 0x0f0f0f0f0f0f0f0f

/-- The operand width selected by an `is64bit` / `is_long` / `is_double` flag. -/
def widthOf (is64bit : Bool) : Nat := if is64bit then 64 else 32

/-- The floating-point format selected by an `is_double` flag. -/
def formatOf (is_double : Bool) : FPFormat := if is_double then binary64 else binary32

/-- The operand a signed min (or max) selects: the second one when it is
strictly smaller (strictly larger), the first one otherwise. -/
def minMaxSelect (w : Nat) (is_min : Bool) (a b : Nat) : Nat :=
  if is_min then (if toSigned w b < toSigned w a then b else a)
  else (if toSigned w a < toSigned w b then b else a)

/-- A location summary with the given registers, as the register allocator
hands it to the code generator of a no-call intrinsic. -/
def allocated (inputs : List Location) (output : Location) (temps : List Location) :
    LocationSummary :=
  { inputs := inputs, output := output, temps := temps, call_kind := CallKind.kNoCall,
    intrinsified := true }

/-- An allocation for a one-input intrinsic with one scratch register: the
value in RAX (input and output), RCX as scratch. -/
def locationsRaxRcx : LocationSummary :=
  allocated [Location.RegisterLocation CpuRegister.RAX]
    (Location.RegisterLocation CpuRegister.RAX) [Location.RegisterLocation CpuRegister.RCX]

/-- An allocation for a one-input intrinsic with two scratch registers: the
value in RAX (input and output), RCX and RDX as scratch. -/
def locationsRaxRcxRdx : LocationSummary :=
  allocated [Location.RegisterLocation CpuRegister.RAX]
    (Location.RegisterLocation CpuRegister.RAX)
    [Location.RegisterLocation CpuRegister.RCX, Location.RegisterLocation CpuRegister.RDX]

/-- An allocation for a two-input integer intrinsic: the first input and
the output in RAX, the second input in RCX. -/
def locationsRaxRcxToRax : LocationSummary :=
  allocated [Location.RegisterLocation CpuRegister.RAX, Location.RegisterLocation CpuRegister.RCX]
    (Location.RegisterLocation CpuRegister.RAX) []

/-- An allocation for a two-input integer intrinsic whose inputs share RAX. -/
def locationsRaxRax : LocationSummary :=
  allocated [Location.RegisterLocation CpuRegister.RAX, Location.RegisterLocation CpuRegister.RAX]
    (Location.RegisterLocation CpuRegister.RAX) []

/-- An allocation for a two-input floating-point intrinsic: the first input
and the output in XMM0, the second input in XMM1. -/
def locationsXmm0Xmm1 : LocationSummary :=
  allocated [Location.FpuRegisterLocation XmmRegister.XMM0,
      Location.FpuRegisterLocation XmmRegister.XMM1]
    (Location.FpuRegisterLocation XmmRegister.XMM0) []

/-- An allocation for a two-input floating-point intrinsic whose inputs
share XMM0. -/
def locationsXmm0Xmm0 : LocationSummary :=
  allocated [Location.FpuRegisterLocation XmmRegister.XMM0,
      Location.FpuRegisterLocation XmmRegister.XMM0]
    (Location.FpuRegisterLocation XmmRegister.XMM0) []

/-- Whether a request is a card-mark request. -/
def Instr.isCardMark : Instr → Bool
  | Instr.MarkGCCard _ _ _ _ => true
  | _ => false

/-- The address `Address(base, offset, TIMES_1, 0)` of the raw field accesses. -/
def fieldAddress (base offset : CpuRegister) : Address :=
  { base := base, index := some (offset, ScaleFactor.TIMES_1), disp := 0 }

/-- The store `GenUnsafePut` emits for a kind: 64-bit for a long, 32-bit
otherwise. -/
def putStore (type : PrimitiveType) (base offset value : CpuRegister) : Instr :=
  if type = PrimitiveType.kPrimLong then Instr.movq_store (fieldAddress base offset) value
  else Instr.movl_store (fieldAddress base offset) value

/-- The value `floor (x + 0.5f)` the single-precision round sequence forms:
ADDSS of 0.5f and `x`, then ROUNDSS with immediate 1 (toward minus infinity). -/
def roundFloor32 (x : Nat) : Nat := binary32.roundToIntegral 1 (binary32.add 0x3F000000 x)

/-- The value `floor (x + 0.5)` the double-precision round sequence forms. -/
def roundFloor64 (x : Nat) : Nat :=
  binary64.roundToIntegral 1 (binary64.add 0x3FE0000000000000 x)

/-- The integer the single-precision round sequence selects for the input
pattern `x`: the maximum int when `floor (x + 0.5f)` is ordered and at least
the maximum int converted to float, else 0 for a NaN, else the truncating
conversion. -/
def roundResult32 (x : Nat) : Nat :=
  if binary32.isNaN (roundFloor32 x) = false
      ∧ binary32.key (binary32.ofInt kPrimIntMax) ≤ binary32.key (roundFloor32 x) then 0x7FFFFFFF
  else if binary32.isNaN x = true then 0
  else binary32.toIntTrunc 32 (roundFloor32 x)

/-- The integer the double-precision round sequence selects for the input
pattern `x`. -/
def roundResult64 (x : Nat) : Nat :=
  if binary64.isNaN (roundFloor64 x) = false
      ∧ binary64.key (binary64.ofInt kPrimLongMax) ≤ binary64.key (roundFloor64 x) then
    0x7FFFFFFFFFFFFFFF
  else if binary64.isNaN x = true then 0
  else binary64.toIntTrunc 64 (roundFloor64 x)

/-- An allocation for a one-input floating-point intrinsic with one
floating-point temp: input and output in XMM0, the temp in XMM1. -/
def locationsAbsFP : LocationSummary :=
  allocated [Location.FpuRegisterLocation XmmRegister.XMM0]
    (Location.FpuRegisterLocation XmmRegister.XMM0)
    [Location.FpuRegisterLocation XmmRegister.XMM1]

/-- An invocation of a float-to-float intrinsic, before its locations are
built. -/
def invokeAbs : HInvoke :=
  { locations := none, input_types := [PrimitiveType.kPrimFloat],
    type := PrimitiveType.kPrimFloat, is_static_or_direct := true, dex_pc := 0 }

/-- An invocation of an int-to-float reinterpretation: input in RAX, output
in XMM0. -/
def invokeIntToFP : HInvoke :=
  { locations := some (allocated [Location.RegisterLocation CpuRegister.RAX]
      (Location.FpuRegisterLocation XmmRegister.XMM0) []),
    input_types := [PrimitiveType.kPrimInt], type := PrimitiveType.kPrimFloat,
    is_static_or_direct := true, dex_pc := 0 }

/-- An invocation of a float-to-int reinterpretation: input in XMM0, output
in RAX. -/
def invokeFPToInt : HInvoke :=
  { locations := some (allocated [Location.FpuRegisterLocation XmmRegister.XMM0]
      (Location.RegisterLocation CpuRegister.RAX) []),
    input_types := [PrimitiveType.kPrimFloat], type := PrimitiveType.kPrimInt,
    is_static_or_direct := true, dex_pc := 0 }

/-- An allocation for the inline round sequences: input in XMM0, output in
RAX, the temps in XMM1 and XMM2. -/
def locationsRound : LocationSummary :=
  allocated [Location.FpuRegisterLocation XmmRegister.XMM0]
    (Location.RegisterLocation CpuRegister.RAX)
    [Location.FpuRegisterLocation XmmRegister.XMM1, Location.FpuRegisterLocation XmmRegister.XMM2]

/-- An invocation of a round intrinsic with the allocation `locationsRound`. -/
def invokeRound : HInvoke :=
  { locations := some locationsRound, input_types := [PrimitiveType.kPrimFloat],
    type := PrimitiveType.kPrimInt, is_static_or_direct := true, dex_pc := 0 }

/-- The zero state with the pattern `v` in XMM0. -/
def stateWithXmm0 (v : Nat) : State := State.zero.setXmm XmmRegister.XMM0 v

/-- Field offsets of a string object, for the examples. -/
def stringOffsets : StringOffsets :=
  { value_offset := 8, count_offset := 12, offset_offset := 16, data_offset := 12 }

/-- An allocation for `String.charAt`: the string and the output in RAX, the
index in RCX, the temp in RDX. -/
def locationsCharAt : LocationSummary :=
  { inputs := [Location.RegisterLocation CpuRegister.RAX,
      Location.RegisterLocation CpuRegister.RCX],
    output := Location.RegisterLocation CpuRegister.RAX,
    temps := [Location.RegisterLocation CpuRegister.RDX],
    call_kind := CallKind.kCallOnSlowPath, intrinsified := true }

/-- An invocation of `String.charAt` with the allocation `locationsCharAt`. -/
def invokeCharAt : HInvoke :=
  { locations := some locationsCharAt,
    input_types := [PrimitiveType.kPrimNot, PrimitiveType.kPrimInt],
    type := PrimitiveType.kPrimChar, is_static_or_direct := true, dex_pc := 0 }

/-- A state for `String.charAt`: a string at 0x2000 whose count field (at
0x200C) is 5, and the index 5 in RCX. -/
def charAtState : State :=
  ((State.zero.setCpu CpuRegister.RAX 0x2000).setCpu CpuRegister.RCX 5).setMem
    (writeMem (fun _ => 0) 0x200C 5 4)

/-- An allocation for a compare-and-swap: base in RSI, offset in RDX,
expected value in RAX, new value in RCX, output in RBX, temps R8 and R9. -/
def locationsCAS : LocationSummary :=
  allocated [Location.NoLocation, Location.RegisterLocation CpuRegister.RSI,
      Location.RegisterLocation CpuRegister.RDX, Location.RegisterLocation CpuRegister.RAX,
      Location.RegisterLocation CpuRegister.RCX]
    (Location.RegisterLocation CpuRegister.RBX)
    [Location.RegisterLocation CpuRegister.R8, Location.RegisterLocation CpuRegister.R9]

/-- An invocation of a compare-and-swap with the allocation `locationsCAS`. -/
def invokeCAS : HInvoke :=
  { locations := some locationsCAS,
    input_types := [PrimitiveType.kPrimNot, PrimitiveType.kPrimNot, PrimitiveType.kPrimLong,
      PrimitiveType.kPrimNot, PrimitiveType.kPrimNot],
    type := PrimitiveType.kPrimBoolean, is_static_or_direct := true, dex_pc := 0 }

/-- A state for a compare-and-swap: base 0x1000, offset 0x10, the word 7 at
0x1010, expected value 7 in RAX, new value 9 in RCX. -/
def casState : State :=
  ((((State.zero.setCpu CpuRegister.RSI 0x1000).setCpu CpuRegister.RDX 0x10).setCpu
    CpuRegister.RAX 7).setCpu CpuRegister.RCX 9).setMem (writeMem (fun _ => 0) 0x1010 7 4)

/-- An allocation for a raw field read: base in RSI, offset in RDX, output
in RAX. -/
def locationsGet : LocationSummary :=
  allocated [Location.NoLocation, Location.RegisterLocation CpuRegister.RSI,
      Location.RegisterLocation CpuRegister.RDX]
    (Location.RegisterLocation CpuRegister.RAX) []

/-- An invocation of a raw field read with the allocation `locationsGet`. -/
def invokeGet : HInvoke :=
  { locations := some locationsGet,
    input_types := [PrimitiveType.kPrimNot, PrimitiveType.kPrimNot, PrimitiveType.kPrimLong],
    type := PrimitiveType.kPrimInt, is_static_or_direct := true, dex_pc := 0 }

/-- An allocation for a raw field write: base in RSI, offset in RDX, value in
RCX, temps R8 and R9. -/
def locationsPut : LocationSummary :=
  allocated [Location.NoLocation, Location.RegisterLocation CpuRegister.RSI,
      Location.RegisterLocation CpuRegister.RDX, Location.RegisterLocation CpuRegister.RCX]
    Location.NoLocation
    [Location.RegisterLocation CpuRegister.R8, Location.RegisterLocation CpuRegister.R9]

/-- An invocation of a raw field write with the allocation `locationsPut`. -/
def invokePut : HInvoke :=
  { locations := some locationsPut,
    input_types := [PrimitiveType.kPrimNot, PrimitiveType.kPrimNot, PrimitiveType.kPrimLong,
      PrimitiveType.kPrimNot],
    type := PrimitiveType.kPrimVoid, is_static_or_direct := true, dex_pc := 0 }

/-! ## Register kinds, allocations of a declared summary, and more example values -/

/-- The register file a location, or a location constraint, belongs to. -/
inductive RegisterKind
  | core | fpu
  deriving DecidableEq, Repr

/-- The register file of a register location or of a register constraint;
other locations have none. -/
def Location.registerKind : Location → Option RegisterKind
  | Location.RegisterLocation _ => some RegisterKind.core
  | Location.RequiresRegister => some RegisterKind.core
  | Location.FpuRegisterLocation _ => some RegisterKind.fpu
  | Location.RequiresFpuRegister => some RegisterKind.fpu
  | _ => none

/-- Modelled from the spec: what the register allocator (an external
collaborator) may put in the place of a declared constraint: a register of
the required file, the location of the first input for `SameAsFirstInput`,
a fixed location itself; an excluded or unset position is not constrained. -/
def Location.allocates (first : Location) : Location → Location → Bool
  | Location.RequiresRegister, actual => actual.IsRegister
  | Location.RequiresFpuRegister, actual => actual.IsFpuRegister
  | Location.SameAsFirstInput, actual => decide (actual = first)
  | Location.RegisterLocation r, actual => decide (actual = Location.RegisterLocation r)
  | Location.FpuRegisterLocation r, actual => decide (actual = Location.FpuRegisterLocation r)
  | Location.StackSlot i, actual => decide (actual = Location.StackSlot i)
  | Location.DoubleStackSlot i, actual => decide (actual = Location.DoubleStackSlot i)
  | Location.Any, actual => actual.IsValid
  | Location.NoLocation, _ => true
  | Location.Invalid, _ => true

/-- The summary `actual` is what a register allocator may make of the
declared summary `declared`: same call mode and marker, and every input, the
output and every temp allocated as declared. -/
def LocationSummary.IsAllocationOf (actual declared : LocationSummary) : Prop :=
  actual.call_kind = declared.call_kind
  ∧ actual.intrinsified = declared.intrinsified
  ∧ actual.temps.length = declared.temps.length
  ∧ (∀ i, i < declared.inputs.length →
      Location.allocates (actual.InAt 0) (declared.InAt i) (actual.InAt i) = true)
  ∧ Location.allocates (actual.InAt 0) declared.Out actual.Out = true
  ∧ (∀ i, i < declared.temps.length →
      Location.allocates (actual.InAt 0) (declared.GetTemp i) (actual.GetTemp i) = true)

/-- The intrinsics the file implements: every id but `kNone` and the four of
`UNIMPLEMENTED_INTRINSIC`. -/
def Intrinsics.isImplemented : Intrinsics → Bool
  | Intrinsics.kNone => false
  | Intrinsics.kStringIndexOf => false
  | Intrinsics.kStringIndexOfAfter => false
  | Intrinsics.kSystemArrayCopyChar => false
  | Intrinsics.kReferenceGetReferent => false
  | _ => true

/-- The intrinsics whose inline sequence needs the SSE4.1 rounding
instructions. -/
def Intrinsics.needsSSE41 : Intrinsics → Bool
  | Intrinsics.kMathCeil => true
  | Intrinsics.kMathFloor => true
  | Intrinsics.kMathRint => true
  | Intrinsics.kMathRoundFloat => true
  | Intrinsics.kMathRoundDouble => true
  | _ => false

/-- The number of inputs of the invoke of an intrinsic (the receiver
included): the positions its locations builder sets. -/
def Intrinsics.inputCount : Intrinsics → Nat
  | Intrinsics.kNone => 0
  | Intrinsics.kMathMinDoubleDouble => 2
  | Intrinsics.kMathMinFloatFloat => 2
  | Intrinsics.kMathMaxDoubleDouble => 2
  | Intrinsics.kMathMaxFloatFloat => 2
  | Intrinsics.kMathMinIntInt => 2
  | Intrinsics.kMathMinLongLong => 2
  | Intrinsics.kMathMaxIntInt => 2
  | Intrinsics.kMathMaxLongLong => 2
  | Intrinsics.kStringCharAt => 2
  | Intrinsics.kStringCompareTo => 2
  | Intrinsics.kMemoryPokeByte => 2
  | Intrinsics.kMemoryPokeIntNative => 2
  | Intrinsics.kMemoryPokeLongNative => 2
  | Intrinsics.kMemoryPokeShortNative => 2
  | Intrinsics.kThreadCurrentThread => 0
  | Intrinsics.kUnsafeGet => 3
  | Intrinsics.kUnsafeGetVolatile => 3
  | Intrinsics.kUnsafeGetLong => 3
  | Intrinsics.kUnsafeGetLongVolatile => 3
  | Intrinsics.kUnsafeGetObject => 3
  | Intrinsics.kUnsafeGetObjectVolatile => 3
  | Intrinsics.kUnsafePut => 4
  | Intrinsics.kUnsafePutOrdered => 4
  | Intrinsics.kUnsafePutVolatile => 4
  | Intrinsics.kUnsafePutObject => 4
  | Intrinsics.kUnsafePutObjectOrdered => 4
  | Intrinsics.kUnsafePutObjectVolatile => 4
  | Intrinsics.kUnsafePutLong => 4
  | Intrinsics.kUnsafePutLongOrdered => 4
  | Intrinsics.kUnsafePutLongVolatile => 4
  | Intrinsics.kUnsafeCASInt => 5
  | Intrinsics.kUnsafeCASLong => 5
  | Intrinsics.kUnsafeCASObject => 5
  | Intrinsics.kStringIndexOf => 2
  | Intrinsics.kStringIndexOfAfter => 3
  | Intrinsics.kSystemArrayCopyChar => 5
  | _ => 1

/-- The runtime calling convention of x86-64 ART, for the examples: arguments
in RDI, RSI, RDX, RCX and in XMM0, XMM1. -/
def runtimeCallingConvention : InvokeRuntimeCallingConvention :=
  { GetRegisterAt := fun i =>
      [CpuRegister.RDI, CpuRegister.RSI, CpuRegister.RDX, CpuRegister.RCX].getD i CpuRegister.RDI,
    GetFpuRegisterAt := fun i => [XmmRegister.XMM0, XmmRegister.XMM1].getD i XmmRegister.XMM0 }

/-- A calling-convention visitor for the examples: the `i`-th argument goes to
the stack slot `8 * i`. -/
def stackCallingConvention (seen : List PrimitiveType) (_type : PrimitiveType) : Location :=
  Location.StackSlot (8 * seen.length)

/-- An invoke of `Math.round (float)` before any locations are built. -/
def invokeRoundFloat : HInvoke :=
  { locations := none, input_types := [PrimitiveType.kPrimFloat],
    type := PrimitiveType.kPrimInt, is_static_or_direct := true, dex_pc := 0,
    intrinsic := Intrinsics.kMathRoundFloat }

/-- An invoke of `Math.ceil` before any locations are built. -/
def invokeCeil : HInvoke :=
  { locations := none, input_types := [PrimitiveType.kPrimDouble],
    type := PrimitiveType.kPrimDouble, is_static_or_direct := true, dex_pc := 0,
    intrinsic := Intrinsics.kMathCeil }

/-- An invoke of `String.indexOf` before any locations are built. -/
def invokeIndexOf : HInvoke :=
  { locations := none, input_types := [PrimitiveType.kPrimNot, PrimitiveType.kPrimInt],
    type := PrimitiveType.kPrimInt, is_static_or_direct := true, dex_pc := 0,
    intrinsic := Intrinsics.kStringIndexOf }

/-- An invoke that is not static or direct (a virtual call), with the
allocation `locationsCharAt`. -/
def invokeVirtual : HInvoke :=
  { locations := some locationsCharAt,
    input_types := [PrimitiveType.kPrimNot, PrimitiveType.kPrimInt],
    type := PrimitiveType.kPrimChar, is_static_or_direct := false, dex_pc := 0,
    intrinsic := Intrinsics.kStringCharAt }

/-- An allocation for `String.compareTo`: the receiver in RDI, the argument
in RSI, the output in RAX, in call mode. -/
def locationsCompareTo : LocationSummary :=
  { inputs := [Location.RegisterLocation CpuRegister.RDI,
      Location.RegisterLocation CpuRegister.RSI],
    output := Location.RegisterLocation CpuRegister.RAX, temps := [],
    call_kind := CallKind.kCall, intrinsified := true }

/-- An invoke of `String.compareTo` with the allocation `locationsCompareTo`. -/
def invokeCompareTo : HInvoke :=
  { locations := some locationsCompareTo,
    input_types := [PrimitiveType.kPrimNot, PrimitiveType.kPrimNot],
    type := PrimitiveType.kPrimInt, is_static_or_direct := true, dex_pc := 0,
    intrinsic := Intrinsics.kStringCompareTo }

/-- The zero state with the value `v` in RSI. -/
def stateWithRsi (v : Nat) : State := State.zero.setCpu CpuRegister.RSI v

/-- The summary the builder declares for float and double `abs`: the input a
floating register, the output the first input, one floating temp. -/
def locationsAbsDeclared : LocationSummary :=
  { inputs := [Location.RequiresFpuRegister], output := Location.SameAsFirstInput,
    temps := [Location.RequiresFpuRegister], call_kind := CallKind.kNoCall,
    intrinsified := true }

/-- An allocation of the summary the builder declares for the rounds with
SSE4.1: input in XMM0, output in XMM3, the temps in XMM1 and XMM2. -/
def locationsRoundAllocated : LocationSummary :=
  allocated [Location.FpuRegisterLocation XmmRegister.XMM0]
    (Location.FpuRegisterLocation XmmRegister.XMM3)
    [Location.FpuRegisterLocation XmmRegister.XMM1, Location.FpuRegisterLocation XmmRegister.XMM2]

/-- The memory operand of an instruction, if it has one.  The requests made
to the code generator (card mark, calls, parallel move) are not instructions
of the sequence and have none here. -/
def Instr.memoryOperand : Instr → Option Address
  | Instr.movl _ (Operand.mem a) => some a
  | Instr.movq _ (Operand.mem a) => some a
  | Instr.andl _ (Operand.mem a) => some a
  | Instr.andq _ (Operand.mem a) => some a
  | Instr.orl _ (Operand.mem a) => some a
  | Instr.orq _ (Operand.mem a) => some a
  | Instr.addl _ (Operand.mem a) => some a
  | Instr.addq _ (Operand.mem a) => some a
  | Instr.xorl _ (Operand.mem a) => some a
  | Instr.xorq _ (Operand.mem a) => some a
  | Instr.cmpl _ (Operand.mem a) => some a
  | Instr.cmpq _ (Operand.mem a) => some a
  | Instr.movzxw _ a => some a
  | Instr.movsxb _ a => some a
  | Instr.movsxw _ a => some a
  | Instr.movl_store a _ => some a
  | Instr.movq_store a _ => some a
  | Instr.movb_store a _ => some a
  | Instr.movw_store a _ => some a
  | Instr.LockCmpxchgl a _ => some a
  | Instr.LockCmpxchgq a _ => some a
  | _ => none

/-- The width in bits of an unsafe field access or a memory peek or poke of
the given kind. -/
def accessBits : PrimitiveType → Nat
  | PrimitiveType.kPrimByte => 8
  | PrimitiveType.kPrimShort => 16
  | PrimitiveType.kPrimLong => 64
  | _ => 32

/-- The width in bits of the Java value a memory peek returns: a `long` for
the long kind, an `int` otherwise. -/
def resultBits : PrimitiveType → Nat
  | PrimitiveType.kPrimLong => 64
  | _ => 32

/-- An allocation for the inline ceil, floor and rint: input in XMM1, output
in XMM0. -/
def locationsXmm1ToXmm0 : LocationSummary :=
  allocated [Location.FpuRegisterLocation XmmRegister.XMM1]
    (Location.FpuRegisterLocation XmmRegister.XMM0) []

/-- An invoke of `Math.floor` before any locations are built. -/
def invokeFloor : HInvoke :=
  { locations := none, input_types := [PrimitiveType.kPrimDouble],
    type := PrimitiveType.kPrimDouble, is_static_or_direct := true, dex_pc := 0,
    intrinsic := Intrinsics.kMathFloor }

/-- An invoke of `String.compareTo` before any locations are built. -/
def invokeCompareToUnbuilt : HInvoke :=
  { locations := none, input_types := [PrimitiveType.kPrimNot, PrimitiveType.kPrimNot],
    type := PrimitiveType.kPrimInt, is_static_or_direct := true, dex_pc := 0,
    intrinsic := Intrinsics.kStringCompareTo }

/-- A state for the fast path of `String.charAt`: a string at 0x2000 with
the value field (at 0x2008) 0x3000, the count field (at 0x200C) 5 and the
offset field (at 0x2010) 1; the index 2 in RCX; the character 0x0063 at
0x3000 + 12 + 2 * (1 + 2). -/
def charAtFastState : State :=
  ((State.zero.setCpu CpuRegister.RAX 0x2000).setCpu CpuRegister.RCX 2).setMem
    (writeMem (writeMem (writeMem (writeMem (fun _ => 0) 0x2008 0x3000 4) 0x200C 5 4)
      0x2010 1 4) 0x3012 0x63 2)

/-- An allocation for a memory peek: the address and the output in RDI. -/
def locationsPeek : LocationSummary :=
  allocated [Location.RegisterLocation CpuRegister.RDI]
    (Location.RegisterLocation CpuRegister.RDI) []

/-- An allocation for a memory poke: the address in RDI, the value in RSI. -/
def locationsPoke : LocationSummary :=
  allocated [Location.RegisterLocation CpuRegister.RDI,
    Location.RegisterLocation CpuRegister.RSI] Location.Invalid []

/-- A state for a poke: the address 0x1000 in RDI, the value 0x1234ABCD in
RSI. -/
def pokeState : State :=
  (State.zero.setCpu CpuRegister.RDI 0x1000).setCpu CpuRegister.RSI 0x1234ABCD

end x86_64

namespace hiddenapi

/-! ## The hidden-API policy (`runtime/hidden_api.cc`) -/

/-- Modelled from the spec: the enum `hiddenapi::Action` (`hidden_api.h` is
not part of the sources at hand), the four actions the file names. -/
inductive Action
  | kAllow | kAllowButWarn | kAllowButWarnAndToast | kDeny
  deriving DecidableEq, Repr

/-- Modelled from the spec: the enum `hiddenapi::AccessMethod`
(`hidden_api.h` is not part of the sources at hand), the four values the file
names. -/
inductive AccessMethod
  | kNone | kReflection | kJNI | kLinking
  deriving DecidableEq, Repr

/-- A `size_t` difference: unsigned arithmetic modulo `2 ^ 64`. -/
def sizeSub (a b : Nat) : Nat := (a % 2 ^ 64 + (2 ^ 64 - b % 2 ^ 64)) % 2 ^ 64

/-- A `size_t` sum: unsigned arithmetic modulo `2 ^ 64`. -/
def sizeAdd (a b : Nat) : Nat := (a + b) % 2 ^ 64

/-- The terminator of a C string. -/
def NUL : Char := Char.ofNat 0

/-- The C string `std::string::c_str ()` points to, as `strlen`, the
`std::string (const char*)` constructor and `operator<<` read it: the
characters before the first terminator. -/
def c_str (s : List Char) : List Char := s.takeWhile (fun c => c != NUL)

/-- The test `s.compare (pos1, count1, str, pos2, count2) == 0` of
`std::string`: the substring of `s` from `pos1` of at most `count1`
characters equals the substring of `str` from `pos2` of at most `count2`
characters; `none` is the `std::out_of_range` thrown for a position beyond
the end of its string. -/
def compareIsZero (s : List Char) (pos1 count1 : Nat) (str : List Char) (pos2 count2 : Nat) :
    Option Bool :=
  if s.length < pos1 ∨ str.length < pos2 then none
  else some (decide ((s.drop pos1).take count1 = (str.drop pos2).take count2))

namespace detail

/-- The enum `MemberSignature::MemberType`. -/
inductive MemberType
  | kField | kMethod
  deriving DecidableEq, Repr

/-- The data members of `MemberSignature` that the functions of the file
read: the descriptor of the declaring class, the member name, the type
descriptor of a field or the signature of a method, and the member kind. -/
structure MemberSignature where
  class_name_ : List Char
  member_name_ : List Char
  type_signature_ : List Char
  type_ : MemberType
  deriving DecidableEq, Repr

/-- What a call made on a collaborator did, in the order of the calls:
`member->SetAccessFlags` with the whitelist encoding, the warning of
`WarnAboutAccess`, the event written by `LogAccessToEventLog` (with the two
bits of its flags word), and `Runtime::SetPendingHiddenApiWarning`. -/
inductive Effect
  | SetAccessFlagsWhitelist
  | Warning (signature : MemberSignature) (access_method : AccessMethod)
  | EventLog (access_method : AccessMethod) (access_denied member_is_field : Bool)
      (signature : MemberSignature)
  | SetPendingHiddenApiWarning (value : Bool)
  deriving DecidableEq, Repr

namespace MemberSignature

/-- `MemberSignature::GetSignatureParts`: the C strings of the parts, five for
a field and four for a method. -/
def GetSignatureParts (sig : MemberSignature) : List (List Char) :=
  if sig.type_ = MemberType.kField then
    [c_str sig.class_name_, ['-', '>'], c_str sig.member_name_, [':'], c_str sig.type_signature_]
  else
    [c_str sig.class_name_, ['-', '>'], c_str sig.member_name_, c_str sig.type_signature_]

/-- The loop of `MemberSignature::DoesPrefixMatch` over the parts still to be
compared, from the position `pos` reached in the prefix, and the final test
`pos == prefix.length ()`. -/
def DoesPrefixMatchFrom (prefix_ : List Char) : List (List Char) → Nat → Option Bool
  | [], pos => some (decide (pos = prefix_.length))
  | part :: rest, pos =>
      let count := min (sizeSub prefix_.length pos) part.length
      match compareIsZero prefix_ pos count part 0 count with
      | none => none
      | some true => DoesPrefixMatchFrom prefix_ rest (sizeAdd pos count)
      | some false => some false

/-- `MemberSignature::DoesPrefixMatch`. -/
def DoesPrefixMatch (sig : MemberSignature) (prefix_ : List Char) : Option Bool :=
  DoesPrefixMatchFrom prefix_ sig.GetSignatureParts 0

/-- `MemberSignature::IsExempted`. -/
def IsExempted (sig : MemberSignature) : List (List Char) → Option Bool
  | [] => some false
  | exemption :: rest =>
      match sig.DoesPrefixMatch exemption with
      | none => none
      | some true => some true
      | some false => IsExempted sig rest

/-- `MemberSignature::Dump`: the characters written to the stream. -/
def Dump (sig : MemberSignature) : List Char :=
  sig.GetSignatureParts.foldl (fun os part => os ++ part) []

/-- `MemberSignature::WarnAboutAccess`: one warning; printing the access
method `kNone` is the fatal error of `operator<<`. -/
def WarnAboutAccess (sig : MemberSignature) (access_method : AccessMethod) :
    Option (List Effect) :=
  if access_method = AccessMethod.kNone then none
  else some [Effect.Warning sig access_method]

/-- `MemberSignature::LogAccessToEventLog`: nothing for a linking access,
otherwise one event. -/
def LogAccessToEventLog (sig : MemberSignature) (access_method : AccessMethod)
    (action_taken : Action) : List Effect :=
  if access_method = AccessMethod.kLinking then []
  else
    [Effect.EventLog access_method (decide (action_taken = Action.kDeny))
      (decide (sig.type_ = MemberType.kField)) sig]

end MemberSignature

/-- Modelled from the spec: the part of `Runtime` the function reads
(`runtime.h` is not part of the sources at hand): `IsJavaDebuggable`,
`GetHiddenApiExemptions`, `ShouldDedupeHiddenApiWarnings`,
`ShouldAlwaysSetHiddenApiWarningFlag` and `GetHiddenApiEventLogSampleRate`. -/
structure Runtime where
  is_java_debuggable : Bool
  hidden_api_exemptions : List (List Char)
  dedupe_hidden_api_warnings : Bool
  always_set_hidden_api_warning_flag : Bool
  hidden_api_event_log_sample_rate : Nat
  deriving DecidableEq, Repr

/-- The statements of `GetMemberActionImpl` after the exemption check: the
sampled event log (`rand` is the value `std::rand ()` returns), the denial,
and for a warning action the deduplication and the pending-warning flag.
`effects` are the calls made so far. -/
def GetMemberActionImplTail (kIsTargetBuild : Bool) (rand : Nat) (runtime : Runtime)
    (member_signature : MemberSignature) (action : Action) (access_method : AccessMethod)
    (effects : List Effect) : Option (Action × List Effect) :=
  let logged :=
    if kIsTargetBuild then
      (if runtime.hidden_api_event_log_sample_rate % 2 ^ 32 ≠ 0
          ∧ (rand % 2 ^ 32) &&& 0xffff < runtime.hidden_api_event_log_sample_rate % 2 ^ 32 then
        member_signature.LogAccessToEventLog access_method action
      else [])
    else []
  if action = Action.kDeny then some (action, effects ++ logged)
  else if ¬ (action = Action.kAllowButWarn ∨ action = Action.kAllowButWarnAndToast) then none
  else
    let marked :=
      if access_method ≠ AccessMethod.kNone then
        (if runtime.dedupe_hidden_api_warnings then [Effect.SetAccessFlagsWhitelist] else [])
          ++ (if action = Action.kAllowButWarnAndToast
                ∨ runtime.always_set_hidden_api_warning_flag = true then
              [Effect.SetPendingHiddenApiWarning true] else [])
      else []
    some (action, effects ++ logged ++ marked)

/-- `GetMemberActionImpl`, for a member with the signature
`member_signature`: the returned action and the calls made on the member and
the runtime; `none` is a failed `DCHECK` or a fatal error. -/
def GetMemberActionImpl (kIsTargetBuild : Bool) (rand : Nat) (runtime : Runtime)
    (member_signature : MemberSignature) (action : Action) (access_method : AccessMethod) :
    Option (Action × List Effect) :=
  if action = Action.kAllow then none
  else if action = Action.kDeny ∨ runtime.is_java_debuggable = true then
    match member_signature.IsExempted runtime.hidden_api_exemptions with
    | none => none
    | some true =>
        some (Action.kAllow,
          if runtime.dedupe_hidden_api_warnings then [Effect.SetAccessFlagsWhitelist] else [])
    | some false =>
        if access_method ≠ AccessMethod.kNone then
          match member_signature.WarnAboutAccess access_method with
          | none => none
          | some warned =>
              GetMemberActionImplTail kIsTargetBuild rand runtime member_signature action
                access_method warned
        else
          GetMemberActionImplTail kIsTargetBuild rand runtime member_signature action
            access_method []
  else
    GetMemberActionImplTail kIsTargetBuild rand runtime member_signature action access_method []

end detail

/-- A field signature for the examples: `Lfoo/Bar;->baz:I`. -/
def signatureBaz : detail.MemberSignature :=
  { class_name_ := ['L', 'f', 'o', 'o', '/', 'B', 'a', 'r', ';'],
    member_name_ := ['b', 'a', 'z'], type_signature_ := ['I'],
    type_ := detail.MemberType.kField }

/-- A runtime for the examples: not debuggable, exemption list `Lfoo/`. -/
def runtimeFoo : detail.Runtime :=
  { is_java_debuggable := false, hidden_api_exemptions := [['L', 'f', 'o', 'o', '/']],
    dedupe_hidden_api_warnings := true, always_set_hidden_api_warning_flag := false,
    hidden_api_event_log_sample_rate := 0 }

end hiddenapi

namespace x86_64

/-! ## Execution of straight-line code -/

theorem run_straight (prog : List Instr) (h : ∀ i ∈ prog, Instr.isJump i = false) :
    ∀ (n pc : Nat) (s : State), pc + n = prog.length →
      run prog (n + 1) pc s = some ((prog.drop pc).foldl step s) := by
  intro n
  induction n with
  | zero =>
    intro pc s hpc
    have : pc = prog.length := by omega
    subst this
    simp [run]
  | succ n ih =>
    intro pc s hpc
    have hlt : pc < prog.length := by omega
    have hne : pc ≠ prog.length := by omega
    rw [run]
    simp only [hne, if_false]
    have hget : prog.get? pc = some (prog.get ⟨pc, hlt⟩) := List.get?_eq_get hlt
    have hmem : prog.get ⟨pc, hlt⟩ ∈ prog := List.get_mem prog pc hlt
    have hj := h _ hmem
    have hdrop : prog.drop pc = prog.get ⟨pc, hlt⟩ :: prog.drop (pc + 1) :=
      List.drop_eq_getElem_cons hlt
    rw [hget, hdrop, List.foldl_cons]
    generalize prog.get ⟨pc, hlt⟩ = i at hj
    split
    all_goals
      (rename_i heq
       cases heq <;>
         first
         | exact ih (pc + 1) _ (by omega)
         | exact absurd (show true = false from hj) Bool.noConfusion)

/-- Code without jumps runs to its end, and its effect is the composition of
the effects of its instructions. -/
theorem exec_straight (prog : List Instr) (h : ∀ i ∈ prog, Instr.isJump i = false) (s : State) :
    exec prog s = some (prog.foldl step s) := by
  unfold exec
  rw [run_straight prog h prog.length 0 s (by simp)]
  simp

/-! ## Bit-level facts about the instruction semantics -/

theorem eq_of_testBit_lt (n a b : Nat) (ha : a < 2 ^ n) (hb : b < 2 ^ n)
    (h : ∀ i, i < n → a.testBit i = b.testBit i) : a = b := by
  apply Nat.eq_of_testBit_eq
  intro i
  by_cases hi : i < n
  · exact h i hi
  · have hle : 2 ^ n ≤ 2 ^ i := Nat.pow_le_pow_right (by norm_num) (not_lt.mp hi)
    rw [Nat.testBit_lt_two_pow (lt_of_lt_of_le ha hle),
      Nat.testBit_lt_two_pow (lt_of_lt_of_le hb hle)]

theorem testBit_lit (c n : Nat) (hc : c < 2 ^ n) (p : Nat → Bool)
    (h : ∀ i, i < n → c.testBit i = p i) (i : Nat) :
    c.testBit i = (decide (i < n) && p i) := by
  by_cases hi : i < n
  · simp [hi, h i hi]
  · have : c < 2 ^ i := lt_of_lt_of_le hc (Nat.pow_le_pow_right (by norm_num) (not_lt.mp hi))
    simp [Nat.testBit_lt_two_pow this, hi]

theorem testBit_mod32 (x i : Nat) :
    (x % 4294967296).testBit i = (decide (i < 32) && x.testBit i) :=
  Nat.testBit_mod_two_pow x 32 i

theorem testBit_mod64 (x i : Nat) :
    (x % 18446744073709551616).testBit i = (decide (i < 64) && x.testBit i) :=
  Nat.testBit_mod_two_pow x 64 i

theorem testBit_byteAt (x k i : Nat) :
    (byteAt x k).testBit i = (decide (i < 8) && x.testBit (8 * k + i)) := by
  unfold byteAt
  rw [Nat.testBit_mod_two_pow, Nat.testBit_shiftRight]

theorem testBit_bswap32 (x i : Nat) :
    (bswap32 x).testBit i = (decide (i < 32) && x.testBit (8 * (3 - i / 8) + i % 8)) := by
  simp only [bswap32, Nat.testBit_or, Nat.testBit_shiftLeft, testBit_byteAt]
  by_cases hi : i < 32
  · interval_cases i <;>
      simp only [Nat.reduceAdd, Nat.reduceSub, Nat.reduceMul,
        Nat.reduceDiv, Nat.reduceMod, Nat.reduceLT, Nat.reduceLeDiff, Nat.reduceEqDiff,
        Nat.reducePow, decide_True, decide_False, Bool.true_and, Bool.false_and, Bool.and_true,
        Bool.and_false, Bool.or_false, Bool.false_or, Nat.lt_irrefl, Nat.le_refl, Nat.zero_le,
        Nat.sub_zero, Nat.add_zero, Nat.zero_add,
        ge_iff_le, Nat.reduceLTLE, Bool.or_self, Bool.or_false, Bool.false_or, Bool.or_true,
        Bool.true_or]
  · simp [hi]; omega

theorem testBit_bswap64 (x i : Nat) :
    (bswap64 x).testBit i = (decide (i < 64) && x.testBit (8 * (7 - i / 8) + i % 8)) := by
  simp only [bswap64, Nat.testBit_or, Nat.testBit_shiftLeft, testBit_byteAt]
  by_cases hi : i < 64
  · interval_cases i <;>
      simp only [Nat.reduceAdd, Nat.reduceSub, Nat.reduceMul,
        Nat.reduceDiv, Nat.reduceMod, Nat.reduceLT, Nat.reduceLeDiff, Nat.reduceEqDiff,
        Nat.reducePow, decide_True, decide_False, Bool.true_and, Bool.false_and, Bool.and_true,
        Bool.and_false, Bool.or_false, Bool.false_or, Nat.lt_irrefl, Nat.le_refl, Nat.zero_le,
        Nat.sub_zero, Nat.add_zero, Nat.zero_add,
        ge_iff_le, Nat.reduceLTLE, Bool.or_self, Bool.or_false, Bool.false_or, Bool.or_true,
        Bool.true_or]
  · simp [hi]; omega

theorem bswap32_lt (x : Nat) : bswap32 x < 2 ^ 32 := by
  apply Nat.lt_pow_two_of_testBit
  intro i hi
  simp [testBit_bswap32]
  omega

theorem bswap64_lt (x : Nat) : bswap64 x < 2 ^ 64 := by
  apply Nat.lt_pow_two_of_testBit
  intro i hi
  simp [testBit_bswap64]
  omega

theorem testBit_swapRound (w v sh m i : Nat) :
    (swapRound w v sh m).testBit i =
      (decide (i < w) && ((decide (sh + i < w) && v.testBit (sh + i) && m.testBit i)
        || (decide (sh ≤ i) && v.testBit (i - sh) && m.testBit (i - sh)))) := by
  unfold swapRound
  simp only [Nat.testBit_mod_two_pow, Nat.testBit_or, Nat.testBit_and, Nat.testBit_shiftRight,
    Nat.testBit_shiftLeft]
  by_cases h1 : i < w
  · have h4 : i - sh < w := by omega
    by_cases h2 : sh + i < w <;> by_cases h3 : sh ≤ i <;> simp [h1, h2, h3, h4]
  · simp [h1]

theorem testBit_mask1_32 (i : Nat) :
    Nat.testBit 0x55555555 i = (decide (i < 32) && decide (i % 2 = 0)) :=
  testBit_lit _ 32 (by norm_num) (fun i => decide (i % 2 = 0))
    (by intro i hi; interval_cases i <;> rfl) i

theorem testBit_mask2_32 (i : Nat) :
    Nat.testBit 0x33333333 i = (decide (i < 32) && decide (i % 4 < 2)) :=
  testBit_lit _ 32 (by norm_num) (fun i => decide (i % 4 < 2))
    (by intro i hi; interval_cases i <;> rfl) i

theorem testBit_mask4_32 (i : Nat) :
    Nat.testBit 0x0f0f0f0f i = (decide (i < 32) && decide (i % 8 < 4)) :=
  testBit_lit _ 32 (by norm_num) (fun i => decide (i % 8 < 4))
    (by intro i hi; interval_cases i <;> rfl) i

theorem testBit_mask1_64 (i : Nat) :
    Nat.testBit 0x5555555555555555 i = (decide (i < 64) && decide (i % 2 = 0)) :=
  testBit_lit _ 64 (by norm_num) (fun i => decide (i % 2 = 0))
    (by intro i hi; interval_cases i <;> rfl) i

theorem testBit_mask2_64 (i : Nat) :
    Nat.testBit 0x3333333333333333 i = (decide (i < 64) && decide (i % 4 < 2)) :=
  testBit_lit _ 64 (by norm_num) (fun i => decide (i % 4 < 2))
    (by intro i hi; interval_cases i <;> rfl) i

theorem testBit_mask4_64 (i : Nat) :
    Nat.testBit 0x0f0f0f0f0f0f0f0f i = (decide (i < 64) && decide (i % 8 < 4)) :=
  testBit_lit _ 64 (by norm_num) (fun i => decide (i % 8 < 4))
    (by intro i hi; interval_cases i <;> rfl) i

/-! ## Bit reversal -/

theorem testBit_reverse32 (x i : Nat) (hi : i < 32) :
    (reverse32 x).testBit i = x.testBit (31 - i) := by
  unfold reverse32
  interval_cases i <;>
    simp only [testBit_swapRound, testBit_bswap32, testBit_mask1_32, testBit_mask2_32,
      testBit_mask4_32, testBit_mod32, Nat.reduceAdd, Nat.reduceSub, Nat.reduceMul,
      Nat.reduceDiv, Nat.reduceMod, Nat.reduceLT, Nat.reduceLeDiff, Nat.reduceEqDiff,
      Nat.reducePow, decide_True, decide_False, Bool.true_and, Bool.false_and, Bool.and_true,
      Bool.and_false, Bool.or_false, Bool.false_or, Nat.lt_irrefl, Nat.le_refl, Nat.zero_le,
      Nat.sub_zero, Nat.add_zero, Nat.zero_add]

theorem testBit_reverse64 (x i : Nat) (hi : i < 64) :
    (reverse64 x).testBit i = x.testBit (63 - i) := by
  unfold reverse64
  interval_cases i <;>
    simp only [testBit_swapRound, testBit_bswap64, testBit_mask1_64, testBit_mask2_64,
      testBit_mask4_64, testBit_mod64, Nat.reduceAdd, Nat.reduceSub, Nat.reduceMul,
      Nat.reduceDiv, Nat.reduceMod, Nat.reduceLT, Nat.reduceLeDiff, Nat.reduceEqDiff,
      Nat.reducePow, decide_True, decide_False, Bool.true_and, Bool.false_and, Bool.and_true,
      Bool.and_false, Bool.or_false, Bool.false_or, Nat.lt_irrefl, Nat.le_refl, Nat.zero_le,
      Nat.sub_zero, Nat.add_zero, Nat.zero_add]

theorem reverse32_lt (x : Nat) : reverse32 x < 2 ^ 32 := by
  unfold reverse32 swapRound
  exact Nat.mod_lt _ (by norm_num)

theorem reverse64_lt (x : Nat) : reverse64 x < 2 ^ 64 := by
  unfold reverse64 swapRound
  exact Nat.mod_lt _ (by norm_num)

theorem reverse32_reverse32 (x : Nat) (hx : x < 2 ^ 32) : reverse32 (reverse32 x) = x := by
  apply eq_of_testBit_lt 32 _ _ (reverse32_lt _) hx
  intro i hi
  rw [testBit_reverse32 _ _ hi, testBit_reverse32 _ _ (by omega)]
  congr 1; omega

theorem reverse64_reverse64 (x : Nat) (hx : x < 2 ^ 64) : reverse64 (reverse64 x) = x := by
  apply eq_of_testBit_lt 64 _ _ (reverse64_lt _) hx
  intro i hi
  rw [testBit_reverse64 _ _ hi, testBit_reverse64 _ _ (by omega)]
  congr 1; omega

theorem exec_IntegerReverse (reg temp : CpuRegister) (hne : reg ≠ temp) (s : State) :
    ∃ s', exec ([Instr.bswapl reg] ++ SwapBits reg temp 1 0x55555555
        ++ SwapBits reg temp 2 0x33333333 ++ SwapBits reg temp 4 0x0f0f0f0f) s = some s'
      ∧ s'.cpu reg = reverse32 (s.cpu reg) := by
  rw [exec_straight _ (by simp [SwapBits, Instr.isJump])]
  refine ⟨_, rfl, ?_⟩
  simp [SwapBits, step, shiftOp, logicOp, shiftCount, immBits, Operand.value, State.setCpu,
    State.setFlags, hne, Ne.symm hne, reverse32, swapRound]

theorem exec_LongReverse (reg temp1 temp2 : CpuRegister) (h1 : reg ≠ temp1) (h2 : reg ≠ temp2)
    (h3 : temp1 ≠ temp2) (s : State) :
    ∃ s', exec ([Instr.bswapq reg] ++ SwapBits64 reg temp1 temp2 1 0x5555555555555555
        ++ SwapBits64 reg temp1 temp2 2 0x3333333333333333
        ++ SwapBits64 reg temp1 temp2 4 0x0f0f0f0f0f0f0f0f) s = some s'
      ∧ s'.cpu reg = reverse64 (s.cpu reg) := by
  rw [exec_straight _ (by simp [SwapBits64, Instr.isJump])]
  refine ⟨_, rfl, ?_⟩
  simp [SwapBits64, step, shiftOp, logicOp, shiftCount, immBits, Operand.value, State.setCpu,
    State.setFlags, h1, Ne.symm h1, h2, Ne.symm h2, h3, Ne.symm h3, reverse64, swapRound]

theorem VisitIntegerReverse_eq (locations : LocationSummary) (reg temp : CpuRegister)
    (hin : locations.InAt 0 = Location.RegisterLocation reg)
    (htemp : locations.GetTemp 0 = Location.RegisterLocation temp) :
    VisitIntegerReverse locations = some ([Instr.bswapl reg] ++ SwapBits reg temp 1 0x55555555
        ++ SwapBits reg temp 2 0x33333333 ++ SwapBits reg temp 4 0x0f0f0f0f) := by
  simp [VisitIntegerReverse, hin, htemp, Location.AsRegister]

theorem VisitLongReverse_eq (locations : LocationSummary) (reg temp1 temp2 : CpuRegister)
    (hin : locations.InAt 0 = Location.RegisterLocation reg)
    (htemp1 : locations.GetTemp 0 = Location.RegisterLocation temp1)
    (htemp2 : locations.GetTemp 1 = Location.RegisterLocation temp2) :
    VisitLongReverse locations = some ([Instr.bswapq reg]
        ++ SwapBits64 reg temp1 temp2 1 0x5555555555555555
        ++ SwapBits64 reg temp1 temp2 2 0x3333333333333333
        ++ SwapBits64 reg temp1 temp2 4 0x0f0f0f0f0f0f0f0f) := by
  simp [VisitLongReverse, hin, htemp1, htemp2, Location.AsRegister]

/-- C1: on a register holding `x`, the sequence emitted by
`VisitIntegerReverse` (bswapl, then `SwapBits` with shift 1, 2, 4 and masks
0x55555555, 0x33333333, 0x0f0f0f0f) runs to its end and leaves in that
register a 32-bit value whose bit `i` is bit `31 - i` of `x`, for every `i`
in 0..31; for `x = 1` the register ends holding 0x80000000.  (The input and
the scratch register are distinct registers, as the allocator guarantees.) -/
theorem C1_VisitIntegerReverse_reverses_bits (locations : LocationSummary)
    (reg temp : CpuRegister)
    (hin : locations.InAt 0 = Location.RegisterLocation reg)
    (htemp : locations.GetTemp 0 = Location.RegisterLocation temp)
    (hne : reg ≠ temp) (s : State) (x : Nat) (hreg : s.cpu reg = x) :
    ∃ code s', VisitIntegerReverse locations = some code ∧ exec code s = some s'
      ∧ s'.cpu reg < 2 ^ 32
      ∧ (∀ i, i < 32 → (s'.cpu reg).testBit i = x.testBit (31 - i))
      ∧ (x = 1 → s'.cpu reg = 0x80000000) := by
  obtain ⟨s', hexec, hval⟩ := exec_IntegerReverse reg temp hne s
  refine ⟨_, s', VisitIntegerReverse_eq locations reg temp hin htemp, hexec, ?_, ?_, ?_⟩
  · rw [hval]; exact reverse32_lt _
  · intro i hi
    rw [hval, hreg]; exact testBit_reverse32 x i hi
  · intro h1
    rw [hval, hreg, h1]; decide

/-- Witness of C1: with the value in RAX and RCX as scratch, the input 1
ends as 0x80000000. -/
theorem C1_witness :
    CpuRegister.RAX ≠ CpuRegister.RCX ∧
    ∃ code s',
      VisitIntegerReverse locationsRaxRcx = some code
      ∧ exec code (State.zero.setCpu CpuRegister.RAX 1) = some s'
      ∧ s'.cpu CpuRegister.RAX < 2 ^ 32
      ∧ (∀ i, i < 32 → (s'.cpu CpuRegister.RAX).testBit i = Nat.testBit 1 (31 - i))
      ∧ ((1 : Nat) = 1 → s'.cpu CpuRegister.RAX = 0x80000000) :=
  ⟨by decide,
   C1_VisitIntegerReverse_reverses_bits locationsRaxRcx CpuRegister.RAX CpuRegister.RCX rfl rfl
     (by decide) (State.zero.setCpu CpuRegister.RAX 1) 1 (by simp [State.setCpu])⟩

/-- C2: on a register holding `x`, the sequence emitted by
`VisitLongReverse` (bswapq, then `SwapBits64` with shift 1, 2, 4 and the
64-bit masks 0x55.., 0x33.., 0x0f..) runs to its end and leaves in that
register a 64-bit value whose bit `i` is bit `63 - i` of `x`; for `x = 1`
the register ends holding 0x8000000000000000. -/
theorem C2_VisitLongReverse_reverses_bits (locations : LocationSummary)
    (reg temp1 temp2 : CpuRegister)
    (hin : locations.InAt 0 = Location.RegisterLocation reg)
    (htemp1 : locations.GetTemp 0 = Location.RegisterLocation temp1)
    (htemp2 : locations.GetTemp 1 = Location.RegisterLocation temp2)
    (h1 : reg ≠ temp1) (h2 : reg ≠ temp2) (h3 : temp1 ≠ temp2)
    (s : State) (x : Nat) (hreg : s.cpu reg = x) :
    ∃ code s', VisitLongReverse locations = some code ∧ exec code s = some s'
      ∧ s'.cpu reg < 2 ^ 64
      ∧ (∀ i, i < 64 → (s'.cpu reg).testBit i = x.testBit (63 - i))
      ∧ (x = 1 → s'.cpu reg = 0x8000000000000000) := by
  obtain ⟨s', hexec, hval⟩ := exec_LongReverse reg temp1 temp2 h1 h2 h3 s
  refine ⟨_, s', VisitLongReverse_eq locations reg temp1 temp2 hin htemp1 htemp2, hexec,
    ?_, ?_, ?_⟩
  · rw [hval]; exact reverse64_lt _
  · intro i hi
    rw [hval, hreg]; exact testBit_reverse64 x i hi
  · intro hx1
    rw [hval, hreg, hx1]; decide

/-- Witness of C2: with the value in RAX and RCX, RDX as scratch, the input 1
ends as 0x8000000000000000. -/
theorem C2_witness :
    (CpuRegister.RAX ≠ CpuRegister.RCX ∧ CpuRegister.RAX ≠ CpuRegister.RDX
      ∧ CpuRegister.RCX ≠ CpuRegister.RDX) ∧
    ∃ code s',
      VisitLongReverse locationsRaxRcxRdx = some code
      ∧ exec code (State.zero.setCpu CpuRegister.RAX 1) = some s'
      ∧ s'.cpu CpuRegister.RAX < 2 ^ 64
      ∧ (∀ i, i < 64 → (s'.cpu CpuRegister.RAX).testBit i = Nat.testBit 1 (63 - i))
      ∧ ((1 : Nat) = 1 → s'.cpu CpuRegister.RAX = 0x8000000000000000) :=
  ⟨by decide,
   C2_VisitLongReverse_reverses_bits locationsRaxRcxRdx CpuRegister.RAX CpuRegister.RCX
     CpuRegister.RDX rfl rfl rfl (by decide) (by decide) (by decide)
     (State.zero.setCpu CpuRegister.RAX 1) 1 (by simp [State.setCpu])⟩

/-- C3: the bit-reversal sequences are involutions: running the
`VisitIntegerReverse` sequence twice on a register holding a 32-bit `x`
leaves `x` in it, and running the `VisitLongReverse` sequence twice on a
register holding a 64-bit `y` leaves `y` in it. -/
theorem C3_reverse_twice_is_identity (l32 l64 : LocationSummary)
    (reg temp treg temp1 temp2 : CpuRegister)
    (hin : l32.InAt 0 = Location.RegisterLocation reg)
    (htemp : l32.GetTemp 0 = Location.RegisterLocation temp)
    (hne : reg ≠ temp)
    (hin64 : l64.InAt 0 = Location.RegisterLocation treg)
    (htemp1 : l64.GetTemp 0 = Location.RegisterLocation temp1)
    (htemp2 : l64.GetTemp 1 = Location.RegisterLocation temp2)
    (h1 : treg ≠ temp1) (h2 : treg ≠ temp2) (h3 : temp1 ≠ temp2)
    (s t : State) (x y : Nat) (hx : x < 2 ^ 32) (hy : y < 2 ^ 64)
    (hs : s.cpu reg = x) (ht : t.cpu treg = y) :
    (∃ code s1 s2, VisitIntegerReverse l32 = some code ∧ exec code s = some s1
        ∧ exec code s1 = some s2 ∧ s2.cpu reg = x)
    ∧ (∃ code t1 t2, VisitLongReverse l64 = some code ∧ exec code t = some t1
        ∧ exec code t1 = some t2 ∧ t2.cpu treg = y) := by
  constructor
  · obtain ⟨s1, he1, hv1⟩ := exec_IntegerReverse reg temp hne s
    obtain ⟨s2, he2, hv2⟩ := exec_IntegerReverse reg temp hne s1
    refine ⟨_, s1, s2, VisitIntegerReverse_eq l32 reg temp hin htemp, he1, he2, ?_⟩
    rw [hv2, hv1, hs]; exact reverse32_reverse32 x hx
  · obtain ⟨t1, he1, hv1⟩ := exec_LongReverse treg temp1 temp2 h1 h2 h3 t
    obtain ⟨t2, he2, hv2⟩ := exec_LongReverse treg temp1 temp2 h1 h2 h3 t1
    refine ⟨_, t1, t2, VisitLongReverse_eq l64 treg temp1 temp2 hin64 htemp1 htemp2, he1, he2,
      ?_⟩
    rw [hv2, hv1, ht]; exact reverse64_reverse64 y hy

/-- Witness of C3 at the value 0x12345678, at both widths. -/
theorem C3_witness :
    ((0x12345678 : Nat) < 2 ^ 32 ∧ (0x12345678 : Nat) < 2 ^ 64) ∧
    (∃ code s1 s2,
        VisitIntegerReverse locationsRaxRcx = some code
        ∧ exec code (State.zero.setCpu CpuRegister.RAX 0x12345678) = some s1
        ∧ exec code s1 = some s2 ∧ s2.cpu CpuRegister.RAX = 0x12345678)
    ∧ (∃ code t1 t2,
        VisitLongReverse locationsRaxRcxRdx = some code
        ∧ exec code (State.zero.setCpu CpuRegister.RAX 0x12345678) = some t1
        ∧ exec code t1 = some t2 ∧ t2.cpu CpuRegister.RAX = 0x12345678) :=
  ⟨⟨by norm_num, by norm_num⟩,
   C3_reverse_twice_is_identity locationsRaxRcx locationsRaxRcxRdx CpuRegister.RAX
     CpuRegister.RCX CpuRegister.RAX CpuRegister.RCX CpuRegister.RDX rfl rfl (by decide) rfl rfl rfl (by decide) (by decide)
     (by decide) (State.zero.setCpu CpuRegister.RAX 0x12345678)
     (State.zero.setCpu CpuRegister.RAX 0x12345678) 0x12345678 0x12345678 (by norm_num)
     (by norm_num) (by simp [State.setCpu]) (by simp [State.setCpu])⟩

/-! ## Byte reversal, absolute value, integer and floating-point min/max -/


theorem testBit_top32 (a : Nat) (ha : a < 2 ^ 32) : a.testBit 31 = decide (2 ^ 31 ≤ a) := by
  rw [Nat.testBit_to_div_mod]
  congr 1
  apply propext
  constructor <;> intro h <;> omega

theorem testBit_top64 (a : Nat) (ha : a < 2 ^ 64) : a.testBit 63 = decide (2 ^ 63 ≤ a) := by
  rw [Nat.testBit_to_div_mod]
  congr 1
  apply propext
  constructor <;> intro h <;> omega

theorem toSigned32 (a : Nat) (ha : a < 2 ^ 32) :
    toSigned 32 a = if a < 2 ^ 31 then (a : Int) else (a : Int) - 2 ^ 32 := by
  unfold toSigned
  rw [Nat.mod_eq_of_lt ha]

theorem toSigned64 (a : Nat) (ha : a < 2 ^ 64) :
    toSigned 64 a = if a < 2 ^ 63 then (a : Int) else (a : Int) - 2 ^ 64 := by
  unfold toSigned
  rw [Nat.mod_eq_of_lt ha]

theorem subFlags32_signed (a b : Nat) (ha : a < 2 ^ 32) (hb : b < 2 ^ 32) :
    Condition.kGreater.holds (subFlags 32 a b) = decide (toSigned 32 b < toSigned 32 a)
    ∧ Condition.kLess.holds (subFlags 32 a b) = decide (toSigned 32 a < toSigned 32 b) := by
  have hr : (a + 2 ^ 32 - b) % 2 ^ 32 < 2 ^ 32 := Nat.mod_lt _ (by norm_num)
  simp only [Condition.holds, subFlags, show 32 - 1 = 31 from rfl, testBit_top32 a ha,
    testBit_top32 b hb, testBit_top32 _ hr, toSigned32 a ha, toSigned32 b hb]
  have e1 : (2 : Nat) ^ 32 = 4294967296 := by norm_num
  have e2 : (2 : Nat) ^ 31 = 2147483648 := by norm_num
  have e3 : (2 : Int) ^ 32 = 4294967296 := by norm_num
  simp only [e1, e2, e3] at ha hb hr ⊢
  have hre : (b ≤ a ∧ (a + 4294967296 - b) % 4294967296 = a - b)
      ∨ (a < b ∧ (a + 4294967296 - b) % 4294967296 = a + 4294967296 - b) := by omega
  generalize (a + 4294967296 - b) % 4294967296 = r at hr hre
  by_cases h1 : 2147483648 ≤ a <;> by_cases h2 : 2147483648 ≤ b <;> by_cases h3 : 2147483648 ≤ r <;>
    by_cases h4 : r = 0 <;>
    simp [h1, h2, h3, h4] <;> omega

theorem subFlags64_signed (a b : Nat) (ha : a < 2 ^ 64) (hb : b < 2 ^ 64) :
    Condition.kGreater.holds (subFlags 64 a b) = decide (toSigned 64 b < toSigned 64 a)
    ∧ Condition.kLess.holds (subFlags 64 a b) = decide (toSigned 64 a < toSigned 64 b) := by
  have hr : (a + 2 ^ 64 - b) % 2 ^ 64 < 2 ^ 64 := Nat.mod_lt _ (by norm_num)
  simp only [Condition.holds, subFlags, show 64 - 1 = 63 from rfl, testBit_top64 a ha,
    testBit_top64 b hb, testBit_top64 _ hr, toSigned64 a ha, toSigned64 b hb]
  have e1 : (2 : Nat) ^ 64 = 18446744073709551616 := by norm_num
  have e2 : (2 : Nat) ^ 63 = 9223372036854775808 := by norm_num
  have e3 : (2 : Int) ^ 64 = 18446744073709551616 := by norm_num
  simp only [e1, e2, e3] at ha hb hr ⊢
  have hre : (b ≤ a ∧ (a + 18446744073709551616 - b) % 18446744073709551616 = a - b)
      ∨ (a < b ∧ (a + 18446744073709551616 - b) % 18446744073709551616 = a + 18446744073709551616 - b) := by omega
  generalize (a + 18446744073709551616 - b) % 18446744073709551616 = r at hr hre
  by_cases h1 : 9223372036854775808 ≤ a <;> by_cases h2 : 9223372036854775808 ≤ b <;> by_cases h3 : 9223372036854775808 ≤ r <;>
    by_cases h4 : r = 0 <;>
    simp [h1, h2, h3, h4] <;> omega

theorem byteAt_lt (x k : Nat) : byteAt x k < 2 ^ 8 := Nat.mod_lt _ (by norm_num)

theorem byteAt_bswap32 (x k : Nat) (hk : k < 4) : byteAt (bswap32 x) k = byteAt x (3 - k) := by
  apply eq_of_testBit_lt 8 (byteAt (bswap32 x) k) (byteAt x (3 - k)) (byteAt_lt _ _) (byteAt_lt _ _)
  intro i hi
  rw [testBit_byteAt, testBit_byteAt, testBit_bswap32]
  have h1 : (8 * k + i) / 8 = k := by omega
  have h2 : (8 * k + i) % 8 = i := by omega
  have h3 : 8 * k + i < 32 := by omega
  simp [h1, h2, h3, hi]

theorem byteAt_bswap64 (x k : Nat) (hk : k < 8) : byteAt (bswap64 x) k = byteAt x (7 - k) := by
  apply eq_of_testBit_lt 8 (byteAt (bswap64 x) k) (byteAt x (7 - k)) (byteAt_lt _ _) (byteAt_lt _ _)
  intro i hi
  rw [testBit_byteAt, testBit_byteAt, testBit_bswap64]
  have h1 : (8 * k + i) / 8 = k := by omega
  have h2 : (8 * k + i) % 8 = i := by omega
  have h3 : 8 * k + i < 64 := by omega
  simp [h1, h2, h3, hi]

theorem bswap32_bswap32 (x : Nat) (hx : x < 2 ^ 32) : bswap32 (bswap32 x) = x := by
  apply eq_of_testBit_lt 32 _ _ (bswap32_lt _) hx
  intro i hi
  rw [testBit_bswap32, testBit_bswap32]
  have h1 : (8 * (3 - i / 8) + i % 8) / 8 = 3 - i / 8 := by omega
  have h2 : (8 * (3 - i / 8) + i % 8) % 8 = i % 8 := by omega
  have h3 : 8 * (3 - i / 8) + i % 8 < 32 := by omega
  have h4 : 8 * (3 - (3 - i / 8)) + i % 8 = i := by omega
  simp [h1, h2, h3, h4, hi]

theorem bswap64_bswap64 (x : Nat) (hx : x < 2 ^ 64) : bswap64 (bswap64 x) = x := by
  apply eq_of_testBit_lt 64 _ _ (bswap64_lt _) hx
  intro i hi
  rw [testBit_bswap64, testBit_bswap64]
  have h1 : (8 * (7 - i / 8) + i % 8) / 8 = 7 - i / 8 := by omega
  have h2 : (8 * (7 - i / 8) + i % 8) % 8 = i % 8 := by omega
  have h3 : 8 * (7 - i / 8) + i % 8 < 64 := by omega
  have h4 : 8 * (7 - (7 - i / 8)) + i % 8 = i := by omega
  simp [h1, h2, h3, h4, hi]

theorem shiftLeft_or_eq_add (a b n : Nat) (hb : b < 2 ^ n) : a <<< n ||| b = a * 2 ^ n + b := by
  rw [Nat.shiftLeft_eq, Nat.mul_comm a, Nat.mul_add_lt_is_or hb]

theorem bswap32_eq_sum (x : Nat) :
    bswap32 x = byteAt x 0 * 2 ^ 24 + byteAt x 1 * 2 ^ 16 + byteAt x 2 * 2 ^ 8 + byteAt x 3 := by
  have h0 := byteAt_lt x 0
  have h1 := byteAt_lt x 1
  have h2 := byteAt_lt x 2
  have h3 := byteAt_lt x 3
  unfold bswap32
  rw [Nat.or_assoc, Nat.or_assoc]
  rw [shiftLeft_or_eq_add (byteAt x 2) (byteAt x 3) 8 h3]
  rw [shiftLeft_or_eq_add (byteAt x 1) _ 16 (by norm_num at *; omega)]
  rw [shiftLeft_or_eq_add (byteAt x 0) _ 24 (by norm_num at *; omega)]
  omega

theorem xor_allOnes (w y : Nat) (hy : y < 2 ^ w) : y ^^^ (2 ^ w - 1) = 2 ^ w - 1 - y := by
  have hlt : 2 ^ w - 1 - y < 2 ^ w := by omega
  apply eq_of_testBit_lt w _ _ (Nat.xor_lt_two_pow hy (by omega)) hlt
  intro i hi
  have : 2 ^ w - 1 - y = 2 ^ w - (y + 1) := by omega
  rw [this, Nat.testBit_two_pow_sub_succ hy, Nat.testBit_xor, Nat.testBit_two_pow_sub_one]
  simp [hi]

theorem byteAt_mod32 (x k : Nat) (hk : k < 4) : byteAt (x % 2 ^ 32) k = byteAt x k := by
  apply eq_of_testBit_lt 8 (byteAt (x % 2 ^ 32) k) (byteAt x k) (byteAt_lt _ _) (byteAt_lt _ _)
  intro i hi
  rw [testBit_byteAt, testBit_byteAt, Nat.testBit_mod_two_pow]
  have : 8 * k + i < 32 := by omega
  simp [this]

theorem byteAt_mod16 (x k : Nat) (hk : k < 2) : byteAt (x % 2 ^ 16) k = byteAt x k := by
  apply eq_of_testBit_lt 8 (byteAt (x % 2 ^ 16) k) (byteAt x k) (byteAt_lt _ _) (byteAt_lt _ _)
  intro i hi
  rw [testBit_byteAt, testBit_byteAt, Nat.testBit_mod_two_pow]
  have : 8 * k + i < 16 := by omega
  simp [this]

theorem sar16_bswap32 (x : Nat) :
    sar 32 (bswap32 (x % 2 ^ 32)) 16 % 2 ^ 32
      = signExtend 16 32 (byteAt x 0 * 2 ^ 8 + byteAt x 1) := by
  rw [bswap32_eq_sum, byteAt_mod32 x 0 (by norm_num), byteAt_mod32 x 1 (by norm_num),
    byteAt_mod32 x 2 (by norm_num), byteAt_mod32 x 3 (by norm_num)]
  have h0 := byteAt_lt x 0
  have h1 := byteAt_lt x 1
  have h2 := byteAt_lt x 2
  have h3 := byteAt_lt x 3
  generalize byteAt x 0 = b0 at *
  generalize byteAt x 1 = b1 at *
  generalize byteAt x 2 = b2 at *
  generalize byteAt x 3 = b3 at *
  simp only [sar, signExtend]
  norm_num at *
  split_ifs <;> omega

theorem bswap32_mod (x : Nat) : bswap32 x % 4294967296 = bswap32 x :=
  Nat.mod_eq_of_lt (bswap32_lt x)

theorem bswap64_mod (x : Nat) : bswap64 x % 18446744073709551616 = bswap64 x :=
  Nat.mod_eq_of_lt (bswap64_lt x)

theorem exec_ReverseBytesShort (out : CpuRegister) (s : State) :
    ∃ s', exec [Instr.bswapl out, Instr.sarl out 16] s = some s'
      ∧ s'.cpu out = signExtend 16 32 (byteAt (s.cpu out) 0 * 2 ^ 8 + byteAt (s.cpu out) 1) := by
  rw [exec_straight _ (by simp [Instr.isJump])]
  refine ⟨_, rfl, ?_⟩
  rw [← sar16_bswap32]
  simp [step, shiftOp, shiftCount, immBits, State.setCpu, State.setFlags, bswap32_mod]

theorem exec_bswapl (out : CpuRegister) (s : State) :
    ∃ s', exec [Instr.bswapl out] s = some s' ∧ s'.cpu out = bswap32 (s.cpu out % 2 ^ 32) := by
  rw [exec_straight _ (by simp [Instr.isJump])]
  exact ⟨_, rfl, by simp [step, State.setCpu]⟩

theorem exec_bswapq (out : CpuRegister) (s : State) :
    ∃ s', exec [Instr.bswapq out] s = some s' ∧ s'.cpu out = bswap64 (s.cpu out % 2 ^ 64) := by
  rw [exec_straight _ (by simp [Instr.isJump])]
  exact ⟨_, rfl, by simp [step, State.setCpu]⟩

/-- C4: for the 32-bit and the 64-bit byte-order reversal `GenReverseBytes`
emits exactly one instruction, `bswapl out` for `kPrimInt` and `bswapq out`
for `kPrimLong`; executed on a register holding `x`, byte `k` of the result
is byte `n - 1 - k` of `x` (`n` = 4 or 8), 0x12345678 becomes 0x78563412,
and executing the sequence a second time gives `x` back. -/
theorem C4_GenReverseBytes_int_long (locations : LocationSummary) (out : CpuRegister)
    (hout : locations.Out = Location.RegisterLocation out)
    (s t : State) (x y : Nat) (hx : x < 2 ^ 32) (hy : y < 2 ^ 64)
    (hs : s.cpu out = x) (ht : t.cpu out = y) :
    (GenReverseBytes locations PrimitiveType.kPrimInt = some [Instr.bswapl out]
      ∧ ∃ s1 s2, exec [Instr.bswapl out] s = some s1
        ∧ (∀ k, k < 4 → byteAt (s1.cpu out) k = byteAt x (3 - k))
        ∧ (x = 0x12345678 → s1.cpu out = 0x78563412)
        ∧ exec [Instr.bswapl out] s1 = some s2 ∧ s2.cpu out = x)
    ∧ (GenReverseBytes locations PrimitiveType.kPrimLong = some [Instr.bswapq out]
      ∧ ∃ t1 t2, exec [Instr.bswapq out] t = some t1
        ∧ (∀ k, k < 8 → byteAt (t1.cpu out) k = byteAt y (7 - k))
        ∧ exec [Instr.bswapq out] t1 = some t2 ∧ t2.cpu out = y) := by
  refine ⟨⟨by simp [GenReverseBytes, hout, Location.AsRegister], ?_⟩,
    ⟨by simp [GenReverseBytes, hout, Location.AsRegister], ?_⟩⟩
  · obtain ⟨s1, he1, hv1⟩ := exec_bswapl out s
    obtain ⟨s2, he2, hv2⟩ := exec_bswapl out s1
    rw [hs, Nat.mod_eq_of_lt hx] at hv1
    refine ⟨s1, s2, he1, ?_, ?_, he2, ?_⟩
    · intro k hk; rw [hv1]; exact byteAt_bswap32 x k hk
    · intro h; rw [hv1, h]; decide
    · rw [hv2, hv1, Nat.mod_eq_of_lt (bswap32_lt x)]; exact bswap32_bswap32 x hx
  · obtain ⟨t1, he1, hv1⟩ := exec_bswapq out t
    obtain ⟨t2, he2, hv2⟩ := exec_bswapq out t1
    rw [ht, Nat.mod_eq_of_lt hy] at hv1
    refine ⟨t1, t2, he1, ?_, he2, ?_⟩
    · intro k hk; rw [hv1]; exact byteAt_bswap64 y k hk
    · rw [hv2, hv1, Nat.mod_eq_of_lt (bswap64_lt y)]; exact bswap64_bswap64 y hy

theorem toSigned_signExtend16 (v : Nat) :
    toSigned 32 (signExtend 16 32 v) = toSigned 16 v := by
  unfold toSigned signExtend
  norm_num at *
  split_ifs <;> omega

/-- C5: for `kPrimShort`, `GenReverseBytes` emits `bswapl out; sarl out, 16`;
on a register holding `x` the result is the sign extension to 32 bits of the
16-bit value whose high byte is bits 0..7 of `x` and whose low byte is bits
8..15 of `x`, and any other register content with the same low 16 bits gives
the same result. -/
theorem C5_ReverseBytesShort (locations : LocationSummary) (out : CpuRegister)
    (hout : locations.Out = Location.RegisterLocation out)
    (s : State) (x : Nat) (hs : s.cpu out = x) :
    ∃ s', GenReverseBytes locations PrimitiveType.kPrimShort
          = some [Instr.bswapl out, Instr.sarl out 16]
      ∧ exec [Instr.bswapl out, Instr.sarl out 16] s = some s'
      ∧ s'.cpu out = signExtend 16 32 (byteAt x 0 * 2 ^ 8 + byteAt x 1)
      ∧ toSigned 32 (s'.cpu out) = toSigned 16 (byteAt x 0 * 2 ^ 8 + byteAt x 1)
      ∧ ∀ t : State, t.cpu out % 2 ^ 16 = x % 2 ^ 16 →
          ∃ t', exec [Instr.bswapl out, Instr.sarl out 16] t = some t'
            ∧ t'.cpu out = s'.cpu out := by
  obtain ⟨s', he, hv⟩ := exec_ReverseBytesShort out s
  rw [hs] at hv
  refine ⟨s', by simp [GenReverseBytes, hout, Location.AsRegister], he, hv, ?_, ?_⟩
  · rw [hv]
    exact toSigned_signExtend16 _
  · intro t ht
    obtain ⟨t', he', hv'⟩ := exec_ReverseBytesShort out t
    refine ⟨t', he', ?_⟩
    rw [hv', hv, ← byteAt_mod16 (t.cpu out) 0 (by norm_num),
      ← byteAt_mod16 (t.cpu out) 1 (by norm_num),
      ht, byteAt_mod16 x 0 (by norm_num), byteAt_mod16 x 1 (by norm_num)]

theorem sar_sign32 (x : Nat) (hx : x < 2 ^ 32) :
    sar 32 x 31 = if x < 2 ^ 31 then 0 else 2 ^ 32 - 1 := by
  unfold sar
  norm_num at *
  split_ifs <;> omega

theorem sar_sign64 (x : Nat) (hx : x < 2 ^ 64) :
    sar 64 x 63 = if x < 2 ^ 63 then 0 else 2 ^ 64 - 1 := by
  unfold sar
  norm_num at *
  split_ifs <;> omega

theorem abs_value32 (x : Nat) (hx : x < 2 ^ 32) :
    (((x + sar 32 x 31 % 2 ^ 32) % 2 ^ 32) ^^^ (sar 32 x 31 % 2 ^ 32)) % 2 ^ 32
      = if x < 2 ^ 31 then x else 2 ^ 32 - x := by
  rw [sar_sign32 x hx]
  by_cases h : x < 2 ^ 31
  · simp only [h, if_true]
    norm_num at *
    omega
  · simp only [h, if_false]
    have h1 : (x + (2 ^ 32 - 1) % 2 ^ 32) % 2 ^ 32 = x - 1 := by norm_num at *; omega
    have h2 : (2 ^ 32 - 1) % 2 ^ 32 = 2 ^ 32 - 1 := by norm_num
    rw [h1, h2, xor_allOnes 32 (x - 1) (by omega)]
    norm_num at *
    omega

theorem abs_value64 (x : Nat) (hx : x < 2 ^ 64) :
    (((x + sar 64 x 63 % 2 ^ 64) % 2 ^ 64) ^^^ (sar 64 x 63 % 2 ^ 64)) % 2 ^ 64
      = if x < 2 ^ 63 then x else 2 ^ 64 - x := by
  rw [sar_sign64 x hx]
  by_cases h : x < 2 ^ 63
  · simp only [h, if_true]
    norm_num at *
    omega
  · simp only [h, if_false]
    have h1 : (x + (2 ^ 64 - 1) % 2 ^ 64) % 2 ^ 64 = x - 1 := by norm_num at *; omega
    have h2 : (2 ^ 64 - 1) % 2 ^ 64 = 2 ^ 64 - 1 := by norm_num
    rw [h1, h2, xor_allOnes 64 (x - 1) (by omega)]
    norm_num at *
    omega

theorem exec_AbsInteger32 (out mask : CpuRegister) (hne : out ≠ mask) (s : State)
    (hx : s.cpu out < 2 ^ 32) :
    ∃ s', exec [ Instr.movl mask (Operand.reg out), Instr.sarl mask 31,
                 Instr.addl out (Operand.reg mask), Instr.xorl out (Operand.reg mask) ] s = some s'
      ∧ s'.cpu out = if s.cpu out < 2 ^ 31 then s.cpu out else 2 ^ 32 - s.cpu out := by
  rw [exec_straight _ (by simp [Instr.isJump])]
  refine ⟨_, rfl, ?_⟩
  rw [← abs_value32 _ hx]
  have hx' : s.cpu out % 4294967296 = s.cpu out := Nat.mod_eq_of_lt hx
  simp [step, shiftOp, logicOp, shiftCount, immBits, Operand.value, State.setCpu, State.setFlags,
    hne, Ne.symm hne, hx']

theorem exec_AbsInteger64 (out mask : CpuRegister) (hne : out ≠ mask) (s : State)
    (hx : s.cpu out < 2 ^ 64) :
    ∃ s', exec [ Instr.movq mask (Operand.reg out), Instr.sarq mask 63,
                 Instr.addq out (Operand.reg mask), Instr.xorq out (Operand.reg mask) ] s = some s'
      ∧ s'.cpu out = if s.cpu out < 2 ^ 63 then s.cpu out else 2 ^ 64 - s.cpu out := by
  rw [exec_straight _ (by simp [Instr.isJump])]
  refine ⟨_, rfl, ?_⟩
  rw [← abs_value64 _ hx]
  have hx' : s.cpu out % 18446744073709551616 = s.cpu out := Nat.mod_eq_of_lt hx
  simp [step, shiftOp, logicOp, shiftCount, immBits, Operand.value, State.setCpu, State.setFlags,
    hne, Ne.symm hne, hx']

/-- C6: on a `w`-bit two's-complement pattern `x` (`w` = 32 for `abs(int)`,
64 for `abs(long)`) the sequence emitted by `GenAbsInteger` (mask = `x`
shifted right arithmetically by `w - 1`, out = (`x` + mask) xor mask) leaves
`x` when `x ≥ 0`, the pattern of `-x` when `x` is negative and not the
minimum value, and `x` itself when `x` is the minimum value `2 ^ (w - 1)`. -/
theorem C6_GenAbsInteger (locations : LocationSummary) (out mask : CpuRegister)
    (hout : locations.Out = Location.RegisterLocation out)
    (htemp : locations.GetTemp 0 = Location.RegisterLocation mask)
    (hne : out ≠ mask) (is64bit : Bool) (s : State) (x : Nat)
    (hx : x < 2 ^ widthOf is64bit) (hs : s.cpu out = x) :
    ∃ code s', GenAbsInteger locations is64bit = some code ∧ exec code s = some s'
      ∧ s'.cpu out < 2 ^ widthOf is64bit
      ∧ (0 ≤ toSigned (widthOf is64bit) x → s'.cpu out = x)
      ∧ (toSigned (widthOf is64bit) x < 0 → x ≠ 2 ^ (widthOf is64bit - 1) →
          toSigned (widthOf is64bit) (s'.cpu out) = - toSigned (widthOf is64bit) x)
      ∧ (x = 2 ^ (widthOf is64bit - 1) → s'.cpu out = x) := by
  subst hs
  cases is64bit
  · obtain ⟨s', he, hv⟩ := exec_AbsInteger32 out mask hne s hx
    refine ⟨_, s', by simp [GenAbsInteger, hout, htemp, Location.AsRegister], he, ?_⟩
    have hx' : s.cpu out < 2 ^ 32 := hx
    simp only [widthOf, Bool.false_eq_true, if_false]
    rw [hv, toSigned32 _ hx']
    generalize s.cpu out = x at *
    by_cases h : x < 2 ^ 31
    · simp only [h, if_true]
      rw [toSigned32 _ hx']
      norm_num at *
      omega
    · simp only [h, if_false]
      have hr : 2 ^ 32 - x < 2 ^ 32 := by norm_num at *; omega
      rw [toSigned32 _ hr]
      norm_num at *
      split_ifs <;> omega
  · obtain ⟨s', he, hv⟩ := exec_AbsInteger64 out mask hne s hx
    refine ⟨_, s', by simp [GenAbsInteger, hout, htemp, Location.AsRegister], he, ?_⟩
    have hx' : s.cpu out < 2 ^ 64 := hx
    simp only [widthOf, if_true]
    rw [hv, toSigned64 _ hx']
    generalize s.cpu out = x at *
    by_cases h : x < 2 ^ 63
    · simp only [h, if_true]
      rw [toSigned64 _ hx']
      norm_num at *
      omega
    · simp only [h, if_false]
      have hr : 2 ^ 64 - x < 2 ^ 64 := by norm_num at *; omega
      rw [toSigned64 _ hr]
      norm_num at *
      split_ifs <;> omega

theorem exec_MinMax32 (out op2 : CpuRegister) (hne : out ≠ op2) (is_min : Bool) (s : State)
    (ha : s.cpu out < 2 ^ 32) (hb : s.cpu op2 < 2 ^ 32) :
    ∃ s', exec [ Instr.cmpl out (Operand.reg op2),
                 Instr.cmov (if is_min then Condition.kGreater else Condition.kLess) out op2 false ] s
          = some s'
      ∧ s'.cpu op2 = s.cpu op2
      ∧ s'.cpu out = minMaxSelect 32 is_min (s.cpu out) (s.cpu op2) := by
  rw [exec_straight _ (by simp [Instr.isJump])]
  refine ⟨_, rfl, ?_, ?_⟩
  · simp [step, State.setCpu, State.setFlags, hne, Ne.symm hne]
  · have ha' : s.cpu out % 4294967296 = s.cpu out := Nat.mod_eq_of_lt ha
    have hb' : s.cpu op2 % 4294967296 = s.cpu op2 := Nat.mod_eq_of_lt hb
    have hf := subFlags32_signed _ _ ha hb
    cases is_min <;>
      simp [step, State.setCpu, State.setFlags, Operand.value, hne, Ne.symm hne, ha', hb', hf.1,
        hf.2, minMaxSelect]

theorem exec_MinMax64 (out op2 : CpuRegister) (hne : out ≠ op2) (is_min : Bool) (s : State)
    (ha : s.cpu out < 2 ^ 64) (hb : s.cpu op2 < 2 ^ 64) :
    ∃ s', exec [ Instr.cmpq out (Operand.reg op2),
                 Instr.cmov (if is_min then Condition.kGreater else Condition.kLess) out op2 true ] s
          = some s'
      ∧ s'.cpu op2 = s.cpu op2
      ∧ s'.cpu out = minMaxSelect 64 is_min (s.cpu out) (s.cpu op2) := by
  rw [exec_straight _ (by simp [Instr.isJump])]
  refine ⟨_, rfl, ?_, ?_⟩
  · simp [step, State.setCpu, State.setFlags, hne, Ne.symm hne]
  · have ha' : s.cpu out % 18446744073709551616 = s.cpu out := Nat.mod_eq_of_lt ha
    have hb' : s.cpu op2 % 18446744073709551616 = s.cpu op2 := Nat.mod_eq_of_lt hb
    have hf := subFlags64_signed _ _ ha hb
    cases is_min <;>
      simp [step, State.setCpu, State.setFlags, Operand.value, hne, Ne.symm hne, ha', hb', hf.1,
        hf.2, minMaxSelect]

theorem toSigned_minMaxSelect (w : Nat) (is_min : Bool) (a b : Nat) :
    toSigned w (minMaxSelect w is_min a b)
      = if is_min then min (toSigned w a) (toSigned w b)
        else max (toSigned w a) (toSigned w b) := by
  unfold minMaxSelect
  cases is_min
  · simp only [Bool.false_eq_true, if_false]
    split_ifs with h
    · rw [max_eq_right (le_of_lt h)]
    · rw [max_eq_left (not_lt.mp h)]
  · simp only [if_true]
    split_ifs with h
    · rw [min_eq_right (le_of_lt h)]
    · rw [min_eq_left (not_lt.mp h)]

/-- C7: with the two operands in different registers, the sequence emitted
by `GenMinMax` (compare `out` with `op2`, then a conditional move of `op2`
into `out` on "greater" for min, on "less" for max) leaves the second
operand's register unchanged and leaves in `out` the second operand exactly
when it is strictly smaller (min) or strictly larger (max) as a signed
value, the first operand otherwise: the signed minimum (maximum) of the two. -/
theorem C7_GenMinMax (locations : LocationSummary) (out op2 : CpuRegister)
    (hin0 : locations.InAt 0 = Location.RegisterLocation out)
    (hin1 : locations.InAt 1 = Location.RegisterLocation op2)
    (hout : locations.Out = Location.RegisterLocation out)
    (hne : out ≠ op2) (is_min is_long : Bool) (s : State) (a b : Nat)
    (ha : a < 2 ^ widthOf is_long) (hb : b < 2 ^ widthOf is_long)
    (hsa : s.cpu out = a) (hsb : s.cpu op2 = b) :
    ∃ code s', GenMinMax locations is_min is_long = some code ∧ exec code s = some s'
      ∧ s'.cpu op2 = b
      ∧ s'.cpu out
          = (if is_min then
              (if toSigned (widthOf is_long) b < toSigned (widthOf is_long) a then b else a)
             else
              (if toSigned (widthOf is_long) a < toSigned (widthOf is_long) b then b else a))
      ∧ toSigned (widthOf is_long) (s'.cpu out)
          = (if is_min then min (toSigned (widthOf is_long) a) (toSigned (widthOf is_long) b)
             else max (toSigned (widthOf is_long) a) (toSigned (widthOf is_long) b)) := by
  subst hsa hsb
  have hcode : GenMinMax locations is_min is_long
      = some [ (if is_long then Instr.cmpq out (Operand.reg op2)
                else Instr.cmpl out (Operand.reg op2)),
               Instr.cmov (if is_min then Condition.kGreater else Condition.kLess) out op2
                 is_long ] := by
    simp [GenMinMax, hin0, hin1, hout, Location.Equals, Location.AsRegister, hne]
  cases is_long
  · obtain ⟨s', he, h2, hv⟩ := exec_MinMax32 out op2 hne is_min s ha hb
    refine ⟨_, s', hcode, he, h2, ?_, ?_⟩
    · rw [hv]; rfl
    · rw [hv]; exact toSigned_minMaxSelect 32 is_min _ _
  · obtain ⟨s', he, h2, hv⟩ := exec_MinMax64 out op2 hne is_min s ha hb
    refine ⟨_, s', hcode, he, h2, ?_, ?_⟩
    · rw [hv]; rfl
    · rw [hv]; exact toSigned_minMaxSelect 64 is_min _ _

/-- C8: when the two input locations of a min/max intrinsic are equal (and
the output aliases the first input, as the locations builder requires),
`GenMinMax` and `GenMinMaxFP` emit the empty instruction sequence, whose
execution leaves the whole machine state, hence the output, unchanged. -/
theorem C8_same_location_shortcut (li lf : LocationSummary) (r : XmmRegister)
    (hi : li.InAt 0 = li.InAt 1) (hio : li.Out = li.InAt 0)
    (hf : lf.InAt 0 = lf.InAt 1) (hfo : lf.Out = lf.InAt 0)
    (hfr : lf.Out = Location.FpuRegisterLocation r)
    (is_min is_long is_double : Bool) (s : State) :
    GenMinMax li is_min is_long = some [] ∧ GenMinMaxFP lf is_min is_double = some []
      ∧ exec [] s = some s := by
  refine ⟨?_, ?_, ?_⟩
  · simp [GenMinMax, Location.Equals, hi, hio]
  · simp [GenMinMaxFP, Location.Equals, ← hf, ← hfo, hfr, Location.AsFpuRegister]
  · simp [exec, run]

theorem GenMinMaxFP_eq (locations : LocationSummary) (out op2 : XmmRegister)
    (hin0 : locations.InAt 0 = Location.FpuRegisterLocation out)
    (hin1 : locations.InAt 1 = Location.FpuRegisterLocation op2)
    (hout : locations.Out = Location.FpuRegisterLocation out)
    (hne : out ≠ op2) (is_min is_double : Bool) :
    GenMinMaxFP locations is_min is_double = some
         [ (if is_double then Instr.ucomisd out op2 else Instr.ucomiss out op2),
           Instr.j Condition.kParityEven Label.nan,
           Instr.j (if is_min then Condition.kAbove else Condition.kBelow) Label.op2_label,
           Instr.j (if is_min then Condition.kBelow else Condition.kAbove) Label.done,
           (if is_min then
              (if is_double then Instr.orpd out op2 else Instr.orps out op2)
            else
              (if is_double then Instr.andpd out op2 else Instr.andps out op2)),
           Instr.jmp Label.done,
           Instr.Bind Label.nan,
           (if is_double then Instr.movsd out (XmmOperand.LiteralInt64Address 0x7FF8000000000000)
            else Instr.movss out (XmmOperand.LiteralInt32Address 0x7FC00000)),
           Instr.jmp Label.done,
           Instr.Bind Label.op2_label,
           (if is_double then Instr.movsd out (XmmOperand.reg op2)
            else Instr.movss out (XmmOperand.reg op2)),
           Instr.Bind Label.done ] := by
  simp [GenMinMaxFP, hin0, hin1, hout, Location.Equals, Location.AsFpuRegister, hne]

theorem exec_MinMaxFP_nan (out op2 : XmmRegister) (is_min is_double : Bool) (s : State)
    (hnan : (formatOf is_double).isNaN (s.xmm out % 2 ^ widthOf is_double) = true
      ∨ (formatOf is_double).isNaN (s.xmm op2 % 2 ^ widthOf is_double) = true) :
    ∃ s', exec
         [ (if is_double then Instr.ucomisd out op2 else Instr.ucomiss out op2),
           Instr.j Condition.kParityEven Label.nan,
           Instr.j (if is_min then Condition.kAbove else Condition.kBelow) Label.op2_label,
           Instr.j (if is_min then Condition.kBelow else Condition.kAbove) Label.done,
           (if is_min then
              (if is_double then Instr.orpd out op2 else Instr.orps out op2)
            else
              (if is_double then Instr.andpd out op2 else Instr.andps out op2)),
           Instr.jmp Label.done,
           Instr.Bind Label.nan,
           (if is_double then Instr.movsd out (XmmOperand.LiteralInt64Address 0x7FF8000000000000)
            else Instr.movss out (XmmOperand.LiteralInt32Address 0x7FC00000)),
           Instr.jmp Label.done,
           Instr.Bind Label.op2_label,
           (if is_double then Instr.movsd out (XmmOperand.reg op2)
            else Instr.movss out (XmmOperand.reg op2)),
           Instr.Bind Label.done ] s = some s'
      ∧ s'.xmm out = (if is_double then 0x7FF8000000000000 else 0x7FC00000) := by
  have hpf : (ucomiFlags (formatOf is_double) (s.xmm out % 2 ^ widthOf is_double)
      (s.xmm op2 % 2 ^ widthOf is_double)).pf = true := by
    rcases hnan with h | h <;> simp [ucomiFlags, h]
  cases is_double <;> cases is_min <;>
    simp [formatOf, widthOf] at hpf <;>
    simp [exec, run, findLabel, step, Condition.holds, State.setFlags, State.setXmm, hpf, immBits]

theorem or_lane (X Y w : Nat) (hw : w ≤ 128) :
    (X ||| Y) % 2 ^ 128 % 2 ^ w = X % 2 ^ w ||| Y % 2 ^ w := by
  apply Nat.eq_of_testBit_eq
  intro i
  simp only [Nat.testBit_mod_two_pow, Nat.testBit_or]
  by_cases h : i < w
  · have : i < 128 := by omega
    simp [h, this]
  · simp [h]

theorem and_lane (X Y w : Nat) (hw : w ≤ 128) :
    (X &&& Y) % 2 ^ 128 % 2 ^ w = X % 2 ^ w &&& Y % 2 ^ w := by
  apply Nat.eq_of_testBit_eq
  intro i
  simp only [Nat.testBit_mod_two_pow, Nat.testBit_and]
  by_cases h : i < w
  · have : i < 128 := by omega
    simp [h, this]
  · simp [h]

theorem exec_MinMaxFP_equal (out op2 : XmmRegister) (hne : out ≠ op2)
    (is_min is_double : Bool) (s : State)
    (hna : (formatOf is_double).isNaN (s.xmm out % 2 ^ widthOf is_double) = false)
    (hnb : (formatOf is_double).isNaN (s.xmm op2 % 2 ^ widthOf is_double) = false)
    (heq : (formatOf is_double).key (s.xmm out % 2 ^ widthOf is_double)
      = (formatOf is_double).key (s.xmm op2 % 2 ^ widthOf is_double)) :
    ∃ s', exec
         [ (if is_double then Instr.ucomisd out op2 else Instr.ucomiss out op2),
           Instr.j Condition.kParityEven Label.nan,
           Instr.j (if is_min then Condition.kAbove else Condition.kBelow) Label.op2_label,
           Instr.j (if is_min then Condition.kBelow else Condition.kAbove) Label.done,
           (if is_min then
              (if is_double then Instr.orpd out op2 else Instr.orps out op2)
            else
              (if is_double then Instr.andpd out op2 else Instr.andps out op2)),
           Instr.jmp Label.done,
           Instr.Bind Label.nan,
           (if is_double then Instr.movsd out (XmmOperand.LiteralInt64Address 0x7FF8000000000000)
            else Instr.movss out (XmmOperand.LiteralInt32Address 0x7FC00000)),
           Instr.jmp Label.done,
           Instr.Bind Label.op2_label,
           (if is_double then Instr.movsd out (XmmOperand.reg op2)
            else Instr.movss out (XmmOperand.reg op2)),
           Instr.Bind Label.done ] s = some s'
      ∧ s'.xmm op2 = s.xmm op2
      ∧ s'.xmm out % 2 ^ widthOf is_double
          = (if is_min then s.xmm out % 2 ^ widthOf is_double ||| s.xmm op2 % 2 ^ widthOf is_double
             else s.xmm out % 2 ^ widthOf is_double &&& s.xmm op2 % 2 ^ widthOf is_double) := by
  have hfl : ucomiFlags (formatOf is_double) (s.xmm out % 2 ^ widthOf is_double)
      (s.xmm op2 % 2 ^ widthOf is_double)
      = { cf := false, pf := false, zf := true, sf := false, ov := false } := by
    simp [ucomiFlags, hna, hnb, heq]
  have ho32 : (s.xmm out ||| s.xmm op2) % 340282366920938463463374607431768211456 % 4294967296
      = s.xmm out % 4294967296 ||| s.xmm op2 % 4294967296 :=
    or_lane (s.xmm out) (s.xmm op2) 32 (by norm_num)
  have ho64 : (s.xmm out ||| s.xmm op2) % 340282366920938463463374607431768211456
        % 18446744073709551616
      = s.xmm out % 18446744073709551616 ||| s.xmm op2 % 18446744073709551616 :=
    or_lane (s.xmm out) (s.xmm op2) 64 (by norm_num)
  have ha32 : (s.xmm out &&& s.xmm op2) % 340282366920938463463374607431768211456 % 4294967296
      = s.xmm out % 4294967296 &&& s.xmm op2 % 4294967296 :=
    and_lane (s.xmm out) (s.xmm op2) 32 (by norm_num)
  have ha64 : (s.xmm out &&& s.xmm op2) % 340282366920938463463374607431768211456
        % 18446744073709551616
      = s.xmm out % 18446744073709551616 &&& s.xmm op2 % 18446744073709551616 :=
    and_lane (s.xmm out) (s.xmm op2) 64 (by norm_num)
  cases is_double <;> cases is_min <;>
    simp [formatOf, widthOf] at hfl <;>
    simp [exec, run, findLabel, step, Condition.holds, State.setFlags, State.setXmm, hfl, immBits,
      widthOf, hne, Ne.symm hne, ho32, ho64, ha32, ha64]

/-- C9: with the operands in different registers, if either operand is a
NaN (whichever one, whatever its payload) the sequence emitted by
`GenMinMaxFP`, for min and for max, leaves in the output register exactly
the canonical quiet NaN, 0x7FF8000000000000 for double and 0x7FC00000 for
float. -/
theorem C9_GenMinMaxFP_nan (locations : LocationSummary) (out op2 : XmmRegister)
    (hin0 : locations.InAt 0 = Location.FpuRegisterLocation out)
    (hin1 : locations.InAt 1 = Location.FpuRegisterLocation op2)
    (hout : locations.Out = Location.FpuRegisterLocation out)
    (hne : out ≠ op2) (is_min is_double : Bool) (s : State)
    (hnan : (formatOf is_double).isNaN (s.xmm out % 2 ^ widthOf is_double) = true
      ∨ (formatOf is_double).isNaN (s.xmm op2 % 2 ^ widthOf is_double) = true) :
    ∃ code s', GenMinMaxFP locations is_min is_double = some code ∧ exec code s = some s'
      ∧ s'.xmm out = (if is_double then 0x7FF8000000000000 else 0x7FC00000)
      ∧ (formatOf is_double).isNaN (s'.xmm out) = true := by
  obtain ⟨s', he, hv⟩ := exec_MinMaxFP_nan out op2 is_min is_double s hnan
  refine ⟨_, s', GenMinMaxFP_eq locations out op2 hin0 hin1 hout hne is_min is_double, he, hv,
    ?_⟩
  rw [hv]
  cases is_double <;> decide

/-- C10: with the operands in different registers, when neither operand is
a NaN and the two compare equal, the sequence emitted by `GenMinMaxFP`
leaves in the output the bitwise OR of the two patterns for min and their
bitwise AND for max; so for +0.0 and -0.0, in either order, min gives -0.0
and max gives +0.0, for float and for double. -/
theorem C10_GenMinMaxFP_equal (locations : LocationSummary) (out op2 : XmmRegister)
    (hin0 : locations.InAt 0 = Location.FpuRegisterLocation out)
    (hin1 : locations.InAt 1 = Location.FpuRegisterLocation op2)
    (hout : locations.Out = Location.FpuRegisterLocation out)
    (hne : out ≠ op2) (is_min is_double : Bool) (s : State) (a b : Nat)
    (ha : s.xmm out % 2 ^ widthOf is_double = a) (hb : s.xmm op2 % 2 ^ widthOf is_double = b)
    (hna : (formatOf is_double).isNaN a = false)
    (hnb : (formatOf is_double).isNaN b = false)
    (heq : (formatOf is_double).key a = (formatOf is_double).key b) :
    ∃ code s', GenMinMaxFP locations is_min is_double = some code ∧ exec code s = some s'
      ∧ s'.xmm out % 2 ^ widthOf is_double = (if is_min then a ||| b else a &&& b)
      ∧ ((a = 0 ∧ b = 2 ^ (widthOf is_double - 1)) ∨ (a = 2 ^ (widthOf is_double - 1) ∧ b = 0) →
          s'.xmm out % 2 ^ widthOf is_double
            = (if is_min then 2 ^ (widthOf is_double - 1) else 0)) := by
  subst ha hb
  obtain ⟨s', he, _, hv⟩ := exec_MinMaxFP_equal out op2 hne is_min is_double s hna hnb heq
  refine ⟨_, s', GenMinMaxFP_eq locations out op2 hin0 hin1 hout hne is_min is_double, he, hv,
    ?_⟩
  intro h
  rw [hv]
  rcases h with ⟨h1, h2⟩ | ⟨h1, h2⟩ <;> rw [h1, h2] <;> cases is_min <;> cases is_double <;>
    simp [widthOf]

/-! ## The theorems at concrete inputs -/

/-- Witness of C4 at the value 0x12345678 in RAX. -/
theorem C4_witness :
    ((0x12345678 : Nat) < 2 ^ 32 ∧ (0x12345678 : Nat) < 2 ^ 64) ∧
    (GenReverseBytes locationsRaxRcx PrimitiveType.kPrimInt = some [Instr.bswapl CpuRegister.RAX]
      ∧ ∃ s1 s2, exec [Instr.bswapl CpuRegister.RAX]
            (State.zero.setCpu CpuRegister.RAX 0x12345678) = some s1
        ∧ (∀ k, k < 4 → byteAt (s1.cpu CpuRegister.RAX) k = byteAt 0x12345678 (3 - k))
        ∧ ((0x12345678 : Nat) = 0x12345678 → s1.cpu CpuRegister.RAX = 0x78563412)
        ∧ exec [Instr.bswapl CpuRegister.RAX] s1 = some s2
        ∧ s2.cpu CpuRegister.RAX = 0x12345678)
    ∧ (GenReverseBytes locationsRaxRcx PrimitiveType.kPrimLong
          = some [Instr.bswapq CpuRegister.RAX]
      ∧ ∃ t1 t2, exec [Instr.bswapq CpuRegister.RAX]
            (State.zero.setCpu CpuRegister.RAX 0x12345678) = some t1
        ∧ (∀ k, k < 8 → byteAt (t1.cpu CpuRegister.RAX) k = byteAt 0x12345678 (7 - k))
        ∧ exec [Instr.bswapq CpuRegister.RAX] t1 = some t2
        ∧ t2.cpu CpuRegister.RAX = 0x12345678) :=
  ⟨⟨by norm_num, by norm_num⟩,
   C4_GenReverseBytes_int_long locationsRaxRcx CpuRegister.RAX rfl
     (State.zero.setCpu CpuRegister.RAX 0x12345678)
     (State.zero.setCpu CpuRegister.RAX 0x12345678) 0x12345678 0x12345678
     (by norm_num) (by norm_num) (by simp [State.setCpu]) (by simp [State.setCpu])⟩

/-- Witness of C5 at the value 0x123400FF in RAX: the low half 0x00FF is
swapped to 0xFF00 and sign-extended. -/
theorem C5_witness :
    locationsRaxRcx.Out = Location.RegisterLocation CpuRegister.RAX ∧
    ∃ s', GenReverseBytes locationsRaxRcx PrimitiveType.kPrimShort
          = some [Instr.bswapl CpuRegister.RAX, Instr.sarl CpuRegister.RAX 16]
      ∧ exec [Instr.bswapl CpuRegister.RAX, Instr.sarl CpuRegister.RAX 16]
          (State.zero.setCpu CpuRegister.RAX 0x123400FF) = some s'
      ∧ s'.cpu CpuRegister.RAX
          = signExtend 16 32 (byteAt 0x123400FF 0 * 2 ^ 8 + byteAt 0x123400FF 1)
      ∧ toSigned 32 (s'.cpu CpuRegister.RAX)
          = toSigned 16 (byteAt 0x123400FF 0 * 2 ^ 8 + byteAt 0x123400FF 1)
      ∧ ∀ t : State, t.cpu CpuRegister.RAX % 2 ^ 16 = 0x123400FF % 2 ^ 16 →
          ∃ t', exec [Instr.bswapl CpuRegister.RAX, Instr.sarl CpuRegister.RAX 16] t = some t'
            ∧ t'.cpu CpuRegister.RAX = s'.cpu CpuRegister.RAX :=
  ⟨rfl,
   C5_ReverseBytesShort locationsRaxRcx CpuRegister.RAX rfl
     (State.zero.setCpu CpuRegister.RAX 0x123400FF) 0x123400FF (by simp [State.setCpu])⟩

/-- Witness of C6 at the 32-bit pattern of -5. -/
theorem C6_witness :
    (CpuRegister.RAX ≠ CpuRegister.RCX ∧ (0xFFFFFFFB : Nat) < 2 ^ widthOf false) ∧
    ∃ code s', GenAbsInteger locationsRaxRcx false = some code
      ∧ exec code (State.zero.setCpu CpuRegister.RAX 0xFFFFFFFB) = some s'
      ∧ s'.cpu CpuRegister.RAX < 2 ^ widthOf false
      ∧ (0 ≤ toSigned (widthOf false) 0xFFFFFFFB → s'.cpu CpuRegister.RAX = 0xFFFFFFFB)
      ∧ (toSigned (widthOf false) 0xFFFFFFFB < 0 → 0xFFFFFFFB ≠ 2 ^ (widthOf false - 1) →
          toSigned (widthOf false) (s'.cpu CpuRegister.RAX)
            = - toSigned (widthOf false) 0xFFFFFFFB)
      ∧ (0xFFFFFFFB = 2 ^ (widthOf false - 1) → s'.cpu CpuRegister.RAX = 0xFFFFFFFB) :=
  ⟨⟨by decide, by norm_num [widthOf]⟩,
   C6_GenAbsInteger locationsRaxRcx CpuRegister.RAX CpuRegister.RCX rfl rfl (by decide) false
     (State.zero.setCpu CpuRegister.RAX 0xFFFFFFFB) 0xFFFFFFFB (by norm_num [widthOf])
     (by simp [State.setCpu])⟩

/-- Witness of C7: the 32-bit min of 3 and -2. -/
theorem C7_witness :
    (CpuRegister.RAX ≠ CpuRegister.RCX ∧ (3 : Nat) < 2 ^ widthOf false
      ∧ (0xFFFFFFFE : Nat) < 2 ^ widthOf false) ∧
    ∃ code s', GenMinMax locationsRaxRcxToRax true false = some code
      ∧ exec code ((State.zero.setCpu CpuRegister.RAX 3).setCpu CpuRegister.RCX 0xFFFFFFFE)
          = some s'
      ∧ s'.cpu CpuRegister.RCX = 0xFFFFFFFE
      ∧ s'.cpu CpuRegister.RAX
          = (if true = true then
              (if toSigned (widthOf false) 0xFFFFFFFE < toSigned (widthOf false) 3
                then 0xFFFFFFFE else 3)
             else (if toSigned (widthOf false) 3 < toSigned (widthOf false) 0xFFFFFFFE
                then 0xFFFFFFFE else 3))
      ∧ toSigned (widthOf false) (s'.cpu CpuRegister.RAX)
          = (if true = true then
              min (toSigned (widthOf false) 3) (toSigned (widthOf false) 0xFFFFFFFE)
             else max (toSigned (widthOf false) 3) (toSigned (widthOf false) 0xFFFFFFFE)) :=
  ⟨⟨by decide, by norm_num [widthOf], by norm_num [widthOf]⟩,
   C7_GenMinMax locationsRaxRcxToRax CpuRegister.RAX CpuRegister.RCX rfl rfl rfl (by decide)
     true false ((State.zero.setCpu CpuRegister.RAX 3).setCpu CpuRegister.RCX 0xFFFFFFFE)
     3 0xFFFFFFFE (by norm_num [widthOf]) (by norm_num [widthOf])
     (by simp [State.setCpu]) (by simp [State.setCpu])⟩

/-- Witness of C8: both inputs in RAX (integer), both inputs in XMM0
(floating point). -/
theorem C8_witness :
    (locationsRaxRax.InAt 0 = locationsRaxRax.InAt 1
      ∧ locationsXmm0Xmm0.InAt 0 = locationsXmm0Xmm0.InAt 1) ∧
    (GenMinMax locationsRaxRax true false = some []
      ∧ GenMinMaxFP locationsXmm0Xmm0 true false = some []
      ∧ exec [] State.zero = some State.zero) :=
  ⟨⟨rfl, rfl⟩,
   C8_same_location_shortcut locationsRaxRax locationsXmm0Xmm0 XmmRegister.XMM0 rfl rfl rfl rfl
     rfl true false false State.zero⟩

/-- Witness of C9: the float min of a NaN with a payload (0x7FC12345) and
1.0f (0x3F800000). -/
theorem C9_witness :
    (XmmRegister.XMM0 ≠ XmmRegister.XMM1
      ∧ (formatOf false).isNaN (0x7FC12345 % 2 ^ widthOf false) = true) ∧
    ∃ code s', GenMinMaxFP locationsXmm0Xmm1 true false = some code
      ∧ exec code ((State.zero.setXmm XmmRegister.XMM0 0x7FC12345).setXmm
          XmmRegister.XMM1 0x3F800000) = some s'
      ∧ s'.xmm XmmRegister.XMM0 = (if false = true then 0x7FF8000000000000 else 0x7FC00000)
      ∧ (formatOf false).isNaN (s'.xmm XmmRegister.XMM0) = true :=
  ⟨⟨by decide, by decide⟩,
   C9_GenMinMaxFP_nan locationsXmm0Xmm1 XmmRegister.XMM0 XmmRegister.XMM1 rfl rfl rfl (by decide)
     true false
     ((State.zero.setXmm XmmRegister.XMM0 0x7FC12345).setXmm XmmRegister.XMM1 0x3F800000)
     (Or.inl (by decide))⟩

/-- Witness of C10: the float min of +0.0 (0x00000000) and -0.0
(0x80000000). -/
theorem C10_witness :
    (XmmRegister.XMM0 ≠ XmmRegister.XMM1
      ∧ (formatOf false).isNaN 0 = false ∧ (formatOf false).isNaN 0x80000000 = false
      ∧ (formatOf false).key 0 = (formatOf false).key 0x80000000) ∧
    ∃ code s', GenMinMaxFP locationsXmm0Xmm1 true false = some code
      ∧ exec code ((State.zero.setXmm XmmRegister.XMM0 0).setXmm XmmRegister.XMM1 0x80000000)
          = some s'
      ∧ s'.xmm XmmRegister.XMM0 % 2 ^ widthOf false
          = (if true = true then 0 ||| 0x80000000 else 0 &&& 0x80000000)
      ∧ (((0 : Nat) = 0 ∧ (0x80000000 : Nat) = 2 ^ (widthOf false - 1))
          ∨ ((0 : Nat) = 2 ^ (widthOf false - 1) ∧ (0x80000000 : Nat) = 0) →
          s'.xmm XmmRegister.XMM0 % 2 ^ widthOf false
            = (if true = true then 2 ^ (widthOf false - 1) else 0)) :=
  ⟨⟨by decide, by decide, by decide, by decide⟩,
   C10_GenMinMaxFP_equal locationsXmm0Xmm1 XmmRegister.XMM0 XmmRegister.XMM1 rfl rfl rfl
     (by decide) true false
     ((State.zero.setXmm XmmRegister.XMM0 0).setXmm XmmRegister.XMM1 0x80000000)
     0 0x80000000 (by decide) (by decide) (by decide) (by decide) (by decide)⟩

/-! ## Floating-point absolute value and bit reinterpretation -/

theorem and_mask_lane (X M w : Nat) (hw : w ≤ 128) (hM : M < 2 ^ w) :
    (X &&& M) % 2 ^ 128 = X % 2 ^ w &&& M := by
  apply Nat.eq_of_testBit_eq
  intro i
  simp only [Nat.testBit_mod_two_pow, Nat.testBit_and]
  by_cases h : i < w
  · have : i < 128 := by omega
    simp [h, this]
  · have hM' : M < 2 ^ i := lt_of_lt_of_le hM (Nat.pow_le_pow_right (by norm_num) (not_lt.mp h))
    simp [h, Nat.testBit_lt_two_pow hM']

theorem testBit_and_signMask (b w i : Nat) :
    (b &&& (2 ^ w - 1)).testBit i = (b.testBit i && decide (i < w)) := by
  rw [Nat.testBit_and, Nat.testBit_two_pow_sub_one]

theorem exec_MathAbsFP32 (out xmm_temp : XmmRegister) (hne : out ≠ xmm_temp) (s : State) :
    ∃ s', exec [ Instr.movss xmm_temp (XmmOperand.LiteralInt32Address 0x7FFFFFFF),
                 Instr.andps out xmm_temp ] s = some s'
      ∧ s'.xmm out = s.xmm out % 2 ^ 32 &&& (2 ^ 31 - 1) := by
  rw [exec_straight _ (by simp [Instr.isJump])]
  refine ⟨_, rfl, ?_⟩
  have h := and_mask_lane (s.xmm out) (2 ^ 31 - 1) 32 (by norm_num) (by norm_num)
  norm_num at h
  simp [step, State.setXmm, immBits, hne, Ne.symm hne]
  omega

theorem exec_MathAbsFP64 (out xmm_temp : XmmRegister) (hne : out ≠ xmm_temp) (s : State) :
    ∃ s', exec [ Instr.movsd xmm_temp (XmmOperand.LiteralInt64Address 0x7FFFFFFFFFFFFFFF),
                 Instr.andpd out xmm_temp ] s = some s'
      ∧ s'.xmm out = s.xmm out % 2 ^ 64 &&& (2 ^ 63 - 1) := by
  rw [exec_straight _ (by simp [Instr.isJump])]
  refine ⟨_, rfl, ?_⟩
  have h := and_mask_lane (s.xmm out) (2 ^ 63 - 1) 64 (by norm_num) (by norm_num)
  norm_num at h
  simp [step, State.setXmm, immBits, hne, Ne.symm hne]
  omega

/-- C11: `CreateFloatToFloatPlusTemps` declares one FPU temp; `MathAbsFP`
loads the mask 0x7FFFFFFF (float) or 0x7FFFFFFFFFFFFFFF (double) into that temp
and ANDs it into the output register.  Running the sequence on any pattern `b`
in the output register gives `b AND mask`: the sign bit is clear and every
lower bit, NaN payload bits included, is the bit of `b`. -/
theorem C11_MathAbsFP_clears_sign (invoke : HInvoke) (locations : LocationSummary)
    (out xmm_temp : XmmRegister)
    (hout : locations.Out = Location.FpuRegisterLocation out)
    (htemp : locations.GetTemp 0 = Location.FpuRegisterLocation xmm_temp)
    (hne : out ≠ xmm_temp) (is64bit : Bool) (s : State) (b : Nat)
    (hb : s.xmm out % 2 ^ widthOf is64bit = b) :
    (∃ l, (CreateFloatToFloatPlusTemps invoke).locations = some l
        ∧ l.temps = [Location.RequiresFpuRegister])
    ∧ ∃ code s', MathAbsFP locations is64bit = some code
      ∧ code = (if is64bit then
            [ Instr.movsd xmm_temp (XmmOperand.LiteralInt64Address 0x7FFFFFFFFFFFFFFF),
              Instr.andpd out xmm_temp ]
          else
            [ Instr.movss xmm_temp (XmmOperand.LiteralInt32Address 0x7FFFFFFF),
              Instr.andps out xmm_temp ])
      ∧ exec code s = some s'
      ∧ s'.xmm out = (if is64bit then b &&& 0x7FFFFFFFFFFFFFFF else b &&& 0x7FFFFFFF)
      ∧ (s'.xmm out).testBit (widthOf is64bit - 1) = false
      ∧ ∀ i, i < widthOf is64bit - 1 → (s'.xmm out).testBit i = b.testBit i := by
  subst hb
  refine ⟨⟨_, rfl, rfl⟩, ?_⟩
  cases is64bit
  · obtain ⟨s', he, hv⟩ := exec_MathAbsFP32 out xmm_temp hne s
    refine ⟨_, s', by simp [MathAbsFP, hout, htemp, Location.IsFpuRegister, Location.AsFpuRegister],
      by simp, he, ?_, ?_, ?_⟩
    · rw [hv]; simp [widthOf]
    · rw [hv, testBit_and_signMask]; simp [widthOf]
    · intro i hi
      rw [hv, testBit_and_signMask]
      simp only [widthOf, Bool.false_eq_true, if_false] at hi ⊢
      have : i < 31 := by omega
      simp [this]
  · obtain ⟨s', he, hv⟩ := exec_MathAbsFP64 out xmm_temp hne s
    refine ⟨_, s', by simp [MathAbsFP, hout, htemp, Location.IsFpuRegister, Location.AsFpuRegister],
      by simp, he, ?_, ?_, ?_⟩
    · rw [hv]; simp [widthOf]
    · rw [hv, testBit_and_signMask]; simp [widthOf]
    · intro i hi
      rw [hv, testBit_and_signMask]
      simp only [widthOf, if_true] at hi ⊢
      have : i < 63 := by omega
      simp [this]

theorem C11_witness :
    (XmmRegister.XMM0 ≠ XmmRegister.XMM1
      ∧ (State.zero.setXmm XmmRegister.XMM0 0xFFC12345).xmm XmmRegister.XMM0 % 2 ^ widthOf false
          = 0xFFC12345) ∧
    ((∃ l, (CreateFloatToFloatPlusTemps invokeAbs).locations = some l
        ∧ l.temps = [Location.RequiresFpuRegister])
    ∧ ∃ code s', MathAbsFP locationsAbsFP false = some code
      ∧ code = (if false = true then
            [ Instr.movsd XmmRegister.XMM1 (XmmOperand.LiteralInt64Address 0x7FFFFFFFFFFFFFFF),
              Instr.andpd XmmRegister.XMM0 XmmRegister.XMM1 ]
          else
            [ Instr.movss XmmRegister.XMM1 (XmmOperand.LiteralInt32Address 0x7FFFFFFF),
              Instr.andps XmmRegister.XMM0 XmmRegister.XMM1 ])
      ∧ exec code (State.zero.setXmm XmmRegister.XMM0 0xFFC12345) = some s'
      ∧ s'.xmm XmmRegister.XMM0
          = (if false = true then 0xFFC12345 &&& 0x7FFFFFFFFFFFFFFF else 0xFFC12345 &&& 0x7FFFFFFF)
      ∧ (s'.xmm XmmRegister.XMM0).testBit (widthOf false - 1) = false
      ∧ ∀ i, i < widthOf false - 1 →
          (s'.xmm XmmRegister.XMM0).testBit i = Nat.testBit 0xFFC12345 i) :=
  ⟨⟨by decide, by simp [State.setXmm, widthOf]⟩,
   C11_MathAbsFP_clears_sign invokeAbs locationsAbsFP XmmRegister.XMM0 XmmRegister.XMM1 rfl rfl
     (by decide) false (State.zero.setXmm XmmRegister.XMM0 0xFFC12345) 0xFFC12345
     (by simp [State.setXmm, widthOf])⟩

theorem exec_movd_to_xmm (x : XmmRegister) (r : CpuRegister) (is64bit : Bool) (s : State) :
    ∃ s', exec [Instr.movd_to_xmm x r is64bit] s = some s'
      ∧ s'.xmm x = s.cpu r % 2 ^ widthOf is64bit ∧ s'.cpu = s.cpu := by
  rw [exec_straight _ (by simp [Instr.isJump])]
  exact ⟨_, rfl, by simp [step, State.setXmm, widthOf], by simp [step, State.setXmm]⟩

theorem exec_movd_to_cpu (r : CpuRegister) (x : XmmRegister) (is64bit : Bool) (s : State) :
    ∃ s', exec [Instr.movd_to_cpu r x is64bit] s = some s'
      ∧ s'.cpu r = s.xmm x % 2 ^ widthOf is64bit ∧ s'.xmm = s.xmm := by
  rw [exec_straight _ (by simp [Instr.isJump])]
  exact ⟨_, rfl, by simp [step, State.setCpu, widthOf], by simp [step, State.setCpu]⟩

/-- C12: each of the four reinterpretation intrinsics emits exactly one
`movd`, with `is64bit` false for the float pair and true for the double pair;
and for either width, moving the pattern in the floating register to the
general register and back gives the same pattern (its low lane, whatever its
bits, NaN payloads included), and likewise starting from the general
register. -/
theorem C12_bit_reinterpretation_roundtrip (toFP toInt : HInvoke) (lf li : LocationSummary)
    (r : CpuRegister) (x : XmmRegister)
    (hlf : toFP.locations = some lf) (hli : toInt.locations = some li)
    (hfin : lf.InAt 0 = Location.RegisterLocation r)
    (hfout : lf.Out = Location.FpuRegisterLocation x)
    (hiin : li.InAt 0 = Location.FpuRegisterLocation x)
    (hiout : li.Out = Location.RegisterLocation r)
    (is64bit : Bool) (s : State) :
    (VisitFloatIntBitsToFloat toFP = some [Instr.movd_to_xmm x r false]
      ∧ VisitFloatFloatToRawIntBits toInt = some [Instr.movd_to_cpu r x false]
      ∧ VisitDoubleLongBitsToDouble toFP = some [Instr.movd_to_xmm x r true]
      ∧ VisitDoubleDoubleToRawLongBits toInt = some [Instr.movd_to_cpu r x true])
    ∧ (∃ s1 s2, exec [Instr.movd_to_cpu r x is64bit] s = some s1
          ∧ exec [Instr.movd_to_xmm x r is64bit] s1 = some s2
          ∧ s1.cpu r = s.xmm x % 2 ^ widthOf is64bit
          ∧ s2.xmm x = s.xmm x % 2 ^ widthOf is64bit)
    ∧ (∃ s1 s2, exec [Instr.movd_to_xmm x r is64bit] s = some s1
          ∧ exec [Instr.movd_to_cpu r x is64bit] s1 = some s2
          ∧ s1.xmm x = s.cpu r % 2 ^ widthOf is64bit
          ∧ s2.cpu r = s.cpu r % 2 ^ widthOf is64bit) := by
  refine ⟨⟨?_, ?_, ?_, ?_⟩, ?_, ?_⟩
  · simp [VisitFloatIntBitsToFloat, MoveIntToFP, hlf, hfin, hfout, Location.AsRegister,
      Location.AsFpuRegister]
  · simp [VisitFloatFloatToRawIntBits, MoveFPToInt, hli, hiin, hiout, Location.AsRegister,
      Location.AsFpuRegister]
  · simp [VisitDoubleLongBitsToDouble, MoveIntToFP, hlf, hfin, hfout, Location.AsRegister,
      Location.AsFpuRegister]
  · simp [VisitDoubleDoubleToRawLongBits, MoveFPToInt, hli, hiin, hiout, Location.AsRegister,
      Location.AsFpuRegister]
  · obtain ⟨s1, he1, hv1, _⟩ := exec_movd_to_cpu r x is64bit s
    obtain ⟨s2, he2, hv2, _⟩ := exec_movd_to_xmm x r is64bit s1
    rw [hv1, Nat.mod_mod] at hv2
    exact ⟨s1, s2, he1, he2, hv1, hv2⟩
  · obtain ⟨s1, he1, hv1, _⟩ := exec_movd_to_xmm x r is64bit s
    obtain ⟨s2, he2, hv2, _⟩ := exec_movd_to_cpu r x is64bit s1
    rw [hv1, Nat.mod_mod] at hv2
    exact ⟨s1, s2, he1, he2, hv1, hv2⟩

theorem C12_witness :
    ∃ s1 s2, exec [Instr.movd_to_cpu CpuRegister.RAX XmmRegister.XMM0 false]
          (stateWithXmm0 0x7FC12345) = some s1
      ∧ exec [Instr.movd_to_xmm XmmRegister.XMM0 CpuRegister.RAX false] s1 = some s2
      ∧ s1.cpu CpuRegister.RAX
          = (stateWithXmm0 0x7FC12345).xmm XmmRegister.XMM0 % 2 ^ widthOf false
      ∧ s2.xmm XmmRegister.XMM0
          = (stateWithXmm0 0x7FC12345).xmm XmmRegister.XMM0 % 2 ^ widthOf false :=
  (C12_bit_reinterpretation_roundtrip invokeIntToFP invokeFPToInt
    (allocated [Location.RegisterLocation CpuRegister.RAX]
      (Location.FpuRegisterLocation XmmRegister.XMM0) [])
    (allocated [Location.FpuRegisterLocation XmmRegister.XMM0]
      (Location.RegisterLocation CpuRegister.RAX) [])
    CpuRegister.RAX XmmRegister.XMM0 rfl rfl rfl rfl rfl rfl false
    (stateWithXmm0 0x7FC12345)).2.1

/-! ## Round half up -/

theorem roundMag_le (f : FPFormat) (n : Nat) : f.roundMag n ≤ f.infBits := by
  unfold FPFormat.roundMag
  exact min_le_right _ _

theorem encode_cases (f : FPFormat) (z : Int) (negZero : Bool) :
    ∃ m, m ≤ f.infBits ∧ (f.encode z negZero = m ∨ f.encode z negZero = f.signMask + m) := by
  unfold FPFormat.encode
  split_ifs
  · exact ⟨0, Nat.zero_le _, Or.inr rfl⟩
  · exact ⟨0, Nat.zero_le _, Or.inl rfl⟩
  · exact ⟨_, roundMag_le f _, Or.inr rfl⟩
  · exact ⟨_, roundMag_le f _, Or.inl rfl⟩

theorem encode32 (z : Int) (negZero : Bool) :
    binary32.isNaN (binary32.encode z negZero) = false
      ∧ binary32.encode z negZero < 2 ^ 32 := by
  obtain ⟨m, hm, h | h⟩ := encode_cases binary32 z negZero <;> rw [h] <;>
    simp [FPFormat.isNaN, FPFormat.infBits, FPFormat.signMask, binary32] at hm ⊢ <;> omega

theorem encode64 (z : Int) (negZero : Bool) :
    binary64.isNaN (binary64.encode z negZero) = false
      ∧ binary64.encode z negZero < 2 ^ 64 := by
  obtain ⟨m, hm, h | h⟩ := encode_cases binary64 z negZero <;> rw [h] <;>
    simp [FPFormat.isNaN, FPFormat.infBits, FPFormat.signMask, binary64] at hm ⊢ <;> omega

theorem quiet32 (b : Nat) (hb : b < 2 ^ 32) (hn : binary32.isNaN b = true) :
    binary32.isNaN (binary32.quiet b) = true ∧ binary32.quiet b < 2 ^ 32 := by
  simp [FPFormat.isNaN, FPFormat.quiet, binary32] at hb hn ⊢
  split_ifs <;> omega

theorem quiet64 (b : Nat) (hb : b < 2 ^ 64) (hn : binary64.isNaN b = true) :
    binary64.isNaN (binary64.quiet b) = true ∧ binary64.quiet b < 2 ^ 64 := by
  simp [FPFormat.isNaN, FPFormat.quiet, binary64] at hb hn ⊢
  split_ifs <;> omega

theorem roundToIntegral32 (imm b : Nat) (hb : b < 2 ^ 32) :
    binary32.roundToIntegral imm b < 2 ^ 32
      ∧ binary32.isNaN (binary32.roundToIntegral imm b) = binary32.isNaN b := by
  unfold FPFormat.roundToIntegral
  by_cases hn : binary32.isNaN b = true
  · rw [if_pos hn, hn]
    exact ⟨(quiet32 b hb hn).2, (quiet32 b hb hn).1⟩
  · rw [if_neg hn]
    rw [Bool.not_eq_true] at hn
    rw [hn]
    by_cases hi : binary32.isInf b = true
    · rw [if_pos hi]; exact ⟨hb, hn⟩
    · rw [if_neg hi]; exact ⟨(encode32 _ _).2, (encode32 _ _).1⟩

theorem roundToIntegral64 (imm b : Nat) (hb : b < 2 ^ 64) :
    binary64.roundToIntegral imm b < 2 ^ 64
      ∧ binary64.isNaN (binary64.roundToIntegral imm b) = binary64.isNaN b := by
  unfold FPFormat.roundToIntegral
  by_cases hn : binary64.isNaN b = true
  · rw [if_pos hn, hn]
    exact ⟨(quiet64 b hb hn).2, (quiet64 b hb hn).1⟩
  · rw [if_neg hn]
    rw [Bool.not_eq_true] at hn
    rw [hn]
    by_cases hi : binary64.isInf b = true
    · rw [if_pos hi]; exact ⟨hb, hn⟩
    · rw [if_neg hi]; exact ⟨(encode64 _ _).2, (encode64 _ _).1⟩

theorem add_half32 (x : Nat) (hx : x < 2 ^ 32) :
    binary32.add 0x3F000000 x < 2 ^ 32
      ∧ binary32.isNaN (binary32.add 0x3F000000 x) = binary32.isNaN x := by
  have h1 : binary32.isNaN 0x3F000000 = false := by decide
  have h2 : binary32.isInf 0x3F000000 = false := by decide
  unfold FPFormat.add
  rw [h1, h2]
  simp only [Bool.false_eq_true, if_false]
  by_cases hn : binary32.isNaN x = true
  · rw [if_pos hn, hn]
    exact ⟨(quiet32 x hx hn).2, (quiet32 x hx hn).1⟩
  · rw [if_neg hn]
    rw [Bool.not_eq_true] at hn
    rw [hn]
    by_cases hi : binary32.isInf x = true
    · rw [if_pos hi]; exact ⟨hx, hn⟩
    · rw [if_neg hi]; exact ⟨(encode32 _ _).2, (encode32 _ _).1⟩

theorem add_half64 (x : Nat) (hx : x < 2 ^ 64) :
    binary64.add 0x3FE0000000000000 x < 2 ^ 64
      ∧ binary64.isNaN (binary64.add 0x3FE0000000000000 x) = binary64.isNaN x := by
  have h1 : binary64.isNaN 0x3FE0000000000000 = false := by decide
  have h2 : binary64.isInf 0x3FE0000000000000 = false := by decide
  unfold FPFormat.add
  rw [h1, h2]
  simp only [Bool.false_eq_true, if_false]
  by_cases hn : binary64.isNaN x = true
  · rw [if_pos hn, hn]
    exact ⟨(quiet64 x hx hn).2, (quiet64 x hx hn).1⟩
  · rw [if_neg hn]
    rw [Bool.not_eq_true] at hn
    rw [hn]
    by_cases hi : binary64.isInf x = true
    · rw [if_pos hi]; exact ⟨hx, hn⟩
    · rw [if_neg hi]; exact ⟨(encode64 _ _).2, (encode64 _ _).1⟩

theorem roundFloor32_spec (x : Nat) (hx : x < 2 ^ 32) :
    roundFloor32 x < 2 ^ 32 ∧ binary32.isNaN (roundFloor32 x) = binary32.isNaN x := by
  obtain ⟨h1, h2⟩ := add_half32 x hx
  obtain ⟨h3, h4⟩ := roundToIntegral32 1 _ h1
  exact ⟨h3, h4.trans h2⟩

theorem roundFloor64_spec (x : Nat) (hx : x < 2 ^ 64) :
    roundFloor64 x < 2 ^ 64 ∧ binary64.isNaN (roundFloor64 x) = binary64.isNaN x := by
  obtain ⟨h1, h2⟩ := add_half64 x hx
  obtain ⟨h3, h4⟩ := roundToIntegral64 1 _ h1
  exact ⟨h3, h4.trans h2⟩

theorem lane_low (u v n : Nat) (hv : v < 2 ^ n) : (u / 2 ^ n * 2 ^ n + v) % 2 ^ n = v := by
  rw [Nat.add_comm, Nat.add_mul_mod_self_right, Nat.mod_eq_of_lt hv]

theorem round_straight32 (input maxInt ipf : XmmRegister) (out : CpuRegister)
    (h1 : input ≠ ipf) (h2 : maxInt ≠ ipf) (s : State) :
    ∃ s7, [ Instr.movl out (Operand.imm 0x3F000000),
            Instr.movd_to_xmm ipf out false,
            Instr.addss ipf input,
            Instr.roundss ipf ipf 1,
            Instr.movl out (Operand.imm kPrimIntMax),
            Instr.cvtsi2ss maxInt out false,
            Instr.comiss ipf maxInt ].foldl step s = s7
      ∧ s7.xmm ipf % 2 ^ 32 = roundFloor32 (s.xmm input % 2 ^ 32)
      ∧ s7.flags = ucomiFlags binary32 (roundFloor32 (s.xmm input % 2 ^ 32))
          (binary32.ofInt kPrimIntMax)
      ∧ s7.cpu out = 0x7FFFFFFF := by
  have hx : s.xmm input % 2 ^ 32 < 2 ^ 32 := Nat.mod_lt _ (by norm_num)
  have ha := (add_half32 _ hx).1
  have ht := (roundFloor32_spec _ hx).1
  have hm : binary32.ofInt kPrimIntMax < 2 ^ 32 := (encode32 _ _).2
  have hk : toSigned 32 (immBits 32 kPrimIntMax) = kPrimIntMax := by decide
  have hc : immBits 32 0x3F000000 % 2 ^ 32 = 0x3F000000 := by decide
  have hi : immBits 8 1 = 1 := by decide
  have e1 : (1056964608 : Nat) % 2 ^ 128 / 2 ^ 32 * 2 ^ 32 = 0 := by norm_num
  have e2 : (1056964608 : Nat) % 2 ^ 32 = 1056964608 := by norm_num
  have ht' : binary32.roundToIntegral 1 (binary32.add 1056964608 (s.xmm input % 2 ^ 32))
      < 2 ^ 32 := ht
  refine ⟨_, rfl, ?_, ?_, ?_⟩
  · simp only [List.foldl, step, State.setXmm, State.setCpu, State.setFlags, Operand.value,
      Function.update, h1, h2, Ne.symm h2, if_true, if_false, Bool.false_eq_true, eq_rec_constant,
      dite_eq_ite, hc, hi]
    rw [e1, e2, Nat.zero_add, Nat.mod_eq_of_lt ha, lane_low _ _ 32 ht']
    rfl
  · simp only [List.foldl, step, State.setXmm, State.setCpu, State.setFlags, Operand.value,
      Function.update, h1, h2, Ne.symm h2, if_true, if_false, Bool.false_eq_true, eq_rec_constant,
      dite_eq_ite, hc, hi, hk]
    rw [e1, e2, Nat.zero_add, Nat.mod_eq_of_lt ha, lane_low _ _ 32 ht', lane_low _ _ 32 hm]
    rfl
  · simp only [List.foldl, step, State.setXmm, State.setCpu, State.setFlags, Operand.value,
      Function.update, if_true, eq_rec_constant, dite_eq_ite]
    decide

theorem ucomiFlags_cf (f : FPFormat) (a b : Nat) :
    (ucomiFlags f a b).cf = (f.isNaN a || f.isNaN b || decide (f.key a < f.key b)) := by
  unfold ucomiFlags
  split_ifs with h1 h2 h3 <;> simp_all

theorem ucomiFlags_pf (f : FPFormat) (a b : Nat) :
    (ucomiFlags f a b).pf = (f.isNaN a || f.isNaN b) := by
  unfold ucomiFlags
  split_ifs with h1 h2 h3 <;> simp_all

theorem exec_MathRoundFloat (input maxInt ipf : XmmRegister) (out : CpuRegister)
    (h1 : input ≠ ipf) (h2 : maxInt ≠ ipf) (s : State) :
    ∃ s', exec [ Instr.movl out (Operand.imm 0x3F000000),
                 Instr.movd_to_xmm ipf out false,
                 Instr.addss ipf input,
                 Instr.roundss ipf ipf 1,
                 Instr.movl out (Operand.imm kPrimIntMax),
                 Instr.cvtsi2ss maxInt out false,
                 Instr.comiss ipf maxInt,
                 Instr.j Condition.kAboveEqual Label.done,
                 Instr.j Condition.kUnordered Label.nan,
                 Instr.cvttss2si out ipf false,
                 Instr.jmp Label.done,
                 Instr.Bind Label.nan,
                 Instr.xorl out (Operand.reg out),
                 Instr.Bind Label.done ] s = some s'
      ∧ s'.cpu out =
          (if binary32.isNaN (roundFloor32 (s.xmm input % 2 ^ 32)) = false
              ∧ binary32.key (binary32.ofInt kPrimIntMax)
                  ≤ binary32.key (roundFloor32 (s.xmm input % 2 ^ 32)) then 0x7FFFFFFF
           else if binary32.isNaN (s.xmm input % 2 ^ 32) = true then 0
           else binary32.toIntTrunc 32 (roundFloor32 (s.xmm input % 2 ^ 32))) := by
  obtain ⟨s7, h7, hx, hf, ho⟩ := round_straight32 input maxInt ipf out h1 h2 s
  have hn := (roundFloor32_spec (s.xmm input % 2 ^ 32) (Nat.mod_lt _ (by norm_num))).2
  have hm : binary32.isNaN (binary32.ofInt kPrimIntMax) = false := (encode32 _ _).1
  have hcf := ucomiFlags_cf binary32 (roundFloor32 (s.xmm input % 2 ^ 32))
    (binary32.ofInt kPrimIntMax)
  have hpf := ucomiFlags_pf binary32 (roundFloor32 (s.xmm input % 2 ^ 32))
    (binary32.ofInt kPrimIntMax)
  rw [← hf, hm, Bool.or_false] at hcf hpf
  rw [hn] at hpf
  have he : exec [ Instr.movl out (Operand.imm 0x3F000000),
                 Instr.movd_to_xmm ipf out false,
                 Instr.addss ipf input,
                 Instr.roundss ipf ipf 1,
                 Instr.movl out (Operand.imm kPrimIntMax),
                 Instr.cvtsi2ss maxInt out false,
                 Instr.comiss ipf maxInt,
                 Instr.j Condition.kAboveEqual Label.done,
                 Instr.j Condition.kUnordered Label.nan,
                 Instr.cvttss2si out ipf false,
                 Instr.jmp Label.done,
                 Instr.Bind Label.nan,
                 Instr.xorl out (Operand.reg out),
                 Instr.Bind Label.done ] s
      = (if s7.flags.cf = false then some s7
         else if s7.flags.pf = true then some (step s7 (Instr.xorl out (Operand.reg out)))
         else some (step s7 (Instr.cvttss2si out ipf false))) := by
    rw [← h7]
    simp [exec, run, findLabel, Condition.holds, step]
  rw [he]
  by_cases hc : s7.flags.cf = false
  · rw [if_pos hc]
    refine ⟨_, rfl, ?_⟩
    rw [hc] at hcf
    have hcf' := hcf.symm
    simp only [Bool.or_eq_false_iff, decide_eq_false_iff_not, not_lt] at hcf'
    rw [if_pos hcf', ho]
  · rw [if_neg hc]
    rw [Bool.not_eq_false] at hc
    rw [hc] at hcf
    have hcf' := hcf.symm
    simp only [Bool.or_eq_true, decide_eq_true_eq] at hcf'
    have hnot : ¬ (binary32.isNaN (roundFloor32 (s.xmm input % 2 ^ 32)) = false
        ∧ binary32.key (binary32.ofInt kPrimIntMax)
            ≤ binary32.key (roundFloor32 (s.xmm input % 2 ^ 32))) := by
      rintro ⟨a, b⟩
      rcases hcf' with c | c
      · rw [a] at c; cases c
      · omega
    rw [if_neg hnot]
    by_cases hp : s7.flags.pf = true
    · rw [if_pos hp]
      refine ⟨_, rfl, ?_⟩
      rw [hp] at hpf
      rw [if_pos hpf.symm]
      simp [step, logicOp, Operand.value, State.setCpu, State.setFlags]
    · rw [if_neg hp]
      refine ⟨_, rfl, ?_⟩
      rw [Bool.not_eq_true] at hp
      rw [hp] at hpf
      rw [if_neg (by rw [← hpf]; simp)]
      norm_num at hx
      simp [step, State.setCpu, hx]

theorem round_straight64 (input maxLong ipf : XmmRegister) (out : CpuRegister)
    (h1 : input ≠ ipf) (h2 : maxLong ≠ ipf) (s : State) :
    ∃ s7, [ Instr.movq out (Operand.imm 0x3FE0000000000000),
            Instr.movd_to_xmm ipf out true,
            Instr.addsd ipf input,
            Instr.roundsd ipf ipf 1,
            Instr.movq out (Operand.imm kPrimLongMax),
            Instr.cvtsi2sd maxLong out true,
            Instr.comisd ipf maxLong ].foldl step s = s7
      ∧ s7.xmm ipf % 2 ^ 64 = roundFloor64 (s.xmm input % 2 ^ 64)
      ∧ s7.flags = ucomiFlags binary64 (roundFloor64 (s.xmm input % 2 ^ 64))
          (binary64.ofInt kPrimLongMax)
      ∧ s7.cpu out = 0x7FFFFFFFFFFFFFFF := by
  have hx : s.xmm input % 2 ^ 64 < 2 ^ 64 := Nat.mod_lt _ (by norm_num)
  have ha := (add_half64 _ hx).1
  have ht := (roundFloor64_spec _ hx).1
  have hm : binary64.ofInt kPrimLongMax < 2 ^ 64 := (encode64 _ _).2
  have hk : toSigned 64 (immBits 64 kPrimLongMax) = kPrimLongMax := by decide
  have hc : immBits 64 0x3FE0000000000000 % 2 ^ 64 = 0x3FE0000000000000 := by decide
  have hi : immBits 8 1 = 1 := by decide
  have e1 : (4602678819172646912 : Nat) % 2 ^ 128 / 2 ^ 64 * 2 ^ 64 = 0 := by norm_num
  have e2 : (4602678819172646912 : Nat) % 2 ^ 64 = 4602678819172646912 := by norm_num
  have ht' : binary64.roundToIntegral 1 (binary64.add 4602678819172646912 (s.xmm input % 2 ^ 64))
      < 2 ^ 64 := ht
  refine ⟨_, rfl, ?_, ?_, ?_⟩
  · simp only [List.foldl, step, State.setXmm, State.setCpu, State.setFlags, Operand.value,
      Function.update, h1, h2, Ne.symm h2, if_true, if_false, Bool.false_eq_true, eq_rec_constant,
      dite_eq_ite, hc, hi]
    rw [e1, e2, Nat.zero_add, Nat.mod_eq_of_lt ha, lane_low _ _ 64 ht']
    rfl
  · simp only [List.foldl, step, State.setXmm, State.setCpu, State.setFlags, Operand.value,
      Function.update, h1, h2, Ne.symm h2, if_true, if_false, Bool.false_eq_true, eq_rec_constant,
      dite_eq_ite, hc, hi, hk]
    rw [e1, e2, Nat.zero_add, Nat.mod_eq_of_lt ha, lane_low _ _ 64 ht', lane_low _ _ 64 hm]
    rfl
  · simp only [List.foldl, step, State.setXmm, State.setCpu, State.setFlags, Operand.value,
      Function.update, if_true, eq_rec_constant, dite_eq_ite]
    decide

theorem exec_MathRoundDouble (input maxLong ipf : XmmRegister) (out : CpuRegister)
    (h1 : input ≠ ipf) (h2 : maxLong ≠ ipf) (s : State) :
    ∃ s', exec [ Instr.movq out (Operand.imm 0x3FE0000000000000),
                 Instr.movd_to_xmm ipf out true,
                 Instr.addsd ipf input,
                 Instr.roundsd ipf ipf 1,
                 Instr.movq out (Operand.imm kPrimLongMax),
                 Instr.cvtsi2sd maxLong out true,
                 Instr.comisd ipf maxLong,
                 Instr.j Condition.kAboveEqual Label.done,
                 Instr.j Condition.kUnordered Label.nan,
                 Instr.cvttsd2si out ipf true,
                 Instr.jmp Label.done,
                 Instr.Bind Label.nan,
                 Instr.xorq out (Operand.reg out),
                 Instr.Bind Label.done ] s = some s'
      ∧ s'.cpu out =
          (if binary64.isNaN (roundFloor64 (s.xmm input % 2 ^ 64)) = false
              ∧ binary64.key (binary64.ofInt kPrimLongMax)
                  ≤ binary64.key (roundFloor64 (s.xmm input % 2 ^ 64)) then 0x7FFFFFFFFFFFFFFF
           else if binary64.isNaN (s.xmm input % 2 ^ 64) = true then 0
           else binary64.toIntTrunc 64 (roundFloor64 (s.xmm input % 2 ^ 64))) := by
  obtain ⟨s7, h7, hx, hf, ho⟩ := round_straight64 input maxLong ipf out h1 h2 s
  have hn := (roundFloor64_spec (s.xmm input % 2 ^ 64) (Nat.mod_lt _ (by norm_num))).2
  have hm : binary64.isNaN (binary64.ofInt kPrimLongMax) = false := (encode64 _ _).1
  have hcf := ucomiFlags_cf binary64 (roundFloor64 (s.xmm input % 2 ^ 64))
    (binary64.ofInt kPrimLongMax)
  have hpf := ucomiFlags_pf binary64 (roundFloor64 (s.xmm input % 2 ^ 64))
    (binary64.ofInt kPrimLongMax)
  rw [← hf, hm, Bool.or_false] at hcf hpf
  rw [hn] at hpf
  have he : exec [ Instr.movq out (Operand.imm 0x3FE0000000000000),
                 Instr.movd_to_xmm ipf out true,
                 Instr.addsd ipf input,
                 Instr.roundsd ipf ipf 1,
                 Instr.movq out (Operand.imm kPrimLongMax),
                 Instr.cvtsi2sd maxLong out true,
                 Instr.comisd ipf maxLong,
                 Instr.j Condition.kAboveEqual Label.done,
                 Instr.j Condition.kUnordered Label.nan,
                 Instr.cvttsd2si out ipf true,
                 Instr.jmp Label.done,
                 Instr.Bind Label.nan,
                 Instr.xorq out (Operand.reg out),
                 Instr.Bind Label.done ] s
      = (if s7.flags.cf = false then some s7
         else if s7.flags.pf = true then some (step s7 (Instr.xorq out (Operand.reg out)))
         else some (step s7 (Instr.cvttsd2si out ipf true))) := by
    rw [← h7]
    simp [exec, run, findLabel, Condition.holds, step]
  rw [he]
  by_cases hc : s7.flags.cf = false
  · rw [if_pos hc]
    refine ⟨_, rfl, ?_⟩
    rw [hc] at hcf
    have hcf' := hcf.symm
    simp only [Bool.or_eq_false_iff, decide_eq_false_iff_not, not_lt] at hcf'
    rw [if_pos hcf', ho]
  · rw [if_neg hc]
    rw [Bool.not_eq_false] at hc
    rw [hc] at hcf
    have hcf' := hcf.symm
    simp only [Bool.or_eq_true, decide_eq_true_eq] at hcf'
    have hnot : ¬ (binary64.isNaN (roundFloor64 (s.xmm input % 2 ^ 64)) = false
        ∧ binary64.key (binary64.ofInt kPrimLongMax)
            ≤ binary64.key (roundFloor64 (s.xmm input % 2 ^ 64))) := by
      rintro ⟨a, b⟩
      rcases hcf' with c | c
      · rw [a] at c; cases c
      · omega
    rw [if_neg hnot]
    by_cases hp : s7.flags.pf = true
    · rw [if_pos hp]
      refine ⟨_, rfl, ?_⟩
      rw [hp] at hpf
      rw [if_pos hpf.symm]
      simp [step, logicOp, Operand.value, State.setCpu, State.setFlags]
    · rw [if_neg hp]
      refine ⟨_, rfl, ?_⟩
      rw [Bool.not_eq_true] at hp
      rw [hp] at hpf
      rw [if_neg (by rw [← hpf]; simp)]
      norm_num at hx
      simp [step, State.setCpu, hx]

theorem VisitMathRoundFloat_computes (cc : List PrimitiveType → PrimitiveType → Location)
    (invoke : HInvoke) (locations : LocationSummary)
    (input maxInt inPlusPointFive : XmmRegister) (out : CpuRegister)
    (hloc : invoke.locations = some locations) (hcall : locations.WillCall = false)
    (h0 : locations.InAt 0 = Location.FpuRegisterLocation input)
    (hout : locations.Out = Location.RegisterLocation out)
    (ht0 : locations.GetTemp 0 = Location.FpuRegisterLocation maxInt)
    (ht1 : locations.GetTemp 1 = Location.FpuRegisterLocation inPlusPointFive)
    (h1 : input ≠ inPlusPointFive) (h2 : maxInt ≠ inPlusPointFive) (s : State) :
    ∃ code s', VisitMathRoundFloat cc invoke = some code ∧ exec code s = some s'
      ∧ s'.cpu out = roundResult32 (s.xmm input % 2 ^ 32) := by
  obtain ⟨s', he, hv⟩ := exec_MathRoundFloat input maxInt inPlusPointFive out h1 h2 s
  refine ⟨_, s', ?_, he, hv⟩
  simp [VisitMathRoundFloat, hloc, hcall, h0, hout, ht0, ht1, Location.AsRegister,
    Location.AsFpuRegister]

theorem VisitMathRoundDouble_computes (cc : List PrimitiveType → PrimitiveType → Location)
    (invoke : HInvoke) (locations : LocationSummary)
    (input maxLong inPlusPointFive : XmmRegister) (out : CpuRegister)
    (hloc : invoke.locations = some locations) (hcall : locations.WillCall = false)
    (h0 : locations.InAt 0 = Location.FpuRegisterLocation input)
    (hout : locations.Out = Location.RegisterLocation out)
    (ht0 : locations.GetTemp 0 = Location.FpuRegisterLocation maxLong)
    (ht1 : locations.GetTemp 1 = Location.FpuRegisterLocation inPlusPointFive)
    (h1 : input ≠ inPlusPointFive) (h2 : maxLong ≠ inPlusPointFive) (s : State) :
    ∃ code s', VisitMathRoundDouble cc invoke = some code ∧ exec code s = some s'
      ∧ s'.cpu out = roundResult64 (s.xmm input % 2 ^ 64) := by
  obtain ⟨s', he, hv⟩ := exec_MathRoundDouble input maxLong inPlusPointFive out h1 h2 s
  refine ⟨_, s', ?_, he, hv⟩
  simp [VisitMathRoundDouble, hloc, hcall, h0, hout, ht0, ht1, Location.AsRegister,
    Location.AsFpuRegister]

/-- C13: on the inline path (the locations do not ask for a call, the output
is a general register), for every input pattern `x` the sequences of
`VisitMathRoundFloat` and `VisitMathRoundDouble` run to completion and leave in
the output register: the maximum int / long when `t = floor (x + 0.5)` is
ordered and at least the maximum converted to the floating type; otherwise 0
when `x` is a NaN; otherwise the truncating conversion of `t`. -/
theorem C13_MathRound_inline (cc : List PrimitiveType → PrimitiveType → Location)
    (invoke : HInvoke) (locations : LocationSummary)
    (input maxInt inPlusPointFive : XmmRegister) (out : CpuRegister)
    (hloc : invoke.locations = some locations) (hcall : locations.WillCall = false)
    (h0 : locations.InAt 0 = Location.FpuRegisterLocation input)
    (hout : locations.Out = Location.RegisterLocation out)
    (ht0 : locations.GetTemp 0 = Location.FpuRegisterLocation maxInt)
    (ht1 : locations.GetTemp 1 = Location.FpuRegisterLocation inPlusPointFive)
    (h1 : input ≠ inPlusPointFive) (h2 : maxInt ≠ inPlusPointFive) (s : State) :
    (∃ code s', VisitMathRoundFloat cc invoke = some code ∧ exec code s = some s'
      ∧ s'.cpu out =
          (if binary32.isNaN (binary32.roundToIntegral 1
                  (binary32.add 0x3F000000 (s.xmm input % 2 ^ 32))) = false
              ∧ binary32.key (binary32.ofInt kPrimIntMax)
                  ≤ binary32.key (binary32.roundToIntegral 1
                      (binary32.add 0x3F000000 (s.xmm input % 2 ^ 32))) then 0x7FFFFFFF
           else if binary32.isNaN (s.xmm input % 2 ^ 32) = true then 0
           else binary32.toIntTrunc 32 (binary32.roundToIntegral 1
                  (binary32.add 0x3F000000 (s.xmm input % 2 ^ 32)))))
    ∧ (∃ code s', VisitMathRoundDouble cc invoke = some code ∧ exec code s = some s'
      ∧ s'.cpu out =
          (if binary64.isNaN (binary64.roundToIntegral 1
                  (binary64.add 0x3FE0000000000000 (s.xmm input % 2 ^ 64))) = false
              ∧ binary64.key (binary64.ofInt kPrimLongMax)
                  ≤ binary64.key (binary64.roundToIntegral 1
                      (binary64.add 0x3FE0000000000000 (s.xmm input % 2 ^ 64))) then
             0x7FFFFFFFFFFFFFFF
           else if binary64.isNaN (s.xmm input % 2 ^ 64) = true then 0
           else binary64.toIntTrunc 64 (binary64.roundToIntegral 1
                  (binary64.add 0x3FE0000000000000 (s.xmm input % 2 ^ 64))))) :=
  ⟨VisitMathRoundFloat_computes cc invoke locations input maxInt inPlusPointFive out hloc hcall
      h0 hout ht0 ht1 h1 h2 s,
   VisitMathRoundDouble_computes cc invoke locations input maxInt inPlusPointFive out hloc hcall
      h0 hout ht0 ht1 h1 h2 s⟩

theorem C13_witness :
    (∃ code s', VisitMathRoundFloat (fun _ _ => Location.NoLocation) invokeRound = some code
      ∧ exec code (stateWithXmm0 0x40200000) = some s'
      ∧ s'.cpu CpuRegister.RAX =
          (if binary32.isNaN (binary32.roundToIntegral 1
                  (binary32.add 0x3F000000
                    ((stateWithXmm0 0x40200000).xmm XmmRegister.XMM0 % 2 ^ 32))) = false
              ∧ binary32.key (binary32.ofInt kPrimIntMax)
                  ≤ binary32.key (binary32.roundToIntegral 1
                      (binary32.add 0x3F000000
                        ((stateWithXmm0 0x40200000).xmm XmmRegister.XMM0 % 2 ^ 32)))
           then 0x7FFFFFFF
           else if binary32.isNaN ((stateWithXmm0 0x40200000).xmm XmmRegister.XMM0 % 2 ^ 32)
              = true then 0
           else binary32.toIntTrunc 32 (binary32.roundToIntegral 1
                  (binary32.add 0x3F000000
                    ((stateWithXmm0 0x40200000).xmm XmmRegister.XMM0 % 2 ^ 32)))))
    ∧ (∃ code s', VisitMathRoundDouble (fun _ _ => Location.NoLocation) invokeRound = some code
      ∧ exec code (stateWithXmm0 0x40200000) = some s'
      ∧ s'.cpu CpuRegister.RAX =
          (if binary64.isNaN (binary64.roundToIntegral 1
                  (binary64.add 0x3FE0000000000000
                    ((stateWithXmm0 0x40200000).xmm XmmRegister.XMM0 % 2 ^ 64))) = false
              ∧ binary64.key (binary64.ofInt kPrimLongMax)
                  ≤ binary64.key (binary64.roundToIntegral 1
                      (binary64.add 0x3FE0000000000000
                        ((stateWithXmm0 0x40200000).xmm XmmRegister.XMM0 % 2 ^ 64)))
           then 0x7FFFFFFFFFFFFFFF
           else if binary64.isNaN ((stateWithXmm0 0x40200000).xmm XmmRegister.XMM0 % 2 ^ 64)
              = true then 0
           else binary64.toIntTrunc 64 (binary64.roundToIntegral 1
                  (binary64.add 0x3FE0000000000000
                    ((stateWithXmm0 0x40200000).xmm XmmRegister.XMM0 % 2 ^ 64))))) :=
  C13_MathRound_inline (fun _ _ => Location.NoLocation) invokeRound locationsRound
    XmmRegister.XMM0 XmmRegister.XMM1 XmmRegister.XMM2 CpuRegister.RAX rfl rfl rfl rfl rfl rfl
    (by decide) (by decide) (stateWithXmm0 0x40200000)

theorem VisitStringCharAt_eq (o : StringOffsets) (invoke : HInvoke) (locations : LocationSummary)
    (obj idx out temp : CpuRegister)
    (hloc : invoke.locations = some locations)
    (h0 : locations.InAt 0 = Location.RegisterLocation obj)
    (h1 : locations.InAt 1 = Location.RegisterLocation idx)
    (hout : locations.Out = Location.RegisterLocation out)
    (htemp : locations.GetTemp 0 = Location.RegisterLocation temp) :
    VisitStringCharAt o invoke = some
       [ Instr.AddSlowPath Label.slow_path_entry Label.slow_path_exit,
         Instr.cmpl idx (Operand.mem { base := obj, index := none, disp := o.count_offset }),
         Instr.MaybeRecordImplicitNullCheck,
         Instr.j Condition.kAboveEqual Label.slow_path_entry,
         Instr.movl temp (Operand.reg idx),
         Instr.addl temp (Operand.mem { base := obj, index := none, disp := o.offset_offset }),
         Instr.movl out (Operand.mem { base := obj, index := none, disp := o.value_offset }),
         Instr.movzxw out
           { base := out, index := some (temp, ScaleFactor.TIMES_2), disp := o.data_offset },
         Instr.Bind Label.slow_path_exit ] := by
  simp [VisitStringCharAt, hloc, h0, h1, hout, htemp, Location.AsRegister]

theorem execTo_StringCharAt (o : StringOffsets) (obj idx out temp : CpuRegister) (s : State) :
    (readMem s.mem (Address.effective s { base := obj, index := none, disp := o.count_offset }) 4
        ≤ s.cpu idx % 2 ^ 32 →
      ∃ s', execTo
       [ Instr.AddSlowPath Label.slow_path_entry Label.slow_path_exit,
         Instr.cmpl idx (Operand.mem { base := obj, index := none, disp := o.count_offset }),
         Instr.MaybeRecordImplicitNullCheck,
         Instr.j Condition.kAboveEqual Label.slow_path_entry,
         Instr.movl temp (Operand.reg idx),
         Instr.addl temp (Operand.mem { base := obj, index := none, disp := o.offset_offset }),
         Instr.movl out (Operand.mem { base := obj, index := none, disp := o.value_offset }),
         Instr.movzxw out
           { base := out, index := some (temp, ScaleFactor.TIMES_2), disp := o.data_offset },
         Instr.Bind Label.slow_path_exit ] s = some (Outcome.exit Label.slow_path_entry s')
        ∧ s'.cpu = s.cpu ∧ s'.xmm = s.xmm ∧ s'.mem = s.mem)
    ∧ (s.cpu idx % 2 ^ 32
        < readMem s.mem (Address.effective s { base := obj, index := none, disp := o.count_offset }) 4 →
      ∃ s', execTo
       [ Instr.AddSlowPath Label.slow_path_entry Label.slow_path_exit,
         Instr.cmpl idx (Operand.mem { base := obj, index := none, disp := o.count_offset }),
         Instr.MaybeRecordImplicitNullCheck,
         Instr.j Condition.kAboveEqual Label.slow_path_entry,
         Instr.movl temp (Operand.reg idx),
         Instr.addl temp (Operand.mem { base := obj, index := none, disp := o.offset_offset }),
         Instr.movl out (Operand.mem { base := obj, index := none, disp := o.value_offset }),
         Instr.movzxw out
           { base := out, index := some (temp, ScaleFactor.TIMES_2), disp := o.data_offset },
         Instr.Bind Label.slow_path_exit ] s = some (Outcome.finished s')) := by
  constructor
  · intro h
    have h' : ¬ s.cpu idx % 4294967296
        < readMem s.mem (Address.effective s { base := obj, index := none, disp := o.count_offset }) 4 := by
      norm_num at h; omega
    simp [execTo, runTo, findLabel, step, subFlags, Condition.holds, State.setFlags,
      Operand.value, h']
  · intro h
    norm_num at h
    simp [execTo, runTo, findLabel, step, subFlags, Condition.holds, State.setFlags,
      Operand.value, h]

/-- C15: for every 32-bit index in the index register and every string
whose count field is a non-negative 32-bit integer, the sequence of
`VisitStringCharAt` leaves for the slow-path entry label if and only if the
index, read as a signed integer, is negative or at least the count (then with
registers and memory untouched); an in-range index runs the fast path to its
end and never reaches the slow path. -/
theorem C15_StringCharAt_bounds_check (o : StringOffsets) (invoke : HInvoke)
    (locations : LocationSummary) (obj idx out temp : CpuRegister)
    (hloc : invoke.locations = some locations)
    (h0 : locations.InAt 0 = Location.RegisterLocation obj)
    (h1 : locations.InAt 1 = Location.RegisterLocation idx)
    (hout : locations.Out = Location.RegisterLocation out)
    (htemp : locations.GetTemp 0 = Location.RegisterLocation temp)
    (s : State) (index count : Nat)
    (hidx : s.cpu idx % 2 ^ 32 = index)
    (hcnt : readMem s.mem
      (Address.effective s { base := obj, index := none, disp := o.count_offset }) 4 = count)
    (hc : count < 2 ^ 31) :
    ∃ code, VisitStringCharAt o invoke = some code
      ∧ ((∃ s', execTo code s = some (Outcome.exit Label.slow_path_entry s'))
          ↔ (toSigned 32 index < 0 ∨ (count : Int) ≤ toSigned 32 index))
      ∧ (toSigned 32 index < 0 ∨ (count : Int) ≤ toSigned 32 index →
          ∃ s', execTo code s = some (Outcome.exit Label.slow_path_entry s')
            ∧ s'.cpu = s.cpu ∧ s'.xmm = s.xmm ∧ s'.mem = s.mem)
      ∧ (0 ≤ toSigned 32 index ∧ toSigned 32 index < (count : Int) →
          ∃ s', execTo code s = some (Outcome.finished s')) := by
  have hi : index < 2 ^ 32 := by rw [← hidx]; exact Nat.mod_lt _ (by norm_num)
  have hsig := toSigned32 index hi
  have hrel : (toSigned 32 index < 0 ∨ (count : Int) ≤ toSigned 32 index) ↔ count ≤ index := by
    rw [hsig]
    norm_num at hi hc ⊢
    split_ifs <;> omega
  have hrel' : (0 ≤ toSigned 32 index ∧ toSigned 32 index < (count : Int)) ↔ index < count := by
    rw [hsig]
    norm_num at hi hc ⊢
    split_ifs <;> omega
  obtain ⟨hexit, hfin⟩ := execTo_StringCharAt o obj idx out temp s
  rw [hidx, hcnt] at hexit hfin
  refine ⟨_, VisitStringCharAt_eq o invoke locations obj idx out temp hloc h0 h1 hout htemp,
    ?_, ?_, ?_⟩
  · rw [hrel]
    constructor
    · rintro ⟨s', hs'⟩
      by_contra hlt
      obtain ⟨s'', hs''⟩ := hfin (not_le.mp hlt)
      rw [hs''] at hs'
      cases hs'
    · intro hle
      obtain ⟨s', hs', _⟩ := hexit hle
      exact ⟨s', hs'⟩
  · intro h
    exact hexit (hrel.mp h)
  · intro h
    exact hfin (hrel'.mp h)

set_option maxRecDepth 100000 in
theorem C15_witness :
    ∃ code, VisitStringCharAt stringOffsets invokeCharAt = some code
      ∧ ((∃ s', execTo code charAtState = some (Outcome.exit Label.slow_path_entry s'))
          ↔ (toSigned 32 5 < 0 ∨ ((5 : Nat) : Int) ≤ toSigned 32 5))
      ∧ (toSigned 32 5 < 0 ∨ ((5 : Nat) : Int) ≤ toSigned 32 5 →
          ∃ s', execTo code charAtState = some (Outcome.exit Label.slow_path_entry s')
            ∧ s'.cpu = charAtState.cpu ∧ s'.xmm = charAtState.xmm ∧ s'.mem = charAtState.mem)
      ∧ (0 ≤ toSigned 32 5 ∧ toSigned 32 5 < ((5 : Nat) : Int) →
          ∃ s', execTo code charAtState = some (Outcome.finished s')) :=
  C15_StringCharAt_bounds_check stringOffsets invokeCharAt locationsCharAt CpuRegister.RAX
    CpuRegister.RCX CpuRegister.RAX CpuRegister.RDX rfl rfl rfl rfl rfl charAtState 5 5
    (by decide) (by decide) (by decide)

/-! ## Raw field writes and compare-and-swap -/

theorem writeMem_below (n : Nat) : ∀ (mem : Nat → Nat) (a v x : Nat), x < a →
    writeMem mem a v n x = mem x := by
  induction n with
  | zero => intro mem a v x _; rfl
  | succ n ih =>
    intro mem a v x hx
    rw [writeMem, ih _ _ _ _ (by omega), Function.update_noteq (by omega)]

theorem readMem_writeMem (n : Nat) : ∀ (mem : Nat → Nat) (a v : Nat),
    readMem (writeMem mem a v n) a n = v % 256 ^ n := by
  induction n with
  | zero => intro mem a v; simp [readMem, Nat.mod_one]
  | succ n ih =>
    intro mem a v
    rw [writeMem, readMem, ih, writeMem_below _ _ _ _ _ (by omega), Function.update_same,
      pow_succ, Nat.mul_comm (256 ^ n) 256, Nat.mod_mul, Nat.mod_mod]

theorem readMem_lt (n : Nat) : ∀ (mem : Nat → Nat) (a : Nat), readMem mem a n < 256 ^ n := by
  induction n with
  | zero => intro mem a; simp [readMem]
  | succ n ih =>
    intro mem a
    rw [readMem, pow_succ]
    have h1 := ih mem (a + 1)
    have h2 : mem a % 256 < 256 := Nat.mod_lt _ (by norm_num)
    nlinarith

theorem fieldAddress_effective (base offset : CpuRegister) (s : State) :
    (fieldAddress base offset).effective s = (s.cpu base + s.cpu offset) % 2 ^ 64 := by
  simp only [fieldAddress, Address.effective, ScaleFactor.multiplier]
  omega

theorem GenUnsafePut_eq (type : PrimitiveType) (locations : LocationSummary) (base offset value temp card : CpuRegister)
    (h1 : locations.InAt 1 = Location.RegisterLocation base)
    (h2 : locations.InAt 2 = Location.RegisterLocation offset)
    (h3 : locations.InAt 3 = Location.RegisterLocation value)
    (ht : type = PrimitiveType.kPrimNot →
      locations.GetTemp 0 = Location.RegisterLocation temp
        ∧ locations.GetTemp 1 = Location.RegisterLocation card)
    (is_volatile : Bool) :
    GenUnsafePut locations type is_volatile
      = some ([putStore type base offset value] ++ (if is_volatile then [Instr.mfence] else [])
          ++ (if type = PrimitiveType.kPrimNot then [Instr.MarkGCCard temp card base value]
              else [])) := by
  by_cases hn : type = PrimitiveType.kPrimNot
  · obtain ⟨ht0, ht1⟩ := ht hn
    subst hn
    cases is_volatile <;>
      simp [GenUnsafePut, h1, h2, h3, ht0, ht1, Location.AsRegister, putStore, fieldAddress]
  · by_cases hl : type = PrimitiveType.kPrimLong
    · subst hl
      cases is_volatile <;>
        simp [GenUnsafePut, h1, h2, h3, Location.AsRegister, putStore, fieldAddress]
    · cases is_volatile <;>
        simp [GenUnsafePut, h1, h2, h3, Location.AsRegister, putStore, fieldAddress, hn, hl]

theorem VisitUnsafePut_eq (invoke : HInvoke) (locations : LocationSummary)
    (hloc : invoke.locations = some locations) :
    VisitUnsafePut invoke = GenUnsafePut locations PrimitiveType.kPrimInt false
    ∧ VisitUnsafePutOrdered invoke = GenUnsafePut locations PrimitiveType.kPrimInt false
    ∧ VisitUnsafePutVolatile invoke = GenUnsafePut locations PrimitiveType.kPrimInt true
    ∧ VisitUnsafePutObject invoke = GenUnsafePut locations PrimitiveType.kPrimNot false
    ∧ VisitUnsafePutObjectOrdered invoke = GenUnsafePut locations PrimitiveType.kPrimNot false
    ∧ VisitUnsafePutObjectVolatile invoke = GenUnsafePut locations PrimitiveType.kPrimNot true
    ∧ VisitUnsafePutLong invoke = GenUnsafePut locations PrimitiveType.kPrimLong false
    ∧ VisitUnsafePutLongOrdered invoke = GenUnsafePut locations PrimitiveType.kPrimLong false
    ∧ VisitUnsafePutLongVolatile invoke = GenUnsafePut locations PrimitiveType.kPrimLong true := by
  simp [VisitUnsafePut, VisitUnsafePutOrdered, VisitUnsafePutVolatile, VisitUnsafePutObject,
    VisitUnsafePutObjectOrdered, VisitUnsafePutObjectVolatile, VisitUnsafePutLong,
    VisitUnsafePutLongOrdered, VisitUnsafePutLongVolatile, hloc]

theorem subFlags32_zf (a b : Nat) (ha : a < 2 ^ 32) (hb : b < 2 ^ 32) :
    (subFlags 32 a b).zf = decide (a = b) := by
  simp only [subFlags]
  have e1 : (2 : Nat) ^ 32 = 4294967296 := by norm_num
  simp only [e1] at ha hb ⊢
  congr 1
  apply propext
  constructor <;> intro h <;> omega

theorem subFlags64_zf (a b : Nat) (ha : a < 2 ^ 64) (hb : b < 2 ^ 64) :
    (subFlags 64 a b).zf = decide (a = b) := by
  simp only [subFlags]
  have e1 : (2 : Nat) ^ 64 = 18446744073709551616 := by norm_num
  simp only [e1] at ha hb ⊢
  congr 1
  apply propext
  constructor <;> intro h <;> omega

theorem setcc_movzxb (x b : Nat) (hb : b < 256) : (x / 256 * 256 + b) % 256 = b := by omega

theorem cas_steps32 (addr : Address) (value out : CpuRegister) (s : State) :
    ∃ s', [Instr.LockCmpxchgl addr value, Instr.setcc Condition.kZero out,
            Instr.movzxb out out].foldl step s = s'
      ∧ s'.cards = s.cards
      ∧ (readMem s.mem (addr.effective s) 4 = s.cpu CpuRegister.RAX % 2 ^ 32 →
          readMem s'.mem (addr.effective s) 4 = s.cpu value % 2 ^ 32 ∧ s'.cpu out = 1)
      ∧ (readMem s.mem (addr.effective s) 4 ≠ s.cpu CpuRegister.RAX % 2 ^ 32 →
          s'.mem = s.mem ∧ s'.cpu out = 0) := by
  refine ⟨_, rfl, ?_, ?_, ?_⟩
  · simp only [List.foldl, step, lockCmpxchg]
    split_ifs <;> simp [State.setCpu, State.setFlags, State.setMem]
  · intro h
    have hz := subFlags32_zf (s.cpu CpuRegister.RAX % 2 ^ 32) (s.cpu CpuRegister.RAX % 2 ^ 32)
      (Nat.mod_lt _ (by norm_num)) (Nat.mod_lt _ (by norm_num))
    have hw := readMem_writeMem 4 s.mem (addr.effective s) (s.cpu value % 2 ^ 32)
    norm_num at hz hw h
    simp [List.foldl, step, lockCmpxchg, h, State.setCpu, State.setFlags, State.setMem,
      Condition.holds, hz, hw]
    omega
  · intro h
    have hz := subFlags32_zf (s.cpu CpuRegister.RAX % 2 ^ 32) (readMem s.mem (addr.effective s) 4)
      (Nat.mod_lt _ (by norm_num)) (readMem_lt 4 _ _)
    norm_num at hz h
    have h' : ¬ s.cpu CpuRegister.RAX % 4294967296 = readMem s.mem (addr.effective s) 4 :=
      fun e => h e.symm
    simp [List.foldl, step, lockCmpxchg, h', State.setCpu, State.setFlags, State.setMem,
      Condition.holds, hz]

theorem cas_steps64 (addr : Address) (value out : CpuRegister) (s : State) :
    ∃ s', [Instr.LockCmpxchgq addr value, Instr.setcc Condition.kZero out,
            Instr.movzxb out out].foldl step s = s'
      ∧ s'.cards = s.cards
      ∧ (readMem s.mem (addr.effective s) 8 = s.cpu CpuRegister.RAX % 2 ^ 64 →
          readMem s'.mem (addr.effective s) 8 = s.cpu value % 2 ^ 64 ∧ s'.cpu out = 1)
      ∧ (readMem s.mem (addr.effective s) 8 ≠ s.cpu CpuRegister.RAX % 2 ^ 64 →
          s'.mem = s.mem ∧ s'.cpu out = 0) := by
  refine ⟨_, rfl, ?_, ?_, ?_⟩
  · simp only [List.foldl, step, lockCmpxchg]
    split_ifs <;> simp [State.setCpu, State.setFlags, State.setMem]
  · intro h
    have hz := subFlags64_zf (s.cpu CpuRegister.RAX % 2 ^ 64) (s.cpu CpuRegister.RAX % 2 ^ 64)
      (Nat.mod_lt _ (by norm_num)) (Nat.mod_lt _ (by norm_num))
    have hw := readMem_writeMem 8 s.mem (addr.effective s) (s.cpu value % 2 ^ 64)
    norm_num at hz hw h
    simp [List.foldl, step, lockCmpxchg, h, State.setCpu, State.setFlags, State.setMem,
      Condition.holds, hz, hw]
    omega
  · intro h
    have hz := subFlags64_zf (s.cpu CpuRegister.RAX % 2 ^ 64) (readMem s.mem (addr.effective s) 8)
      (Nat.mod_lt _ (by norm_num)) (readMem_lt 8 _ _)
    norm_num at hz h
    have h' : ¬ s.cpu CpuRegister.RAX % 18446744073709551616 = readMem s.mem (addr.effective s) 8 :=
      fun e => h e.symm
    simp [List.foldl, step, lockCmpxchg, h', State.setCpu, State.setFlags, State.setMem,
      Condition.holds, hz]

/-- The code `GenCAS` emits after the optional card mark. -/
theorem GenCAS_eq (type : PrimitiveType) (invoke : HInvoke) (locations : LocationSummary)
    (base offset value out temp card : CpuRegister)
    (hloc : invoke.locations = some locations)
    (h1 : locations.InAt 1 = Location.RegisterLocation base)
    (h2 : locations.InAt 2 = Location.RegisterLocation offset)
    (h3 : locations.InAt 3 = Location.RegisterLocation CpuRegister.RAX)
    (h4 : locations.InAt 4 = Location.RegisterLocation value)
    (hout : locations.Out = Location.RegisterLocation out)
    (ht : type = PrimitiveType.kPrimNot →
      locations.GetTemp 0 = Location.RegisterLocation temp
        ∧ locations.GetTemp 1 = Location.RegisterLocation card) :
    GenCAS type invoke = some
      ((if type = PrimitiveType.kPrimLong then
          [Instr.LockCmpxchgq (fieldAddress base offset) value]
        else
          (if type = PrimitiveType.kPrimNot then [Instr.MarkGCCard temp card base value] else [])
            ++ [Instr.LockCmpxchgl (fieldAddress base offset) value])
        ++ [Instr.setcc Condition.kZero out, Instr.movzxb out out]) := by
  by_cases hn : type = PrimitiveType.kPrimNot
  · obtain ⟨ht0, ht1⟩ := ht hn
    subst hn
    simp [GenCAS, hloc, h1, h2, h3, h4, hout, ht0, ht1, Location.AsRegister, fieldAddress]
  · by_cases hl : type = PrimitiveType.kPrimLong
    · subst hl
      simp [GenCAS, hloc, h1, h2, h3, h4, hout, Location.AsRegister, fieldAddress]
    · simp [GenCAS, hloc, h1, h2, h3, h4, hout, Location.AsRegister, fieldAddress, hn, hl]

/-- C16: in the sequential model the sequence of `GenCAS` runs to
completion from every state; if the word at base + offset (32 bits for the int
and object kinds, 64 bits for long) equals the expected value in RAX, that word
becomes the new value and the output register is 1; otherwise memory is
unchanged and the output register is 0; the output is 0 or 1.  For the object
kind the two card-mark temps are distinct from the operand registers. -/
theorem C16_GenCAS_succeeds_iff_expected (type : PrimitiveType) (invoke : HInvoke)
    (locations : LocationSummary) (base offset value out temp card : CpuRegister)
    (hloc : invoke.locations = some locations)
    (h1 : locations.InAt 1 = Location.RegisterLocation base)
    (h2 : locations.InAt 2 = Location.RegisterLocation offset)
    (h3 : locations.InAt 3 = Location.RegisterLocation CpuRegister.RAX)
    (h4 : locations.InAt 4 = Location.RegisterLocation value)
    (hout : locations.Out = Location.RegisterLocation out)
    (ht : type = PrimitiveType.kPrimNot →
      locations.GetTemp 0 = Location.RegisterLocation temp
        ∧ locations.GetTemp 1 = Location.RegisterLocation card)
    (hd : type = PrimitiveType.kPrimNot →
      (temp ≠ base ∧ temp ≠ offset ∧ temp ≠ CpuRegister.RAX ∧ temp ≠ value)
        ∧ (card ≠ base ∧ card ≠ offset ∧ card ≠ CpuRegister.RAX ∧ card ≠ value))
    (s : State) (w addr : Nat)
    (hw : w = widthOf (decide (type = PrimitiveType.kPrimLong)))
    (haddr : addr = (s.cpu base + s.cpu offset) % 2 ^ 64) :
    ∃ code s', GenCAS type invoke = some code ∧ exec code s = some s'
      ∧ (readMem s.mem addr (w / 8) = s.cpu CpuRegister.RAX % 2 ^ w →
          readMem s'.mem addr (w / 8) = s.cpu value % 2 ^ w ∧ s'.cpu out = 1)
      ∧ (readMem s.mem addr (w / 8) ≠ s.cpu CpuRegister.RAX % 2 ^ w →
          s'.mem = s.mem ∧ s'.cpu out = 0)
      ∧ (s'.cpu out = 0 ∨ s'.cpu out = 1) := by
  subst hw haddr
  have hcode := GenCAS_eq type invoke locations base offset value out temp card hloc h1 h2 h3 h4
    hout ht
  have key : ∀ (s' : State) (n w : Nat),
      (readMem s.mem ((s.cpu base + s.cpu offset) % 2 ^ 64) n = s.cpu CpuRegister.RAX % 2 ^ w →
        readMem s'.mem ((s.cpu base + s.cpu offset) % 2 ^ 64) n = s.cpu value % 2 ^ w
          ∧ s'.cpu out = 1) →
      (readMem s.mem ((s.cpu base + s.cpu offset) % 2 ^ 64) n ≠ s.cpu CpuRegister.RAX % 2 ^ w →
        s'.mem = s.mem ∧ s'.cpu out = 0) →
      (s'.cpu out = 0 ∨ s'.cpu out = 1) := by
    intro s' n w hs hf
    by_cases h : readMem s.mem ((s.cpu base + s.cpu offset) % 2 ^ 64) n
        = s.cpu CpuRegister.RAX % 2 ^ w
    · exact Or.inr (hs h).2
    · exact Or.inl (hf h).2
  by_cases hl : type = PrimitiveType.kPrimLong
  · subst hl
    simp only [if_true, List.singleton_append] at hcode
    obtain ⟨s', he, _, hs, hf⟩ := cas_steps64 (fieldAddress base offset) value out s
    rw [fieldAddress_effective] at hs hf
    refine ⟨_, s', hcode, ?_, ?_, ?_, ?_⟩
    · rw [exec_straight _ (by simp [Instr.isJump]), he]
    · simpa [widthOf] using hs
    · simpa [widthOf] using hf
    · exact key s' _ _ hs hf
  · by_cases hn : type = PrimitiveType.kPrimNot
    · subst hn
      obtain ⟨⟨d1, d2, d3, d4⟩, d5, d6, d7, d8⟩ := hd rfl
      simp only [if_true, hl, if_false, List.singleton_append, List.cons_append,
        List.nil_append] at hcode
      obtain ⟨s', he, _, hs, hf⟩ := cas_steps32 (fieldAddress base offset) value out
        (step s (Instr.MarkGCCard temp card base value))
      have hb : (step s (Instr.MarkGCCard temp card base value)).cpu base = s.cpu base := by
        simp [step, State.setCpu, State.setFlags, Ne.symm d1, Ne.symm d5]
      have ho : (step s (Instr.MarkGCCard temp card base value)).cpu offset = s.cpu offset := by
        simp [step, State.setCpu, State.setFlags, Ne.symm d2, Ne.symm d6]
      have ha : (step s (Instr.MarkGCCard temp card base value)).cpu CpuRegister.RAX
          = s.cpu CpuRegister.RAX := by
        simp [step, State.setCpu, State.setFlags, Ne.symm d3, Ne.symm d7]
      have hv : (step s (Instr.MarkGCCard temp card base value)).cpu value = s.cpu value := by
        simp [step, State.setCpu, State.setFlags, Ne.symm d4, Ne.symm d8]
      have hm : (step s (Instr.MarkGCCard temp card base value)).mem = s.mem := by
        simp [step, State.setCpu, State.setFlags]
      simp only [fieldAddress_effective, hb, ho, ha, hv, hm] at hs hf
      refine ⟨_, s', hcode, ?_, ?_, ?_, ?_⟩
      · rw [exec_straight _ (by simp [Instr.isJump]), List.foldl_cons, he]
      · simpa [widthOf] using hs
      · simpa [widthOf] using hf
      · exact key s' _ _ hs hf
    · simp only [hl, hn, if_false, List.nil_append, List.singleton_append] at hcode
      obtain ⟨s', he, _, hs, hf⟩ := cas_steps32 (fieldAddress base offset) value out s
      rw [fieldAddress_effective] at hs hf
      refine ⟨_, s', hcode, ?_, ?_, ?_, ?_⟩
      · rw [exec_straight _ (by simp [Instr.isJump]), he]
      · simpa [widthOf, hl] using hs
      · simpa [widthOf, hl] using hf
      · exact key s' _ _ hs hf

theorem C16_witness :
    ∃ code s', GenCAS PrimitiveType.kPrimInt invokeCAS = some code
      ∧ exec code casState = some s'
      ∧ (readMem casState.mem 0x1010 (32 / 8) = casState.cpu CpuRegister.RAX % 2 ^ 32 →
          readMem s'.mem 0x1010 (32 / 8) = casState.cpu CpuRegister.RCX % 2 ^ 32
            ∧ s'.cpu CpuRegister.RBX = 1)
      ∧ (readMem casState.mem 0x1010 (32 / 8) ≠ casState.cpu CpuRegister.RAX % 2 ^ 32 →
          s'.mem = casState.mem ∧ s'.cpu CpuRegister.RBX = 0)
      ∧ (s'.cpu CpuRegister.RBX = 0 ∨ s'.cpu CpuRegister.RBX = 1) :=
  C16_GenCAS_succeeds_iff_expected PrimitiveType.kPrimInt invokeCAS locationsCAS CpuRegister.RSI
    CpuRegister.RDX CpuRegister.RCX CpuRegister.RBX CpuRegister.R8 CpuRegister.R9 rfl rfl rfl rfl
    rfl rfl (fun h => absurd h (by decide)) (fun h => absurd h (by decide)) casState 32 0x1010
    (by decide) (by decide)

/-- C17: for the object kind `GenCAS` emits one card-mark request,
`MarkGCCard (temp0, temp1, base, value)`, as the first instruction, before the
locked compare-exchange, and running the sequence from any state (whatever the
outcome of the exchange) logs exactly that one card mark; for the int and long
kinds (every kind other than object) the sequence has no card-mark request and
logs none. -/
theorem C17_GenCAS_card_mark (type : PrimitiveType) (invoke : HInvoke)
    (locations : LocationSummary) (base offset value out temp card : CpuRegister)
    (hloc : invoke.locations = some locations)
    (h1 : locations.InAt 1 = Location.RegisterLocation base)
    (h2 : locations.InAt 2 = Location.RegisterLocation offset)
    (h3 : locations.InAt 3 = Location.RegisterLocation CpuRegister.RAX)
    (h4 : locations.InAt 4 = Location.RegisterLocation value)
    (hout : locations.Out = Location.RegisterLocation out)
    (ht : type = PrimitiveType.kPrimNot →
      locations.GetTemp 0 = Location.RegisterLocation temp
        ∧ locations.GetTemp 1 = Location.RegisterLocation card)
    (s : State) :
    ∃ code s', GenCAS type invoke = some code
      ∧ code = (if type = PrimitiveType.kPrimNot then [Instr.MarkGCCard temp card base value]
                else [])
          ++ [ (if type = PrimitiveType.kPrimLong then
                  Instr.LockCmpxchgq (fieldAddress base offset) value
                else Instr.LockCmpxchgl (fieldAddress base offset) value),
               Instr.setcc Condition.kZero out, Instr.movzxb out out ]
      ∧ code.filter Instr.isCardMark
          = (if type = PrimitiveType.kPrimNot then [Instr.MarkGCCard temp card base value]
             else [])
      ∧ exec code s = some s'
      ∧ s'.cards = s.cards
          ++ (if type = PrimitiveType.kPrimNot then [(s.cpu base, s.cpu value)] else []) := by
  have hcode := GenCAS_eq type invoke locations base offset value out temp card hloc h1 h2 h3 h4
    hout ht
  by_cases hl : type = PrimitiveType.kPrimLong
  · subst hl
    obtain ⟨s', he, hc, _, _⟩ := cas_steps64 (fieldAddress base offset) value out s
    refine ⟨_, s', hcode, by simp, by simp [Instr.isCardMark], ?_, by simp [hc]⟩
    simp only [if_true, List.singleton_append]
    rw [exec_straight _ (by simp [Instr.isJump]), he]
  · by_cases hn : type = PrimitiveType.kPrimNot
    · subst hn
      obtain ⟨s', he, hc, _, _⟩ := cas_steps32 (fieldAddress base offset) value out
        (step s (Instr.MarkGCCard temp card base value))
      refine ⟨_, s', hcode, by simp, by simp [Instr.isCardMark], ?_, ?_⟩
      · simp only [if_true, hl, if_false, List.singleton_append, List.cons_append,
          List.nil_append]
        rw [exec_straight _ (by simp [Instr.isJump]), List.foldl_cons, he]
      · rw [hc]; simp [step, State.setCpu, State.setFlags]
    · obtain ⟨s', he, hc, _, _⟩ := cas_steps32 (fieldAddress base offset) value out s
      refine ⟨_, s', hcode, by simp [hl, hn], by simp [hl, hn, Instr.isCardMark], ?_,
        by simp [hc, hn]⟩
      simp only [hl, hn, if_false, List.nil_append, List.singleton_append]
      rw [exec_straight _ (by simp [Instr.isJump]), he]

theorem C17_witness :
    ∃ code s', GenCAS PrimitiveType.kPrimNot invokeCAS = some code
      ∧ code = (if PrimitiveType.kPrimNot = PrimitiveType.kPrimNot then
                  [Instr.MarkGCCard CpuRegister.R8 CpuRegister.R9 CpuRegister.RSI CpuRegister.RCX]
                else [])
          ++ [ (if PrimitiveType.kPrimNot = PrimitiveType.kPrimLong then
                  Instr.LockCmpxchgq (fieldAddress CpuRegister.RSI CpuRegister.RDX) CpuRegister.RCX
                else
                  Instr.LockCmpxchgl (fieldAddress CpuRegister.RSI CpuRegister.RDX)
                    CpuRegister.RCX),
               Instr.setcc Condition.kZero CpuRegister.RBX,
               Instr.movzxb CpuRegister.RBX CpuRegister.RBX ]
      ∧ code.filter Instr.isCardMark
          = (if PrimitiveType.kPrimNot = PrimitiveType.kPrimNot then
               [Instr.MarkGCCard CpuRegister.R8 CpuRegister.R9 CpuRegister.RSI CpuRegister.RCX]
             else [])
      ∧ exec code casState = some s'
      ∧ s'.cards = casState.cards
          ++ (if PrimitiveType.kPrimNot = PrimitiveType.kPrimNot then
                [(casState.cpu CpuRegister.RSI, casState.cpu CpuRegister.RCX)] else []) :=
  C17_GenCAS_card_mark PrimitiveType.kPrimNot invokeCAS locationsCAS CpuRegister.RSI
    CpuRegister.RDX CpuRegister.RCX CpuRegister.RBX CpuRegister.R8 CpuRegister.R9 rfl rfl rfl rfl
    rfl rfl (fun _ => ⟨rfl, rfl⟩) casState

/-- C18: with the nine put intrinsics calling `GenUnsafePut` with their kind
and volatility (ordered variants with the same arguments as the plain ones, so
their sequences are identical), the sequence `GenUnsafePut` emits for any kind
contains an `mfence` if and only if the variant is volatile; the store is the
first instruction and the fence, when present, the second. -/
theorem C18_UnsafePut_fence_iff_volatile (type : PrimitiveType) (is_volatile : Bool)
    (invoke : HInvoke) (locations : LocationSummary)
    (base offset value temp card : CpuRegister)
    (hloc : invoke.locations = some locations)
    (h1 : locations.InAt 1 = Location.RegisterLocation base)
    (h2 : locations.InAt 2 = Location.RegisterLocation offset)
    (h3 : locations.InAt 3 = Location.RegisterLocation value)
    (ht : type = PrimitiveType.kPrimNot →
      locations.GetTemp 0 = Location.RegisterLocation temp
        ∧ locations.GetTemp 1 = Location.RegisterLocation card) :
    (VisitUnsafePut invoke = GenUnsafePut locations PrimitiveType.kPrimInt false
      ∧ VisitUnsafePutOrdered invoke = GenUnsafePut locations PrimitiveType.kPrimInt false
      ∧ VisitUnsafePutVolatile invoke = GenUnsafePut locations PrimitiveType.kPrimInt true
      ∧ VisitUnsafePutObject invoke = GenUnsafePut locations PrimitiveType.kPrimNot false
      ∧ VisitUnsafePutObjectOrdered invoke = GenUnsafePut locations PrimitiveType.kPrimNot false
      ∧ VisitUnsafePutObjectVolatile invoke = GenUnsafePut locations PrimitiveType.kPrimNot true
      ∧ VisitUnsafePutLong invoke = GenUnsafePut locations PrimitiveType.kPrimLong false
      ∧ VisitUnsafePutLongOrdered invoke = GenUnsafePut locations PrimitiveType.kPrimLong false
      ∧ VisitUnsafePutLongVolatile invoke = GenUnsafePut locations PrimitiveType.kPrimLong true)
    ∧ (VisitUnsafePutOrdered invoke = VisitUnsafePut invoke
      ∧ VisitUnsafePutObjectOrdered invoke = VisitUnsafePutObject invoke
      ∧ VisitUnsafePutLongOrdered invoke = VisitUnsafePutLong invoke)
    ∧ ∃ code, GenUnsafePut locations type is_volatile = some code
        ∧ (Instr.mfence ∈ code ↔ is_volatile = true)
        ∧ code.get? 0 = some (putStore type base offset value)
        ∧ (is_volatile = true → code.get? 1 = some Instr.mfence) := by
  refine ⟨VisitUnsafePut_eq invoke locations hloc, ⟨rfl, rfl, rfl⟩, _,
    GenUnsafePut_eq type locations base offset value temp card h1 h2 h3 ht is_volatile,
    ?_, ?_, ?_⟩
  · cases is_volatile <;> by_cases hn : type = PrimitiveType.kPrimNot <;>
      by_cases hl : type = PrimitiveType.kPrimLong <;> simp [putStore, hn, hl]
  · simp
  · intro hv; simp [hv]

theorem C18_witness :
    ∃ code, GenUnsafePut locationsPut PrimitiveType.kPrimNot true = some code
      ∧ (Instr.mfence ∈ code ↔ true = true)
      ∧ code.get? 0
          = some (putStore PrimitiveType.kPrimNot CpuRegister.RSI CpuRegister.RDX CpuRegister.RCX)
      ∧ (true = true → code.get? 1 = some Instr.mfence) :=
  (C18_UnsafePut_fence_iff_volatile PrimitiveType.kPrimNot true invokePut locationsPut
    CpuRegister.RSI CpuRegister.RDX CpuRegister.RCX CpuRegister.R8 CpuRegister.R9 rfl rfl rfl rfl
    (fun _ => ⟨rfl, rfl⟩)).2.2

/-- C19: the sequence `GenUnsafePut` emits is the store, then the fence of a
volatile put, then, for the object kind only, the one card-mark request
`MarkGCCard (temp0, temp1, base, value)`; so an object put (plain, ordered or
volatile) has exactly one card mark, after the store, and running it logs that
card mark, while a put of any other kind has and logs none. -/
theorem C19_UnsafePut_card_mark (type : PrimitiveType) (is_volatile : Bool)
    (invoke : HInvoke) (locations : LocationSummary)
    (base offset value temp card : CpuRegister)
    (hloc : invoke.locations = some locations)
    (h1 : locations.InAt 1 = Location.RegisterLocation base)
    (h2 : locations.InAt 2 = Location.RegisterLocation offset)
    (h3 : locations.InAt 3 = Location.RegisterLocation value)
    (ht : type = PrimitiveType.kPrimNot →
      locations.GetTemp 0 = Location.RegisterLocation temp
        ∧ locations.GetTemp 1 = Location.RegisterLocation card)
    (s : State) :
    (VisitUnsafePutObject invoke = GenUnsafePut locations PrimitiveType.kPrimNot false
      ∧ VisitUnsafePutObjectOrdered invoke = GenUnsafePut locations PrimitiveType.kPrimNot false
      ∧ VisitUnsafePutObjectVolatile invoke = GenUnsafePut locations PrimitiveType.kPrimNot true)
    ∧ ∃ code s', GenUnsafePut locations type is_volatile = some code
        ∧ code = [putStore type base offset value]
            ++ (if is_volatile then [Instr.mfence] else [])
            ++ (if type = PrimitiveType.kPrimNot then [Instr.MarkGCCard temp card base value]
                else [])
        ∧ code.filter Instr.isCardMark
            = (if type = PrimitiveType.kPrimNot then [Instr.MarkGCCard temp card base value]
               else [])
        ∧ exec code s = some s'
        ∧ s'.cards = s.cards
            ++ (if type = PrimitiveType.kPrimNot then [(s.cpu base, s.cpu value)] else []) := by
  obtain ⟨_, _, _, e4, e5, e6, _⟩ := VisitUnsafePut_eq invoke locations hloc
  refine ⟨⟨e4, e5, e6⟩, _, _,
    GenUnsafePut_eq type locations base offset value temp card h1 h2 h3 ht is_volatile,
    rfl, ?_, exec_straight _ ?_ s, ?_⟩
  · cases is_volatile <;> by_cases hn : type = PrimitiveType.kPrimNot <;>
      by_cases hl : type = PrimitiveType.kPrimLong <;> simp [putStore, hn, hl, Instr.isCardMark]
  · cases is_volatile <;> by_cases hn : type = PrimitiveType.kPrimNot <;>
      by_cases hl : type = PrimitiveType.kPrimLong <;> simp [putStore, hn, hl, Instr.isJump]
  · cases is_volatile <;> by_cases hn : type = PrimitiveType.kPrimNot <;>
      by_cases hl : type = PrimitiveType.kPrimLong <;>
      simp [putStore, hn, hl, step, State.setCpu, State.setFlags, State.setMem]

theorem C19_witness :
    ∃ code s', GenUnsafePut locationsPut PrimitiveType.kPrimNot false = some code
        ∧ code = [putStore PrimitiveType.kPrimNot CpuRegister.RSI CpuRegister.RDX CpuRegister.RCX]
            ++ (if false = true then [Instr.mfence] else [])
            ++ (if PrimitiveType.kPrimNot = PrimitiveType.kPrimNot then
                  [Instr.MarkGCCard CpuRegister.R8 CpuRegister.R9 CpuRegister.RSI CpuRegister.RCX]
                else [])
        ∧ code.filter Instr.isCardMark
            = (if PrimitiveType.kPrimNot = PrimitiveType.kPrimNot then
                 [Instr.MarkGCCard CpuRegister.R8 CpuRegister.R9 CpuRegister.RSI CpuRegister.RCX]
               else [])
        ∧ exec code casState = some s'
        ∧ s'.cards = casState.cards
            ++ (if PrimitiveType.kPrimNot = PrimitiveType.kPrimNot then
                  [(casState.cpu CpuRegister.RSI, casState.cpu CpuRegister.RCX)] else []) :=
  (C19_UnsafePut_card_mark PrimitiveType.kPrimNot false invokePut locationsPut CpuRegister.RSI
    CpuRegister.RDX CpuRegister.RCX CpuRegister.R8 CpuRegister.R9 rfl rfl rfl rfl
    (fun _ => ⟨rfl, rfl⟩) casState).2

/-- C20, counterexample: the sequence of `UnsafeGetVolatile` is the single
load of the plain get; it contains no `mfence`. -/
theorem C20_counterexample :
    ∃ code, VisitUnsafeGetVolatile invokeGet = some code ∧ Instr.mfence ∉ code :=
  ⟨[Instr.movl CpuRegister.RAX (Operand.mem (fieldAddress CpuRegister.RSI CpuRegister.RDX))],
    rfl, by simp⟩

/-- C20, amended: every volatile put intrinsic calls `GenUnsafePut` with
`is_volatile` true, whose sequence has an `mfence` right after the store; the
volatile get intrinsics emit no fence: each emits the single load of its plain
counterpart and nothing else. -/
theorem C20_volatile_put_fence_get_plain (type : PrimitiveType) (get put : HInvoke)
    (lg lp : LocationSummary) (base offset trg pbase poffset value temp card : CpuRegister)
    (hlg : get.locations = some lg)
    (hg1 : lg.InAt 1 = Location.RegisterLocation base)
    (hg2 : lg.InAt 2 = Location.RegisterLocation offset)
    (hgout : lg.Out = Location.RegisterLocation trg)
    (hlp : put.locations = some lp)
    (hp1 : lp.InAt 1 = Location.RegisterLocation pbase)
    (hp2 : lp.InAt 2 = Location.RegisterLocation poffset)
    (hp3 : lp.InAt 3 = Location.RegisterLocation value)
    (ht : type = PrimitiveType.kPrimNot →
      lp.GetTemp 0 = Location.RegisterLocation temp
        ∧ lp.GetTemp 1 = Location.RegisterLocation card) :
    (VisitUnsafeGetVolatile get
        = some [Instr.movl trg (Operand.mem (fieldAddress base offset))]
      ∧ VisitUnsafeGetLongVolatile get
        = some [Instr.movq trg (Operand.mem (fieldAddress base offset))]
      ∧ VisitUnsafeGetObjectVolatile get
        = some [Instr.movl trg (Operand.mem (fieldAddress base offset))]
      ∧ VisitUnsafeGetVolatile get = VisitUnsafeGet get
      ∧ VisitUnsafeGetLongVolatile get = VisitUnsafeGetLong get
      ∧ VisitUnsafeGetObjectVolatile get = VisitUnsafeGetObject get)
    ∧ (VisitUnsafePutVolatile put = GenUnsafePut lp PrimitiveType.kPrimInt true
      ∧ VisitUnsafePutObjectVolatile put = GenUnsafePut lp PrimitiveType.kPrimNot true
      ∧ VisitUnsafePutLongVolatile put = GenUnsafePut lp PrimitiveType.kPrimLong true)
    ∧ ∃ code, GenUnsafePut lp type true = some code
        ∧ code.get? 0 = some (putStore type pbase poffset value)
        ∧ code.get? 1 = some Instr.mfence
        ∧ Instr.mfence ∈ code := by
  obtain ⟨_, _, e3, _, _, e6, _, _, e9⟩ := VisitUnsafePut_eq put lp hlp
  refine ⟨⟨?_, ?_, ?_, rfl, rfl, rfl⟩, ⟨e3, e6, e9⟩, _,
    GenUnsafePut_eq type lp pbase poffset value temp card hp1 hp2 hp3 ht true,
    by simp, by simp, by simp⟩
  · simp [VisitUnsafeGetVolatile, GenUnsafeGet, hlg, hg1, hg2, hgout, Location.AsRegister,
      fieldAddress]
  · simp [VisitUnsafeGetLongVolatile, GenUnsafeGet, hlg, hg1, hg2, hgout, Location.AsRegister,
      fieldAddress]
  · simp [VisitUnsafeGetObjectVolatile, GenUnsafeGet, hlg, hg1, hg2, hgout, Location.AsRegister,
      fieldAddress]

theorem C20_witness :
    ∃ code, GenUnsafePut locationsPut PrimitiveType.kPrimLong true = some code
      ∧ code.get? 0
          = some (putStore PrimitiveType.kPrimLong CpuRegister.RSI CpuRegister.RDX CpuRegister.RCX)
      ∧ code.get? 1 = some Instr.mfence
      ∧ Instr.mfence ∈ code :=
  (C20_volatile_put_fence_get_plain PrimitiveType.kPrimLong invokeGet invokePut locationsGet
    locationsPut CpuRegister.RSI CpuRegister.RDX CpuRegister.RAX CpuRegister.RSI CpuRegister.RDX
    CpuRegister.RCX CpuRegister.R8 CpuRegister.R9 rfl rfl rfl rfl rfl rfl rfl rfl
    (fun h => absurd h (by decide))).2.2

/-! ## Dispatch of the locations builder -/

/-- C21, counterexample: without SSE4.1 the locations builder gives an invoke
of `Math.ceil` a location summary (the requirement set is not null), and
`TryDispatch` returns false. -/
theorem C21_counterexample :
    (IntrinsicLocationsBuilderX86_64.Dispatch false runtimeCallingConvention invokeCeil).locations
        ≠ none
    ∧ IntrinsicLocationsBuilderX86_64.TryDispatch false runtimeCallingConvention invokeCeil
        = false := by
  constructor <;> decide

/-- C21, amended: `TryDispatch` returns true if and only if, after the
builder's visit, the invoke has a location summary and that summary carries
the intrinsified marker.  For an invoke that starts without a summary, the
builder leaves a summary exactly for the implemented intrinsics, and
`TryDispatch` returns true exactly for the implemented intrinsics that do not
need SSE4.1 or are built with SSE4.1 present: without SSE4.1 ceil, floor, rint
and the two rounds get a summary that is not marked intrinsified. -/
theorem C21_TryDispatch_iff_intrinsified (has_sse4_1 : Bool)
    (calling_convention : InvokeRuntimeCallingConvention) (invoke : HInvoke) :
    (IntrinsicLocationsBuilderX86_64.TryDispatch has_sse4_1 calling_convention invoke = true
      ↔ ∃ l, (IntrinsicLocationsBuilderX86_64.Dispatch has_sse4_1 calling_convention
                invoke).locations = some l ∧ l.intrinsified = true)
    ∧ (invoke.locations = none →
        ((IntrinsicLocationsBuilderX86_64.Dispatch has_sse4_1 calling_convention
            invoke).locations ≠ none ↔ invoke.intrinsic.isImplemented = true)
        ∧ (IntrinsicLocationsBuilderX86_64.TryDispatch has_sse4_1 calling_convention invoke = true
            ↔ invoke.intrinsic.isImplemented = true
              ∧ (invoke.intrinsic.needsSSE41 = true → has_sse4_1 = true))) := by
  constructor
  · unfold IntrinsicLocationsBuilderX86_64.TryDispatch
    cases (IntrinsicLocationsBuilderX86_64.Dispatch has_sse4_1 calling_convention
      invoke).locations <;> simp
  · intro h
    unfold IntrinsicLocationsBuilderX86_64.TryDispatch IntrinsicLocationsBuilderX86_64.Dispatch
    cases hid : invoke.intrinsic <;> cases has_sse4_1 <;>
      simp [IntrinsicLocationsBuilderX86_64.Visit, h, Intrinsics.isImplemented,
        Intrinsics.needsSSE41, HInvoke.SetLocations, CreateFPToIntLocations,
        CreateIntToFPLocations, CreateIntToIntLocations, CreateFloatToFloatPlusTemps,
        CreateIntToIntPlusTemp, CreateFPFPToFP, CreateIntIntToIntLocations,
        CreateFPToFPLocations, CreateSSE41FPToFPLocations, CreateSSE41FPToIntLocations,
        CreateIntIntToVoidLocations, CreateIntIntIntToIntLocations,
        CreateIntIntIntIntToVoidPlusTempsLocations, CreateIntIntIntIntIntToInt,
        LocationSummary.create, LocationSummary.SetInAt, LocationSummary.SetOut,
        LocationSummary.AddTemp, kIntrinsified]

/-- C22: for each of the four unimplemented intrinsics the builder's visit
returns the invoke as it was, the code generator's visit emits nothing, and
for an invoke of that intrinsic `Dispatch` changes nothing, so that
`TryDispatch` returns false when the invoke starts without a location
summary. -/
theorem C22_unimplemented_are_no_ops (has_sse4_1 : Bool)
    (calling_convention : InvokeRuntimeCallingConvention)
    (cc : List PrimitiveType → PrimitiveType → Location) (o : StringOffsets)
    (id : Intrinsics) (invoke : HInvoke)
    (hid : id ∈ [Intrinsics.kStringIndexOf, Intrinsics.kStringIndexOfAfter,
      Intrinsics.kSystemArrayCopyChar, Intrinsics.kReferenceGetReferent]) :
    IntrinsicLocationsBuilderX86_64.Visit has_sse4_1 calling_convention id invoke = invoke
    ∧ IntrinsicCodeGeneratorX86_64.Visit cc o id invoke = some []
    ∧ (invoke.intrinsic = id →
        IntrinsicLocationsBuilderX86_64.Dispatch has_sse4_1 calling_convention invoke = invoke
        ∧ (invoke.locations = none →
            IntrinsicLocationsBuilderX86_64.TryDispatch has_sse4_1 calling_convention invoke
              = false)) := by
  simp only [List.mem_cons, List.mem_singleton, List.not_mem_nil, or_false] at hid
  have key : IntrinsicLocationsBuilderX86_64.Visit has_sse4_1 calling_convention id invoke
      = invoke := by
    rcases hid with rfl | rfl | rfl | rfl <;> rfl
  refine ⟨key, ?_, fun hi => ?_⟩
  · rcases hid with rfl | rfl | rfl | rfl <;> rfl
  · have hd : IntrinsicLocationsBuilderX86_64.Dispatch has_sse4_1 calling_convention invoke
        = invoke := by
      unfold IntrinsicLocationsBuilderX86_64.Dispatch
      rw [hi, key]
    refine ⟨hd, fun hl => ?_⟩
    unfold IntrinsicLocationsBuilderX86_64.TryDispatch
    rw [hd, hl]

theorem C22_witness :
    IntrinsicLocationsBuilderX86_64.Visit true runtimeCallingConvention Intrinsics.kStringIndexOf
        invokeIndexOf = invokeIndexOf
    ∧ IntrinsicCodeGeneratorX86_64.Visit stackCallingConvention stringOffsets
        Intrinsics.kStringIndexOf invokeIndexOf = some []
    ∧ (invokeIndexOf.intrinsic = Intrinsics.kStringIndexOf →
        IntrinsicLocationsBuilderX86_64.Dispatch true runtimeCallingConvention invokeIndexOf
          = invokeIndexOf
        ∧ (invokeIndexOf.locations = none →
            IntrinsicLocationsBuilderX86_64.TryDispatch true runtimeCallingConvention
              invokeIndexOf = false)) :=
  C22_unimplemented_are_no_ops true runtimeCallingConvention stackCallingConvention stringOffsets
    Intrinsics.kStringIndexOf invokeIndexOf (by simp)

/-! ## The intrinsic slow path -/

theorem argumentMoves_length (cc : List PrimitiveType → PrimitiveType → Location)
    (locations : LocationSummary) :
    ∀ (types seen : List PrimitiveType),
      (argumentMoves cc locations seen types).length = types.length := by
  intro types
  induction types with
  | nil => intro seen; rfl
  | cons t rest ih => intro seen; simp [argumentMoves, ih]

theorem argumentMoves_get (cc : List PrimitiveType → PrimitiveType → Location)
    (locations : LocationSummary) :
    ∀ (types seen : List PrimitiveType) (i : Nat) (t : PrimitiveType),
      types.get? i = some t →
      (argumentMoves cc locations seen types).get? i
        = some (locations.InAt (seen.length + i), cc (seen ++ types.take i) t, t) := by
  intro types
  induction types with
  | nil => intro seen i t h; simp at h
  | cons u rest ih =>
    intro seen i t h
    cases i with
    | zero =>
      simp at h
      subst h
      simp [argumentMoves]
    | succ i =>
      simp at h
      have := ih (seen ++ [u]) i t (by simpa using h)
      simp [argumentMoves] at this ⊢
      rw [this]
      simp [Nat.add_assoc, Nat.add_comm 1 i]

/-- C28: for an invoke with a location summary, `MoveArguments` emits nothing
when the invoke has no inputs; otherwise it emits exactly one request, a
parallel move with one entry per input, entry `i` moving the allocated
location `InAt (i)` to the location the calling-convention visitor gives for
the kind of input `i` after having been asked for the kinds of the inputs
before it; no argument is moved by a separate instruction. -/
theorem C28_MoveArguments_one_parallel_move
    (cc : List PrimitiveType → PrimitiveType → Location) (invoke : HInvoke)
    (locations : LocationSummary) (hloc : invoke.locations = some locations) :
    (invoke.InputCount = 0 → MoveArguments cc invoke = some [])
    ∧ (0 < invoke.InputCount →
        ∃ moves, MoveArguments cc invoke = some [Instr.ParallelMove moves]
          ∧ moves.length = invoke.InputCount
          ∧ ∀ i t, invoke.input_types.get? i = some t →
              moves.get? i
                = some (locations.InAt i, cc (invoke.input_types.take i) t, t)) := by
  constructor
  · intro h0
    simp [MoveArguments, h0]
  · intro hpos
    have hne : ¬ invoke.InputCount = 0 := by omega
    refine ⟨argumentMoves cc locations [] invoke.input_types, ?_, ?_, ?_⟩
    · simp [MoveArguments, hne, hloc]
    · rw [argumentMoves_length]; rfl
    · intro i t h
      have := argumentMoves_get cc locations invoke.input_types [] i t h
      simpa using this

theorem C28_witness :
    (invokeCAS.InputCount = 0 → MoveArguments stackCallingConvention invokeCAS = some [])
    ∧ (0 < invokeCAS.InputCount →
        ∃ moves, MoveArguments stackCallingConvention invokeCAS = some [Instr.ParallelMove moves]
          ∧ moves.length = invokeCAS.InputCount
          ∧ ∀ i t, invokeCAS.input_types.get? i = some t →
              moves.get? i
                = some (locationsCAS.InAt i,
                    stackCallingConvention (invokeCAS.input_types.take i) t, t)) :=
  C28_MoveArguments_one_parallel_move stackCallingConvention invokeCAS locationsCAS rfl

theorem MoveFromReturnRegister_core (r : CpuRegister) (type : PrimitiveType)
    (ht : type ∈ [PrimitiveType.kPrimBoolean, PrimitiveType.kPrimByte, PrimitiveType.kPrimChar,
      PrimitiveType.kPrimShort, PrimitiveType.kPrimInt, PrimitiveType.kPrimNot]) :
    MoveFromReturnRegister (Location.RegisterLocation r) type
      = some (if r = CpuRegister.RAX then []
              else [Instr.movl r (Operand.reg CpuRegister.RAX)]) := by
  simp only [List.mem_cons, List.mem_singleton, List.not_mem_nil, or_false] at ht
  rcases ht with rfl | rfl | rfl | rfl | rfl | rfl <;>
    by_cases h : r = CpuRegister.RAX <;>
    simp [MoveFromReturnRegister, Location.IsValid, Location.AsRegister, h]

theorem MoveFromReturnRegister_long (r : CpuRegister) :
    MoveFromReturnRegister (Location.RegisterLocation r) PrimitiveType.kPrimLong
      = some (if r = CpuRegister.RAX then []
              else [Instr.movq r (Operand.reg CpuRegister.RAX)]) := by
  by_cases h : r = CpuRegister.RAX <;>
    simp [MoveFromReturnRegister, Location.IsValid, Location.AsRegister, h]

theorem MoveFromReturnRegister_float (x : XmmRegister) :
    MoveFromReturnRegister (Location.FpuRegisterLocation x) PrimitiveType.kPrimFloat
      = some (if x = XmmRegister.XMM0 then []
              else [Instr.movss x (XmmOperand.reg XmmRegister.XMM0)]) := by
  by_cases h : x = XmmRegister.XMM0 <;>
    simp [MoveFromReturnRegister, Location.IsValid, Location.AsFpuRegister, h]

theorem MoveFromReturnRegister_double (x : XmmRegister) :
    MoveFromReturnRegister (Location.FpuRegisterLocation x) PrimitiveType.kPrimDouble
      = some (if x = XmmRegister.XMM0 then []
              else [Instr.movsd x (XmmOperand.reg XmmRegister.XMM0)]) := by
  by_cases h : x = XmmRegister.XMM0 <;>
    simp [MoveFromReturnRegister, Location.IsValid, Location.AsFpuRegister, h]

theorem MoveFromReturnRegister_length (trg : Location) (type : PrimitiveType)
    (code : List Instr) (h : MoveFromReturnRegister trg type = some code) : code.length ≤ 1 := by
  cases trg <;> cases type <;>
    simp [MoveFromReturnRegister, Location.IsValid, Location.AsRegister,
      Location.AsFpuRegister] at h <;>
    (subst h; first | simp | (split_ifs <;> simp))

/-- C26: `MoveFromReturnRegister` emits nothing for an invalid target of a
void call; for a general-register target and a boolean, byte, char, short, int
or reference result one 32-bit move from RAX, for a long result one 64-bit
move from RAX, in both cases nothing when the target is RAX; for a
floating-register target one `movss` (float) or `movsd` (double) from XMM0,
nothing when the target is XMM0.  Whatever it emits is at most one instruction,
and running it leaves in the target the low 32 (or 64) bits of the return
register. -/
theorem C26_MoveFromReturnRegister (r : CpuRegister) (x : XmmRegister) (trg : Location)
    (type : PrimitiveType) (s : State) :
    (trg.IsValid = false → MoveFromReturnRegister trg PrimitiveType.kPrimVoid = some [])
    ∧ (type ∈ [PrimitiveType.kPrimBoolean, PrimitiveType.kPrimByte, PrimitiveType.kPrimChar,
          PrimitiveType.kPrimShort, PrimitiveType.kPrimInt, PrimitiveType.kPrimNot] →
        ∃ code s', MoveFromReturnRegister (Location.RegisterLocation r) type = some code
          ∧ code = (if r = CpuRegister.RAX then []
                    else [Instr.movl r (Operand.reg CpuRegister.RAX)])
          ∧ exec code s = some s' ∧ s'.cpu r % 2 ^ 32 = s.cpu CpuRegister.RAX % 2 ^ 32)
    ∧ (∃ code s', MoveFromReturnRegister (Location.RegisterLocation r) PrimitiveType.kPrimLong
            = some code
          ∧ code = (if r = CpuRegister.RAX then []
                    else [Instr.movq r (Operand.reg CpuRegister.RAX)])
          ∧ exec code s = some s' ∧ s'.cpu r % 2 ^ 64 = s.cpu CpuRegister.RAX % 2 ^ 64)
    ∧ (∃ code s', MoveFromReturnRegister (Location.FpuRegisterLocation x) PrimitiveType.kPrimFloat
            = some code
          ∧ code = (if x = XmmRegister.XMM0 then []
                    else [Instr.movss x (XmmOperand.reg XmmRegister.XMM0)])
          ∧ exec code s = some s' ∧ s'.xmm x % 2 ^ 32 = s.xmm XmmRegister.XMM0 % 2 ^ 32)
    ∧ (∃ code s', MoveFromReturnRegister (Location.FpuRegisterLocation x) PrimitiveType.kPrimDouble
            = some code
          ∧ code = (if x = XmmRegister.XMM0 then []
                    else [Instr.movsd x (XmmOperand.reg XmmRegister.XMM0)])
          ∧ exec code s = some s' ∧ s'.xmm x % 2 ^ 64 = s.xmm XmmRegister.XMM0 % 2 ^ 64)
    ∧ (∀ code, MoveFromReturnRegister trg type = some code → code.length ≤ 1) := by
  refine ⟨?_, ?_, ?_, ?_, ?_, MoveFromReturnRegister_length trg type⟩
  · intro h
    simp [MoveFromReturnRegister, h]
  · intro ht
    refine ⟨_, _, MoveFromReturnRegister_core r type ht, rfl, exec_straight _ ?_ s, ?_⟩
    · by_cases h : r = CpuRegister.RAX <;> simp [h, Instr.isJump]
    · by_cases h : r = CpuRegister.RAX
      · subst h; simp
      · simp [h, step, State.setCpu, Operand.value]
  · refine ⟨_, _, MoveFromReturnRegister_long r, rfl, exec_straight _ ?_ s, ?_⟩
    · by_cases h : r = CpuRegister.RAX <;> simp [h, Instr.isJump]
    · by_cases h : r = CpuRegister.RAX
      · subst h; simp
      · simp [h, step, State.setCpu, Operand.value]
  · refine ⟨_, _, MoveFromReturnRegister_float x, rfl, exec_straight _ ?_ s, ?_⟩
    · by_cases h : x = XmmRegister.XMM0 <;> simp [h, Instr.isJump]
    · by_cases h : x = XmmRegister.XMM0
      · subst h; simp
      · have hl := lane_low (s.xmm x % 2 ^ 128) (s.xmm XmmRegister.XMM0 % 2 ^ 32) 32
          (Nat.mod_lt _ (by norm_num))
        simp only [h, if_false, List.foldl, step, State.setXmm, Function.update_same]
        exact hl
  · refine ⟨_, _, MoveFromReturnRegister_double x, rfl, exec_straight _ ?_ s, ?_⟩
    · by_cases h : x = XmmRegister.XMM0 <;> simp [h, Instr.isJump]
    · by_cases h : x = XmmRegister.XMM0
      · subst h; simp
      · have hl := lane_low (s.xmm x % 2 ^ 128) (s.xmm XmmRegister.XMM0 % 2 ^ 64) 64
          (Nat.mod_lt _ (by norm_num))
        simp only [h, if_false, List.foldl, step, State.setXmm, Function.update_same]
        exact hl

theorem MoveArguments_eq (cc : List PrimitiveType → PrimitiveType → Location) (invoke : HInvoke)
    (locations : LocationSummary) (hloc : invoke.locations = some locations) :
    MoveArguments cc invoke
      = some (if invoke.InputCount = 0 then []
              else [Instr.ParallelMove (argumentMoves cc locations [] invoke.input_types)]) := by
  by_cases h : invoke.InputCount = 0 <;> simp [MoveArguments, h, hloc]

/-- C25: for a static-or-direct invoke whose output location, when valid, is
a general register that is not live across the call, `EmitNativeCode` emits,
each once and in this order: the binding of the entry label, the saving of the
live registers, the argument moves of `MoveArguments` (one parallel move, none
for an invoke without inputs), the static or direct call through RDI, the
recording of the program point, the move of `MoveFromReturnRegister` to the
output (only when the output location is valid), the restoring of the live
registers, and the jump to the exit label. -/
theorem C25_EmitNativeCode_order (cc : List PrimitiveType → PrimitiveType → Location)
    (invoke : HInvoke) (locations : LocationSummary) (copy : List Instr)
    (hloc : invoke.locations = some locations)
    (hstatic : invoke.is_static_or_direct = true)
    (hreg : locations.Out.IsValid = true →
      ∃ r, locations.Out = Location.RegisterLocation r ∧ r ∉ locations.live_core_registers)
    (hcopy : locations.Out.IsValid = true →
      MoveFromReturnRegister locations.Out invoke.type = some copy)
    (hvoid : locations.Out.IsValid = false → copy = []) :
    IntrinsicSlowPathX86_64.EmitNativeCode cc invoke
      = Except.ok
          ([Instr.Bind Label.slow_path_entry, Instr.SaveLiveRegisters]
            ++ (if invoke.InputCount = 0 then []
                else [Instr.ParallelMove (argumentMoves cc locations [] invoke.input_types)])
            ++ [Instr.GenerateStaticOrDirectCall CpuRegister.RDI,
                Instr.RecordPcInfo invoke.dex_pc]
            ++ copy
            ++ [Instr.RestoreLiveRegisters, Instr.jmp Label.slow_path_exit]) := by
  unfold IntrinsicSlowPathX86_64.EmitNativeCode
  simp only [hloc, MoveArguments_eq cc invoke locations hloc, hstatic, if_true]
  by_cases hv : locations.Out.IsValid = true
  · obtain ⟨r, hr, hlive⟩ := hreg hv
    have hc := hcopy hv
    rw [hr] at hc
    simp [hr, Location.IsValid, Location.AsRegister, hlive, hc]
  · rw [Bool.not_eq_true] at hv
    simp [hv, hvoid hv]

theorem C25_witness :
    IntrinsicSlowPathX86_64.EmitNativeCode stackCallingConvention invokeCAS
      = Except.ok
          ([Instr.Bind Label.slow_path_entry, Instr.SaveLiveRegisters]
            ++ (if invokeCAS.InputCount = 0 then []
                else [Instr.ParallelMove
                  (argumentMoves stackCallingConvention locationsCAS [] invokeCAS.input_types)])
            ++ [Instr.GenerateStaticOrDirectCall CpuRegister.RDI,
                Instr.RecordPcInfo invokeCAS.dex_pc]
            ++ [Instr.movl CpuRegister.RBX (Operand.reg CpuRegister.RAX)]
            ++ [Instr.RestoreLiveRegisters, Instr.jmp Label.slow_path_exit]) :=
  C25_EmitNativeCode_order stackCallingConvention invokeCAS locationsCAS
    [Instr.movl CpuRegister.RBX (Operand.reg CpuRegister.RAX)] rfl rfl
    (fun _ => ⟨CpuRegister.RBX, rfl, by decide⟩) (fun _ => rfl)
    (fun h => absurd h (by decide))

/-- C27: for an invoke that is not static or direct, `EmitNativeCode` ends in
the fatal error: what it has emitted by then is the binding of the entry
label, the saving of the live registers and the argument moves (the binding
alone when the invoke has no location summary); no call, no recording of the
program point, no move from a return register, no restoring of the live
registers and no jump is emitted. -/
theorem C27_EmitNativeCode_non_direct_is_fatal
    (cc : List PrimitiveType → PrimitiveType → Location) (invoke : HInvoke)
    (hvirtual : invoke.is_static_or_direct = false) :
    ∃ emitted, IntrinsicSlowPathX86_64.EmitNativeCode cc invoke = Except.error emitted
      ∧ (invoke.locations = none → emitted = [Instr.Bind Label.slow_path_entry])
      ∧ (∀ locations, invoke.locations = some locations →
          emitted = [Instr.Bind Label.slow_path_entry, Instr.SaveLiveRegisters]
            ++ (if invoke.InputCount = 0 then []
                else [Instr.ParallelMove (argumentMoves cc locations [] invoke.input_types)]))
      ∧ (∀ i ∈ emitted,
          (∀ temp, i ≠ Instr.GenerateStaticOrDirectCall temp)
          ∧ (∀ pc, i ≠ Instr.RecordPcInfo pc)
          ∧ (∀ dst src, i ≠ Instr.movl dst src) ∧ (∀ dst src, i ≠ Instr.movq dst src)
          ∧ (∀ dst src, i ≠ Instr.movss dst src) ∧ (∀ dst src, i ≠ Instr.movsd dst src)
          ∧ i ≠ Instr.RestoreLiveRegisters
          ∧ (∀ l, i ≠ Instr.jmp l)) := by
  cases hl : invoke.locations with
  | none =>
    refine ⟨[Instr.Bind Label.slow_path_entry], ?_, fun _ => rfl, fun l h => by simp at h, ?_⟩
    · simp [IntrinsicSlowPathX86_64.EmitNativeCode, hl]
    · intro i hi
      simp at hi
      subst hi
      simp
  | some locations =>
    refine ⟨[Instr.Bind Label.slow_path_entry, Instr.SaveLiveRegisters]
        ++ (if invoke.InputCount = 0 then []
            else [Instr.ParallelMove (argumentMoves cc locations [] invoke.input_types)]),
      ?_, fun h => by simp at h, fun l h => ?_, ?_⟩
    · unfold IntrinsicSlowPathX86_64.EmitNativeCode
      simp only [hl, MoveArguments_eq cc invoke locations hl, hvirtual]
      rfl
    · simp at h
      subst h
      rfl
    · intro i hi
      by_cases h0 : invoke.InputCount = 0 <;> simp [h0] at hi <;>
        rcases hi with rfl | rfl | rfl <;> simp

theorem C27_witness :
    ∃ emitted, IntrinsicSlowPathX86_64.EmitNativeCode stackCallingConvention invokeVirtual
        = Except.error emitted
      ∧ (invokeVirtual.locations = none → emitted = [Instr.Bind Label.slow_path_entry])
      ∧ (∀ locations, invokeVirtual.locations = some locations →
          emitted = [Instr.Bind Label.slow_path_entry, Instr.SaveLiveRegisters]
            ++ (if invokeVirtual.InputCount = 0 then []
                else [Instr.ParallelMove
                  (argumentMoves stackCallingConvention locations [] invokeVirtual.input_types)]))
      ∧ (∀ i ∈ emitted,
          (∀ temp, i ≠ Instr.GenerateStaticOrDirectCall temp)
          ∧ (∀ pc, i ≠ Instr.RecordPcInfo pc)
          ∧ (∀ dst src, i ≠ Instr.movl dst src) ∧ (∀ dst src, i ≠ Instr.movq dst src)
          ∧ (∀ dst src, i ≠ Instr.movss dst src) ∧ (∀ dst src, i ≠ Instr.movsd dst src)
          ∧ i ≠ Instr.RestoreLiveRegisters
          ∧ (∀ l, i ≠ Instr.jmp l)) :=
  C27_EmitNativeCode_non_direct_is_fatal stackCallingConvention invokeVirtual rfl

/-! ## Entering the slow path -/

theorem VisitStringCompareTo_eq (invoke : HInvoke) (locations : LocationSummary)
    (argument : CpuRegister) (hloc : invoke.locations = some locations)
    (hnull : invoke.can_do_implicit_null_check_on_receiver = false)
    (h1 : locations.InAt 1 = Location.RegisterLocation argument) :
    VisitStringCompareTo invoke = some
      [ Instr.testl argument argument,
        Instr.AddSlowPath Label.slow_path_entry Label.slow_path_exit,
        Instr.j Condition.kEqual Label.slow_path_entry,
        Instr.gs_call ThreadOffset.pStringCompareTo,
        Instr.Bind Label.slow_path_exit ] := by
  simp [VisitStringCompareTo, hloc, hnull, h1, Location.AsRegister]

theorem execTo_StringCompareTo (argument : CpuRegister) (s : State) :
    (s.cpu argument % 2 ^ 32 = 0 →
      ∃ s', execTo
        [ Instr.testl argument argument,
          Instr.AddSlowPath Label.slow_path_entry Label.slow_path_exit,
          Instr.j Condition.kEqual Label.slow_path_entry,
          Instr.gs_call ThreadOffset.pStringCompareTo,
          Instr.Bind Label.slow_path_exit ] s = some (Outcome.exit Label.slow_path_entry s')
        ∧ s'.cpu = s.cpu ∧ s'.xmm = s.xmm ∧ s'.mem = s.mem)
    ∧ (s.cpu argument % 2 ^ 32 ≠ 0 →
      execTo
        [ Instr.testl argument argument,
          Instr.AddSlowPath Label.slow_path_entry Label.slow_path_exit,
          Instr.j Condition.kEqual Label.slow_path_entry,
          Instr.gs_call ThreadOffset.pStringCompareTo,
          Instr.Bind Label.slow_path_exit ] s = none
      ∧ ∃ s', execTo
        [ Instr.testl argument argument,
          Instr.AddSlowPath Label.slow_path_entry Label.slow_path_exit,
          Instr.j Condition.kEqual Label.slow_path_entry ] s = some (Outcome.finished s')
        ∧ s'.cpu = s.cpu ∧ s'.xmm = s.xmm ∧ s'.mem = s.mem) := by
  constructor
  · intro h
    norm_num at h
    simp [execTo, runTo, findLabel, step, logicFlags, Condition.holds, State.setFlags, h]
  · intro h
    norm_num at h
    simp [execTo, runTo, findLabel, step, logicFlags, Condition.holds, State.setFlags, h]

theorem readMem_zero (n : Nat) : ∀ (a : Nat), readMem (fun _ => 0) a n = 0 := by
  induction n with
  | zero => intro a; rfl
  | succ n ih => intro a; simp [readMem, ih]

/-- C29: the slow path is entered from `VisitStringCharAt` by the branch after
the bounds compare and from `VisitStringCompareTo` by the branch after the null
test; before the branch the sequences hold only the registration of the slow
path, the flag-setting compare or test and the implicit-null-check record.
Whenever a run leaves either sequence for the slow-path entry, every general
register, every floating register and the memory are as they were on entry,
so every operand is still where the location summary promised; and the slow
path is reached from some state. -/
theorem C29_slow_path_entry_preserves_operands (o : StringOffsets)
    (charAt compareTo : HInvoke) (lc lt : LocationSummary)
    (obj idx out temp argument : CpuRegister)
    (hlc : charAt.locations = some lc)
    (h0 : lc.InAt 0 = Location.RegisterLocation obj)
    (h1 : lc.InAt 1 = Location.RegisterLocation idx)
    (hout : lc.Out = Location.RegisterLocation out)
    (htemp : lc.GetTemp 0 = Location.RegisterLocation temp)
    (hlt : compareTo.locations = some lt)
    (hnull : compareTo.can_do_implicit_null_check_on_receiver = false)
    (ha : lt.InAt 1 = Location.RegisterLocation argument) :
    (∃ code, VisitStringCharAt o charAt = some code
      ∧ code.take 4 = [ Instr.AddSlowPath Label.slow_path_entry Label.slow_path_exit,
          Instr.cmpl idx (Operand.mem { base := obj, index := none, disp := o.count_offset }),
          Instr.MaybeRecordImplicitNullCheck,
          Instr.j Condition.kAboveEqual Label.slow_path_entry ]
      ∧ (∀ s s', execTo code s = some (Outcome.exit Label.slow_path_entry s') →
          s'.cpu = s.cpu ∧ s'.xmm = s.xmm ∧ s'.mem = s.mem)
      ∧ ∃ s s', execTo code s = some (Outcome.exit Label.slow_path_entry s'))
    ∧ (∃ code, VisitStringCompareTo compareTo = some code
      ∧ code.take 3 = [ Instr.testl argument argument,
          Instr.AddSlowPath Label.slow_path_entry Label.slow_path_exit,
          Instr.j Condition.kEqual Label.slow_path_entry ]
      ∧ (∀ s s', execTo code s = some (Outcome.exit Label.slow_path_entry s') →
          s'.cpu = s.cpu ∧ s'.xmm = s.xmm ∧ s'.mem = s.mem)
      ∧ ∃ s s', execTo code s = some (Outcome.exit Label.slow_path_entry s')) := by
  constructor
  · refine ⟨_, VisitStringCharAt_eq o charAt lc obj idx out temp hlc h0 h1 hout htemp, rfl, ?_,
      ?_⟩
    · intro s s' h
      obtain ⟨hexit, hfin⟩ := execTo_StringCharAt o obj idx out temp s
      by_cases hle : readMem s.mem
          (Address.effective s { base := obj, index := none, disp := o.count_offset }) 4
            ≤ s.cpu idx % 2 ^ 32
      · obtain ⟨s'', he, hs⟩ := hexit hle
        rw [he] at h
        cases h
        exact hs
      · obtain ⟨s'', he⟩ := hfin (not_le.mp hle)
        rw [he] at h
        cases h
    · obtain ⟨hexit, _⟩ := execTo_StringCharAt o obj idx out temp State.zero
      have hz : ∀ (a : Nat), readMem State.zero.mem a 4 = 0 := fun a => readMem_zero 4 a
      obtain ⟨s', he, _⟩ := hexit (by rw [hz]; exact Nat.zero_le _)
      exact ⟨State.zero, s', he⟩
  · refine ⟨_, VisitStringCompareTo_eq compareTo lt argument hlt hnull ha, rfl, ?_, ?_⟩
    · intro s s' h
      obtain ⟨hz, hnz⟩ := execTo_StringCompareTo argument s
      by_cases h0 : s.cpu argument % 2 ^ 32 = 0
      · obtain ⟨s'', he, hs⟩ := hz h0
        rw [he] at h
        cases h
        exact hs
      · rw [(hnz h0).1] at h
        cases h
    · obtain ⟨hz, _⟩ := execTo_StringCompareTo argument State.zero
      obtain ⟨s', he, _⟩ := hz (by simp [State.zero])
      exact ⟨State.zero, s', he⟩

theorem getLastOpt_append_pair (l : List Instr) (a b : Instr) :
    (l ++ [a, b]).getLast? = some b := by
  have : l ++ [a, b] = (l ++ [a]) ++ [b] := by simp
  rw [this, List.getLast?_append]
  simp

theorem EmitNativeCode_ok_ends (cc : List PrimitiveType → PrimitiveType → Location)
    (invoke : HInvoke) (emitted : List Instr)
    (h : IntrinsicSlowPathX86_64.EmitNativeCode cc invoke = Except.ok emitted) :
    emitted.head? = some (Instr.Bind Label.slow_path_entry)
      ∧ emitted.getLast? = some (Instr.jmp Label.slow_path_exit) := by
  unfold IntrinsicSlowPathX86_64.EmitNativeCode at h
  split at h
  · cases h
  · split at h
    · cases h
    · split at h
      · dsimp only at h
        split at h
        · split at h
          · cases h
          · split at h
            · cases h
            · split at h
              · cases h
              · cases h
                refine ⟨by simp, ?_⟩
                rw [getLastOpt_append_pair]
        · cases h
          refine ⟨by simp, ?_⟩
          rw [getLastOpt_append_pair]
      · cases h

/-- C30: `VisitStringCompareTo` emits the null test of the argument register,
one registration of a slow path, the branch to the slow-path entry on equal,
one call of the thread-local `pStringCompareTo` entry point, and the binding of
the slow path's exit label.  A run leaves for the slow-path entry if and only
if the low 32 bits of the argument register are zero; otherwise control falls
through the branch, with registers and memory untouched, to the call, which is
followed by the exit label alone.  The slow path itself ends with a jump to
that exit label, so both paths rejoin there. -/
theorem C30_StringCompareTo_null_check (cc : List PrimitiveType → PrimitiveType → Location)
    (invoke : HInvoke) (locations : LocationSummary) (argument : CpuRegister)
    (hloc : invoke.locations = some locations)
    (hnull : invoke.can_do_implicit_null_check_on_receiver = false)
    (h1 : locations.InAt 1 = Location.RegisterLocation argument) (s : State) :
    ∃ code, VisitStringCompareTo invoke = some code
      ∧ code = [ Instr.testl argument argument,
                 Instr.AddSlowPath Label.slow_path_entry Label.slow_path_exit,
                 Instr.j Condition.kEqual Label.slow_path_entry,
                 Instr.gs_call ThreadOffset.pStringCompareTo,
                 Instr.Bind Label.slow_path_exit ]
      ∧ ((∃ s', execTo code s = some (Outcome.exit Label.slow_path_entry s'))
          ↔ s.cpu argument % 2 ^ 32 = 0)
      ∧ (s.cpu argument % 2 ^ 32 ≠ 0 →
          ∃ s', execTo (code.take 3) s = some (Outcome.finished s')
            ∧ s'.cpu = s.cpu ∧ s'.xmm = s.xmm ∧ s'.mem = s.mem)
      ∧ (∀ emitted, IntrinsicSlowPathX86_64.EmitNativeCode cc invoke = Except.ok emitted →
          emitted.head? = some (Instr.Bind Label.slow_path_entry)
            ∧ emitted.getLast? = some (Instr.jmp Label.slow_path_exit)) := by
  obtain ⟨hz, hnz⟩ := execTo_StringCompareTo argument s
  refine ⟨_, VisitStringCompareTo_eq invoke locations argument hloc hnull h1, rfl, ?_, ?_,
    EmitNativeCode_ok_ends cc invoke⟩
  · constructor
    · rintro ⟨s', hs'⟩
      by_contra h0
      rw [(hnz h0).1] at hs'
      cases hs'
    · intro h0
      obtain ⟨s', he, _⟩ := hz h0
      exact ⟨s', he⟩
  · intro h0
    exact (hnz h0).2

theorem C30_witness :
    ∃ code, VisitStringCompareTo invokeCompareTo = some code
      ∧ code = [ Instr.testl CpuRegister.RSI CpuRegister.RSI,
                 Instr.AddSlowPath Label.slow_path_entry Label.slow_path_exit,
                 Instr.j Condition.kEqual Label.slow_path_entry,
                 Instr.gs_call ThreadOffset.pStringCompareTo,
                 Instr.Bind Label.slow_path_exit ]
      ∧ ((∃ s', execTo code (stateWithRsi 0x1000) = some (Outcome.exit Label.slow_path_entry s'))
          ↔ (stateWithRsi 0x1000).cpu CpuRegister.RSI % 2 ^ 32 = 0)
      ∧ ((stateWithRsi 0x1000).cpu CpuRegister.RSI % 2 ^ 32 ≠ 0 →
          ∃ s', execTo (code.take 3) (stateWithRsi 0x1000) = some (Outcome.finished s')
            ∧ s'.cpu = (stateWithRsi 0x1000).cpu ∧ s'.xmm = (stateWithRsi 0x1000).xmm
            ∧ s'.mem = (stateWithRsi 0x1000).mem)
      ∧ (∀ emitted,
          IntrinsicSlowPathX86_64.EmitNativeCode stackCallingConvention invokeCompareTo
              = Except.ok emitted →
          emitted.head? = some (Instr.Bind Label.slow_path_entry)
            ∧ emitted.getLast? = some (Instr.jmp Label.slow_path_exit)) :=
  C30_StringCompareTo_null_check stackCallingConvention invokeCompareTo locationsCompareTo
    CpuRegister.RSI rfl rfl rfl (stateWithRsi 0x1000)

theorem C29_witness :
    (∃ code, VisitStringCharAt stringOffsets invokeCharAt = some code
      ∧ code.take 4 = [ Instr.AddSlowPath Label.slow_path_entry Label.slow_path_exit,
          Instr.cmpl CpuRegister.RCX (Operand.mem
            { base := CpuRegister.RAX, index := none, disp := stringOffsets.count_offset }),
          Instr.MaybeRecordImplicitNullCheck,
          Instr.j Condition.kAboveEqual Label.slow_path_entry ]
      ∧ (∀ s s', execTo code s = some (Outcome.exit Label.slow_path_entry s') →
          s'.cpu = s.cpu ∧ s'.xmm = s.xmm ∧ s'.mem = s.mem)
      ∧ ∃ s s', execTo code s = some (Outcome.exit Label.slow_path_entry s'))
    ∧ (∃ code, VisitStringCompareTo invokeCompareTo = some code
      ∧ code.take 3 = [ Instr.testl CpuRegister.RSI CpuRegister.RSI,
          Instr.AddSlowPath Label.slow_path_entry Label.slow_path_exit,
          Instr.j Condition.kEqual Label.slow_path_entry ]
      ∧ (∀ s s', execTo code s = some (Outcome.exit Label.slow_path_entry s') →
          s'.cpu = s.cpu ∧ s'.xmm = s.xmm ∧ s'.mem = s.mem)
      ∧ ∃ s s', execTo code s = some (Outcome.exit Label.slow_path_entry s')) :=
  C29_slow_path_entry_preserves_operands stringOffsets invokeCharAt invokeCompareTo
    locationsCharAt locationsCompareTo CpuRegister.RAX CpuRegister.RCX CpuRegister.RAX
    CpuRegister.RDX CpuRegister.RSI rfl rfl rfl rfl rfl rfl rfl rfl

/-! ## Agreement of the locations builder and the code generator -/

theorem allocates_core (first a : Location)
    (h : Location.allocates first Location.RequiresRegister a = true) :
    ∃ r, a = Location.RegisterLocation r := by
  cases a <;> simp [Location.allocates, Location.IsRegister] at h ⊢

theorem allocates_fpu (first a : Location)
    (h : Location.allocates first Location.RequiresFpuRegister a = true) :
    ∃ r, a = Location.FpuRegisterLocation r := by
  cases a <;> simp [Location.allocates, Location.IsFpuRegister] at h ⊢

theorem allocates_same (first a : Location)
    (h : Location.allocates first Location.SameAsFirstInput a = true) : a = first := by
  simpa [Location.allocates] using h

theorem allocates_fixed (first a : Location) (r : CpuRegister)
    (h : Location.allocates first (Location.RegisterLocation r) a = true) :
    a = Location.RegisterLocation r := by
  simpa [Location.allocates] using h

/-- C24, the divergence: with SSE4.1 the builder marks the summary of
`Math.round (float)` and of `Math.round (double)` intrinsified and declares the
output a floating register, while the code generator reads the output as a
general register: on every allocation of the declared summary the register
accessor's assertion fails and no code is emitted. -/
theorem C24_round_output_kind_mismatch (cc : List PrimitiveType → PrimitiveType → Location)
    (o : StringOffsets) (calling_convention : InvokeRuntimeCallingConvention)
    (invoke : HInvoke) :
    (∃ l, (IntrinsicLocationsBuilderX86_64.Visit true calling_convention
            Intrinsics.kMathRoundFloat invoke).locations = some l
        ∧ l.intrinsified = true ∧ l.call_kind = CallKind.kNoCall
        ∧ l.Out = Location.RequiresFpuRegister
        ∧ ∀ a : LocationSummary, a.IsAllocationOf l →
            a.Out.registerKind = some RegisterKind.fpu
            ∧ IntrinsicCodeGeneratorX86_64.Visit cc o Intrinsics.kMathRoundFloat
                (invoke.SetLocations a) = none)
    ∧ (∃ l, (IntrinsicLocationsBuilderX86_64.Visit true calling_convention
            Intrinsics.kMathRoundDouble invoke).locations = some l
        ∧ l.intrinsified = true ∧ l.call_kind = CallKind.kNoCall
        ∧ l.Out = Location.RequiresFpuRegister
        ∧ ∀ a : LocationSummary, a.IsAllocationOf l →
            a.Out.registerKind = some RegisterKind.fpu
            ∧ IntrinsicCodeGeneratorX86_64.Visit cc o Intrinsics.kMathRoundDouble
                (invoke.SetLocations a) = none) := by
  constructor
  · refine ⟨_, rfl, rfl, rfl, rfl, ?_⟩
    rintro a ⟨hck, -, -, -, hout, -⟩
    obtain ⟨x, hx⟩ := allocates_fpu _ _ hout
    have hk : a.call_kind = CallKind.kNoCall := hck
    refine ⟨by rw [hx]; rfl, ?_⟩
    cases hin : (a.InAt 0).AsFpuRegister <;>
      simp [IntrinsicCodeGeneratorX86_64.Visit, VisitMathRoundFloat, HInvoke.SetLocations,
        LocationSummary.WillCall, hk, hx, hin, Location.AsRegister]
  · refine ⟨_, rfl, rfl, rfl, rfl, ?_⟩
    rintro a ⟨hck, -, -, -, hout, -⟩
    obtain ⟨x, hx⟩ := allocates_fpu _ _ hout
    have hk : a.call_kind = CallKind.kNoCall := hck
    refine ⟨by rw [hx]; rfl, ?_⟩
    cases hin : (a.InAt 0).AsFpuRegister <;>
      simp [IntrinsicCodeGeneratorX86_64.Visit, VisitMathRoundDouble, HInvoke.SetLocations,
        LocationSummary.WillCall, hk, hx, hin, Location.AsRegister]

theorem isRegister_eq (a : Location) (h : a.IsRegister = true) :
    ∃ r, a = Location.RegisterLocation r := by
  cases a <;> simp [Location.IsRegister] at h ⊢

theorem isFpuRegister_eq (a : Location) (h : a.IsFpuRegister = true) :
    ∃ r, a = Location.FpuRegisterLocation r := by
  cases a <;> simp [Location.IsFpuRegister] at h ⊢

theorem SetLocations_locations (invoke : HInvoke) (a : LocationSummary) :
    (invoke.SetLocations a).locations = some a := rfl

theorem create_eq (invoke : HInvoke) (n : Nat) (hn : invoke.InputCount = n)
    (call_kind : CallKind) (intrinsified : Bool) :
    LocationSummary.create invoke call_kind intrinsified =
      { inputs := List.replicate n Location.Invalid, output := Location.Invalid,
        temps := [], call_kind := call_kind, intrinsified := intrinsified } := by
  unfold LocationSummary.create
  rw [hn]

set_option maxHeartbeats 4000000 in
/-- Apart from the two rounds, the builder and the code generator agree on
the kinds of inputs, output and temps: for every implemented intrinsic whose
summary is marked intrinsified, the code generator accepts every allocation of
the declared summary (none of its register accessors fails). -/
theorem allocation_accepted (has_sse4_1 : Bool)
    (calling_convention : InvokeRuntimeCallingConvention)
    (cc : List PrimitiveType → PrimitiveType → Location) (o : StringOffsets)
    (id : Intrinsics) (invoke : HInvoke) (l a : LocationSummary)
    (himpl : id.isImplemented = true)
    (hround : id ≠ Intrinsics.kMathRoundFloat ∧ id ≠ Intrinsics.kMathRoundDouble)
    (hn : invoke.InputCount = id.inputCount)
    (hnull : invoke.can_do_implicit_null_check_on_receiver = false)
    (hl : (IntrinsicLocationsBuilderX86_64.Visit has_sse4_1 calling_convention id
      invoke).locations = some l)
    (hi : l.intrinsified = true)
    (ha : a.IsAllocationOf l) :
    (IntrinsicCodeGeneratorX86_64.Visit cc o id (invoke.SetLocations a)).isSome = true := by
  obtain ⟨hck, -, -, hin, hout, htemps⟩ := ha
  cases id
  case kMathRoundFloat => exact absurd rfl hround.1
  case kMathRoundDouble => exact absurd rfl hround.2
  case kNone | kStringIndexOf | kStringIndexOfAfter | kSystemArrayCopyChar
      | kReferenceGetReferent => exact absurd himpl Bool.false_ne_true
  case kMathCeil | kMathFloor | kMathRint =>
    cases has_sse4_1
    · obtain rfl := Option.some.inj hl
      exact absurd hi Bool.false_ne_true
    · obtain rfl := Option.some.inj hl
      rw [create_eq invoke _ hn] at hin hout
      obtain ⟨x0, e0⟩ := isFpuRegister_eq _ (hin 0 (Nat.zero_lt_succ _))
      obtain ⟨xo, eo⟩ := isFpuRegister_eq _ hout
      have hk : a.call_kind = CallKind.kNoCall := hck
      simp only [IntrinsicCodeGeneratorX86_64.Visit, VisitMathCeil, VisitMathFloor, VisitMathRint,
        GenSSE41FPToFPIntrinsic, SetLocations_locations, LocationSummary.WillCall, hk, e0, eo,
        Location.AsFpuRegister, Option.bind_eq_bind, Option.some_bind, Option.pure_def,
        reduceCtorEq, decide_False, Bool.false_eq_true, if_false, Option.isSome_some]
  all_goals
    (obtain rfl := Option.some.inj hl
     rw [create_eq invoke _ hn] at hin hout htemps
     (try (have hx := isRegister_eq _ (hin 0 (Nat.zero_lt_succ _)); obtain ⟨r0, e0⟩ := hx))
     (try (have hx := isFpuRegister_eq _ (hin 0 (Nat.zero_lt_succ _)); obtain ⟨x0, e0⟩ := hx))
     (try (have e0 := allocates_fixed _ _ _ (hin 0 (Nat.zero_lt_succ _))))
     (try (have hx := isRegister_eq _ (hin 1 (Nat.succ_lt_succ (Nat.zero_lt_succ _))); obtain ⟨r1, e1⟩ := hx))
     (try (have hx := isFpuRegister_eq _ (hin 1 (Nat.succ_lt_succ (Nat.zero_lt_succ _))); obtain ⟨x1, e1⟩ := hx))
     (try (have e1 := allocates_fixed _ _ _ (hin 1 (Nat.succ_lt_succ (Nat.zero_lt_succ _)))))
     (try (have hx := isRegister_eq _ (hin 2 (Nat.succ_lt_succ (Nat.succ_lt_succ (Nat.zero_lt_succ _)))); obtain ⟨r2, e2⟩ := hx))
     (try (have hx := isRegister_eq _ (hin 3 (Nat.succ_lt_succ (Nat.succ_lt_succ (Nat.succ_lt_succ (Nat.zero_lt_succ _))))); obtain ⟨r3, e3⟩ := hx))
     (try (have e3 := allocates_fixed _ _ _ (hin 3 (Nat.succ_lt_succ (Nat.succ_lt_succ (Nat.succ_lt_succ (Nat.zero_lt_succ _)))))))
     (try (have hx := isRegister_eq _ (hin 4 (Nat.succ_lt_succ (Nat.succ_lt_succ (Nat.succ_lt_succ (Nat.succ_lt_succ (Nat.zero_lt_succ _)))))); obtain ⟨r4, e4⟩ := hx))
     (try (have hx := isRegister_eq _ hout; obtain ⟨ro, eo⟩ := hx))
     (try (have hx := isFpuRegister_eq _ hout; obtain ⟨xo, eo⟩ := hx))
     (try (have eo := allocates_same _ _ hout))
     (try (have eo := allocates_fixed _ _ _ hout))
     (try (have hx := isRegister_eq _ (htemps 0 (Nat.zero_lt_succ _)); obtain ⟨rt0, et0⟩ := hx))
     (try (have hx := isFpuRegister_eq _ (htemps 0 (Nat.zero_lt_succ _)); obtain ⟨xt0, et0⟩ := hx))
     (try (have hx := isRegister_eq _ (htemps 1 (Nat.succ_lt_succ (Nat.zero_lt_succ _))); obtain ⟨rt1, et1⟩ := hx))
     clear hin hout htemps hck hi himpl hround hn
     simp only [IntrinsicCodeGeneratorX86_64.Visit, HInvoke.SetLocations,
      Location.AsRegister, Location.AsFpuRegister, Location.IsFpuRegister, Location.Equals,
      Option.bind_eq_bind, Option.some_bind, Option.pure_def, Option.isSome_some,
      VisitDoubleDoubleToRawLongBits, VisitDoubleLongBitsToDouble, VisitFloatFloatToRawIntBits,
      VisitFloatIntBitsToFloat, MoveFPToInt, MoveIntToFP,
      VisitIntegerReverseBytes, VisitLongReverseBytes, VisitShortReverseBytes, GenReverseBytes,
      VisitMathAbsDouble, VisitMathAbsFloat, MathAbsFP, VisitMathAbsInt, VisitMathAbsLong,
      GenAbsInteger, VisitMathMinDoubleDouble, VisitMathMinFloatFloat, VisitMathMaxDoubleDouble,
      VisitMathMaxFloatFloat, GenMinMaxFP, VisitMathMinIntInt, VisitMathMinLongLong,
      VisitMathMaxIntInt, VisitMathMaxLongLong, GenMinMax, VisitMathSqrt, VisitStringCharAt,
      VisitStringCompareTo, VisitMemoryPeekByte, VisitMemoryPeekIntNative,
      VisitMemoryPeekLongNative, VisitMemoryPeekShortNative, GenPeek, VisitMemoryPokeByte,
      VisitMemoryPokeIntNative, VisitMemoryPokeLongNative, VisitMemoryPokeShortNative, GenPoke,
      VisitThreadCurrentThread, VisitUnsafeGet, VisitUnsafeGetVolatile, VisitUnsafeGetLong,
      VisitUnsafeGetLongVolatile, VisitUnsafeGetObject, VisitUnsafeGetObjectVolatile,
      GenUnsafeGet, VisitUnsafePut, VisitUnsafePutOrdered, VisitUnsafePutVolatile,
      VisitUnsafePutObject, VisitUnsafePutObjectOrdered, VisitUnsafePutObjectVolatile,
      VisitUnsafePutLong, VisitUnsafePutLongOrdered, VisitUnsafePutLongVolatile, GenUnsafePut,
      VisitUnsafeCASInt, VisitUnsafeCASLong, VisitUnsafeCASObject, GenCAS,
      VisitIntegerReverse, VisitLongReverse, reduceCtorEq, Bool.false_eq_true, if_false,
      if_true, ite_true, ite_false, ne_eq, not_true_eq_false, not_false_eq_true,
      decide_True, decide_False, *] <;>
     first | rfl | (split_ifs <;> rfl))

theorem argumentMoves_temps (cc : List PrimitiveType → PrimitiveType → Location)
    (a : LocationSummary) (ts : List Location) (tys : List PrimitiveType) :
    ∀ seen, argumentMoves cc { a with temps := ts } seen tys = argumentMoves cc a seen tys := by
  induction tys with
  | nil => intro seen; rfl
  | cons t rest ih =>
    intro seen
    simp only [argumentMoves, LocationSummary.InAt, ih]

theorem InvokeOutOfLineIntrinsic_temps (cc : List PrimitiveType → PrimitiveType → Location)
    (invoke : HInvoke) (a : LocationSummary) (ts : List Location) :
    InvokeOutOfLineIntrinsic cc (invoke.SetLocations { a with temps := ts }) =
      InvokeOutOfLineIntrinsic cc (invoke.SetLocations a) := by
  simp [InvokeOutOfLineIntrinsic, MoveArguments, HInvoke.SetLocations, HInvoke.InputCount,
    argumentMoves_temps, LocationSummary.Out]

theorem InvokeOutOfLineIntrinsic_call (cc : List PrimitiveType → PrimitiveType → Location)
    (invoke : HInvoke) (code : List Instr)
    (h : InvokeOutOfLineIntrinsic cc invoke = some code) :
    Instr.GenerateStaticOrDirectCall CpuRegister.RDI ∈ code := by
  simp only [InvokeOutOfLineIntrinsic] at h
  cases hm : MoveArguments cc invoke with
  | none => simp [hm] at h
  | some moves =>
    cases hs : invoke.is_static_or_direct with
    | false => simp [hm, hs] at h
    | true =>
      cases hloc : invoke.locations with
      | none => simp [hm, hs, hloc] at h
      | some locations =>
        simp only [hm, hs, hloc, Option.bind_eq_bind, Option.some_bind, Bool.not_true,
          Bool.false_eq_true, if_false, Option.pure_def] at h
        split at h
        · rw [Option.bind_eq_some] at h
          obtain ⟨copy, -, hc⟩ := h
          simp only [Option.some.injEq] at hc
          subst hc
          simp
        · simp only [Option.some_bind, Option.some.injEq] at h
          subst h
          simp


theorem AsRegister_kind (a : Location) (r : CpuRegister) (h : a.AsRegister = some r) :
    a.registerKind = some RegisterKind.core := by
  cases a <;> first | rfl | cases h

theorem AsFpuRegister_kind (a : Location) (r : XmmRegister) (h : a.AsFpuRegister = some r) :
    a.registerKind = some RegisterKind.fpu := by
  cases a <;> first | rfl | cases h

theorem MathAbsFP_temp (a : LocationSummary) (is64bit : Bool) (code : List Instr)
    (h : MathAbsFP a is64bit = some code) :
    (a.GetTemp 0).registerKind = some RegisterKind.fpu := by
  unfold MathAbsFP at h
  simp only [Option.bind_eq_bind] at h
  split at h
  · rw [Option.bind_eq_some] at h
    obtain ⟨t, ht, -⟩ := h
    exact AsFpuRegister_kind _ _ ht
  · cases h

theorem GenAbsInteger_temp (a : LocationSummary) (is64bit : Bool) (code : List Instr)
    (h : GenAbsInteger a is64bit = some code) :
    (a.GetTemp 0).registerKind = some RegisterKind.core := by
  unfold GenAbsInteger at h
  simp only [Option.bind_eq_bind, Option.bind_eq_some] at h
  obtain ⟨out, -, t, ht, -⟩ := h
  exact AsRegister_kind _ _ ht

theorem VisitMathRoundFloat_temps (cc : List PrimitiveType → PrimitiveType → Location)
    (invoke : HInvoke) (a : LocationSummary) (code : List Instr)
    (hk : a.call_kind = CallKind.kNoCall)
    (h : VisitMathRoundFloat cc (invoke.SetLocations a) = some code) :
    (a.GetTemp 0).registerKind = some RegisterKind.fpu
      ∧ (a.GetTemp 1).registerKind = some RegisterKind.fpu := by
  unfold VisitMathRoundFloat at h
  simp only [SetLocations_locations, LocationSummary.WillCall, hk, Option.bind_eq_bind,
    Option.some_bind, reduceCtorEq, decide_False, Bool.false_eq_true, if_false,
    Option.bind_eq_some] at h
  obtain ⟨input, -, out, -, t0, h0, t1, h1, -⟩ := h
  exact ⟨AsFpuRegister_kind _ _ h0, AsFpuRegister_kind _ _ h1⟩

theorem VisitMathRoundDouble_temps (cc : List PrimitiveType → PrimitiveType → Location)
    (invoke : HInvoke) (a : LocationSummary) (code : List Instr)
    (hk : a.call_kind = CallKind.kNoCall)
    (h : VisitMathRoundDouble cc (invoke.SetLocations a) = some code) :
    (a.GetTemp 0).registerKind = some RegisterKind.fpu
      ∧ (a.GetTemp 1).registerKind = some RegisterKind.fpu := by
  unfold VisitMathRoundDouble at h
  simp only [SetLocations_locations, LocationSummary.WillCall, hk, Option.bind_eq_bind,
    Option.some_bind, reduceCtorEq, decide_False, Bool.false_eq_true, if_false,
    Option.bind_eq_some] at h
  obtain ⟨input, -, out, -, t0, h0, t1, h1, -⟩ := h
  exact ⟨AsFpuRegister_kind _ _ h0, AsFpuRegister_kind _ _ h1⟩

theorem VisitStringCharAt_temp (o : StringOffsets) (invoke : HInvoke) (a : LocationSummary)
    (code : List Instr) (h : VisitStringCharAt o (invoke.SetLocations a) = some code) :
    (a.GetTemp 0).registerKind = some RegisterKind.core := by
  unfold VisitStringCharAt at h
  simp only [SetLocations_locations, Option.bind_eq_bind, Option.some_bind,
    Option.bind_eq_some] at h
  obtain ⟨obj, -, idx, -, out, -, t, ht, -⟩ := h
  exact AsRegister_kind _ _ ht

theorem GenUnsafePut_temps (a : LocationSummary) (is_volatile : Bool) (code : List Instr)
    (h : GenUnsafePut a PrimitiveType.kPrimNot is_volatile = some code) :
    (a.GetTemp 0).registerKind = some RegisterKind.core
      ∧ (a.GetTemp 1).registerKind = some RegisterKind.core := by
  unfold GenUnsafePut at h
  simp only [Option.bind_eq_bind, ↓reduceIte, Option.bind_eq_some] at h
  obtain ⟨base, -, offset, -, value, -, t0, h0, t1, h1, -⟩ := h
  exact ⟨AsRegister_kind _ _ h0, AsRegister_kind _ _ h1⟩

theorem GenCAS_temps (invoke : HInvoke) (a : LocationSummary) (code : List Instr)
    (h : GenCAS PrimitiveType.kPrimNot (invoke.SetLocations a) = some code) :
    (a.GetTemp 0).registerKind = some RegisterKind.core
      ∧ (a.GetTemp 1).registerKind = some RegisterKind.core := by
  unfold GenCAS at h
  simp only [SetLocations_locations, Option.bind_eq_bind, Option.some_bind,
    Option.bind_eq_some] at h
  obtain ⟨base, -, offset, -, expected, -, h⟩ := h
  split at h
  · cases h
  · simp only [reduceCtorEq, ↓reduceIte, Option.bind_eq_bind, Option.bind_eq_some] at h
    obtain ⟨value, -, out, -, t0, h0, t1, h1, -⟩ := h
    exact ⟨AsRegister_kind _ _ h0, AsRegister_kind _ _ h1⟩

theorem VisitIntegerReverse_temp (a : LocationSummary) (code : List Instr)
    (h : VisitIntegerReverse a = some code) :
    (a.GetTemp 0).registerKind = some RegisterKind.core := by
  unfold VisitIntegerReverse at h
  simp only [Option.bind_eq_bind, Option.bind_eq_some] at h
  obtain ⟨reg, -, t, ht, -⟩ := h
  exact AsRegister_kind _ _ ht

theorem VisitLongReverse_temps (a : LocationSummary) (code : List Instr)
    (h : VisitLongReverse a = some code) :
    (a.GetTemp 0).registerKind = some RegisterKind.core
      ∧ (a.GetTemp 1).registerKind = some RegisterKind.core := by
  unfold VisitLongReverse at h
  simp only [Option.bind_eq_bind, Option.bind_eq_some] at h
  obtain ⟨reg, -, t0, h0, t1, h1, -⟩ := h
  exact ⟨AsRegister_kind _ _ h0, AsRegister_kind _ _ h1⟩

set_option maxHeartbeats 4000000 in
/-- Every declared temp is read, with the declared kind: where the code
generator of an inline sequence emits code, each temp position the builder
declared holds a register of the declared file. -/
theorem declared_temps_read (has_sse4_1 : Bool)
    (calling_convention : InvokeRuntimeCallingConvention)
    (cc : List PrimitiveType → PrimitiveType → Location) (o : StringOffsets)
    (id : Intrinsics) (invoke : HInvoke) (l a : LocationSummary) (code : List Instr)
    (himpl : id.isImplemented = true)
    (hl : (IntrinsicLocationsBuilderX86_64.Visit has_sse4_1 calling_convention id
      invoke).locations = some l)
    (hi : l.intrinsified = true)
    (hck : a.call_kind = l.call_kind)
    (hcode : IntrinsicCodeGeneratorX86_64.Visit cc o id (invoke.SetLocations a) = some code)
    (i : Nat) (hlt : i < l.GetTempCount) :
    (l.GetTemp i).registerKind ≠ none
      ∧ (a.GetTemp i).registerKind = (l.GetTemp i).registerKind := by
  cases id <;> cases has_sse4_1 <;>
    first
    | exact absurd himpl Bool.false_ne_true
    | (obtain rfl := Option.some.inj hl
       first
       | exact absurd hlt (Nat.not_lt_zero i)
       | exact absurd hi Bool.false_ne_true
       | (have hlt1 : i < 1 := hlt
          obtain rfl : i = 0 := Nat.lt_one_iff.mp hlt1
          refine ⟨Option.some_ne_none _, ?_⟩
          first
          | exact MathAbsFP_temp a _ code hcode
          | exact GenAbsInteger_temp a _ code hcode
          | exact VisitStringCharAt_temp o invoke a code hcode
          | exact VisitIntegerReverse_temp a code hcode)
       | (have hlt2 : i < 2 := hlt
          have h2 : (a.GetTemp 0).registerKind = some RegisterKind.fpu
              ∧ (a.GetTemp 1).registerKind = some RegisterKind.fpu := by
            first
            | exact VisitMathRoundFloat_temps cc invoke a code hck hcode
            | exact VisitMathRoundDouble_temps cc invoke a code hck hcode
          rcases (show i = 0 ∨ i = 1 by omega) with rfl | rfl
          · exact ⟨Option.some_ne_none _, h2.1⟩
          · exact ⟨Option.some_ne_none _, h2.2⟩)
       | (have hlt2 : i < 2 := hlt
          have h2 : (a.GetTemp 0).registerKind = some RegisterKind.core
              ∧ (a.GetTemp 1).registerKind = some RegisterKind.core := by
            first
            | exact GenUnsafePut_temps a _ code hcode
            | exact GenCAS_temps invoke a code hcode
            | exact VisitLongReverse_temps a code hcode
          rcases (show i = 0 ∨ i = 1 by omega) with rfl | rfl
          · exact ⟨Option.some_ne_none _, h2.1⟩
          · exact ⟨Option.some_ne_none _, h2.2⟩))

theorem MathAbsFP_congr (a : LocationSummary) (ts : List Location) (is64bit : Bool)
    (h0 : ts.getD 0 Location.Invalid = a.GetTemp 0) :
    MathAbsFP { a with temps := ts } is64bit = MathAbsFP a is64bit := by
  unfold MathAbsFP
  simp only [LocationSummary.GetTemp, LocationSummary.Out] at h0 ⊢
  rw [h0]

theorem GenAbsInteger_congr (a : LocationSummary) (ts : List Location) (is64bit : Bool)
    (h0 : ts.getD 0 Location.Invalid = a.GetTemp 0) :
    GenAbsInteger { a with temps := ts } is64bit = GenAbsInteger a is64bit := by
  unfold GenAbsInteger
  simp only [LocationSummary.GetTemp, LocationSummary.Out] at h0 ⊢
  rw [h0]

theorem VisitMathRoundFloat_congr (cc : List PrimitiveType → PrimitiveType → Location)
    (invoke : HInvoke) (a : LocationSummary) (ts : List Location)
    (hk : a.call_kind = CallKind.kNoCall)
    (h0 : ts.getD 0 Location.Invalid = a.GetTemp 0)
    (h1 : ts.getD 1 Location.Invalid = a.GetTemp 1) :
    VisitMathRoundFloat cc (invoke.SetLocations { a with temps := ts }) =
      VisitMathRoundFloat cc (invoke.SetLocations a) := by
  unfold VisitMathRoundFloat
  simp only [SetLocations_locations, LocationSummary.WillCall, hk, Option.bind_eq_bind,
    Option.some_bind, reduceCtorEq, decide_False, Bool.false_eq_true, if_false,
    LocationSummary.GetTemp, LocationSummary.Out, LocationSummary.InAt] at h0 h1 ⊢
  rw [h0, h1]

theorem VisitMathRoundDouble_congr (cc : List PrimitiveType → PrimitiveType → Location)
    (invoke : HInvoke) (a : LocationSummary) (ts : List Location)
    (hk : a.call_kind = CallKind.kNoCall)
    (h0 : ts.getD 0 Location.Invalid = a.GetTemp 0)
    (h1 : ts.getD 1 Location.Invalid = a.GetTemp 1) :
    VisitMathRoundDouble cc (invoke.SetLocations { a with temps := ts }) =
      VisitMathRoundDouble cc (invoke.SetLocations a) := by
  unfold VisitMathRoundDouble
  simp only [SetLocations_locations, LocationSummary.WillCall, hk, Option.bind_eq_bind,
    Option.some_bind, reduceCtorEq, decide_False, Bool.false_eq_true, if_false,
    LocationSummary.GetTemp, LocationSummary.Out, LocationSummary.InAt] at h0 h1 ⊢
  rw [h0, h1]

theorem GenSSE41FPToFPIntrinsic_congr (cc : List PrimitiveType → PrimitiveType → Location)
    (invoke : HInvoke) (a : LocationSummary) (ts : List Location) (round_mode : Nat)
    (hk : a.call_kind = CallKind.kNoCall) :
    GenSSE41FPToFPIntrinsic cc (invoke.SetLocations { a with temps := ts }) round_mode =
      GenSSE41FPToFPIntrinsic cc (invoke.SetLocations a) round_mode := by
  unfold GenSSE41FPToFPIntrinsic
  simp only [SetLocations_locations, LocationSummary.WillCall, hk, Option.bind_eq_bind,
    Option.some_bind, reduceCtorEq, decide_False, Bool.false_eq_true, if_false]
  rfl

theorem VisitStringCharAt_congr (o : StringOffsets) (invoke : HInvoke) (a : LocationSummary)
    (ts : List Location) (h0 : ts.getD 0 Location.Invalid = a.GetTemp 0) :
    VisitStringCharAt o (invoke.SetLocations { a with temps := ts }) =
      VisitStringCharAt o (invoke.SetLocations a) := by
  unfold VisitStringCharAt
  simp only [SetLocations_locations, Option.bind_eq_bind, Option.some_bind,
    LocationSummary.GetTemp, LocationSummary.Out, LocationSummary.InAt] at h0 ⊢
  rw [h0]

theorem GenUnsafePut_congr (a : LocationSummary) (ts : List Location) (type : PrimitiveType)
    (is_volatile : Bool)
    (h0 : ts.getD 0 Location.Invalid = a.GetTemp 0)
    (h1 : ts.getD 1 Location.Invalid = a.GetTemp 1) :
    GenUnsafePut { a with temps := ts } type is_volatile = GenUnsafePut a type is_volatile := by
  unfold GenUnsafePut
  simp only [LocationSummary.GetTemp, LocationSummary.Out, LocationSummary.InAt] at h0 h1 ⊢
  rw [h0, h1]

theorem GenCAS_congr (invoke : HInvoke) (a : LocationSummary) (ts : List Location)
    (type : PrimitiveType)
    (h0 : ts.getD 0 Location.Invalid = a.GetTemp 0)
    (h1 : ts.getD 1 Location.Invalid = a.GetTemp 1) :
    GenCAS type (invoke.SetLocations { a with temps := ts }) =
      GenCAS type (invoke.SetLocations a) := by
  unfold GenCAS
  simp only [SetLocations_locations, Option.bind_eq_bind, Option.some_bind,
    LocationSummary.GetTemp, LocationSummary.Out, LocationSummary.InAt] at h0 h1 ⊢
  rw [h0, h1]

theorem VisitIntegerReverse_congr (a : LocationSummary) (ts : List Location)
    (h0 : ts.getD 0 Location.Invalid = a.GetTemp 0) :
    VisitIntegerReverse { a with temps := ts } = VisitIntegerReverse a := by
  unfold VisitIntegerReverse
  simp only [LocationSummary.GetTemp, LocationSummary.InAt] at h0 ⊢
  rw [h0]

theorem VisitLongReverse_congr (a : LocationSummary) (ts : List Location)
    (h0 : ts.getD 0 Location.Invalid = a.GetTemp 0)
    (h1 : ts.getD 1 Location.Invalid = a.GetTemp 1) :
    VisitLongReverse { a with temps := ts } = VisitLongReverse a := by
  unfold VisitLongReverse
  simp only [LocationSummary.GetTemp, LocationSummary.InAt] at h0 h1 ⊢
  rw [h0, h1]

set_option maxHeartbeats 4000000 in
/-- No temp beyond the declared ones is read: the code an inline sequence's
generator emits does not change when the temp list is replaced by one that
agrees with it on the declared positions. -/
theorem undeclared_temps_unread (has_sse4_1 : Bool)
    (calling_convention : InvokeRuntimeCallingConvention)
    (cc : List PrimitiveType → PrimitiveType → Location) (o : StringOffsets)
    (id : Intrinsics) (invoke : HInvoke) (l a : LocationSummary) (ts : List Location)
    (himpl : id.isImplemented = true)
    (hl : (IntrinsicLocationsBuilderX86_64.Visit has_sse4_1 calling_convention id
      invoke).locations = some l)
    (hi : l.intrinsified = true)
    (hck : a.call_kind = l.call_kind)
    (hts : ∀ i, i < l.GetTempCount → ts.getD i Location.Invalid = a.GetTemp i) :
    IntrinsicCodeGeneratorX86_64.Visit cc o id (invoke.SetLocations { a with temps := ts }) =
      IntrinsicCodeGeneratorX86_64.Visit cc o id (invoke.SetLocations a) := by
  cases id
  case kMathAbsDouble | kMathAbsFloat =>
    obtain rfl := Option.some.inj hl
    exact MathAbsFP_congr a ts _ (hts 0 Nat.one_pos)
  case kMathAbsInt | kMathAbsLong =>
    obtain rfl := Option.some.inj hl
    exact GenAbsInteger_congr a ts _ (hts 0 Nat.one_pos)
  case kMathCeil | kMathFloor | kMathRint =>
    cases has_sse4_1
    · obtain rfl := Option.some.inj hl
      exact absurd hi Bool.false_ne_true
    · obtain rfl := Option.some.inj hl
      exact GenSSE41FPToFPIntrinsic_congr cc invoke a ts _ hck
  case kMathRoundFloat =>
    cases has_sse4_1
    · obtain rfl := Option.some.inj hl
      exact absurd hi Bool.false_ne_true
    · obtain rfl := Option.some.inj hl
      exact VisitMathRoundFloat_congr cc invoke a ts hck (hts 0 Nat.zero_lt_two)
        (hts 1 Nat.one_lt_two)
  case kMathRoundDouble =>
    cases has_sse4_1
    · obtain rfl := Option.some.inj hl
      exact absurd hi Bool.false_ne_true
    · obtain rfl := Option.some.inj hl
      exact VisitMathRoundDouble_congr cc invoke a ts hck (hts 0 Nat.zero_lt_two)
        (hts 1 Nat.one_lt_two)
  case kStringCharAt =>
    obtain rfl := Option.some.inj hl
    exact VisitStringCharAt_congr o invoke a ts (hts 0 Nat.one_pos)
  case kUnsafePutObject | kUnsafePutObjectOrdered | kUnsafePutObjectVolatile =>
    obtain rfl := Option.some.inj hl
    exact GenUnsafePut_congr a ts _ _ (hts 0 Nat.zero_lt_two) (hts 1 Nat.one_lt_two)
  case kUnsafeCASObject =>
    obtain rfl := Option.some.inj hl
    exact GenCAS_congr invoke a ts _ (hts 0 Nat.zero_lt_two) (hts 1 Nat.one_lt_two)
  case kIntegerReverse =>
    obtain rfl := Option.some.inj hl
    exact VisitIntegerReverse_congr a ts (hts 0 Nat.one_pos)
  case kLongReverse =>
    obtain rfl := Option.some.inj hl
    exact VisitLongReverse_congr a ts (hts 0 Nat.zero_lt_two) (hts 1 Nat.one_lt_two)
  all_goals first | exact absurd himpl Bool.false_ne_true | rfl

theorem Visit_in_call_mode (cc : List PrimitiveType → PrimitiveType → Location)
    (o : StringOffsets) (id : Intrinsics) (invoke : HInvoke) (b : LocationSummary)
    (h : id.needsSSE41 = true) (hb : b.call_kind = CallKind.kCall) :
    IntrinsicCodeGeneratorX86_64.Visit cc o id (invoke.SetLocations b) =
      InvokeOutOfLineIntrinsic cc (invoke.SetLocations b) := by
  cases id <;> simp [Intrinsics.needsSSE41] at h <;>
    simp [IntrinsicCodeGeneratorX86_64.Visit, VisitMathCeil, VisitMathFloor, VisitMathRint,
      GenSSE41FPToFPIntrinsic, VisitMathRoundFloat, VisitMathRoundDouble,
      SetLocations_locations, LocationSummary.WillCall, hb]

/-- The fallback rule: a summary the builder does not mark intrinsified
belongs to a rounding intrinsic built without SSE4.1; it is in call mode with
the one fixed temp RDI, and the code generator emits the out-of-line call,
which reads no temp of the summary and names RDI itself. -/
theorem fallback_temp_reserves_call_register (has_sse4_1 : Bool)
    (calling_convention : InvokeRuntimeCallingConvention)
    (cc : List PrimitiveType → PrimitiveType → Location) (o : StringOffsets)
    (id : Intrinsics) (invoke : HInvoke) (l : LocationSummary)
    (himpl : id.isImplemented = true)
    (hl : (IntrinsicLocationsBuilderX86_64.Visit has_sse4_1 calling_convention id
      invoke).locations = some l)
    (hi : l.intrinsified = false) :
    id.needsSSE41 = true ∧ has_sse4_1 = false ∧ l.call_kind = CallKind.kCall
      ∧ l.temps = [Location.RegisterLocation CpuRegister.RDI]
      ∧ ∀ a : LocationSummary, a.call_kind = l.call_kind →
          (∀ ts : List Location,
            IntrinsicCodeGeneratorX86_64.Visit cc o id
                (invoke.SetLocations { a with temps := ts }) =
              IntrinsicCodeGeneratorX86_64.Visit cc o id (invoke.SetLocations a))
          ∧ ∀ code, IntrinsicCodeGeneratorX86_64.Visit cc o id (invoke.SetLocations a) =
              some code → Instr.GenerateStaticOrDirectCall CpuRegister.RDI ∈ code := by
  cases id
  case kMathCeil | kMathFloor | kMathRint | kMathRoundFloat | kMathRoundDouble =>
    cases has_sse4_1
    · obtain rfl := Option.some.inj hl
      refine ⟨rfl, rfl, rfl, rfl, ?_⟩
      intro a hck
      have hk : a.call_kind = CallKind.kCall := hck
      refine ⟨fun ts => ?_, fun code hcode => ?_⟩
      · rw [Visit_in_call_mode, Visit_in_call_mode] <;>
          first | exact InvokeOutOfLineIntrinsic_temps cc invoke a ts | exact hk | rfl
      · rw [Visit_in_call_mode] at hcode <;>
          first | exact InvokeOutOfLineIntrinsic_call cc _ code hcode | exact hk | rfl
    · obtain rfl := Option.some.inj hl
      exact absurd hi.symm Bool.false_ne_true
  all_goals
    first
    | exact absurd himpl Bool.false_ne_true
    | (obtain rfl := Option.some.inj hl
       exact absurd hi.symm Bool.false_ne_true)

/-- C23, as the spec has it, fails for the fallback rule: without SSE4.1 the
builder declares one temp for `Math.round (float)`, and the code generator
emits the same code for the declared summary and for that summary with no temp
at all, so it reads no temp. -/
theorem C23_counterexample :
    ∃ l, (IntrinsicLocationsBuilderX86_64.Visit false runtimeCallingConvention
            Intrinsics.kMathRoundFloat invokeRoundFloat).locations = some l
      ∧ l.GetTempCount = 1
      ∧ l.GetTemp 0 = Location.RegisterLocation CpuRegister.RDI
      ∧ IntrinsicCodeGeneratorX86_64.Visit stackCallingConvention stringOffsets
          Intrinsics.kMathRoundFloat (invokeRoundFloat.SetLocations l)
        = some [Instr.ParallelMove [(Location.RegisterLocation CpuRegister.RAX,
              Location.StackSlot 0, PrimitiveType.kPrimFloat)],
            Instr.GenerateStaticOrDirectCall CpuRegister.RDI, Instr.RecordPcInfo 0]
      ∧ IntrinsicCodeGeneratorX86_64.Visit stackCallingConvention stringOffsets
          Intrinsics.kMathRoundFloat (invokeRoundFloat.SetLocations { l with temps := [] })
        = some [Instr.ParallelMove [(Location.RegisterLocation CpuRegister.RAX,
              Location.StackSlot 0, PrimitiveType.kPrimFloat)],
            Instr.GenerateStaticOrDirectCall CpuRegister.RDI, Instr.RecordPcInfo 0] :=
  ⟨_, rfl, rfl, rfl, rfl, rfl⟩

/-- C23 (amended): for every implemented intrinsic, whatever the SSE4.1
support, the temps of the summary `l` its builder rule declares and the temps
its code generator reads agree as follows.  If `l` is marked intrinsified (an
inline rule), then on every summary `a` with the declared call mode (1) where
the generator emits code, each position below the declared temp count holds a
register of the declared file (general or floating): every declared temp is
read, with the declared kind; (2) the emitted code is the same for every temp
list that agrees with the temps of `a` below the declared count: no temp
beyond the declared ones is read.  If `l` is not marked intrinsified, the
rule is the fallback of a rounding intrinsic without SSE4.1: `l` is in call
mode with the one fixed temp RDI, and the generator reads no temp of the
summary; the out-of-line call it emits names RDI itself. -/
theorem C23_declared_temps_match_read_temps (has_sse4_1 : Bool)
    (calling_convention : InvokeRuntimeCallingConvention)
    (cc : List PrimitiveType → PrimitiveType → Location) (o : StringOffsets)
    (id : Intrinsics) (invoke : HInvoke) (l : LocationSummary)
    (himpl : id.isImplemented = true)
    (hl : (IntrinsicLocationsBuilderX86_64.Visit has_sse4_1 calling_convention id
      invoke).locations = some l) :
    (l.intrinsified = true →
      ∀ a : LocationSummary, a.call_kind = l.call_kind →
        (∀ code, IntrinsicCodeGeneratorX86_64.Visit cc o id (invoke.SetLocations a) = some code →
          ∀ i, i < l.GetTempCount →
            (l.GetTemp i).registerKind ≠ none
              ∧ (a.GetTemp i).registerKind = (l.GetTemp i).registerKind)
        ∧ (∀ ts : List Location,
            (∀ i, i < l.GetTempCount → ts.getD i Location.Invalid = a.GetTemp i) →
            IntrinsicCodeGeneratorX86_64.Visit cc o id
                (invoke.SetLocations { a with temps := ts }) =
              IntrinsicCodeGeneratorX86_64.Visit cc o id (invoke.SetLocations a)))
    ∧ (l.intrinsified = false →
        id.needsSSE41 = true ∧ has_sse4_1 = false ∧ l.call_kind = CallKind.kCall
          ∧ l.temps = [Location.RegisterLocation CpuRegister.RDI]
          ∧ ∀ a : LocationSummary, a.call_kind = l.call_kind →
              (∀ ts : List Location,
                IntrinsicCodeGeneratorX86_64.Visit cc o id
                    (invoke.SetLocations { a with temps := ts }) =
                  IntrinsicCodeGeneratorX86_64.Visit cc o id (invoke.SetLocations a))
              ∧ ∀ code,
                  IntrinsicCodeGeneratorX86_64.Visit cc o id (invoke.SetLocations a) =
                    some code →
                  Instr.GenerateStaticOrDirectCall CpuRegister.RDI ∈ code) := by
  refine ⟨fun hi a hck => ⟨fun code hcode i hlt => ?_, fun ts hts => ?_⟩, fun hi => ?_⟩
  · exact declared_temps_read has_sse4_1 calling_convention cc o id invoke l a code himpl hl hi
      hck hcode i hlt
  · exact undeclared_temps_unread has_sse4_1 calling_convention cc o id invoke l a ts himpl hl hi
      hck hts
  · exact fallback_temp_reserves_call_register has_sse4_1 calling_convention cc o id invoke l
      himpl hl hi

/-- C23, witness: the theorem at `Math.abs (float)` and the allocation
`locationsAbsFP`, with one more temp than declared. -/
theorem C23_witness :
    (Intrinsics.kMathAbsFloat.isImplemented = true
      ∧ (IntrinsicLocationsBuilderX86_64.Visit true runtimeCallingConvention
          Intrinsics.kMathAbsFloat invokeAbs).locations = some locationsAbsDeclared)
    ∧ IntrinsicCodeGeneratorX86_64.Visit stackCallingConvention stringOffsets
        Intrinsics.kMathAbsFloat
        (invokeAbs.SetLocations { locationsAbsFP with
          temps := [Location.FpuRegisterLocation XmmRegister.XMM1,
            Location.FpuRegisterLocation XmmRegister.XMM2] })
      = IntrinsicCodeGeneratorX86_64.Visit stackCallingConvention stringOffsets
        Intrinsics.kMathAbsFloat (invokeAbs.SetLocations locationsAbsFP) :=
  ⟨⟨rfl, rfl⟩,
   (((C23_declared_temps_match_read_temps true runtimeCallingConvention stackCallingConvention
      stringOffsets Intrinsics.kMathAbsFloat invokeAbs locationsAbsDeclared rfl rfl).1 rfl
      locationsAbsFP rfl).2
      [Location.FpuRegisterLocation XmmRegister.XMM1,
        Location.FpuRegisterLocation XmmRegister.XMM2]
      (fun i hi => by
        have h0 : i = 0 := Nat.lt_one_iff.mp hi
        subst h0
        rfl))⟩

/-- C24, the failing input: `Math.round (float)` with SSE4.1.  The builder
marks the summary intrinsified; `locationsRoundAllocated` is an allocation of
it; on that allocation the code generator reads the output, a floating
register, as a general register, and emits nothing. -/
theorem C24_failing_input :
    ∃ l, (IntrinsicLocationsBuilderX86_64.Visit true runtimeCallingConvention
            Intrinsics.kMathRoundFloat invokeRoundFloat).locations = some l
      ∧ l.intrinsified = true
      ∧ l.Out = Location.RequiresFpuRegister
      ∧ locationsRoundAllocated.IsAllocationOf l
      ∧ locationsRoundAllocated.Out.AsRegister = none
      ∧ IntrinsicCodeGeneratorX86_64.Visit stackCallingConvention stringOffsets
          Intrinsics.kMathRoundFloat (invokeRoundFloat.SetLocations locationsRoundAllocated)
        = none := by
  refine ⟨_, rfl, rfl, rfl, ⟨rfl, rfl, rfl, ?_, rfl, ?_⟩, rfl, rfl⟩
  · intro i hi
    have h0 : i = 0 := Nat.lt_one_iff.mp hi
    subst h0
    rfl
  · intro i hi
    have h : i = 0 ∨ i = 1 := by
      have h2 : i < 2 := hi
      omega
    rcases h with rfl | rfl <;> rfl

theorem roundInt_floor (z : Int) (d : Nat) (hd : 0 < d) :
    FPFormat.roundInt 1 z d * d ≤ z ∧ z < (FPFormat.roundInt 1 z d + 1) * d := by
  have hd' : (0 : Int) < d := by exact_mod_cast hd
  have h1 := Int.emod_add_ediv z d
  have h2 := Int.emod_nonneg z (ne_of_gt hd')
  have h3 := Int.emod_lt_of_pos z hd'
  simp only [FPFormat.roundInt, if_true]
  constructor <;> nlinarith

theorem roundInt_ceil (z : Int) (d : Nat) (hd : 0 < d) :
    (FPFormat.roundInt 2 z d - 1) * d < z ∧ z ≤ FPFormat.roundInt 2 z d * d := by
  have hd' : (0 : Int) < d := by exact_mod_cast hd
  have h1 := Int.emod_add_ediv z d
  have h2 := Int.emod_nonneg z (ne_of_gt hd')
  have h3 := Int.emod_lt_of_pos z hd'
  simp only [FPFormat.roundInt, if_true, OfNat.ofNat_ne_one, if_false]
  split_ifs with h
  · rw [h] at h1
    constructor <;> nlinarith
  · have h4 : 0 < z % d := lt_of_le_of_ne h2 (Ne.symm h)
    constructor <;> nlinarith

theorem roundInt_nearest (z : Int) (d : Nat) (hd : 0 < d) :
    2 * |z - FPFormat.roundInt 0 z d * d| ≤ d
      ∧ (2 * |z - FPFormat.roundInt 0 z d * d| = d → FPFormat.roundInt 0 z d % 2 = 0) := by
  have hd' : (0 : Int) < d := by exact_mod_cast hd
  have h1 := Int.emod_add_ediv z d
  have h2 := Int.emod_nonneg z (ne_of_gt hd')
  have h3 := Int.emod_lt_of_pos z hd'
  simp only [FPFormat.roundInt, OfNat.zero_ne_ofNat, zero_ne_one, if_false]
  split_ifs with h
  · have e : z - (z / d + 1) * d = -(d - z % d) := by linarith
    rw [e, abs_neg, abs_of_pos (by linarith)]
    refine ⟨by rcases h with h | h <;> omega, fun h5 => ?_⟩
    rcases h with h | h
    · omega
    · omega
  · have e : z - z / d * d = z % d := by linarith
    rw [e, abs_of_nonneg h2]
    push_neg at h
    refine ⟨by omega, fun h5 => ?_⟩
    have := h.2 h5
    omega

/-! ## Inline ceil, floor and rint -/

theorem GenSSE41FPToFPIntrinsic_inline (cc : List PrimitiveType → PrimitiveType → Location)
    (invoke : HInvoke) (locations : LocationSummary) (input out : XmmRegister)
    (round_mode : Int)
    (hloc : invoke.locations = some locations) (hcall : locations.WillCall = false)
    (hin : locations.InAt 0 = Location.FpuRegisterLocation input)
    (hout : locations.Out = Location.FpuRegisterLocation out) :
    GenSSE41FPToFPIntrinsic cc invoke round_mode = some [Instr.roundsd out input round_mode] := by
  simp [GenSSE41FPToFPIntrinsic, hloc, hcall, hin, hout, Location.AsFpuRegister]

theorem exec_roundsd (out input : XmmRegister) (imm : Int) (s : State) :
    ∃ s', exec [Instr.roundsd out input imm] s = some s'
      ∧ s'.xmm out % 2 ^ 64
          = binary64.roundToIntegral (immBits 8 imm) (s.xmm input % 2 ^ 64)
      ∧ s'.cpu = s.cpu ∧ s'.mem = s.mem := by
  refine ⟨_, exec_straight _ (by simp [Instr.isJump]) s, ?_, rfl, rfl⟩
  have hb := (roundToIntegral64 (immBits 8 imm) (s.xmm input % 2 ^ 64)
    (Nat.mod_lt _ (by norm_num))).1
  have hl := lane_low (s.xmm out % 2 ^ 128) _ 64 hb
  simp only [List.foldl, step, State.setXmm, Function.update_same]
  exact hl

/-- C31: when the location summary is not in call mode, `VisitMathCeil`,
`VisitMathFloor` and `VisitMathRint` each emit exactly one `roundsd` from the
input floating register to the output floating register, with the immediate
2, 1 and 0; the three sequences are pairwise distinct.  Running the
instruction leaves in the low lane of the output the operand rounded to an
integral value in the mode of the immediate, which for a finite operand is
the encoding of the integer the mode selects: for 2 the least integer not
below the operand (toward plus infinity), for 1 the greatest integer not
above it (toward minus infinity), for 0 a nearest integer, the even one at a
tie. -/
theorem C31_ceil_floor_rint_inline (cc : List PrimitiveType → PrimitiveType → Location)
    (invoke : HInvoke) (locations : LocationSummary) (input out : XmmRegister)
    (hloc : invoke.locations = some locations) (hcall : locations.WillCall = false)
    (hin : locations.InAt 0 = Location.FpuRegisterLocation input)
    (hout : locations.Out = Location.FpuRegisterLocation out) (s : State) :
    VisitMathCeil cc invoke = some [Instr.roundsd out input 2]
    ∧ VisitMathFloor cc invoke = some [Instr.roundsd out input 1]
    ∧ VisitMathRint cc invoke = some [Instr.roundsd out input 0]
    ∧ (VisitMathCeil cc invoke ≠ VisitMathFloor cc invoke
        ∧ VisitMathCeil cc invoke ≠ VisitMathRint cc invoke
        ∧ VisitMathFloor cc invoke ≠ VisitMathRint cc invoke)
    ∧ (∀ mode : Nat, mode < 3 →
        ∃ s', exec [Instr.roundsd out input mode] s = some s'
          ∧ s'.xmm out % 2 ^ 64 = binary64.roundToIntegral mode (s.xmm input % 2 ^ 64)
          ∧ (binary64.isNaN (s.xmm input % 2 ^ 64) = false →
              binary64.isInf (s.xmm input % 2 ^ 64) = false →
              s'.xmm out % 2 ^ 64
                = binary64.encode
                    (FPFormat.roundInt mode (binary64.scaled (s.xmm input % 2 ^ 64))
                      binary64.one * binary64.one)
                    (binary64.signBit (s.xmm input % 2 ^ 64))))
    ∧ (∀ (z : Int) (d : Nat), 0 < d →
        ((FPFormat.roundInt 2 z d - 1) * d < z ∧ z ≤ FPFormat.roundInt 2 z d * d)
        ∧ (FPFormat.roundInt 1 z d * d ≤ z ∧ z < (FPFormat.roundInt 1 z d + 1) * d)
        ∧ (2 * |z - FPFormat.roundInt 0 z d * d| ≤ d
            ∧ (2 * |z - FPFormat.roundInt 0 z d * d| = d → FPFormat.roundInt 0 z d % 2 = 0))) := by
  have hc := GenSSE41FPToFPIntrinsic_inline cc invoke locations input out 2 hloc hcall hin hout
  have hf := GenSSE41FPToFPIntrinsic_inline cc invoke locations input out 1 hloc hcall hin hout
  have hr := GenSSE41FPToFPIntrinsic_inline cc invoke locations input out 0 hloc hcall hin hout
  refine ⟨hc, hf, hr, ?_, ?_, fun z d hd =>
    ⟨roundInt_ceil z d hd, roundInt_floor z d hd, roundInt_nearest z d hd⟩⟩
  · simp only [VisitMathCeil, VisitMathFloor, VisitMathRint, hc, hf, hr]
    simp
  · intro mode hm
    obtain ⟨s', he, hv, -, -⟩ := exec_roundsd out input mode s
    have hi : immBits 8 (mode : Int) = mode := by
      have h3 : mode = 0 ∨ mode = 1 ∨ mode = 2 := by omega
      rcases h3 with rfl | rfl | rfl <;> decide
    rw [hi] at hv
    refine ⟨s', he, hv, fun hn hi2 => ?_⟩
    rw [hv]
    have h3 : mode = 0 ∨ mode = 1 ∨ mode = 2 := by omega
    rcases h3 with rfl | rfl | rfl <;>
      (unfold FPFormat.roundToIntegral
       rw [if_neg (by rw [hn]; decide), if_neg (by rw [hi2]; decide)]
       rfl)

/-- C31, witness: the three generators on the allocation
`locationsXmm1ToXmm0`. -/
theorem C31_witness :
    VisitMathCeil stackCallingConvention (invokeCeil.SetLocations locationsXmm1ToXmm0)
        = some [Instr.roundsd XmmRegister.XMM0 XmmRegister.XMM1 2]
    ∧ VisitMathFloor stackCallingConvention (invokeCeil.SetLocations locationsXmm1ToXmm0)
        = some [Instr.roundsd XmmRegister.XMM0 XmmRegister.XMM1 1]
    ∧ VisitMathRint stackCallingConvention (invokeCeil.SetLocations locationsXmm1ToXmm0)
        = some [Instr.roundsd XmmRegister.XMM0 XmmRegister.XMM1 0] :=
  have h := C31_ceil_floor_rint_inline stackCallingConvention
    (invokeCeil.SetLocations locationsXmm1ToXmm0) locationsXmm1ToXmm0 XmmRegister.XMM1
    XmmRegister.XMM0 rfl rfl rfl rfl State.zero
  ⟨h.1, h.2.1, h.2.2.1⟩

/-! ## The locations of the rounding intrinsics, by SSE4.1 support -/

/-- C32, what the code does: without SSE4.1 the summary built for ceil,
floor, rint and the two rounds is in call mode, its output is XMM0 as a
floating register for ceil, floor and rint and RAX as a general register for
the rounds, and its one temp is RDI; input 0, however, is not the
floating-register location of the convention's first floating-point argument
register: `Location::RegisterLocation` is given that register, so the location
is a general register, the one with the number of the floating register. -/
theorem C32_fallback_locations (calling_convention : InvokeRuntimeCallingConvention)
    (invoke : HInvoke) (id : Intrinsics)
    (hid : id ∈ [Intrinsics.kMathCeil, Intrinsics.kMathFloor, Intrinsics.kMathRint,
      Intrinsics.kMathRoundFloat, Intrinsics.kMathRoundDouble])
    (hn : invoke.InputCount = 1) :
    ∃ l, (IntrinsicLocationsBuilderX86_64.Visit false calling_convention id invoke).locations
          = some l
      ∧ l.call_kind = CallKind.kCall
      ∧ l.InAt 0
          = Location.RegisterLocation (calling_convention.GetFpuRegisterAt 0).asCpuRegister
      ∧ l.InAt 0 ≠ Location.FpuRegisterLocation (calling_convention.GetFpuRegisterAt 0)
      ∧ (l.InAt 0).registerKind = some RegisterKind.core
      ∧ l.Out = (if id = Intrinsics.kMathRoundFloat ∨ id = Intrinsics.kMathRoundDouble then
                  Location.RegisterLocation CpuRegister.RAX
                else Location.FpuRegisterLocation XmmRegister.XMM0)
      ∧ l.temps = [Location.RegisterLocation CpuRegister.RDI] := by
  simp only [List.mem_cons, List.mem_singleton, List.not_mem_nil, or_false] at hid
  rcases hid with rfl | rfl | rfl | rfl | rfl <;>
    simp only [IntrinsicLocationsBuilderX86_64.Visit, CreateSSE41FPToFPLocations,
      CreateSSE41FPToIntLocations, HInvoke.SetLocations, LocationSummary.create,
      LocationSummary.SetInAt, LocationSummary.SetOut, LocationSummary.AddTemp,
      LocationSummary.InAt, LocationSummary.Out, hn, Bool.false_eq_true, if_false] <;>
    simp [Location.registerKind]

/-- C32, witness: `Math.ceil` under the runtime calling convention. -/
theorem C32_witness :
    ∃ l, (IntrinsicLocationsBuilderX86_64.Visit false runtimeCallingConvention
            Intrinsics.kMathCeil invokeCeil).locations = some l
      ∧ l.call_kind = CallKind.kCall
      ∧ l.InAt 0
          = Location.RegisterLocation (runtimeCallingConvention.GetFpuRegisterAt 0).asCpuRegister
      ∧ l.InAt 0 ≠ Location.FpuRegisterLocation (runtimeCallingConvention.GetFpuRegisterAt 0)
      ∧ (l.InAt 0).registerKind = some RegisterKind.core
      ∧ l.Out = (if Intrinsics.kMathCeil = Intrinsics.kMathRoundFloat
                    ∨ Intrinsics.kMathCeil = Intrinsics.kMathRoundDouble then
                  Location.RegisterLocation CpuRegister.RAX
                else Location.FpuRegisterLocation XmmRegister.XMM0)
      ∧ l.temps = [Location.RegisterLocation CpuRegister.RDI] :=
  C32_fallback_locations runtimeCallingConvention invokeCeil Intrinsics.kMathCeil (by simp) rfl

/-- C32, the failing input: for `Math.ceil` without SSE4.1, under the runtime
calling convention (first floating-point argument in XMM0), input 0 of the
built summary is the general register RAX, not the floating register XMM0. -/
theorem C32_failing_input :
    ∃ l, (IntrinsicLocationsBuilderX86_64.Visit false runtimeCallingConvention
            Intrinsics.kMathCeil invokeCeil).locations = some l
      ∧ runtimeCallingConvention.GetFpuRegisterAt 0 = XmmRegister.XMM0
      ∧ l.InAt 0 = Location.RegisterLocation CpuRegister.RAX
      ∧ l.InAt 0 ≠ Location.FpuRegisterLocation XmmRegister.XMM0
      ∧ (l.InAt 0).IsFpuRegister = false :=
  ⟨_, rfl, rfl, rfl, by decide, rfl⟩

/-- C33: for an invoke of ceil, floor, rint, round (float) or round (double):
without SSE4.1 the builder creates a summary in call mode without the
intrinsified marker and `TryDispatch` returns false; with SSE4.1 the summary
is no-call and intrinsified and `TryDispatch` returns true. -/
theorem C33_sse41_decides_intrinsified (calling_convention : InvokeRuntimeCallingConvention)
    (invoke : HInvoke)
    (hid : invoke.intrinsic ∈ [Intrinsics.kMathCeil, Intrinsics.kMathFloor,
      Intrinsics.kMathRint, Intrinsics.kMathRoundFloat, Intrinsics.kMathRoundDouble]) :
    ((∃ l, (IntrinsicLocationsBuilderX86_64.Dispatch false calling_convention invoke).locations
            = some l
        ∧ l.intrinsified = false ∧ l.call_kind = CallKind.kCall)
      ∧ IntrinsicLocationsBuilderX86_64.TryDispatch false calling_convention invoke = false)
    ∧ ((∃ l, (IntrinsicLocationsBuilderX86_64.Dispatch true calling_convention invoke).locations
            = some l
        ∧ l.intrinsified = true ∧ l.call_kind = CallKind.kNoCall)
      ∧ IntrinsicLocationsBuilderX86_64.TryDispatch true calling_convention invoke = true) := by
  simp only [List.mem_cons, List.mem_singleton, List.not_mem_nil, or_false] at hid
  unfold IntrinsicLocationsBuilderX86_64.TryDispatch IntrinsicLocationsBuilderX86_64.Dispatch
  rcases hid with h | h | h | h | h <;> rw [h] <;>
    exact ⟨⟨⟨_, rfl, rfl, rfl⟩, rfl⟩, ⟨⟨_, rfl, rfl, rfl⟩, rfl⟩⟩

/-- C33, witness: an invoke of `Math.floor`. -/
theorem C33_witness :
    ((∃ l, (IntrinsicLocationsBuilderX86_64.Dispatch false runtimeCallingConvention
              invokeFloor).locations = some l
        ∧ l.intrinsified = false ∧ l.call_kind = CallKind.kCall)
      ∧ IntrinsicLocationsBuilderX86_64.TryDispatch false runtimeCallingConvention invokeFloor
          = false)
    ∧ ((∃ l, (IntrinsicLocationsBuilderX86_64.Dispatch true runtimeCallingConvention
              invokeFloor).locations = some l
        ∧ l.intrinsified = true ∧ l.call_kind = CallKind.kNoCall)
      ∧ IntrinsicLocationsBuilderX86_64.TryDispatch true runtimeCallingConvention invokeFloor
          = true) :=
  C33_sse41_decides_intrinsified runtimeCallingConvention invokeFloor (by simp [invokeFloor])

/-! ## The call modes of the string intrinsics and the locations of compare-and-swap -/

/-- C35, counterexample: the summary the builder creates for
`String.compareTo` is in full-call mode, not in call-on-slow-path mode. -/
theorem C35_counterexample :
    ∃ l, (IntrinsicLocationsBuilderX86_64.Visit true runtimeCallingConvention
            Intrinsics.kStringCompareTo invokeCompareToUnbuilt).locations = some l
      ∧ l.call_kind = CallKind.kCall
      ∧ l.call_kind ≠ CallKind.kCallOnSlowPath :=
  ⟨_, rfl, rfl, by decide⟩

/-- C35, amended: the builder gives `String.charAt` the call mode
call-on-slow-path and `String.compareTo` the full-call mode, and marks both
summaries intrinsified; whatever code the two generators emit registers a
slow path. -/
theorem C35_string_call_modes (has_sse4_1 : Bool)
    (calling_convention : InvokeRuntimeCallingConvention) (o : StringOffsets)
    (invoke : HInvoke) :
    (∃ l, (IntrinsicLocationsBuilderX86_64.Visit has_sse4_1 calling_convention
            Intrinsics.kStringCharAt invoke).locations = some l
        ∧ l.call_kind = CallKind.kCallOnSlowPath ∧ l.intrinsified = true)
    ∧ (∃ l, (IntrinsicLocationsBuilderX86_64.Visit has_sse4_1 calling_convention
            Intrinsics.kStringCompareTo invoke).locations = some l
        ∧ l.call_kind = CallKind.kCall ∧ l.intrinsified = true)
    ∧ (∀ code, VisitStringCharAt o invoke = some code →
        Instr.AddSlowPath Label.slow_path_entry Label.slow_path_exit ∈ code)
    ∧ (∀ code, VisitStringCompareTo invoke = some code →
        Instr.AddSlowPath Label.slow_path_entry Label.slow_path_exit ∈ code) := by
  refine ⟨⟨_, rfl, rfl, rfl⟩, ⟨_, rfl, rfl, rfl⟩, ?_, ?_⟩
  · intro code h
    simp only [VisitStringCharAt, Option.bind_eq_bind, Option.pure_def, Option.bind_eq_some] at h
    obtain ⟨_, _, _, _, _, _, _, _, _, _, h⟩ := h
    simp only [Option.some.injEq] at h
    subst h
    simp
  · intro code h
    simp only [VisitStringCompareTo, Option.bind_eq_bind, Option.pure_def,
      Option.bind_eq_some] at h
    obtain ⟨_, _, h⟩ := h
    split at h
    · cases h
    · simp only [Option.bind_eq_some] at h
      obtain ⟨_, _, h⟩ := h
      simp only [Option.some.injEq] at h
      subst h
      simp

theorem execTo_StringCharAt_fast (o : StringOffsets) (obj idx temp : CpuRegister)
    (hto : temp ≠ obj) (hti : temp ≠ idx) (hio : idx ≠ obj) (s : State)
    (hin : s.cpu idx % 2 ^ 32
      < readMem s.mem (Address.effective s { base := obj, index := none, disp := o.count_offset }) 4) :
    ∃ s', execTo
       [ Instr.AddSlowPath Label.slow_path_entry Label.slow_path_exit,
         Instr.cmpl idx (Operand.mem { base := obj, index := none, disp := o.count_offset }),
         Instr.MaybeRecordImplicitNullCheck,
         Instr.j Condition.kAboveEqual Label.slow_path_entry,
         Instr.movl temp (Operand.reg idx),
         Instr.addl temp (Operand.mem { base := obj, index := none, disp := o.offset_offset }),
         Instr.movl obj (Operand.mem { base := obj, index := none, disp := o.value_offset }),
         Instr.movzxw obj
           { base := obj, index := some (temp, ScaleFactor.TIMES_2), disp := o.data_offset },
         Instr.Bind Label.slow_path_exit ] s = some (Outcome.finished s')
      ∧ s'.cpu obj = readMem s.mem
          ((((readMem s.mem
                (Address.effective s { base := obj, index := none, disp := o.value_offset }) 4
                : Nat) : Int)
            + (((s.cpu idx % 2 ^ 32
                  + readMem s.mem
                      (Address.effective s
                        { base := obj, index := none, disp := o.offset_offset }) 4) % 2 ^ 32 * 2
                : Nat) : Int)
            + o.data_offset) % 2 ^ 64).toNat 2
      ∧ s'.cpu idx = s.cpu idx ∧ s'.mem = s.mem ∧ s'.xmm = s.xmm := by
  norm_num [Address.effective] at hin
  have hin' := not_le.mpr hin
  have h1 : obj ≠ temp := hto.symm
  have h2 : idx ≠ temp := hti.symm
  have h3 : obj ≠ idx := hio.symm
  simp [execTo, runTo, findLabel, step, subFlags, addFlags, Condition.holds, State.setFlags,
    State.setCpu, Operand.value, Address.effective, ScaleFactor.multiplier, hin, hin', hto, hti, hio,
    h1, h2, h3, Function.update_apply]

/-- C34: on the fast path of `VisitStringCharAt` (the index below the count),
with the output register the register of the string object, the run ends with
the output holding the zero-extended 16-bit value loaded from the address
array + 2 * (offset + index) + data_offset, where array is the 32-bit value
field at obj + value_offset and offset the 32-bit field at obj +
offset_offset, both read with the original object reference; the sum offset +
index is formed in 32 bits and the address in 64 bits, so the address is the
plain sum whenever offset + index fits 32 bits and the data offset is not
negative.  The result is below 65536, and the index register and the memory
are unchanged. -/
theorem C34_StringCharAt_fast_path (o : StringOffsets) (invoke : HInvoke)
    (locations : LocationSummary) (obj idx temp : CpuRegister)
    (hloc : invoke.locations = some locations)
    (h0 : locations.InAt 0 = Location.RegisterLocation obj)
    (h1 : locations.InAt 1 = Location.RegisterLocation idx)
    (hout : locations.Out = Location.RegisterLocation obj)
    (htemp : locations.GetTemp 0 = Location.RegisterLocation temp)
    (hto : temp ≠ obj) (hti : temp ≠ idx) (hio : idx ≠ obj)
    (s : State) (index count array offset : Nat)
    (hidx : s.cpu idx % 2 ^ 32 = index)
    (hcnt : readMem s.mem
      (Address.effective s { base := obj, index := none, disp := o.count_offset }) 4 = count)
    (harr : readMem s.mem
      (Address.effective s { base := obj, index := none, disp := o.value_offset }) 4 = array)
    (hoff : readMem s.mem
      (Address.effective s { base := obj, index := none, disp := o.offset_offset }) 4 = offset)
    (hin : index < count) :
    ∃ code s', VisitStringCharAt o invoke = some code
      ∧ execTo code s = some (Outcome.finished s')
      ∧ s'.cpu obj = readMem s.mem
          ((((array : Nat) : Int) + (((index + offset) % 2 ^ 32 * 2 : Nat) : Int)
            + o.data_offset) % 2 ^ 64).toNat 2
      ∧ (index + offset < 2 ^ 32 → 0 ≤ o.data_offset → o.data_offset < 2 ^ 31 →
          s'.cpu obj = readMem s.mem (array + 2 * (offset + index) + o.data_offset.toNat) 2)
      ∧ s'.cpu obj < 65536
      ∧ s'.cpu idx = s.cpu idx
      ∧ s'.mem = s.mem := by
  obtain ⟨s', he, hv, hi, hm, -⟩ := execTo_StringCharAt_fast o obj idx temp hto hti hio s
    (by rw [hidx, hcnt]; exact hin)
  rw [hidx, harr, hoff] at hv
  have harr4 : array < 2 ^ 32 := by
    rw [← harr]
    have := readMem_lt 4 s.mem
      (Address.effective s { base := obj, index := none, disp := o.value_offset })
    norm_num at this ⊢
    exact this
  refine ⟨_, s', VisitStringCharAt_eq o invoke locations obj idx obj temp hloc h0 h1 hout htemp,
    he, hv, ?_, ?_, hi, hm⟩
  · intro hsum hd0 hd1
    rw [hv]
    congr 1
    rw [Nat.mod_eq_of_lt hsum]
    norm_num at harr4 hsum hd1 ⊢
    omega
  · rw [hv]
    have := readMem_lt 2 s.mem
      ((((array : Nat) : Int) + (((index + offset) % 2 ^ 32 * 2 : Nat) : Int)
            + o.data_offset) % 2 ^ 64).toNat
    norm_num at this ⊢
    exact this

/-- C34, witness: the string of `charAtFastState` (offset 1) and the index 2:
the character at 0x3000 + 12 + 2 * (1 + 2) is loaded. -/
theorem C34_witness :
    ∃ code s', VisitStringCharAt stringOffsets invokeCharAt = some code
      ∧ execTo code charAtFastState = some (Outcome.finished s')
      ∧ s'.cpu CpuRegister.RAX = readMem charAtFastState.mem
          ((((0x3000 : Nat) : Int) + (((2 + 1) % 2 ^ 32 * 2 : Nat) : Int)
            + stringOffsets.data_offset) % 2 ^ 64).toNat 2
      ∧ (2 + 1 < 2 ^ 32 → 0 ≤ stringOffsets.data_offset → stringOffsets.data_offset < 2 ^ 31 →
          s'.cpu CpuRegister.RAX = readMem charAtFastState.mem
            (0x3000 + 2 * (1 + 2) + stringOffsets.data_offset.toNat) 2)
      ∧ s'.cpu CpuRegister.RAX < 65536
      ∧ s'.cpu CpuRegister.RCX = charAtFastState.cpu CpuRegister.RCX
      ∧ s'.mem = charAtFastState.mem :=
  C34_StringCharAt_fast_path stringOffsets invokeCharAt locationsCharAt CpuRegister.RAX
    CpuRegister.RCX CpuRegister.RDX rfl rfl rfl rfl rfl (by decide) (by decide) (by decide)
    charAtFastState 2 5 0x3000 1 (by decide) (by decide) (by decide) (by decide) (by decide)

/-! ## The memory accesses of the unsafe gets and puts and of peek and poke -/

theorem InAt_SetInAt_ne (l : LocationSummary) (i j : Nat) (x : Location) (h : i ≠ j) :
    (l.SetInAt i x).InAt j = l.InAt j := by
  simp [LocationSummary.SetInAt, LocationSummary.InAt, List.getD_eq_getElem?_getD,
    List.getElem?_set_ne h]

theorem GenUnsafeGet_eq (type : PrimitiveType) (locations : LocationSummary)
    (base offset trg : CpuRegister)
    (h1 : locations.InAt 1 = Location.RegisterLocation base)
    (h2 : locations.InAt 2 = Location.RegisterLocation offset)
    (hout : locations.Out = Location.RegisterLocation trg)
    (ht : type ∈ [PrimitiveType.kPrimInt, PrimitiveType.kPrimNot, PrimitiveType.kPrimLong])
    (is_volatile : Bool) :
    GenUnsafeGet locations type is_volatile
      = some [if type = PrimitiveType.kPrimLong then
                Instr.movq trg (Operand.mem (fieldAddress base offset))
              else Instr.movl trg (Operand.mem (fieldAddress base offset))] := by
  simp only [List.mem_cons, List.mem_singleton, List.not_mem_nil, or_false] at ht
  rcases ht with rfl | rfl | rfl <;>
    simp [GenUnsafeGet, h1, h2, hout, Location.AsRegister, fieldAddress]

theorem VisitUnsafeGet_eq (invoke : HInvoke) (locations : LocationSummary)
    (hloc : invoke.locations = some locations) :
    VisitUnsafeGet invoke = GenUnsafeGet locations PrimitiveType.kPrimInt false
    ∧ VisitUnsafeGetVolatile invoke = GenUnsafeGet locations PrimitiveType.kPrimInt true
    ∧ VisitUnsafeGetLong invoke = GenUnsafeGet locations PrimitiveType.kPrimLong false
    ∧ VisitUnsafeGetLongVolatile invoke = GenUnsafeGet locations PrimitiveType.kPrimLong true
    ∧ VisitUnsafeGetObject invoke = GenUnsafeGet locations PrimitiveType.kPrimNot false
    ∧ VisitUnsafeGetObjectVolatile invoke = GenUnsafeGet locations PrimitiveType.kPrimNot true := by
  simp [VisitUnsafeGet, VisitUnsafeGetVolatile, VisitUnsafeGetLong, VisitUnsafeGetLongVolatile,
    VisitUnsafeGetObject, VisitUnsafeGetObjectVolatile, hloc]

theorem exec_unsafe_get (type : PrimitiveType) (base offset trg : CpuRegister) (s : State)
    (ht : type ∈ [PrimitiveType.kPrimInt, PrimitiveType.kPrimNot, PrimitiveType.kPrimLong]) :
    ∃ s', exec [if type = PrimitiveType.kPrimLong then
                Instr.movq trg (Operand.mem (fieldAddress base offset))
              else Instr.movl trg (Operand.mem (fieldAddress base offset))] s = some s'
      ∧ s'.cpu trg = readMem s.mem ((s.cpu base + s.cpu offset) % 2 ^ 64) (accessBits type / 8)
      ∧ s'.mem = s.mem := by
  simp only [List.mem_cons, List.mem_singleton, List.not_mem_nil, or_false] at ht
  have ha := fieldAddress_effective base offset s
  rcases ht with rfl | rfl | rfl <;>
    refine ⟨_, exec_straight _ (by simp [Instr.isJump]) s, ?_, ?_⟩ <;>
    simp [step, State.setCpu, Operand.value, ha, accessBits]

theorem exec_unsafe_put (type : PrimitiveType) (is_volatile : Bool)
    (base offset value temp card : CpuRegister) (s : State)
    (ht : type ∈ [PrimitiveType.kPrimInt, PrimitiveType.kPrimNot, PrimitiveType.kPrimLong]) :
    ∃ s', exec ([putStore type base offset value]
          ++ (if is_volatile then [Instr.mfence] else [])
          ++ (if type = PrimitiveType.kPrimNot then [Instr.MarkGCCard temp card base value]
              else [])) s = some s'
      ∧ s'.mem = writeMem s.mem ((s.cpu base + s.cpu offset) % 2 ^ 64)
          (s.cpu value % 2 ^ accessBits type) (accessBits type / 8) := by
  simp only [List.mem_cons, List.mem_singleton, List.not_mem_nil, or_false] at ht
  have ha := fieldAddress_effective base offset s
  rcases ht with rfl | rfl | rfl <;> cases is_volatile <;>
    refine ⟨_, exec_straight _ (by simp [putStore, Instr.isJump]) s, ?_⟩ <;>
    simp [putStore, step, State.setCpu, State.setMem, State.setFlags, ha, accessBits]

theorem put_memoryOperand (type : PrimitiveType) (is_volatile : Bool)
    (base offset value temp card : CpuRegister)
    (ht : type ∈ [PrimitiveType.kPrimInt, PrimitiveType.kPrimNot, PrimitiveType.kPrimLong]) :
    (([putStore type base offset value]
          ++ (if is_volatile then [Instr.mfence] else [])
          ++ (if type = PrimitiveType.kPrimNot then [Instr.MarkGCCard temp card base value]
              else [])).filterMap Instr.memoryOperand) = [fieldAddress base offset] := by
  simp only [List.mem_cons, List.mem_singleton, List.not_mem_nil, or_false] at ht
  rcases ht with rfl | rfl | rfl <;> cases is_volatile <;> rfl

theorem get_memoryOperand (type : PrimitiveType) (base offset trg : CpuRegister)
    (ht : type ∈ [PrimitiveType.kPrimInt, PrimitiveType.kPrimNot, PrimitiveType.kPrimLong]) :
    ([if type = PrimitiveType.kPrimLong then
        Instr.movq trg (Operand.mem (fieldAddress base offset))
      else Instr.movl trg (Operand.mem (fieldAddress base offset))].filterMap
        Instr.memoryOperand) = [fieldAddress base offset] := by
  simp only [List.mem_cons, List.mem_singleton, List.not_mem_nil, or_false] at ht
  rcases ht with rfl | rfl | rfl <;> rfl

/-- C37: for the int, object and long kinds, `GenUnsafeGet` emits one load
into the output register and `GenUnsafePut` one store of input 3 (followed
only by the fence of a volatile put and the card-mark request of an object
put); the access is the only memory operand of the sequence, its address is
base + offset (base from input 1, offset from input 2) with scale factor 1
and zero displacement, and it is 64 bits wide for the long kind and 32 bits
for the int and object kinds.  Input 0, the receiver, is not read: the
sequences are the same whatever stands there.  The six get intrinsics and
the nine put intrinsics are these two generators at the three kinds. -/
theorem C37_unsafe_access_address (type : PrimitiveType) (is_volatile : Bool)
    (ig ip : HInvoke) (lg lp : LocationSummary) (base offset trg value temp card : CpuRegister)
    (ht : type ∈ [PrimitiveType.kPrimInt, PrimitiveType.kPrimNot, PrimitiveType.kPrimLong])
    (hig : ig.locations = some lg) (hip : ip.locations = some lp)
    (hg1 : lg.InAt 1 = Location.RegisterLocation base)
    (hg2 : lg.InAt 2 = Location.RegisterLocation offset)
    (hgout : lg.Out = Location.RegisterLocation trg)
    (hp1 : lp.InAt 1 = Location.RegisterLocation base)
    (hp2 : lp.InAt 2 = Location.RegisterLocation offset)
    (hp3 : lp.InAt 3 = Location.RegisterLocation value)
    (hpt : type = PrimitiveType.kPrimNot →
      lp.GetTemp 0 = Location.RegisterLocation temp
        ∧ lp.GetTemp 1 = Location.RegisterLocation card)
    (s : State) :
    (∃ code s', GenUnsafeGet lg type is_volatile = some code
      ∧ code = [if type = PrimitiveType.kPrimLong then
                  Instr.movq trg (Operand.mem (fieldAddress base offset))
                else Instr.movl trg (Operand.mem (fieldAddress base offset))]
      ∧ code.filterMap Instr.memoryOperand = [fieldAddress base offset]
      ∧ exec code s = some s'
      ∧ s'.cpu trg = readMem s.mem ((s.cpu base + s.cpu offset) % 2 ^ 64) (accessBits type / 8)
      ∧ s'.mem = s.mem
      ∧ ∀ receiver, GenUnsafeGet (lg.SetInAt 0 receiver) type is_volatile = some code)
    ∧ (∃ code s', GenUnsafePut lp type is_volatile = some code
      ∧ code = [putStore type base offset value]
          ++ (if is_volatile then [Instr.mfence] else [])
          ++ (if type = PrimitiveType.kPrimNot then [Instr.MarkGCCard temp card base value]
              else [])
      ∧ code.filterMap Instr.memoryOperand = [fieldAddress base offset]
      ∧ exec code s = some s'
      ∧ s'.mem = writeMem s.mem ((s.cpu base + s.cpu offset) % 2 ^ 64)
          (s.cpu value % 2 ^ accessBits type) (accessBits type / 8)
      ∧ readMem s'.mem ((s.cpu base + s.cpu offset) % 2 ^ 64) (accessBits type / 8)
          = s.cpu value % 2 ^ accessBits type
      ∧ ∀ receiver, GenUnsafePut (lp.SetInAt 0 receiver) type is_volatile = some code)
    ∧ (fieldAddress base offset
        = { base := base, index := some (offset, ScaleFactor.TIMES_1), disp := 0 }
      ∧ putStore type base offset value
          = (if type = PrimitiveType.kPrimLong then
              Instr.movq_store (fieldAddress base offset) value
            else Instr.movl_store (fieldAddress base offset) value)
      ∧ accessBits type = (if type = PrimitiveType.kPrimLong then 64 else 32))
    ∧ ((VisitUnsafeGet ig = GenUnsafeGet lg PrimitiveType.kPrimInt false
        ∧ VisitUnsafeGetVolatile ig = GenUnsafeGet lg PrimitiveType.kPrimInt true
        ∧ VisitUnsafeGetLong ig = GenUnsafeGet lg PrimitiveType.kPrimLong false
        ∧ VisitUnsafeGetLongVolatile ig = GenUnsafeGet lg PrimitiveType.kPrimLong true
        ∧ VisitUnsafeGetObject ig = GenUnsafeGet lg PrimitiveType.kPrimNot false
        ∧ VisitUnsafeGetObjectVolatile ig = GenUnsafeGet lg PrimitiveType.kPrimNot true)
      ∧ (VisitUnsafePut ip = GenUnsafePut lp PrimitiveType.kPrimInt false
        ∧ VisitUnsafePutOrdered ip = GenUnsafePut lp PrimitiveType.kPrimInt false
        ∧ VisitUnsafePutVolatile ip = GenUnsafePut lp PrimitiveType.kPrimInt true
        ∧ VisitUnsafePutObject ip = GenUnsafePut lp PrimitiveType.kPrimNot false
        ∧ VisitUnsafePutObjectOrdered ip = GenUnsafePut lp PrimitiveType.kPrimNot false
        ∧ VisitUnsafePutObjectVolatile ip = GenUnsafePut lp PrimitiveType.kPrimNot true
        ∧ VisitUnsafePutLong ip = GenUnsafePut lp PrimitiveType.kPrimLong false
        ∧ VisitUnsafePutLongOrdered ip = GenUnsafePut lp PrimitiveType.kPrimLong false
        ∧ VisitUnsafePutLongVolatile ip = GenUnsafePut lp PrimitiveType.kPrimLong true)) := by
  have hbits : accessBits type = (if type = PrimitiveType.kPrimLong then 64 else 32) := by
    simp only [List.mem_cons, List.mem_singleton, List.not_mem_nil, or_false] at ht
    rcases ht with rfl | rfl | rfl <;> rfl
  refine ⟨?_, ?_, ⟨rfl, rfl, hbits⟩, VisitUnsafeGet_eq ig lg hig, VisitUnsafePut_eq ip lp hip⟩
  · obtain ⟨s', he, hv, hm⟩ := exec_unsafe_get type base offset trg s ht
    refine ⟨_, s', GenUnsafeGet_eq type lg base offset trg hg1 hg2 hgout ht is_volatile, rfl, ?_,
      he, hv, hm, fun receiver => ?_⟩
    · exact get_memoryOperand type base offset trg ht
    · exact GenUnsafeGet_eq type (lg.SetInAt 0 receiver) base offset trg
        (by rw [InAt_SetInAt_ne _ 0 1 _ (by decide)]; exact hg1)
        (by rw [InAt_SetInAt_ne _ 0 2 _ (by decide)]; exact hg2) hgout ht is_volatile
  · obtain ⟨s', he, hm⟩ := exec_unsafe_put type is_volatile base offset value temp card s ht
    refine ⟨_, s', GenUnsafePut_eq type lp base offset value temp card hp1 hp2 hp3 hpt
      is_volatile, rfl, put_memoryOperand type is_volatile base offset value temp card ht, he, hm,
      ?_, fun receiver => ?_⟩
    · rw [hm, readMem_writeMem]
      simp only [List.mem_cons, List.mem_singleton, List.not_mem_nil, or_false] at ht
      rcases ht with rfl | rfl | rfl <;> norm_num [accessBits]
    · exact GenUnsafePut_eq type (lp.SetInAt 0 receiver) base offset value temp card
        (by rw [InAt_SetInAt_ne _ 0 1 _ (by decide)]; exact hp1)
        (by rw [InAt_SetInAt_ne _ 0 2 _ (by decide)]; exact hp2)
        (by rw [InAt_SetInAt_ne _ 0 3 _ (by decide)]; exact hp3) hpt is_volatile

/-- C37, witness: an int get on the allocation `locationsGet` in the state
`casState` (base 0x1000, offset 0x10). -/
theorem C37_witness :
    ∃ code s', GenUnsafeGet locationsGet PrimitiveType.kPrimInt false = some code
      ∧ code = [if PrimitiveType.kPrimInt = PrimitiveType.kPrimLong then
                  Instr.movq CpuRegister.RAX
                    (Operand.mem (fieldAddress CpuRegister.RSI CpuRegister.RDX))
                else Instr.movl CpuRegister.RAX
                    (Operand.mem (fieldAddress CpuRegister.RSI CpuRegister.RDX))]
      ∧ code.filterMap Instr.memoryOperand = [fieldAddress CpuRegister.RSI CpuRegister.RDX]
      ∧ exec code casState = some s'
      ∧ s'.cpu CpuRegister.RAX
          = readMem casState.mem
              ((casState.cpu CpuRegister.RSI + casState.cpu CpuRegister.RDX) % 2 ^ 64)
              (accessBits PrimitiveType.kPrimInt / 8)
      ∧ s'.mem = casState.mem
      ∧ ∀ receiver,
          GenUnsafeGet (locationsGet.SetInAt 0 receiver) PrimitiveType.kPrimInt false = some code :=
  (C37_unsafe_access_address PrimitiveType.kPrimInt false invokeGet invokePut locationsGet
    locationsPut CpuRegister.RSI CpuRegister.RDX CpuRegister.RAX CpuRegister.RCX CpuRegister.R8
    CpuRegister.R9 (by simp) rfl rfl rfl rfl rfl rfl rfl rfl
    (fun h => absurd h (by decide)) casState).1

theorem toSigned_signExtend8 (v : Nat) : toSigned 32 (signExtend 8 32 v) = toSigned 8 v := by
  unfold toSigned signExtend
  norm_num at *
  split_ifs <;> omega

theorem signExtend_same32 (v : Nat) : signExtend 32 32 v = v % 2 ^ 32 := by
  unfold signExtend
  split_ifs <;> simp

theorem signExtend_same64 (v : Nat) : signExtend 64 64 v = v % 2 ^ 64 := by
  unfold signExtend
  split_ifs <;> simp

theorem toSigned_mod (w v : Nat) : toSigned w (v % 2 ^ w) = toSigned w v := by
  unfold toSigned
  rw [Nat.mod_mod]

theorem effective_base (address : CpuRegister) (s : State) :
    Address.effective s { base := address, index := none, disp := 0 } = s.cpu address % 2 ^ 64 := by
  simp only [Address.effective]
  omega

/-- The load `GenPeek` emits for a size. -/
theorem GenPeek_eq (locations : LocationSummary) (address out : CpuRegister)
    (h0 : locations.InAt 0 = Location.RegisterLocation address)
    (hout : locations.Out = Location.RegisterLocation out) :
    GenPeek locations PrimitiveType.kPrimByte
        = some [Instr.movsxb out { base := address, index := none, disp := 0 }]
    ∧ GenPeek locations PrimitiveType.kPrimShort
        = some [Instr.movsxw out { base := address, index := none, disp := 0 }]
    ∧ GenPeek locations PrimitiveType.kPrimInt
        = some [Instr.movl out (Operand.mem { base := address, index := none, disp := 0 })]
    ∧ GenPeek locations PrimitiveType.kPrimLong
        = some [Instr.movq out (Operand.mem { base := address, index := none, disp := 0 })] := by
  simp [GenPeek, h0, hout, Location.AsRegister]

/-- The store `GenPoke` emits for a size. -/
theorem GenPoke_eq (locations : LocationSummary) (address value : CpuRegister)
    (h0 : locations.InAt 0 = Location.RegisterLocation address)
    (h1 : locations.InAt 1 = Location.RegisterLocation value) :
    GenPoke locations PrimitiveType.kPrimByte
        = some [Instr.movb_store { base := address, index := none, disp := 0 } value]
    ∧ GenPoke locations PrimitiveType.kPrimShort
        = some [Instr.movw_store { base := address, index := none, disp := 0 } value]
    ∧ GenPoke locations PrimitiveType.kPrimInt
        = some [Instr.movl_store { base := address, index := none, disp := 0 } value]
    ∧ GenPoke locations PrimitiveType.kPrimLong
        = some [Instr.movq_store { base := address, index := none, disp := 0 } value] := by
  simp [GenPoke, h0, h1, Location.AsRegister]

/-- C38: for the byte, short, int and long sizes `GenPeek` emits exactly one
load and `GenPoke` exactly one store, at the raw address in input 0 with no
index and zero displacement, and nothing else (no alignment check): the peeks
are `movsxb`, `movsxw`, `movl` and `movq`, the pokes `movb`, `movw`, `movl`
and `movq` of input 1.  A peek leaves in the output the sign extension of the
8, 16, 32 or 64 bits at the address; a poke writes the low 8, 16, 32 or 64
bits of the value and changes no register; so a poke followed by a peek of
the same size at the same address returns the sign extension of the low bits
of the value poked: the result, read as a signed `int` (`long` for the long
size), is the value's low bits read as a signed number. -/
theorem C38_peek_poke (size : PrimitiveType) (lpeek lpoke : LocationSummary)
    (address out value : CpuRegister)
    (hs : size ∈ [PrimitiveType.kPrimByte, PrimitiveType.kPrimShort, PrimitiveType.kPrimInt,
      PrimitiveType.kPrimLong])
    (hk0 : lpeek.InAt 0 = Location.RegisterLocation address)
    (hkout : lpeek.Out = Location.RegisterLocation out)
    (hp0 : lpoke.InAt 0 = Location.RegisterLocation address)
    (hp1 : lpoke.InAt 1 = Location.RegisterLocation value) (s : State) :
    ∃ peek poke, GenPeek lpeek size = some [peek] ∧ GenPoke lpoke size = some [poke]
      ∧ peek = (match size with
          | PrimitiveType.kPrimByte =>
              Instr.movsxb out { base := address, index := none, disp := 0 }
          | PrimitiveType.kPrimShort =>
              Instr.movsxw out { base := address, index := none, disp := 0 }
          | PrimitiveType.kPrimInt =>
              Instr.movl out (Operand.mem { base := address, index := none, disp := 0 })
          | _ => Instr.movq out (Operand.mem { base := address, index := none, disp := 0 }))
      ∧ poke = (match size with
          | PrimitiveType.kPrimByte =>
              Instr.movb_store { base := address, index := none, disp := 0 } value
          | PrimitiveType.kPrimShort =>
              Instr.movw_store { base := address, index := none, disp := 0 } value
          | PrimitiveType.kPrimInt =>
              Instr.movl_store { base := address, index := none, disp := 0 } value
          | _ => Instr.movq_store { base := address, index := none, disp := 0 } value)
      ∧ peek.memoryOperand = some { base := address, index := none, disp := 0 }
      ∧ poke.memoryOperand = some { base := address, index := none, disp := 0 }
      ∧ (∃ s1, exec [peek] s = some s1
          ∧ s1.cpu out = signExtend (accessBits size) (resultBits size)
              (readMem s.mem (s.cpu address % 2 ^ 64) (accessBits size / 8))
          ∧ s1.mem = s.mem)
      ∧ (∃ s1 s2, exec [poke] s = some s1
          ∧ s1.cpu = s.cpu
          ∧ s1.mem = writeMem s.mem (s.cpu address % 2 ^ 64)
              (s.cpu value % 2 ^ accessBits size) (accessBits size / 8)
          ∧ exec [peek] s1 = some s2
          ∧ s2.cpu out = signExtend (accessBits size) (resultBits size)
              (s.cpu value % 2 ^ accessBits size)
          ∧ toSigned (resultBits size) (s2.cpu out) = toSigned (accessBits size) (s.cpu value)) := by
  obtain ⟨hkb, hks, hki, hkl⟩ := GenPeek_eq lpeek address out hk0 hkout
  obtain ⟨hpb, hps, hpi, hpl⟩ := GenPoke_eq lpoke address value hp0 hp1
  have ha := effective_base address s
  have hr1 := readMem_writeMem 1 s.mem (s.cpu address % 2 ^ 64) (s.cpu value % 2 ^ 8)
  have hr2 := readMem_writeMem 2 s.mem (s.cpu address % 2 ^ 64) (s.cpu value % 2 ^ 16)
  have hr4 := readMem_writeMem 4 s.mem (s.cpu address % 2 ^ 64) (s.cpu value % 2 ^ 32)
  have hr8 := readMem_writeMem 8 s.mem (s.cpu address % 2 ^ 64) (s.cpu value % 2 ^ 64)
  have hl4 := readMem_lt 4 s.mem (s.cpu address % 2 ^ 64)
  have hl8 := readMem_lt 8 s.mem (s.cpu address % 2 ^ 64)
  norm_num at hr1 hr2 hr4 hr8 hl4 hl8
  simp only [List.mem_cons, List.mem_singleton, List.not_mem_nil, or_false] at hs
  rcases hs with rfl | rfl | rfl | rfl
  · refine ⟨_, _, hkb, hpb, rfl, rfl, rfl, rfl,
      ⟨_, exec_straight _ (by simp [Instr.isJump]) s, ?_, rfl⟩,
      ⟨_, _, exec_straight _ (by simp [Instr.isJump]) s, rfl, ?_,
        exec_straight _ (by simp [Instr.isJump]) _, ?_, ?_⟩⟩
    · simp [step, State.setCpu, ha, accessBits, resultBits]
    · simp [step, State.setMem, ha, accessBits]
    · simp [step, State.setCpu, State.setMem, effective_base, accessBits, resultBits, hr1]
    · simp [step, State.setCpu, State.setMem, effective_base, accessBits, resultBits, hr1,
        toSigned_signExtend8]
      exact toSigned_mod 8 _
  · refine ⟨_, _, hks, hps, rfl, rfl, rfl, rfl,
      ⟨_, exec_straight _ (by simp [Instr.isJump]) s, ?_, rfl⟩,
      ⟨_, _, exec_straight _ (by simp [Instr.isJump]) s, rfl, ?_,
        exec_straight _ (by simp [Instr.isJump]) _, ?_, ?_⟩⟩
    · simp [step, State.setCpu, ha, accessBits, resultBits]
    · simp [step, State.setMem, ha, accessBits]
    · simp [step, State.setCpu, State.setMem, effective_base, accessBits, resultBits, hr2]
    · simp [step, State.setCpu, State.setMem, effective_base, accessBits, resultBits, hr2,
        toSigned_signExtend16]
      exact toSigned_mod 16 _
  · refine ⟨_, _, hki, hpi, rfl, rfl, rfl, rfl,
      ⟨_, exec_straight _ (by simp [Instr.isJump]) s, ?_, rfl⟩,
      ⟨_, _, exec_straight _ (by simp [Instr.isJump]) s, rfl, ?_,
        exec_straight _ (by simp [Instr.isJump]) _, ?_, ?_⟩⟩
    · simp [step, State.setCpu, Operand.value, ha, accessBits, resultBits, signExtend_same32,
        Nat.mod_eq_of_lt hl4]
    · simp [step, State.setMem, ha, accessBits]
    · simp [step, State.setCpu, State.setMem, Operand.value, effective_base, accessBits,
        resultBits, hr4, signExtend_same32]
    · simp [step, State.setCpu, State.setMem, Operand.value, effective_base, accessBits,
        resultBits, hr4]
      exact toSigned_mod 32 _
  · refine ⟨_, _, hkl, hpl, rfl, rfl, rfl, rfl,
      ⟨_, exec_straight _ (by simp [Instr.isJump]) s, ?_, rfl⟩,
      ⟨_, _, exec_straight _ (by simp [Instr.isJump]) s, rfl, ?_,
        exec_straight _ (by simp [Instr.isJump]) _, ?_, ?_⟩⟩
    · simp [step, State.setCpu, Operand.value, ha, accessBits, resultBits, signExtend_same64,
        Nat.mod_eq_of_lt hl8]
    · simp [step, State.setMem, ha, accessBits]
    · simp [step, State.setCpu, State.setMem, Operand.value, effective_base, accessBits,
        resultBits, hr8, signExtend_same64]
    · simp [step, State.setCpu, State.setMem, Operand.value, effective_base, accessBits,
        resultBits, hr8]
      exact toSigned_mod 64 _

/-- C38, witness: a byte poke of the value 0x1234ABCD at 0x1000 followed by a
byte peek there. -/
theorem C38_witness :
    ∃ s1 s2,
      exec [Instr.movb_store { base := CpuRegister.RDI, index := none, disp := 0 }
          CpuRegister.RSI] pokeState = some s1
      ∧ exec [Instr.movsxb CpuRegister.RDI { base := CpuRegister.RDI, index := none, disp := 0 }]
          s1 = some s2
      ∧ s2.cpu CpuRegister.RDI
          = signExtend 8 32 (pokeState.cpu CpuRegister.RSI % 2 ^ accessBits PrimitiveType.kPrimByte)
      ∧ toSigned 32 (s2.cpu CpuRegister.RDI) = toSigned 8 (pokeState.cpu CpuRegister.RSI) := by
  obtain ⟨peek, poke, -, -, hk, hp, -, -, -, s1, s2, h1, -, -, h2, h3, h4⟩ :=
    C38_peek_poke PrimitiveType.kPrimByte locationsPeek locationsPoke CpuRegister.RDI
      CpuRegister.RDI CpuRegister.RSI (by simp) rfl rfl rfl rfl pokeState
  subst hk hp
  exact ⟨s1, s2, h1, h2, h3, h4⟩

end x86_64

namespace hiddenapi

theorem sizeSub_eq (a b : Nat) (ha : a < 2 ^ 64) (hb : b ≤ a) : sizeSub a b = a - b := by
  unfold sizeSub
  norm_num at ha ⊢
  omega

theorem sizeAdd_eq (a b : Nat) (h : a + b < 2 ^ 64) : sizeAdd a b = a + b := by
  unfold sizeAdd
  exact Nat.mod_eq_of_lt h

theorem prefix_append_cases (a part R : List Char) :
    a <+: part ++ R ↔
      (if part.length ≤ a.length then a.take part.length = part ∧ a.drop part.length <+: R
       else a = part.take a.length) := by
  split_ifs with h
  · constructor
    · intro hp
      have h1 : part <+: a := by
        rcases List.prefix_or_prefix_of_prefix hp (List.prefix_append part R) with h' | h'
        · have := List.IsPrefix.eq_of_length_le h' h
          rw [this]
        · exact h'
      obtain ⟨t, rfl⟩ := h1
      refine ⟨by simp, ?_⟩
      rw [List.prefix_append_right_inj] at hp
      simpa using hp
    · rintro ⟨h1, h2⟩
      have : a = part ++ a.drop part.length := by
        conv_lhs => rw [← List.take_append_drop part.length a, h1]
      rw [this, List.prefix_append_right_inj]
      exact h2
  · push_neg at h
    constructor
    · intro hp
      have h1 : a <+: part := by
        rcases List.prefix_or_prefix_of_prefix hp (List.prefix_append part R) with h' | h'
        · exact h'
        · have := List.IsPrefix.length_le h'
          omega
      exact (List.prefix_iff_eq_take.mp h1)
    · intro h1
      have : a <+: part := by rw [h1]; exact List.take_prefix _ _
      exact this.trans (List.prefix_append part R)

theorem DoesPrefixMatchFrom_eq (p : List Char) (hp : p.length < 2 ^ 64) :
    ∀ (parts : List (List Char)) (pos : Nat), pos ≤ p.length →
      detail.MemberSignature.DoesPrefixMatchFrom p parts pos
        = some (decide (p.drop pos <+: parts.flatten)) := by
  intro parts
  induction parts with
  | nil =>
    intro pos hpos
    simp only [detail.MemberSignature.DoesPrefixMatchFrom, List.flatten_nil, List.prefix_nil,
      List.drop_eq_nil_iff]
    congr 2
    apply propext
    constructor <;> intro h <;> omega
  | cons part rest ih =>
    intro pos hpos
    have hs : sizeSub p.length pos = p.length - pos := sizeSub_eq _ _ hp hpos
    have hcase := prefix_append_cases (p.drop pos) part rest.flatten
    simp only [List.length_drop] at hcase
    simp only [detail.MemberSignature.DoesPrefixMatchFrom, hs, compareIsZero, List.flatten_cons,
      List.drop_zero]
    have hno : ¬ (p.length < pos ∨ part.length < 0) := by omega
    simp only [hno, if_false]
    by_cases hle : part.length ≤ p.length - pos
    · rw [if_pos hle] at hcase
      have hmin : min (p.length - pos) part.length = part.length := by omega
      rw [hmin, List.take_length]
      by_cases heq : (p.drop pos).take part.length = part
      · have hadd : sizeAdd pos part.length = pos + part.length :=
          sizeAdd_eq _ _ (by omega)
        simp only [heq, decide_True, hadd]
        rw [ih (pos + part.length) (by omega)]
        congr 2
        apply propext
        rw [hcase, List.drop_drop]
        simp [heq, Nat.add_comm]
      · simp [heq, hcase]
    · rw [if_neg hle] at hcase
      have hmin : min (p.length - pos) part.length = p.length - pos := by omega
      have htake : (p.drop pos).take (p.length - pos) = p.drop pos := by
        apply List.take_of_length_le
        simp
      rw [hmin, htake]
      by_cases heq : p.drop pos = part.take (p.length - pos)
      · have hadd : sizeAdd pos (p.length - pos) = p.length := by
          rw [sizeAdd_eq _ _ (by omega)]
          omega
        simp only [heq.symm, decide_True, hadd]
        rw [ih p.length (le_refl _)]
        congr 2
        apply propext
        rw [hcase]
        simp [← heq]
      · simp [heq, hcase]

theorem Dump_eq_flatten (sig : detail.MemberSignature) : sig.Dump = sig.GetSignatureParts.flatten := by
  unfold detail.MemberSignature.Dump detail.MemberSignature.GetSignatureParts
  split_ifs <;> simp

theorem DoesPrefixMatch_eq (sig : detail.MemberSignature) (p : List Char)
    (hp : p.length < 2 ^ 64) :
    sig.DoesPrefixMatch p = some (decide (p <+: sig.Dump)) := by
  unfold detail.MemberSignature.DoesPrefixMatch
  rw [DoesPrefixMatchFrom_eq p hp _ 0 (Nat.zero_le _), Dump_eq_flatten]
  simp

theorem IsExempted_eq (sig : detail.MemberSignature) :
    ∀ (exemptions : List (List Char)), (∀ e ∈ exemptions, e.length < 2 ^ 64) →
      sig.IsExempted exemptions = some (decide (∃ e ∈ exemptions, e <+: sig.Dump)) := by
  intro exemptions
  induction exemptions with
  | nil => intro _; simp [detail.MemberSignature.IsExempted]
  | cons e rest ih =>
    intro h
    have he := DoesPrefixMatch_eq sig e (h e (List.mem_cons_self _ _))
    have hr := ih (fun x hx => h x (List.mem_cons_of_mem _ hx))
    simp only [detail.MemberSignature.IsExempted, he]
    by_cases hpre : e <+: sig.Dump
    · simp [hpre]
    · simp [hpre, hr]

theorem c_str_of_no_NUL (s : List Char) (h : NUL ∉ s) : c_str s = s := by
  unfold c_str
  rw [List.takeWhile_eq_self_iff]
  intro c hc
  simp only [bne_iff_ne, ne_eq]
  intro hcn
  exact h (hcn ▸ hc)

theorem Dump_eq (sig : detail.MemberSignature) :
    sig.Dump = c_str sig.class_name_ ++ ['-', '>'] ++ c_str sig.member_name_
      ++ (if sig.type_ = detail.MemberType.kField then [':'] else [])
      ++ c_str sig.type_signature_ := by
  unfold detail.MemberSignature.Dump detail.MemberSignature.GetSignatureParts
  split_ifs <;> simp

/-- C39: for every member signature and every string `p` (of a length a
`size_t` holds), `DoesPrefixMatch (p)` returns, without an exception, whether
`p` is a prefix of the string `Dump` writes, which is the concatenation of the
signature parts: the class name, `->`, the member name, then `:` and the type
for a field, or the type signature alone for a method (each part as the C
string `c_str ()` gives, which is the part itself when it holds no
terminator).  The empty string matches, a string longer than the signature
does not, and `IsExempted (list)` returns whether some element of the list is
such a prefix, false for the empty list. -/
theorem C39_DoesPrefixMatch_iff_prefix_of_Dump (sig : detail.MemberSignature) (p : List Char)
    (exemptions : List (List Char)) (hp : p.length < 2 ^ 64)
    (he : ∀ e ∈ exemptions, e.length < 2 ^ 64) :
    sig.DoesPrefixMatch p = some (decide (p <+: sig.Dump))
    ∧ sig.Dump = c_str sig.class_name_ ++ ['-', '>'] ++ c_str sig.member_name_
        ++ (if sig.type_ = detail.MemberType.kField then [':'] else [])
        ++ c_str sig.type_signature_
    ∧ (NUL ∉ sig.class_name_ → NUL ∉ sig.member_name_ → NUL ∉ sig.type_signature_ →
        sig.Dump = sig.class_name_ ++ ['-', '>'] ++ sig.member_name_
          ++ (if sig.type_ = detail.MemberType.kField then [':'] else [])
          ++ sig.type_signature_)
    ∧ sig.DoesPrefixMatch [] = some true
    ∧ (sig.Dump.length < p.length → sig.DoesPrefixMatch p = some false)
    ∧ sig.IsExempted exemptions = some (decide (∃ e ∈ exemptions, e <+: sig.Dump))
    ∧ sig.IsExempted [] = some false := by
  refine ⟨DoesPrefixMatch_eq sig p hp, Dump_eq sig, ?_, ?_, ?_, IsExempted_eq sig exemptions he,
    rfl⟩
  · intro h1 h2 h3
    rw [Dump_eq, c_str_of_no_NUL _ h1, c_str_of_no_NUL _ h2, c_str_of_no_NUL _ h3]
  · rw [DoesPrefixMatch_eq sig [] (by simp)]
    simp
  · intro hlen
    rw [DoesPrefixMatch_eq sig p hp]
    have : ¬ p <+: sig.Dump := fun h => by
      have := h.length_le
      omega
    simp [this]

/-- C39, witness: the field `Lfoo/Bar;->baz:I` and the prefix `Lfoo/`. -/
theorem C39_witness :
    ((['L', 'f', 'o', 'o', '/'] : List Char).length < 2 ^ 64
      ∧ ∀ e ∈ [['L', 'f', 'o', 'o', '/']], e.length < 2 ^ 64)
    ∧ signatureBaz.DoesPrefixMatch ['L', 'f', 'o', 'o', '/']
        = some (decide (['L', 'f', 'o', 'o', '/'] <+: signatureBaz.Dump)) :=
  ⟨⟨by decide, by decide⟩,
    (C39_DoesPrefixMatch_iff_prefix_of_Dump signatureBaz ['L', 'f', 'o', 'o', '/']
      [['L', 'f', 'o', 'o', '/']] (by decide) (by decide)).1⟩

/-- C40: for every call of `GetMemberActionImpl` with an action other than
`kAllow` (and exemptions of a length a `size_t` holds) the call returns; the
action returned is `kAllow` or the input action; it is `kAllow` exactly when
the action is `kDeny` or the runtime is Java-debuggable, and `IsExempted`
holds of the runtime's exemption list; it is `kDeny` exactly when the action
is `kDeny` and the member is not exempted; and when the action is not `kDeny`
and the runtime is not debuggable, the input action is returned and the result
is the same for every exemption list: the list is not consulted. -/
theorem C40_GetMemberActionImpl_action (kIsTargetBuild : Bool) (rand : Nat)
    (runtime : detail.Runtime) (member_signature : detail.MemberSignature)
    (action : Action) (access_method : AccessMethod)
    (hact : action ≠ Action.kAllow)
    (he : ∀ e ∈ runtime.hidden_api_exemptions, e.length < 2 ^ 64) :
    ∃ result effects,
      detail.GetMemberActionImpl kIsTargetBuild rand runtime member_signature action
          access_method = some (result, effects)
      ∧ (result = Action.kAllow ∨ result = action)
      ∧ (result = Action.kAllow ↔
          (action = Action.kDeny ∨ runtime.is_java_debuggable = true)
            ∧ member_signature.IsExempted runtime.hidden_api_exemptions = some true)
      ∧ (result = Action.kDeny ↔
          action = Action.kDeny
            ∧ member_signature.IsExempted runtime.hidden_api_exemptions = some false)
      ∧ (action ≠ Action.kDeny → runtime.is_java_debuggable = false →
          result = action
            ∧ ∀ exemptions : List (List Char),
                detail.GetMemberActionImpl kIsTargetBuild rand
                    { runtime with hidden_api_exemptions := exemptions } member_signature action
                    access_method = some (result, effects)) := by
  have hex := IsExempted_eq member_signature runtime.hidden_api_exemptions he
  generalize hd : decide (∃ e ∈ runtime.hidden_api_exemptions, e <+: member_signature.Dump)
    = exempted at hex
  cases action <;> cases hdbg : runtime.is_java_debuggable <;> cases exempted <;>
    by_cases hm : access_method = AccessMethod.kNone <;>
    simp [detail.GetMemberActionImpl, detail.GetMemberActionImplTail,
      detail.MemberSignature.WarnAboutAccess, hex, hdbg, hm] at hact ⊢
  all_goals (refine ⟨_, _, ⟨rfl, rfl⟩, ?_⟩; simp)

/-- C40, witness: a denied access to the exempted field `Lfoo/Bar;->baz:I`. -/
theorem C40_witness :
    (Action.kDeny ≠ Action.kAllow
      ∧ ∀ e ∈ runtimeFoo.hidden_api_exemptions, e.length < 2 ^ 64)
    ∧ ∃ result effects,
      detail.GetMemberActionImpl true 0 runtimeFoo signatureBaz Action.kDeny
          AccessMethod.kReflection = some (result, effects)
      ∧ (result = Action.kAllow ∨ result = Action.kDeny)
      ∧ (result = Action.kAllow ↔
          (Action.kDeny = Action.kDeny ∨ runtimeFoo.is_java_debuggable = true)
            ∧ signatureBaz.IsExempted runtimeFoo.hidden_api_exemptions = some true)
      ∧ (result = Action.kDeny ↔
          Action.kDeny = Action.kDeny
            ∧ signatureBaz.IsExempted runtimeFoo.hidden_api_exemptions = some false)
      ∧ (Action.kDeny ≠ Action.kDeny → runtimeFoo.is_java_debuggable = false →
          result = Action.kDeny
            ∧ ∀ exemptions : List (List Char),
                detail.GetMemberActionImpl true 0
                    { runtimeFoo with hidden_api_exemptions := exemptions } signatureBaz
                    Action.kDeny AccessMethod.kReflection = some (result, effects)) :=
  ⟨⟨by decide, by decide⟩,
    C40_GetMemberActionImpl_action true 0 runtimeFoo signatureBaz Action.kDeny
      AccessMethod.kReflection (by decide) (by decide)⟩

end hiddenapi
end art
